import Mathlib

/-!
# Memory hot-add in `xen/arch/x86/x86_64/mm.c`

A shallow embedding of the hot-add path of the x86-64 memory-management unit
(`mem_hotadd_check`, `memory_add`) and the properties of it that the
specification states.

`unsigned long` values are natural numbers below `2 ^ 64`; every arithmetic
operation of the source that can wrap is written with an explicit reduction
modulo `2 ^ 64`.  `int` results are integers.
-/

namespace Xen

/-! ## Machine arithmetic on `unsigned long` -/

/-- Wrapping `a + b` on `unsigned long`. -/
def add64 (a b : Nat) : Nat := (a + b) % 2 ^ 64

/-- Wrapping `a - b` on `unsigned long`. -/
def sub64 (a b : Nat) : Nat := (a % 2 ^ 64 + (2 ^ 64 - b % 2 ^ 64)) % 2 ^ 64

/-- Wrapping `a * b` on `unsigned long`. -/
def mul64 (a b : Nat) : Nat := (a * b) % 2 ^ 64

/-- Bitwise complement `~a` on `unsigned long`. -/
def not64 (a : Nat) : Nat := 2 ^ 64 - 1 - a % 2 ^ 64

/-- Left shift `a << k` on `unsigned long`. -/
def shl64 (a k : Nat) : Nat := (a <<< k) % 2 ^ 64

/-! ## Architectural constants of x86-64 -/

/-- The value of `PAGE_SHIFT`: 4 KiB pages. -/
def PAGE_SHIFT : Nat := 12

/-- The value of `PAGETABLE_ORDER`: 512 entries per page table. -/
def PAGETABLE_ORDER : Nat := 9

/-- The value of `L2_PAGETABLE_SHIFT`: an L2 entry maps 2 MiB. -/
def L2_PAGETABLE_SHIFT : Nat := 21

/-- The value of `L3_PAGETABLE_SHIFT`: an L3 entry maps 1 GiB. -/
def L3_PAGETABLE_SHIFT : Nat := 30

/-- The errno value `EINVAL`. -/
def EINVAL : Int := 22

/-- The errno value `ENOMEM`. -/
def ENOMEM : Int := 12

/-- The node id `NUMA_NO_NODE`. -/
def NUMA_NO_NODE : Nat := 255

/-- The macro `pfn_to_paddr`: `(paddr_t)pfn << PAGE_SHIFT`. -/
def pfn_to_paddr (pfn : Nat) : Nat := shl64 pfn PAGE_SHIFT

/-! ## Build configuration and helpers declared outside this unit -/

/-- Constants and pure helpers that `mm.c` takes from headers and from the
pdx unit: they are parameters of the development. -/
structure Config where
  /-- The pdx compression `pfn_to_pdx`. -/
  pfn_to_pdx : Nat → Nat
  /-- The predicate `pdx_is_region_compressible(base, npages)`. -/
  pdx_is_region_compressible : Nat → Nat → Bool
  /-- Number of entries of the frame table, `FRAMETABLE_NR`. -/
  FRAMETABLE_NR : Nat
  /-- Number of frames of one pdx group, `PDX_GROUP_COUNT`. -/
  PDX_GROUP_COUNT : Nat
  /-- The value of `sizeof(struct page_info)`. -/
  sizeof_page_info : Nat
  /-- The size in bytes of the compat M2P window,
  `RDWR_COMPAT_MPT_VIRT_END - RDWR_COMPAT_MPT_VIRT_START`. -/
  compat_mpt_bytes : Nat
  /-- First frame above the part of the direct map that lies below
  `HYPERVISOR_VIRT_END`: `virt_to_mfn(HYPERVISOR_VIRT_END - 1) + 1`. -/
  directmap_low_end : Nat
  /-- The direct-map address `mfn_to_virt(mfn)`. -/
  mfn_to_virt : Nat → Nat
  /-- The page flags `PAGE_HYPERVISOR`. -/
  PAGE_HYPERVISOR : Nat
  /-- The page flags `__PAGE_HYPERVISOR_RW`. -/
  PAGE_HYPERVISOR_RW : Nat

/-! ## Bitmaps

A bitmap (`unsigned long[]`, `nodemask_t`) is the set of its indices: the
function that tells for every index whether its bit is set. -/

/-- A bitmap, as the characteristic function of its set bits. -/
abbrev Bitmap := Nat → Bool

/-- Modelled from the spec: `__set_bit(nr, addr)` of the bit-vector
primitive. -/
def set_bit (nr : Nat) (bm : Bitmap) : Bitmap := fun i => if i = nr then true else bm i

/-- Modelled from the spec: `__clear_bit(nr, addr)` of the bit-vector
primitive. -/
def clear_bit (nr : Nat) (bm : Bitmap) : Bitmap := fun i => if i = nr then false else bm i

/-- Modelled from the spec: `test_bit(nr, addr)` of the bit-vector
primitive. -/
def test_bit (nr : Nat) (bm : Bitmap) : Bool := bm nr

/-- Worker of `find_next_bit` and `find_next_zero_bit`: the least index
`i` with `offset ≤ i < size` whose bit equals `want`, or `size`. -/
def find_next_from (bm : Bitmap) (size : Nat) (want : Bool) : Nat → Nat → Nat
  | 0, _ => size
  | fuel + 1, i =>
    if size ≤ i then size
    else if bm i = want then i
    else find_next_from bm size want fuel (i + 1)

/-- Modelled from the spec: `find_next_bit(addr, size, offset)` of the
bit-vector primitive (find-next), whose body is not among the sources
(`bitmap.h` lists it as "position next set bit in *addr >= bit"): the index
of the first set bit at or after `offset` and below `size`, or `size` when
there is none. -/
def find_next_bit (bm : Bitmap) (size offset : Nat) : Nat :=
  find_next_from bm size true (size - offset) offset

/-- Modelled from the spec: `find_next_zero_bit(addr, size, offset)` of the
bit-vector primitive (find-next), whose body is not among the sources
(`bitmap.h` lists it as "position next zero bit in *addr >= bit"): the index
of the first clear bit at or after `offset` and below `size`, or `size` when
there is none. -/
def find_next_zero_bit (bm : Bitmap) (size offset : Nat) : Nat :=
  find_next_from bm size false (size - offset) offset

/-! ## `mem_hotadd_check` -/

/-- The function `mem_hotadd_check(spfn, epfn)`, reading the global bitmap
`pdx_group_valid`.  The result is the returned `int` (0 or 1). -/
def mem_hotadd_check (cfg : Config) (pdx_group_valid : Bitmap) (spfn epfn : Nat) : Nat :=
  let mem_base := pfn_to_paddr spfn
  let mem_npages := sub64 epfn spfn
  if spfn ≥ epfn then 0
  else if cfg.pfn_to_pdx epfn > cfg.FRAMETABLE_NR then 0
  else if (spfn ||| epfn) &&& (shl64 1 PAGETABLE_ORDER - 1) ≠ 0 then 0
  else if !cfg.pdx_is_region_compressible mem_base mem_npages then 0
  else
    -- Make sure the new range is not present now
    let sidx := (sub64 (add64 (cfg.pfn_to_pdx spfn) cfg.PDX_GROUP_COUNT) 1
                  &&& not64 (cfg.PDX_GROUP_COUNT - 1)) / cfg.PDX_GROUP_COUNT
    let eidx := (cfg.pfn_to_pdx (epfn - 1) &&& not64 (cfg.PDX_GROUP_COUNT - 1))
                  / cfg.PDX_GROUP_COUNT
    if sidx ≥ eidx then 0
    else
      let s := find_next_zero_bit pdx_group_valid eidx sidx
      if s > eidx then 0
      else
        let e := find_next_bit pdx_group_valid eidx s
        if e < eidx then 0
        else
          -- Calculate at most required m2p/compat m2p/frametable pages
          let s := spfn &&& not64 (shl64 1 (L2_PAGETABLE_SHIFT - 3) - 1)
          let e := sub64 (add64 epfn (shl64 1 (L2_PAGETABLE_SHIFT - 3))) 1
                    &&& not64 (shl64 1 (L2_PAGETABLE_SHIFT - 3) - 1)
          let length := mul64 (sub64 e s) 8
          let s := spfn &&& not64 (shl64 1 (L2_PAGETABLE_SHIFT - 2) - 1)
          let e := sub64 (add64 epfn (shl64 1 (L2_PAGETABLE_SHIFT - 2))) 1
                    &&& not64 (shl64 1 (L2_PAGETABLE_SHIFT - 2) - 1)
          let e := min e (cfg.compat_mpt_bytes >>> 2)
          let length := if e > s then add64 length (mul64 (sub64 e s) 4) else length
          let s := cfg.pfn_to_pdx spfn &&& not64 (cfg.PDX_GROUP_COUNT - 1)
          let e := add64 (cfg.pfn_to_pdx epfn) (cfg.PDX_GROUP_COUNT - 1)
                    &&& not64 (cfg.PDX_GROUP_COUNT - 1)
          let length := add64 length (mul64 (sub64 e s) cfg.sizeof_page_info)
          if (length >>> PAGE_SHIFT) > mem_npages then 0
          else 1

/-- The value of `length` that `mem_hotadd_check` compares with the size of
the range (source lines 1195 to 1214). -/
def mem_hotadd_length (cfg : Config) (spfn epfn : Nat) : Nat :=
  let s := spfn &&& not64 (shl64 1 (L2_PAGETABLE_SHIFT - 3) - 1)
  let e := sub64 (add64 epfn (shl64 1 (L2_PAGETABLE_SHIFT - 3))) 1
            &&& not64 (shl64 1 (L2_PAGETABLE_SHIFT - 3) - 1)
  let length := mul64 (sub64 e s) 8
  let s := spfn &&& not64 (shl64 1 (L2_PAGETABLE_SHIFT - 2) - 1)
  let e := sub64 (add64 epfn (shl64 1 (L2_PAGETABLE_SHIFT - 2))) 1
            &&& not64 (shl64 1 (L2_PAGETABLE_SHIFT - 2) - 1)
  let e := min e (cfg.compat_mpt_bytes >>> 2)
  let length := if e > s then add64 length (mul64 (sub64 e s) 4) else length
  let s := cfg.pfn_to_pdx spfn &&& not64 (cfg.PDX_GROUP_COUNT - 1)
  let e := add64 (cfg.pfn_to_pdx epfn) (cfg.PDX_GROUP_COUNT - 1)
            &&& not64 (cfg.PDX_GROUP_COUNT - 1)
  add64 length (mul64 (sub64 e s) cfg.sizeof_page_info)

/-- The tests of `mem_hotadd_check` that precede the footprint estimate
(source lines 1168 to 1192): none of them rejects the range. -/
def mem_hotadd_range_ok (cfg : Config) (pdx_group_valid : Bitmap) (spfn epfn : Nat) : Prop :=
  let sidx := (sub64 (add64 (cfg.pfn_to_pdx spfn) cfg.PDX_GROUP_COUNT) 1
                &&& not64 (cfg.PDX_GROUP_COUNT - 1)) / cfg.PDX_GROUP_COUNT
  let eidx := (cfg.pfn_to_pdx (epfn - 1) &&& not64 (cfg.PDX_GROUP_COUNT - 1))
                / cfg.PDX_GROUP_COUNT
  ¬ spfn ≥ epfn ∧ ¬ cfg.pfn_to_pdx epfn > cfg.FRAMETABLE_NR ∧
  (spfn ||| epfn) &&& (shl64 1 PAGETABLE_ORDER - 1) = 0 ∧
  cfg.pdx_is_region_compressible (pfn_to_paddr spfn) (sub64 epfn spfn) = true ∧
  ¬ sidx ≥ eidx ∧
  ¬ find_next_zero_bit pdx_group_valid eidx sidx > eidx ∧
  ¬ find_next_bit pdx_group_valid eidx (find_next_zero_bit pdx_group_valid eidx sidx) < eidx

instance (cfg : Config) (bm : Bitmap) (spfn epfn : Nat) :
    Decidable (mem_hotadd_range_ok cfg bm spfn epfn) := by
  unfold mem_hotadd_range_ok
  exact inferInstance

/-- The value `x` rounded up to a multiple of `a`. -/
def roundup (x a : Nat) : Nat := (x + a - 1) / a * a

/-- The value `x` rounded down to a multiple of `a`. -/
def rounddown (x a : Nat) : Nat := x / a * a

/-- The estimated bookkeeping footprint of a range, in bytes, as the
specification gives it: 8 bytes per frame of the 2 MiB M2P chunks that the
range touches, 4 bytes per frame of the compat M2P chunks below the compat
limit, and one `struct page_info` per pdx of the pdx groups it touches.
Differences are those of natural numbers (zero when negative). -/
def hotadd_footprint (cfg : Config) (spfn epfn : Nat) : Nat :=
  8 * (roundup epfn (2 ^ 18) - rounddown spfn (2 ^ 18))
  + 4 * (min (roundup epfn (2 ^ 19)) (cfg.compat_mpt_bytes >>> 2) - rounddown spfn (2 ^ 19))
  + cfg.sizeof_page_info *
      (roundup (cfg.pfn_to_pdx epfn) cfg.PDX_GROUP_COUNT
        - rounddown (cfg.pfn_to_pdx spfn) cfg.PDX_GROUP_COUNT)

/-- What the build guarantees of a configuration: a pdx group holds a power
of two of frames, `struct page_info` is not empty, and the frame table
(rounded up to a pdx group) and the compat M2P window each fit in the 48-bit
virtual address space. -/
structure Config.WF (cfg : Config) : Prop where
  group_pow : ∃ g, cfg.PDX_GROUP_COUNT = 2 ^ g
  sizeof_pos : 0 < cfg.sizeof_page_info
  frametable_bytes : cfg.sizeof_page_info * (cfg.FRAMETABLE_NR + cfg.PDX_GROUP_COUNT) < 2 ^ 48
  compat_bytes : cfg.compat_mpt_bytes < 2 ^ 48

/-! ## State of the hot-add path -/

/-- The fields of `struct node_data` that the hot-add path uses. -/
structure node_data where
  node_start_pfn : Nat
  node_spanned_pages : Nat
  node_present_pages : Nat
deriving DecidableEq, Repr

/-- The staging record `struct mem_hotadd_info`. -/
structure mem_hotadd_info where
  spfn : Nat
  epfn : Nat
  cur : Nat
deriving DecidableEq, Repr

/-- The global variables that `memory_add` reads and writes, together with
the rest of the machine (`mach`: page tables, frame table, heap, I/O
translation tables), which only the callees of `memory_add` touch. -/
structure State (M : Type) where
  max_page : Nat
  total_pages : Nat
  max_pdx : Nat
  /-- One bit per pdx group: the group has frame-table backing. -/
  pdx_group_valid : Bitmap
  /-- The array behind `NODE_DATA(node)`. -/
  node_data : Nat → node_data
  /-- The node mask `node_online_map`. -/
  node_online_map : Bitmap
  /-- Everything else. -/
  mach : M

/-- A call made by `memory_add`, in the order of execution. -/
inductive Call where
  | map_pages_to_xen (virt mfn nr flags : Nat)
  | extend_frame_table
  | set_pdx_range (spfn epfn : Nat)
  | setup_m2p_table
  | iommu_legacy_map (dfn : Nat)
  | iommu_legacy_unmap (dfn : Nat)
  | share_hotadd_m2p_table
  | transfer_pages_to_heap
  | destroy_m2p_mapping
  | cleanup_frame_table
  | destroy_xen_mappings (s e : Nat)
deriving DecidableEq, Repr

/-- The callees of `memory_add`.  Each acts on the machine component only;
those that read global variables receive the state.  In the source none of
them assigns `max_page`, `total_pages`, `max_pdx`, `pdx_group_valid`, the
node data or the set of online nodes: the functions of `mm.c` among them
(`extend_frame_table`, `cleanup_frame_table`, `setup_m2p_table`,
`destroy_m2p_mapping`, `share_hotadd_m2p_table`, `transfer_pages_to_heap`)
write page-table entries, frame-table memory and the staging cursor only. -/
structure Ops (M : Type) where
  /-- The node of a proximity domain, `setup_node(pxm)`, or `NUMA_NO_NODE`. -/
  setup_node : Nat → Nat
  /-- The predicate `valid_numa_range(start, end, node)`. -/
  valid_numa_range : Nat → Nat → Nat → Bool
  /-- The call `map_pages_to_xen(virt, mfn, nr_mfns, flags)`. -/
  map_pages_to_xen : M → Nat → Nat → Nat → Nat → Int × M
  /-- The call `destroy_xen_mappings(s, e)`. -/
  destroy_xen_mappings : M → Nat → Nat → M
  /-- The call `extend_frame_table(&info)`. -/
  extend_frame_table : State M → mem_hotadd_info → Int × mem_hotadd_info × M
  /-- The call `cleanup_frame_table(&info)`. -/
  cleanup_frame_table : State M → mem_hotadd_info → M
  /-- The call `setup_m2p_table(&info)`. -/
  setup_m2p_table : State M → mem_hotadd_info → Int × mem_hotadd_info × M
  /-- The call `destroy_m2p_mapping(&info)`. -/
  destroy_m2p_mapping : State M → mem_hotadd_info → M
  /-- The test `is_iommu_enabled(hardware_domain)`. -/
  is_iommu_enabled : M → Bool
  /-- The test `iommu_use_hap_pt(hardware_domain)`. -/
  iommu_use_hap_pt : M → Bool
  /-- The test `need_iommu_pt_sync(hardware_domain)`. -/
  need_iommu_pt_sync : M → Bool
  /-- The call `iommu_legacy_map(hardware_domain, dfn, mfn, 1, rw)`. -/
  iommu_legacy_map : M → Nat → Nat → Int × M
  /-- The call `iommu_legacy_unmap(hardware_domain, dfn, 1)`. -/
  iommu_legacy_unmap : M → Nat → Int × M
  /-- The call `share_hotadd_m2p_table(&info)`. -/
  share_hotadd_m2p_table : State M → mem_hotadd_info → M
  /-- The call `transfer_pages_to_heap(&info)`. -/
  transfer_pages_to_heap : State M → mem_hotadd_info → M

/-- What a run of `memory_add` leaves: the returned `int`, the state, and
the calls it made. -/
structure Result (M : Type) where
  ret : Int
  st : State M
  calls : List Call

variable {M : Type}

/-- The macro `node_start_pfn(nid)`. -/
def node_start_pfn (st : State M) (nid : Nat) : Nat := (st.node_data nid).node_start_pfn

/-- The macro `node_spanned_pages(nid)`. -/
def node_spanned_pages (st : State M) (nid : Nat) : Nat :=
  (st.node_data nid).node_spanned_pages

/-- The macro `node_end_pfn(nid)`: start plus spanned pages. -/
def node_end_pfn (st : State M) (nid : Nat) : Nat :=
  add64 (st.node_data nid).node_start_pfn (st.node_data nid).node_spanned_pages

/-- The macro `node_online(node)`. -/
def node_online (st : State M) (node : Nat) : Bool := test_bit node st.node_online_map

/-- The macro `node_set_online(node)`. -/
def node_set_online (node : Nat) (st : State M) : State M :=
  { st with node_online_map := set_bit node st.node_online_map }

/-- The macro `node_set_offline(node)`. -/
def node_set_offline (node : Nat) (st : State M) : State M :=
  { st with node_online_map := clear_bit node st.node_online_map }

/-- The assignment `NODE_DATA(node)->node_start_pfn = v`. -/
def set_node_start_pfn (node v : Nat) (st : State M) : State M :=
  { st with node_data := fun n =>
      if n = node then { st.node_data n with node_start_pfn := v } else st.node_data n }

/-- The assignment `NODE_DATA(node)->node_spanned_pages = v`. -/
def set_node_spanned_pages (node v : Nat) (st : State M) : State M :=
  { st with node_data := fun n =>
      if n = node then { st.node_data n with node_spanned_pages := v } else st.node_data n }

/-- The assignment `NODE_DATA(node)->node_present_pages = v`. -/
def set_node_present_pages (node v : Nat) (st : State M) : State M :=
  { st with node_data := fun n =>
      if n = node then { st.node_data n with node_present_pages := v } else st.node_data n }

/-- The loop of `set_pdx_range`: `for ( ; idx < eidx; ++idx ) __set_bit(idx, ...)`. -/
def set_pdx_range_loop (eidx : Nat) : Nat → Nat → Bitmap → Bitmap
  | 0, _, bm => bm
  | fuel + 1, idx, bm =>
    if idx < eidx then set_pdx_range_loop eidx fuel (idx + 1) (set_bit idx bm) else bm

/-- Modelled from the spec: `set_pdx_range(smfn, emfn)` of the pdx unit, which
marks present every pdx group that holds a frame of `[smfn, emfn)`: the groups
from that of `pfn_to_pdx(smfn)` to that of `pfn_to_pdx(emfn - 1)`. -/
def set_pdx_range (cfg : Config) (smfn emfn : Nat) (bm : Bitmap) : Bitmap :=
  let idx := cfg.pfn_to_pdx smfn / cfg.PDX_GROUP_COUNT
  let eidx := add64 (cfg.pfn_to_pdx (sub64 emfn 1)) cfg.PDX_GROUP_COUNT / cfg.PDX_GROUP_COUNT
  set_pdx_range_loop eidx (eidx - idx) idx bm

/-! ## `memory_add`

The labels of `memory_add` are functions, each falling through to the next
one; the straight-line part is cut where the source tests `ret`. -/

/-- Label `destroy_directmap` of `memory_add`, and the final `return ret`. -/
def memory_add_destroy_directmap (cfg : Config) (ops : Ops M) (spfn epfn : Nat)
    (ret : Int) (st : State M) (calls : List Call) : Result M :=
  let s := cfg.mfn_to_virt spfn
  let e := cfg.mfn_to_virt epfn
  { ret := ret
    st := { st with mach := ops.destroy_xen_mappings st.mach s e }
    calls := calls ++ [Call.destroy_xen_mappings s e] }

/-- Label `destroy_frametable` of `memory_add`, falling through to
`destroy_directmap`. -/
def memory_add_destroy_frametable (cfg : Config) (ops : Ops M) (spfn epfn : Nat)
    (info : mem_hotadd_info) (node : Nat) (orig_online : Bool)
    (old_node_start old_node_span : Nat)
    (ret : Int) (st : State M) (calls : List Call) : Result M :=
  let st := { st with mach := ops.cleanup_frame_table st info }
  let st := if !orig_online then node_set_offline node st else st
  let st := set_node_start_pfn node old_node_start st
  let st := set_node_spanned_pages node old_node_span st
  memory_add_destroy_directmap cfg ops spfn epfn ret st (calls ++ [Call.cleanup_frame_table])

/-- Label `destroy_m2p` of `memory_add`, falling through to
`destroy_frametable`. -/
def memory_add_destroy_m2p (cfg : Config) (ops : Ops M) (spfn epfn : Nat)
    (info : mem_hotadd_info) (node : Nat) (orig_online : Bool)
    (old_node_start old_node_span old_max old_total : Nat)
    (ret : Int) (st : State M) (calls : List Call) : Result M :=
  let st := { st with mach := ops.destroy_m2p_mapping st info }
  let st := { st with max_page := old_max }
  let st := { st with total_pages := old_total }
  let st := { st with max_pdx := add64 (cfg.pfn_to_pdx (sub64 st.max_page 1)) 1 }
  memory_add_destroy_frametable cfg ops spfn epfn info node orig_online
    old_node_start old_node_span ret st (calls ++ [Call.destroy_m2p_mapping])

/-- The loop `for ( i = spfn; i < epfn; i++ ) if ( iommu_legacy_map(..) ) break;`
of `memory_add`, from the value `i`: the value of `i` after the loop, the
machine and the calls. -/
def iommu_map_loop (ops : Ops M) (epfn : Nat) :
    Nat → Nat → M → List Call → Nat × M × List Call
  | 0, i, m, calls => (i, m, calls)
  | fuel + 1, i, m, calls =>
    if i < epfn then
      let r := ops.iommu_legacy_map m i i
      if r.1 ≠ 0 then (i, r.2, calls ++ [Call.iommu_legacy_map i])
      else iommu_map_loop ops epfn fuel (i + 1) r.2 (calls ++ [Call.iommu_legacy_map i])
    else (i, m, calls)

/-- The loop `while (i-- > old_max) if ( iommu_legacy_unmap(..) ) continue;`
of `memory_add`, from the value `i`. -/
def iommu_unmap_loop (ops : Ops M) (old_max : Nat) :
    Nat → Nat → M → List Call → M × List Call
  | 0, _, m, calls => (m, calls)
  | fuel + 1, i, m, calls =>
    if i > old_max then
      let i := i - 1
      let r := ops.iommu_legacy_unmap m i
      iommu_unmap_loop ops old_max fuel i r.2 (calls ++ [Call.iommu_legacy_unmap i])
    else (m, calls)

/-- The block of `memory_add` that resolves the node span (source lines
1273 to 1287). -/
def memory_add_resolve_node (spfn epfn node : Nat) (st : State M) : State M :=
  if !node_online st node then
    let st := set_node_start_pfn node spfn st
    let st := set_node_spanned_pages node (sub64 epfn (node_start_pfn st node)) st
    node_set_online node st
  else
    let st := if node_start_pfn st node > spfn then set_node_start_pfn node spfn st else st
    let st := if node_end_pfn st node < epfn then
        set_node_spanned_pages node (sub64 epfn (node_start_pfn st node)) st
      else st
    st

/-- The end of `memory_add` after the comment "We can't revert any more". -/
def memory_add_commit (ops : Ops M) (spfn epfn : Nat) (info : mem_hotadd_info) (node : Nat)
    (st : State M) (calls : List Call) : Result M :=
  let st := { st with mach := ops.share_hotadd_m2p_table st info }
  let st := { st with mach := ops.transfer_pages_to_heap st info }
  -- Update the node's present pages (like the total_pages of the system)
  let st := set_node_present_pages node
    (add64 (st.node_data node).node_present_pages (sub64 epfn spfn)) st
  { ret := 0
    st := st
    calls := calls ++ [Call.share_hotadd_m2p_table, Call.transfer_pages_to_heap] }

/-- The part of `memory_add` after `setup_m2p_table` has succeeded (from
source line 1311): the synchronisation of the I/O translation tables, then the
commit.  The value of `ret` is the one `setup_m2p_table` left. -/
def memory_add_iommu (cfg : Config) (ops : Ops M) (spfn epfn : Nat)
    (info : mem_hotadd_info) (node : Nat) (orig_online : Bool)
    (old_node_start old_node_span old_max old_total : Nat)
    (ret : Int) (st : State M) (calls : List Call) : Result M :=
  if ops.is_iommu_enabled st.mach && !ops.iommu_use_hap_pt st.mach
      && !ops.need_iommu_pt_sync st.mach then
    let l := iommu_map_loop ops epfn (epfn - spfn) spfn st.mach calls
    let i := l.1
    let st := { st with mach := l.2.1 }
    let calls := l.2.2
    if i ≠ epfn then
      let u := iommu_unmap_loop ops old_max (i - old_max) i st.mach calls
      let st := { st with mach := u.1 }
      let calls := u.2
      memory_add_destroy_m2p cfg ops spfn epfn info node orig_online
        old_node_start old_node_span old_max old_total ret st calls
    else memory_add_commit ops spfn epfn info node st calls
  else memory_add_commit ops spfn epfn info node st calls

/-- The block of `memory_add` that updates the global counters and marks the
range present (source lines 1297 to 1305). -/
def memory_add_set_counters (cfg : Config) (spfn epfn : Nat) (st : State M) : State M :=
  -- Set max_page as setup_m2p_table will use it
  let st := if st.max_page < epfn then
      let st := { st with max_page := epfn }
      { st with max_pdx := add64 (cfg.pfn_to_pdx (sub64 st.max_page 1)) 1 }
    else st
  let st := { st with total_pages := add64 st.total_pages (sub64 epfn spfn) }
  { st with pdx_group_valid := set_pdx_range cfg spfn epfn st.pdx_group_valid }

/-- The part of `memory_add` after `extend_frame_table` has succeeded (from
source line 1297): the counters, `set_pdx_range` and `setup_m2p_table`. -/
def memory_add_m2p (cfg : Config) (ops : Ops M) (spfn epfn : Nat)
    (info : mem_hotadd_info) (node : Nat) (orig_online : Bool)
    (old_node_start old_node_span old_max old_total : Nat)
    (st : State M) (calls : List Call) : Result M :=
  let st := memory_add_set_counters cfg spfn epfn st
  let r := ops.setup_m2p_table st info
  let ret := r.1
  let info := r.2.1
  let st := { st with mach := r.2.2 }
  let calls := calls ++ [Call.set_pdx_range spfn epfn, Call.setup_m2p_table]
  if ret ≠ 0 then
    memory_add_destroy_m2p cfg ops spfn epfn info node orig_online
      old_node_start old_node_span old_max old_total ret st calls
  else
    memory_add_iommu cfg ops spfn epfn info node orig_online
      old_node_start old_node_span old_max old_total ret st calls

/-- The part of `memory_add` after the direct map has been set up (from
source line 1269): the node span and `extend_frame_table`. -/
def memory_add_staged (cfg : Config) (ops : Ops M) (spfn epfn node old_max old_total : Nat)
    (st : State M) (calls : List Call) : Result M :=
  let old_node_start := node_start_pfn st node
  let old_node_span := node_spanned_pages st node
  let orig_online := node_online st node
  let st := memory_add_resolve_node spfn epfn node st
  let info : mem_hotadd_info := { spfn := spfn, epfn := epfn, cur := spfn }
  let r := ops.extend_frame_table st info
  let ret := r.1
  let info := r.2.1
  let st := { st with mach := r.2.2 }
  let calls := calls ++ [Call.extend_frame_table]
  if ret ≠ 0 then
    memory_add_destroy_frametable cfg ops spfn epfn info node orig_online
      old_node_start old_node_span ret st calls
  else
    memory_add_m2p cfg ops spfn epfn info node orig_online
      old_node_start old_node_span old_max old_total st calls

/-- The second `map_pages_to_xen` of `memory_add` (source lines 1259 to 1267)
and what follows it. -/
def memory_add_map_high (cfg : Config) (ops : Ops M) (spfn epfn node old_max old_total : Nat)
    (i : Nat) (st : State M) (calls : List Call) : Result M :=
  if i < epfn then
    let i := if i < spfn then spfn else i
    let r := ops.map_pages_to_xen st.mach (cfg.mfn_to_virt i) i (sub64 epfn i)
      cfg.PAGE_HYPERVISOR_RW
    let ret := r.1
    let st := { st with mach := r.2 }
    let calls := calls ++
      [Call.map_pages_to_xen (cfg.mfn_to_virt i) i (sub64 epfn i) cfg.PAGE_HYPERVISOR_RW]
    if ret ≠ 0 then memory_add_destroy_directmap cfg ops spfn epfn ret st calls
    else memory_add_staged cfg ops spfn epfn node old_max old_total st calls
  else memory_add_staged cfg ops spfn epfn node old_max old_total st calls

/-- The function `memory_add(spfn, epfn, pxm)`. -/
def memory_add (cfg : Config) (ops : Ops M) (st : State M) (spfn epfn pxm : Nat) : Result M :=
  let old_max := st.max_page
  let old_total := st.total_pages
  if mem_hotadd_check cfg st.pdx_group_valid spfn epfn = 0 then
    { ret := -EINVAL, st := st, calls := [] }
  else
    let node := ops.setup_node pxm
    if node = NUMA_NO_NODE then { ret := -EINVAL, st := st, calls := [] }
    else if !ops.valid_numa_range (shl64 spfn PAGE_SHIFT) (shl64 epfn PAGE_SHIFT) node then
      { ret := -EINVAL, st := st, calls := [] }
    else
      let i := cfg.directmap_low_end
      if spfn < i then
        let r := ops.map_pages_to_xen st.mach (cfg.mfn_to_virt spfn) spfn
          (sub64 (min epfn i) spfn) cfg.PAGE_HYPERVISOR
        let ret := r.1
        let st := { st with mach := r.2 }
        let calls :=
          [Call.map_pages_to_xen (cfg.mfn_to_virt spfn) spfn (sub64 (min epfn i) spfn)
            cfg.PAGE_HYPERVISOR]
        if ret ≠ 0 then memory_add_destroy_directmap cfg ops spfn epfn ret st calls
        else memory_add_map_high cfg ops spfn epfn node old_max old_total i st calls
      else memory_add_map_high cfg ops spfn epfn node old_max old_total i st []

/-! ## Runs of `memory_add` on a machine reduced to the outcome of each stage -/

/-- A configuration without pdx compression: `pfn_to_pdx` is the identity,
`struct page_info` has 32 bytes, a pdx group has `2 ^ 16` frames, the frame
table has `2 ^ 32` entries and the compat M2P window has 1 GiB. -/
def cfg0 : Config where
  pfn_to_pdx := fun pfn => pfn
  pdx_is_region_compressible := fun _ _ => true
  FRAMETABLE_NR := 2 ^ 32
  PDX_GROUP_COUNT := 2 ^ 16
  sizeof_page_info := 32
  compat_mpt_bytes := 2 ^ 30
  directmap_low_end := 2 ^ 26
  mfn_to_virt := fun mfn => 0xffff830000000000 + mfn * 2 ^ 12
  PAGE_HYPERVISOR := 0x8000000000000163
  PAGE_HYPERVISOR_RW := 0x8000000000000063

/-- The outcome of every stage that `memory_add` delegates: which node the
proximity domain has, what each of `map_pages_to_xen`, `extend_frame_table`
and `setup_m2p_table` returns, whether the I/O translation tables of the
hardware domain need explicit synchronisation, and at which frames
`iommu_legacy_map` fails. -/
structure Scenario where
  node : Nat
  directmap_ret : Int
  frametable_ret : Int
  m2p_ret : Int
  iommu_sync : Bool
  iommu_map_fails : Nat → Bool

/-- The callees of `memory_add` in a scenario; the machine component carries
no information. -/
def Scenario.ops (sc : Scenario) : Ops Unit where
  setup_node := fun _ => sc.node
  valid_numa_range := fun _ _ _ => true
  map_pages_to_xen := fun m _ _ _ _ => (sc.directmap_ret, m)
  destroy_xen_mappings := fun m _ _ => m
  extend_frame_table := fun st info => (sc.frametable_ret, info, st.mach)
  cleanup_frame_table := fun st _ => st.mach
  setup_m2p_table := fun st info => (sc.m2p_ret, info, st.mach)
  destroy_m2p_mapping := fun st _ => st.mach
  is_iommu_enabled := fun _ => sc.iommu_sync
  iommu_use_hap_pt := fun _ => false
  need_iommu_pt_sync := fun _ => false
  iommu_legacy_map := fun m dfn _ => (if sc.iommu_map_fails dfn then -ENOMEM else 0, m)
  iommu_legacy_unmap := fun m _ => (0, m)
  share_hotadd_m2p_table := fun st _ => st.mach
  transfer_pages_to_heap := fun st _ => st.mach

/-- The scenario in which every stage succeeds and the I/O translation tables
need no synchronisation; the proximity domain is node 0. -/
def all_succeed : Scenario where
  node := 0
  directmap_ret := 0
  frametable_ret := 0
  m2p_ret := 0
  iommu_sync := false
  iommu_map_fails := fun _ => false

/-- A machine with 4 GiB of memory (frames below `0x100000`, pdx groups 0 to
15) on node 0, and nothing above. -/
def st_4G : State Unit where
  max_page := 0x100000
  total_pages := 0x100000
  max_pdx := 0x100000
  pdx_group_valid := fun i => decide (i < 16)
  node_data := fun n =>
    if n = 0 then { node_start_pfn := 0, node_spanned_pages := 0x100000,
                    node_present_pages := 0x100000 }
    else { node_start_pfn := 0, node_spanned_pages := 0, node_present_pages := 0 }
  node_online_map := fun n => decide (n = 0)
  mach := ()

/-- A machine with two online nodes: node 0 holds the frames below
`0x100000`, node 1 the frames of `[0x200000, 0x300000)` (pdx groups 32 to
47); the frames in between are absent. -/
def st_two_nodes : State Unit where
  max_page := 0x300000
  total_pages := 0x200000
  max_pdx := 0x300000
  pdx_group_valid := fun i => decide (i < 16) || (decide (32 ≤ i) && decide (i < 48))
  node_data := fun n =>
    if n = 0 then { node_start_pfn := 0, node_spanned_pages := 0x100000,
                    node_present_pages := 0x100000 }
    else if n = 1 then { node_start_pfn := 0x200000, node_spanned_pages := 0x100000,
                         node_present_pages := 0x100000 }
    else { node_start_pfn := 0, node_spanned_pages := 0, node_present_pages := 0 }
  node_online_map := fun n => decide (n = 0) || decide (n = 1)
  mach := ()

/-- The frames passed to `iommu_legacy_unmap`, in the order of the calls. -/
def unmapped_frames (calls : List Call) : List Nat :=
  calls.filterMap fun c =>
    match c with
    | Call.iommu_legacy_unmap dfn => some dfn
    | _ => none

/-- The frames passed to `iommu_legacy_map`, in the order of the calls. -/
def mapped_frames (calls : List Call) : List Nat :=
  calls.filterMap fun c =>
    match c with
    | Call.iommu_legacy_map dfn => some dfn
    | _ => none

/-- What a committed hot-add leaves: the call returns 0, `max_page` is the
larger of its old value and `epfn`, `max_pdx` follows `max_page` when that
was raised, and `total_pages` and the present pages of the node have grown by
the size of the range. -/
def memory_add_committed (cfg : Config) (st : State M) (spfn epfn node : Nat)
    (r : Result M) : Prop :=
  r.ret = 0 ∧ r.st.max_page = max st.max_page epfn ∧
  (st.max_page < epfn → r.st.max_pdx = add64 (cfg.pfn_to_pdx (sub64 epfn 1)) 1) ∧
  r.st.total_pages = add64 st.total_pages (sub64 epfn spfn) ∧
  (r.st.node_data node).node_present_pages
    = add64 (st.node_data node).node_present_pages (sub64 epfn spfn)

/-- What a rolled-back hot-add leaves: `max_page`, `total_pages`, the data of
every node and the set of online nodes are those of the state at entry. -/
def memory_add_rolled_back (st : State M) (r : Result M) : Prop :=
  r.st.max_page = st.max_page ∧ r.st.total_pages = st.total_pages ∧
  r.st.node_data = st.node_data ∧ r.st.node_online_map = st.node_online_map

/-- What the commit of a hot-add leaves of the state `st` in which the I/O
synchronisation started: the call returns 0, the counters are those of `st`
and the present pages of the node have grown by the size of the range. -/
def memory_add_committed_from (spfn epfn node : Nat) (st : State M) (r : Result M) : Prop :=
  r.ret = 0 ∧ r.st.max_page = st.max_page ∧ r.st.max_pdx = st.max_pdx ∧
  r.st.total_pages = st.total_pages ∧
  (r.st.node_data node).node_present_pages
    = add64 (st.node_data node).node_present_pages (sub64 epfn spfn)

/-- What the labels `destroy_m2p` and `destroy_frametable` leave of the state
`st` from which they start: the saved counters, the saved start and span of
the node, and the node offline again when it was offline at entry. -/
def memory_add_unwound (node : Nat) (orig_online : Bool)
    (old_node_start old_node_span old_max old_total : Nat) (st : State M) (r : Result M) :
    Prop :=
  r.st.max_page = old_max ∧ r.st.total_pages = old_total ∧
  r.st.node_data = (set_node_spanned_pages node old_node_span
    (set_node_start_pfn node old_node_start st)).node_data ∧
  r.st.node_online_map =
    (if (!orig_online) = true then clear_bit node st.node_online_map else st.node_online_map)

/-! ## Page tables -/

/-- A page-table entry of any level: the frame it names (`lNe_get_pfn`) and
its flags (`lNe_get_flags`). -/
structure pte where
  pfn : Nat
  flags : Nat
deriving DecidableEq, Repr

/-- The flag `_PAGE_PRESENT` of x86. -/
def _PAGE_PRESENT : Nat := 0x001

/-- The flag `_PAGE_USER` of x86. -/
def _PAGE_USER : Nat := 0x004

/-- The flag `_PAGE_PSE` of x86: the entry is a superpage leaf. -/
def _PAGE_PSE : Nat := 0x080

/-- The value of `PAGE_SIZE`. -/
def PAGE_SIZE : Nat := shl64 1 PAGE_SHIFT

/-- The value of `PAGE_MASK`: `~(PAGE_SIZE - 1)`. -/
def PAGE_MASK : Nat := not64 (PAGE_SIZE - 1)

/-- The value of `L4_PAGETABLE_SHIFT`: an L4 entry maps 512 GiB. -/
def L4_PAGETABLE_SHIFT : Nat := 39

/-- The value of `L1_PAGETABLE_ENTRIES`, `L2_PAGETABLE_ENTRIES`, and so on. -/
def PAGETABLE_ENTRIES : Nat := shl64 1 PAGETABLE_ORDER

/-- The macro `l1_table_offset(a)`. -/
def l1_table_offset (a : Nat) : Nat := (a >>> PAGE_SHIFT) &&& (PAGETABLE_ENTRIES - 1)

/-- The macro `l2_table_offset(a)`. -/
def l2_table_offset (a : Nat) : Nat := (a >>> L2_PAGETABLE_SHIFT) &&& (PAGETABLE_ENTRIES - 1)

/-- The macro `l3_table_offset(a)`. -/
def l3_table_offset (a : Nat) : Nat := (a >>> L3_PAGETABLE_SHIFT) &&& (PAGETABLE_ENTRIES - 1)

/-- The macro `l4_table_offset(a)`. -/
def l4_table_offset (a : Nat) : Nat := (a >>> L4_PAGETABLE_SHIFT) &&& (PAGETABLE_ENTRIES - 1)

/-- The macro `PFN_DOWN(x)`. -/
def PFN_DOWN (x : Nat) : Nat := x >>> PAGE_SHIFT

/-- The entry `l2e_empty()`. -/
def pte_empty : pte := { pfn := 0, flags := 0 }

/-- The contents of the frames that hold page tables: the entry at an index of
the table in a frame. -/
abbrev PageTables := Nat → Nat → pte

/-- The write `table[idx] = e` to the page table in frame `mfn` (`l2e_write`,
`l3e_write`). -/
def pte_write (mem : PageTables) (mfn idx : Nat) (e : pte) : PageTables :=
  fun f i => if f = mfn ∧ i = idx then e else mem f i

/-! ## `do_page_walk` -/

/-- The fields of `struct vcpu` that `do_page_walk` reads: the frame of the
root table, `pagetable_get_pfn(v->arch.guest_table)`, and `is_pv_vcpu(v)`. -/
structure vcpu where
  guest_table : Nat
  is_pv : Bool
deriving DecidableEq, Repr

/-- The macro `is_canonical_address(x)`: bits 63 to 47 are all equal. -/
def is_canonical_address (x : Nat) : Bool :=
  x >>> 47 == 0 || x >>> 47 == 0x1ffff

/-- A call of `map_domain_page` or `unmap_domain_page`, with the frame. -/
inductive DomainPageCall where
  | map_domain_page (mfn : Nat)
  | unmap_domain_page (mfn : Nat)
deriving DecidableEq, Repr

/-- What `do_page_walk` returns: the pointer, as the frame mapped and the
byte offset in it (`none` is `NULL`), and the calls made to map and unmap
frames, in order. -/
structure WalkResult where
  ptr : Option (Nat × Nat)
  calls : List DomainPageCall
deriving DecidableEq, Repr

/-- The entry that `do_page_walk` reads from the root table. -/
def walk_l4e (mem : PageTables) (v : vcpu) (addr : Nat) : pte :=
  mem v.guest_table (l4_table_offset addr)

/-- The entry that `do_page_walk` reads from the L3 table. -/
def walk_l3e (mem : PageTables) (v : vcpu) (addr : Nat) : pte :=
  mem (walk_l4e mem v addr).pfn (l3_table_offset addr)

/-- The entry that `do_page_walk` reads from the L2 table. -/
def walk_l2e (mem : PageTables) (v : vcpu) (addr : Nat) : pte :=
  mem (walk_l3e mem v addr).pfn (l2_table_offset addr)

/-- The entry that `do_page_walk` reads from the L1 table. -/
def walk_l1e (mem : PageTables) (v : vcpu) (addr : Nat) : pte :=
  mem (walk_l2e mem v addr).pfn (l1_table_offset addr)

/-- The function `do_page_walk(v, addr)`, over the predicate `mfn_valid` and
the contents `mem` of the page-table frames. -/
def do_page_walk (mfn_valid : Nat → Bool) (mem : PageTables) (v : vcpu) (addr : Nat) :
    WalkResult :=
  let mfn := v.guest_table
  if !v.is_pv || !is_canonical_address addr then { ptr := none, calls := [] }
  else
    -- l4t = map_domain_page(_mfn(mfn)); l4e = l4t[..]; unmap_domain_page(l4t);
    let l4e := mem mfn (l4_table_offset addr)
    let calls := [DomainPageCall.map_domain_page mfn, DomainPageCall.unmap_domain_page mfn]
    if l4e.flags &&& _PAGE_PRESENT = 0 then { ptr := none, calls := calls }
    else
      -- l3t = map_l3t_from_l4e(l4e);
      let l3e := mem l4e.pfn (l3_table_offset addr)
      let calls := calls ++
        [DomainPageCall.map_domain_page l4e.pfn, DomainPageCall.unmap_domain_page l4e.pfn]
      let mfn := l3e.pfn
      if l3e.flags &&& _PAGE_PRESENT = 0 || !mfn_valid mfn then { ptr := none, calls := calls }
      else if l3e.flags &&& _PAGE_PSE ≠ 0 then
        let mfn := add64 mfn (PFN_DOWN (addr &&& (shl64 1 L3_PAGETABLE_SHIFT - 1)))
        { ptr := some (mfn, addr &&& not64 PAGE_MASK)
          calls := calls ++ [DomainPageCall.map_domain_page mfn] }
      else
        let l2e := mem mfn (l2_table_offset addr)
        let calls := calls ++
          [DomainPageCall.map_domain_page mfn, DomainPageCall.unmap_domain_page mfn]
        let mfn := l2e.pfn
        if l2e.flags &&& _PAGE_PRESENT = 0 || !mfn_valid mfn then
          { ptr := none, calls := calls }
        else if l2e.flags &&& _PAGE_PSE ≠ 0 then
          let mfn := add64 mfn (PFN_DOWN (addr &&& (shl64 1 L2_PAGETABLE_SHIFT - 1)))
          { ptr := some (mfn, addr &&& not64 PAGE_MASK)
            calls := calls ++ [DomainPageCall.map_domain_page mfn] }
        else
          let l1e := mem mfn (l1_table_offset addr)
          let calls := calls ++
            [DomainPageCall.map_domain_page mfn, DomainPageCall.unmap_domain_page mfn]
          let mfn := l1e.pfn
          if l1e.flags &&& _PAGE_PRESENT = 0 || !mfn_valid mfn then
            { ptr := none, calls := calls }
          else
            { ptr := some (mfn, addr &&& not64 PAGE_MASK)
              calls := calls ++ [DomainPageCall.map_domain_page mfn] }

/-- Page tables for walks by hand.  The root table is in frame `0x10`.
Root entry 0 names the L3 table in frame `0x11`, whose entry 0 names the L2
table in frame `0x12` and whose entry 1 is a 1 GiB superpage at frame
`0xc0000`; entry 1 of the L2 table is a 2 MiB superpage at frame `0x800`.
Root entry 1 names an L3 table in frame `0x200000`, which leads through the
L2 table in frame `0x13` and the L1 table in frame `0x14` to frame `0x900`. -/
def walk_mem : PageTables := fun f i =>
  if f = 0x10 ∧ i = 0 then { pfn := 0x11, flags := _PAGE_PRESENT }
  else if f = 0x10 ∧ i = 1 then { pfn := 0x200000, flags := _PAGE_PRESENT }
  else if f = 0x11 ∧ i = 0 then { pfn := 0x12, flags := _PAGE_PRESENT }
  else if f = 0x11 ∧ i = 1 then { pfn := 0xc0000, flags := _PAGE_PRESENT ||| _PAGE_PSE }
  else if f = 0x12 ∧ i = 1 then { pfn := 0x800, flags := _PAGE_PRESENT ||| _PAGE_PSE }
  else if f = 0x200000 ∧ i = 0 then { pfn := 0x13, flags := _PAGE_PRESENT }
  else if f = 0x13 ∧ i = 0 then { pfn := 0x14, flags := _PAGE_PRESENT }
  else if f = 0x14 ∧ i = 0 then { pfn := 0x900, flags := _PAGE_PRESENT }
  else pte_empty

/-- A PV vcpu whose root table is in frame `0x10`. -/
def walk_vcpu : vcpu := { guest_table := 0x10, is_pv := true }

/-- The valid frames of a machine with 3.5 GiB of memory: those below
`0xe0000`. -/
def walk_valid : Nat → Bool := fun mfn => decide (mfn < 0xe0000)

/-! ## The machine: page tables of Xen and the M2P tables -/

/-- Virtual addresses and flags that `mm.c` takes from `config.h` and
`page.h`: they are parameters of the development.  The end of the compat M2P
window is its start plus `Config.compat_mpt_bytes`. -/
structure Layout where
  /-- Start of the read-only M2P window, `RO_MPT_VIRT_START`. -/
  RO_MPT_VIRT_START : Nat
  /-- Start of the writable M2P window, `RDWR_MPT_VIRT_START`, which is the
  address of `machine_to_phys_mapping`. -/
  RDWR_MPT_VIRT_START : Nat
  /-- Start of the compat M2P window, `RDWR_COMPAT_MPT_VIRT_START`, which is
  the address of `compat_machine_to_phys_mapping`. -/
  RDWR_COMPAT_MPT_VIRT_START : Nat
  /-- Start of the frame table, `FRAMETABLE_VIRT_START`. -/
  FRAMETABLE_VIRT_START : Nat
  /-- The page flags `__PAGE_HYPERVISOR_RO`. -/
  PAGE_HYPERVISOR_RO : Nat

/-- The layout of x86-64 Xen: the read-only M2P window at the start of L4
slot 256, the writable M2P window, the compat M2P window and the frame table
in L4 slot 261. -/
def lay0 : Layout where
  RO_MPT_VIRT_START := 0xffff800000000000
  RDWR_MPT_VIRT_START := 0xffff828000000000
  RDWR_COMPAT_MPT_VIRT_START := 0xffff82d000000000
  FRAMETABLE_VIRT_START := 0xffff82e000000000
  PAGE_HYPERVISOR_RO := 0x800021

/-- The value of `INVALID_M2P_ENTRY`: all bits one (`memset` with `0xFF`
fills a table with it). -/
def INVALID_M2P_ENTRY : Nat := 2 ^ 64 - 1

/-- Modelled from the spec: the value of `SHARED_M2P_ENTRY`, the sentinel
"shared with copy-on-write owner", distinct from the invalid sentinel and from
every frame number: `~0UL - 1`. -/
def SHARED_M2P_ENTRY : Nat := 2 ^ 64 - 2

/-- The errno value `EFAULT`. -/
def EFAULT : Int := 14

/-- The errno value `ENOSYS`. -/
def ENOSYS : Int := 38

/-- The errno value `EOPNOTSUPP`. -/
def EOPNOTSUPP : Int := 95

/-- The part of the machine that the M2P code reads and writes: the root
table of Xen, the contents of the page-table frames, the L2 table of the
compat M2P window, the two M2P tables as seen through their writable windows,
and the globals `machine_to_phys_mapping_valid`, `opt_pv32` and `dom_cow`,
with the owner of every page (`page_get_owner(mfn_to_page(mfn))`, `none` for
`NULL`) and the counters of the memory-sharing unit. -/
structure Mach where
  idle_pg_table : Nat → pte
  pt : PageTables
  compat_idle_pg_table_l2 : Nat → pte
  machine_to_phys_mapping : Nat → Nat
  compat_machine_to_phys_mapping : Nat → Nat
  machine_to_phys_mapping_valid : Bool
  opt_pv32 : Bool
  page_owner : Nat → Option Nat
  dom_cow : Option Nat
  nr_saved_mfns : Int
  nr_shared_mfns : Int

/-- The assignment `table[idx] = v` to an array of integers. -/
def array_set (a : Nat → Nat) (idx v : Nat) : Nat → Nat :=
  fun k => if k = idx then v else a k

/-! ## `set_gpfn_from_mfn` -/

/-- The function `set_gpfn_from_mfn(mfn, pfn)`. -/
def set_gpfn_from_mfn (cfg : Config) (m : Mach) (mfn pfn : Nat) : Mach :=
  let entry := pfn
  if !m.machine_to_phys_mapping_valid then m
  else
    let entry :=
      if entry ≠ INVALID_M2P_ENTRY then
        let d := m.page_owner mfn
        if d.isSome && d == m.dom_cow then SHARED_M2P_ENTRY else entry
      else entry
    let m :=
      if m.opt_pv32 && decide (mfn < cfg.compat_mpt_bytes / 4) then
        -- the entries of the compat table are `unsigned int`
        { m with compat_machine_to_phys_mapping :=
            array_set m.compat_machine_to_phys_mapping mfn (entry % 2 ^ 32) }
      else m
    { m with machine_to_phys_mapping := array_set m.machine_to_phys_mapping mfn entry }

/-! ## `subarch_memory_op` -/

/-- The values of `cmd` that `subarch_memory_op` tells apart, in a build
without `CONFIG_MEM_PAGING` and `CONFIG_MEM_SHARING`; `other` is any other
value. -/
inductive MemOp where
  | XENMEM_machphys_mfn_list
  | XENMEM_machphys_compat_mfn_list
  | XENMEM_get_sharing_freed_pages
  | XENMEM_get_sharing_shared_pages
  | other
deriving DecidableEq, Repr

/-- The fields of `struct xen_machphys_mfn_list` other than the handle
`extent_start`. -/
structure xen_machphys_mfn_list where
  max_extents : Nat
  nr_extents : Nat
deriving DecidableEq, Repr

/-- A call that accesses guest memory: `copy_from_guest(&xmml, arg, 1)`,
`copy_to_guest_offset(xmml.extent_start, i, &mfn, 1)` and
`__copy_to_guest(arg, &xmml, 1)` with the value of `xmml.nr_extents`. -/
inductive GuestAccess where
  | copy_from_guest
  | copy_to_guest_offset (i mfn : Nat)
  | copy_to_guest (nr_extents : Nat)
deriving DecidableEq, Repr

/-- The guest side of a query: the structure that `copy_from_guest` reads
(`none` when the copy faults), whether the copy to an index of the extent list
succeeds, and whether the copy back of the structure succeeds. -/
structure Guest where
  xmml : Option xen_machphys_mfn_list
  extent_ok : Nat → Bool
  arg_ok : Bool

/-- What `subarch_memory_op` leaves: the returned `long`, the calls that
access guest memory in order, and whether every `ASSERT(mfn)` it evaluated
held. -/
structure MemopResult where
  rc : Int
  accesses : List GuestAccess
  asserts : Bool
deriving DecidableEq, Repr

/-- The state of a loop of `subarch_memory_op` when it ends: whether it
ended by the `return -EFAULT` of a failed copy, the value of `i`, the accesses
and whether every `ASSERT(mfn)` held. -/
structure ExportLoop where
  fault : Bool
  i : Nat
  accesses : List GuestAccess
  asserts : Bool
deriving DecidableEq, Repr

/-- The value of `mfn` that the loop of `XENMEM_machphys_mfn_list` computes
for the M2P address `v` (source lines 960 to 976). -/
def machphys_slot_mfn (m : Mach) (v last_mfn : Nat) : Nat :=
  let l3e := m.pt (m.idle_pg_table (l4_table_offset v)).pfn (l3_table_offset v)
  if l3e.flags &&& _PAGE_PRESENT = 0 then last_mfn
  else if l3e.flags &&& _PAGE_PSE = 0 then
    let l2e := m.pt l3e.pfn (l2_table_offset v)
    if l2e.flags &&& _PAGE_PRESENT ≠ 0 then l2e.pfn else last_mfn
  else add64 l3e.pfn (shl64 (l2_table_offset v) PAGETABLE_ORDER)

/-- The loop of `XENMEM_machphys_mfn_list` (source lines 955 to 981) from the
values `i`, `v` and `last_mfn`.  The counter `i`, an `unsigned int`, stays
below `max_extents` and does not wrap. -/
def machphys_mfn_list_loop (m : Mach) (g : Guest) (max_extents limit : Nat) :
    Nat → Nat → Nat → Nat → List GuestAccess → Bool → ExportLoop
  | 0, i, _, _, acc, ok => { fault := false, i := i, accesses := acc, asserts := ok }
  | fuel + 1, i, v, last_mfn, acc, ok =>
    if i ≠ max_extents ∧ v < limit then
      let mfn := machphys_slot_mfn m v last_mfn
      let ok := ok && decide (mfn ≠ 0)
      let acc := acc ++ [GuestAccess.copy_to_guest_offset i mfn]
      if !g.extent_ok i then { fault := true, i := i, accesses := acc, asserts := ok }
      else machphys_mfn_list_loop m g max_extents limit fuel (i + 1)
        (add64 v (shl64 1 L2_PAGETABLE_SHIFT)) mfn acc ok
    else { fault := false, i := i, accesses := acc, asserts := ok }

/-- The value of `mfn` that the loop of `XENMEM_machphys_compat_mfn_list`
computes for the compat M2P address `v` (source lines 1003 to 1007). -/
def machphys_compat_slot_mfn (m : Mach) (v last_mfn : Nat) : Nat :=
  let l2e := m.compat_idle_pg_table_l2 (l2_table_offset v)
  if l2e.flags &&& _PAGE_PRESENT ≠ 0 then l2e.pfn else last_mfn

/-- The loop of `XENMEM_machphys_compat_mfn_list` (source lines 999 to 1012)
from the values `i`, `v` and `last_mfn`. -/
def machphys_compat_mfn_list_loop (m : Mach) (g : Guest) (max_extents limit : Nat) :
    Nat → Nat → Nat → Nat → List GuestAccess → Bool → ExportLoop
  | 0, i, _, _, acc, ok => { fault := false, i := i, accesses := acc, asserts := ok }
  | fuel + 1, i, v, last_mfn, acc, ok =>
    if i ≠ max_extents ∧ v < limit then
      let mfn := machphys_compat_slot_mfn m v last_mfn
      let ok := ok && decide (mfn ≠ 0)
      let acc := acc ++ [GuestAccess.copy_to_guest_offset i mfn]
      if !g.extent_ok i then { fault := true, i := i, accesses := acc, asserts := ok }
      else machphys_compat_mfn_list_loop m g max_extents limit fuel (i + 1)
        (add64 v (shl64 1 L2_PAGETABLE_SHIFT)) mfn acc ok
    else { fault := false, i := i, accesses := acc, asserts := ok }

/-- The address `RDWR_COMPAT_MPT_VIRT_END`. -/
def RDWR_COMPAT_MPT_VIRT_END (lay : Layout) (cfg : Config) : Nat :=
  lay.RDWR_COMPAT_MPT_VIRT_START + cfg.compat_mpt_bytes

/-- The function `subarch_memory_op(cmd, arg)`, reading the global
`max_page`; the guest stands for `arg` and the memory behind it. -/
def subarch_memory_op (lay : Layout) (cfg : Config) (max_page : Nat) (m : Mach) (g : Guest)
    (cmd : MemOp) : MemopResult :=
  match cmd with
  | MemOp.XENMEM_machphys_mfn_list =>
    match g.xmml with
    | none => { rc := -EFAULT, accesses := [GuestAccess.copy_from_guest], asserts := true }
    | some xmml =>
      let l := machphys_mfn_list_loop m g xmml.max_extents
        (add64 lay.RDWR_MPT_VIRT_START (mul64 max_page 8))
        xmml.max_extents 0 lay.RDWR_MPT_VIRT_START 0 [GuestAccess.copy_from_guest] true
      if l.fault then { rc := -EFAULT, accesses := l.accesses, asserts := l.asserts }
      else
        -- xmml.nr_extents = i;
        let acc := l.accesses ++ [GuestAccess.copy_to_guest l.i]
        if !g.arg_ok then { rc := -EFAULT, accesses := acc, asserts := l.asserts }
        else { rc := 0, accesses := acc, asserts := l.asserts }
  | MemOp.XENMEM_machphys_compat_mfn_list =>
    if !m.opt_pv32 then { rc := -EOPNOTSUPP, accesses := [], asserts := true }
    else
      match g.xmml with
      | none => { rc := -EFAULT, accesses := [GuestAccess.copy_from_guest], asserts := true }
      | some xmml =>
        let limit := add64 lay.RDWR_COMPAT_MPT_VIRT_START (mul64 max_page 4)
        let limit :=
          if limit > RDWR_COMPAT_MPT_VIRT_END lay cfg then RDWR_COMPAT_MPT_VIRT_END lay cfg
          else limit
        let l := machphys_compat_mfn_list_loop m g xmml.max_extents limit
          xmml.max_extents 0 lay.RDWR_COMPAT_MPT_VIRT_START 0 [GuestAccess.copy_from_guest] true
        if l.fault then { rc := -EFAULT, accesses := l.accesses, asserts := l.asserts }
        else
          let acc := l.accesses ++ [GuestAccess.copy_to_guest l.i]
          if !g.arg_ok then { rc := -EFAULT, accesses := acc, asserts := l.asserts }
          else { rc := 0, accesses := acc, asserts := l.asserts }
  | MemOp.XENMEM_get_sharing_freed_pages =>
    { rc := m.nr_saved_mfns, accesses := [], asserts := true }
  | MemOp.XENMEM_get_sharing_shared_pages =>
    { rc := m.nr_shared_mfns, accesses := [], asserts := true }
  | MemOp.other => { rc := -ENOSYS, accesses := [], asserts := true }

/-- The M2P address of extent `i` of `XENMEM_machphys_mfn_list`. -/
def machphys_slot_va (lay : Layout) (i : Nat) : Nat :=
  (lay.RDWR_MPT_VIRT_START + i * 2 ^ 21) % 2 ^ 64

/-- The 2 MiB M2P slot at address `v` is unmapped: the L3 entry is not
present, or it is present without `_PAGE_PSE` and the L2 entry is not
present. -/
def machphys_slot_unmapped (m : Mach) (v : Nat) : Prop :=
  let l3e := m.pt (m.idle_pg_table (l4_table_offset v)).pfn (l3_table_offset v)
  l3e.flags &&& _PAGE_PRESENT = 0 ∨
    (l3e.flags &&& _PAGE_PSE = 0 ∧
      (m.pt l3e.pfn (l2_table_offset v)).flags &&& _PAGE_PRESENT = 0)

/-- The compat M2P address of extent `i` of `XENMEM_machphys_compat_mfn_list`. -/
def machphys_compat_slot_va (lay : Layout) (i : Nat) : Nat :=
  (lay.RDWR_COMPAT_MPT_VIRT_START + i * 2 ^ 21) % 2 ^ 64

/-- The 2 MiB compat M2P slot at address `v` is unmapped: its entry of
`compat_idle_pg_table_l2` is not present. -/
def machphys_compat_slot_unmapped (m : Mach) (v : Nat) : Prop :=
  (m.compat_idle_pg_table_l2 (l2_table_offset v)).flags &&& _PAGE_PRESENT = 0

/-- The indices of the extent list that the accesses write, in order. -/
def written_indices (accesses : List GuestAccess) : List Nat :=
  accesses.filterMap fun a =>
    match a with
    | GuestAccess.copy_to_guest_offset i _ => some i
    | _ => none

/-- The values that the accesses write to the extent list, in order. -/
def written_mfns (accesses : List GuestAccess) : List Nat :=
  accesses.filterMap fun a =>
    match a with
    | GuestAccess.copy_to_guest_offset _ mfn => some mfn
    | _ => none

/-- A machine for queries by hand.  The writable M2P window is mapped by
the L3 table in frame `0x1002` (root entry 261), whose entry 0 names the L2
table in frame `0x1003`; the leaves of that table and of the compat L2 table
are those of `leaves`, a frame number per 2 MiB slot, 0 for a slot that is not
mapped. -/
def export_mach (leaves : List Nat) : Mach where
  idle_pg_table := fun i =>
    if i = 261 then { pfn := 0x1002, flags := _PAGE_PRESENT } else pte_empty
  pt := fun f i =>
    if f = 0x1002 ∧ i = 0 then { pfn := 0x1003, flags := _PAGE_PRESENT }
    else if f = 0x1003 ∧ leaves.getD i 0 ≠ 0 then
      { pfn := leaves.getD i 0, flags := _PAGE_PRESENT ||| _PAGE_PSE }
    else pte_empty
  compat_idle_pg_table_l2 := fun i =>
    if leaves.getD i 0 ≠ 0 then { pfn := leaves.getD i 0, flags := _PAGE_PRESENT ||| _PAGE_PSE }
    else pte_empty
  machine_to_phys_mapping := fun _ => INVALID_M2P_ENTRY
  compat_machine_to_phys_mapping := fun _ => 2 ^ 32 - 1
  machine_to_phys_mapping_valid := true
  opt_pv32 := true
  page_owner := fun mfn => if mfn = 5 then some 7 else none
  dom_cow := some 7
  nr_saved_mfns := 0
  nr_shared_mfns := 0

/-- A guest that asks for `n` extents and whose memory takes every copy. -/
def export_guest (n : Nat) : Guest where
  xmml := some { max_extents := n, nr_extents := 0 }
  extent_ok := fun _ => true
  arg_ok := true

instance (m : Mach) (v : Nat) : Decidable (machphys_slot_unmapped m v) := by
  unfold machphys_slot_unmapped
  exact inferInstance

instance (m : Mach) (v : Nat) : Decidable (machphys_compat_slot_unmapped m v) := by
  unfold machphys_compat_slot_unmapped
  exact inferInstance

/-- Among the accesses, an extent whose slot of the M2P window is unmapped
carries the value written for the extent before it. -/
def carries_forward (lay : Layout) (m : Mach) (accesses : List GuestAccess) : Prop :=
  ∀ k x, GuestAccess.copy_to_guest_offset (k + 1) x ∈ accesses →
    machphys_slot_unmapped m (machphys_slot_va lay (k + 1)) →
    GuestAccess.copy_to_guest_offset k x ∈ accesses

/-- Among the accesses, an extent whose slot of the compat M2P window is
unmapped carries the value written for the extent before it. -/
def compat_carries_forward (lay : Layout) (m : Mach) (accesses : List GuestAccess) : Prop :=
  ∀ k x, GuestAccess.copy_to_guest_offset (k + 1) x ∈ accesses →
    machphys_compat_slot_unmapped m (machphys_compat_slot_va lay (k + 1)) →
    GuestAccess.copy_to_guest_offset k x ∈ accesses

/-- The writes of the values `ws` to consecutive indices of the extent list,
from index `i` on. -/
def extent_writes (i : Nat) (ws : List Nat) : List GuestAccess :=
  (ws.enumFrom i).map fun p => GuestAccess.copy_to_guest_offset p.1 p.2

/-- The number of extents of the M2P table of a machine with `max_page`
frames: `max_page * 8` bytes in units of 2 MiB, rounded up. -/
def machphys_extents (max_page : Nat) : Nat := (max_page * 8 + 2 ^ 21 - 1) / 2 ^ 21

/-! ## Extending the frame table and the M2P table on hot-add -/

/-- Functions and constants of the memory-management core that the hot-add
code calls and that are declared outside this unit: they are parameters of
the development. -/
structure MmEnv where
  /-- The predicate `mfn_valid(mfn)`, which reads `max_page` and
  `pdx_group_valid`. -/
  mfn_valid : Nat → Bitmap → Nat → Bool
  /-- The call `map_pages_to_xen(virt, mfn, nr_mfns, flags)` on the page
  tables of Xen. -/
  map_pages_to_xen : Mach → Nat → Nat → Nat → Nat → Int × Mach
  /-- The call `alloc_mapped_pagetable(&mfn)`: the frame of a fresh, cleared
  page table, or `none` for `NULL`. -/
  alloc_mapped_pagetable : Mach → Option Nat × Mach
  /-- The size of the direct map in frames, `DIRECTMAP_SIZE >> PAGE_SHIFT`. -/
  directmap_frames : Nat
  /-- The call `destroy_xen_mappings(s, e)` on the page tables of Xen. -/
  destroy_xen_mappings : Mach → Nat → Nat → Mach

/-- What the hot-add code does to memory, in the order of execution. -/
inductive PtEvent where
  | alloc_hotadd_mfn (mfn : Nat)
  | map_pages_to_xen (virt mfn nr flags : Nat)
  | memset (addr val len : Nat)
  | l3e_write (table idx : Nat) (e : pte)
  | l2e_write (table idx : Nat) (e : pte)
  | compat_l2e_write (idx : Nat) (e : pte)
  | setup_frametable_chunk (s e : Nat)
  | destroy_xen_mappings (s e : Nat)
  | flush_tlb_all
deriving DecidableEq, Repr

/-- What a stage of the hot-add leaves: the returned `int`, the staging
record, the machine, whether every `ASSERT` met held, and what was done. -/
structure HotaddRun where
  ret : Int
  info : mem_hotadd_info
  mach : Mach
  asserts : Bool
  trace : List PtEvent

/-- Modelled from the spec: the macro `ISOLATE_LSB(x)`, the lowest set bit of
`x`, that is `x & -x`. -/
def ISOLATE_LSB (x : Nat) : Nat := x &&& sub64 0 x

/-- The assignment of `v` to the `len` entries of an array from `start`. -/
def array_fill (a : Nat → Nat) (start len v : Nat) : Nat → Nat :=
  fun k => if start ≤ k ∧ k < start + len then v else a k

/-- The function `alloc_hotadd_mfn(info)`: the frame, the staging record
with the cursor advanced, and whether the `ASSERT` held. -/
def alloc_hotadd_mfn (info : mem_hotadd_info) : Nat × mem_hotadd_info × Bool :=
  (info.cur, { info with cur := add64 info.cur (shl64 1 PAGETABLE_ORDER) },
    decide (add64 info.cur (shl64 1 PAGETABLE_ORDER) < info.epfn) &&
      decide (info.cur ≥ info.spfn))

/-- The value `M2P_NO_MAPPED`. -/
def M2P_NO_MAPPED : Nat := 0

/-- The value `M2P_2M_MAPPED`. -/
def M2P_2M_MAPPED : Nat := 1

/-- The value `M2P_1G_MAPPED`. -/
def M2P_1G_MAPPED : Nat := 2

/-- The function `m2p_mapped(spfn)`. -/
def m2p_mapped (lay : Layout) (m : Mach) (spfn : Nat) : Nat :=
  let va := add64 lay.RO_MPT_VIRT_START (mul64 spfn 8)
  let l3e := m.pt (m.idle_pg_table (l4_table_offset va)).pfn (l3_table_offset va)
  if l3e.flags &&& (_PAGE_PRESENT ||| _PAGE_PSE) = (_PAGE_PSE ||| _PAGE_PRESENT) then
    M2P_1G_MAPPED
  else if l3e.flags &&& (_PAGE_PRESENT ||| _PAGE_PSE) = _PAGE_PRESENT then
    -- Check for next level
    let l2e := m.pt l3e.pfn (l2_table_offset va)
    if l2e.flags &&& _PAGE_PRESENT ≠ 0 then M2P_2M_MAPPED else M2P_NO_MAPPED
  else M2P_NO_MAPPED

/-- The probe of `setup_m2p_table` and `setup_compat_m2p_table`: whether one
of the `cnt` frames `i + n * PDX_GROUP_COUNT` is valid (`n < CNT` after the
`for` loop). -/
def m2p_chunk_probe (cfg : Config) (env : MmEnv) (st : State Mach) (cnt i : Nat) : Bool :=
  (List.range cnt).any fun n =>
    env.mfn_valid st.max_page st.pdx_group_valid (add64 i (mul64 n cfg.PDX_GROUP_COUNT))

/-- The loop of `setup_compat_m2p_table` (source lines 362 to 386) from the
value `i`. -/
def setup_compat_m2p_table_loop (lay : Layout) (cfg : Config) (env : MmEnv) (st : State Mach)
    (emap : Nat) : Nat → Nat → HotaddRun → HotaddRun
  | 0, _, r => r
  | fuel + 1, i, r =>
    if i < emap then
      let next := add64 i (shl64 1 (L2_PAGETABLE_SHIFT - 2))
      -- unsigned int off = i * sizeof(*compat_machine_to_phys_mapping);
      let off := (i * 4) % 2 ^ 32
      let idx := l2_table_offset off
      let rwva := add64 lay.RDWR_COMPAT_MPT_VIRT_START off
      if (r.mach.compat_idle_pg_table_l2 idx).flags &&& _PAGE_PRESENT ≠ 0 then
        setup_compat_m2p_table_loop lay cfg env st emap fuel next r
      else if !m2p_chunk_probe cfg env st (ISOLATE_LSB cfg.sizeof_page_info / 4) i then
        setup_compat_m2p_table_loop lay cfg env st emap fuel next r
      else
        let a := alloc_hotadd_mfn r.info
        let mfn := a.1
        let mp := env.map_pages_to_xen r.mach rwva mfn (shl64 1 PAGETABLE_ORDER)
          cfg.PAGE_HYPERVISOR
        let trace := r.trace ++ [PtEvent.alloc_hotadd_mfn mfn,
          PtEvent.map_pages_to_xen rwva mfn (shl64 1 PAGETABLE_ORDER) cfg.PAGE_HYPERVISOR]
        if mp.1 ≠ 0 then
          { ret := mp.1, info := a.2.1, mach := mp.2, asserts := r.asserts && a.2.2,
            trace := trace }
        else
          -- Fill with INVALID_M2P_ENTRY.
          let e : pte := { pfn := mfn, flags := _PAGE_PSE ||| _PAGE_PRESENT }
          let m := { mp.2 with
            compat_machine_to_phys_mapping :=
              array_fill mp.2.compat_machine_to_phys_mapping (off / 4)
                (shl64 1 L2_PAGETABLE_SHIFT / 4) (2 ^ 32 - 1),
            compat_idle_pg_table_l2 := fun k => if k = idx then e else
              mp.2.compat_idle_pg_table_l2 k }
          setup_compat_m2p_table_loop lay cfg env st emap fuel next
            { ret := mp.1, info := a.2.1, mach := m, asserts := r.asserts && a.2.2,
              trace := trace ++ [PtEvent.memset rwva 0xFF (shl64 1 L2_PAGETABLE_SHIFT),
                PtEvent.compat_l2e_write idx e] }
    else r

/-- The function `setup_compat_m2p_table(info)`, continuing the run `r`. -/
def setup_compat_m2p_table (lay : Layout) (cfg : Config) (env : MmEnv) (st : State Mach)
    (r : HotaddRun) : HotaddRun :=
  let epfn := r.info.epfn
  let smap := r.info.spfn &&& not64 (shl64 1 (L2_PAGETABLE_SHIFT - 2) - 1)
  let window := (RDWR_COMPAT_MPT_VIRT_END lay cfg - lay.RDWR_COMPAT_MPT_VIRT_START) >>> 2
  -- Notice: For hot-added memory, only range below m2p_compat_vstart
  -- will be filled up (assuming memory is discontinous when booting).
  if !r.mach.opt_pv32 || decide (smap > window) then { r with ret := 0 }
  else
    let epfn := if epfn > window then window else epfn
    let emap := add64 epfn (shl64 1 (L2_PAGETABLE_SHIFT - 2) - 1) &&&
      not64 (shl64 1 (L2_PAGETABLE_SHIFT - 2) - 1)
    setup_compat_m2p_table_loop lay cfg env st emap
      ((emap - smap) / shl64 1 (L2_PAGETABLE_SHIFT - 2) + 1) smap { r with ret := 0 }

/-- The state of the loop of `setup_m2p_table`: the run so far, the counter
`i`, the frame of the L2 table that `l2_ro_mpt` maps (`none` for `NULL`), and
whether the loop was left through `goto error`. -/
structure M2PLoop where
  run : HotaddRun
  l2_ro_mpt : Option Nat
  error : Bool

/-- The loop of `setup_m2p_table` (source lines 422 to 488): `l3_ro_mpt` is
the frame of the L3 table of the read-only M2P window. -/
def setup_m2p_table_loop (lay : Layout) (cfg : Config) (env : MmEnv) (st : State Mach)
    (l3_ro_mpt emap : Nat) : Nat → Nat → Option Nat → HotaddRun → M2PLoop
  | 0, _, l2_ro_mpt, r => { run := r, l2_ro_mpt := l2_ro_mpt, error := false }
  | fuel + 1, i, l2_ro_mpt, r =>
    if i < emap then
      let l2_ro_mpt :=
        if add64 lay.RO_MPT_VIRT_START (mul64 i 8) &&& (shl64 1 L3_PAGETABLE_SHIFT - 1) ≠ 0
        then none  -- UNMAP_DOMAIN_PAGE(l2_ro_mpt);
        else l2_ro_mpt
      if m2p_mapped lay r.mach i = M2P_1G_MAPPED then
        setup_m2p_table_loop lay cfg env st l3_ro_mpt emap fuel
          (add64 (i &&& not64 (shl64 1 (L3_PAGETABLE_SHIFT - 3) - 1))
            (shl64 1 (L3_PAGETABLE_SHIFT - 3))) l2_ro_mpt r
      else if m2p_mapped lay r.mach i = M2P_2M_MAPPED then
        setup_m2p_table_loop lay cfg env st l3_ro_mpt emap fuel
          (add64 (i &&& not64 (shl64 1 (L2_PAGETABLE_SHIFT - 3) - 1))
            (shl64 1 (L2_PAGETABLE_SHIFT - 3))) l2_ro_mpt r
      else
        let next := add64 i (shl64 1 (L2_PAGETABLE_SHIFT - 3))
        let va := add64 lay.RO_MPT_VIRT_START (mul64 i 8)
        if m2p_chunk_probe cfg env st (ISOLATE_LSB cfg.sizeof_page_info / 8) i then
          let a := alloc_hotadd_mfn r.info
          let mfn := a.1
          let rwva := add64 lay.RDWR_MPT_VIRT_START (mul64 i 8)
          let mp := env.map_pages_to_xen r.mach rwva mfn (shl64 1 PAGETABLE_ORDER)
            cfg.PAGE_HYPERVISOR
          let trace := r.trace ++ [PtEvent.alloc_hotadd_mfn mfn,
            PtEvent.map_pages_to_xen rwva mfn (shl64 1 PAGETABLE_ORDER) cfg.PAGE_HYPERVISOR]
          if mp.1 ≠ 0 then
            { run := { ret := mp.1, info := a.2.1, mach := mp.2,
                       asserts := r.asserts && a.2.2, trace := trace },
              l2_ro_mpt := l2_ro_mpt, error := true }
          else
            -- Fill with INVALID_M2P_ENTRY.
            let m := { mp.2 with
              machine_to_phys_mapping :=
                array_fill mp.2.machine_to_phys_mapping i (shl64 1 L2_PAGETABLE_SHIFT / 8)
                  INVALID_M2P_ENTRY }
            let trace := trace ++ [PtEvent.memset rwva 0xFF (shl64 1 L2_PAGETABLE_SHIFT)]
            let l3e := m.pt l3_ro_mpt (l3_table_offset va)
            let ok := r.asserts && a.2.2 && decide (l3e.flags &&& _PAGE_PSE = 0)
            let e : pte := { pfn := mfn, flags := _PAGE_PSE ||| _PAGE_USER ||| _PAGE_PRESENT }
            match l2_ro_mpt with
            | some l2 =>
              -- nothing
              setup_m2p_table_loop lay cfg env st l3_ro_mpt emap fuel next (some l2)
                { ret := mp.1, info := a.2.1,
                  mach := { m with pt := pte_write m.pt l2 (l2_table_offset va) e },
                  asserts := ok,
                  trace := trace ++ [PtEvent.l2e_write l2 (l2_table_offset va) e] }
            | none =>
              if l3e.flags &&& _PAGE_PRESENT ≠ 0 then
                setup_m2p_table_loop lay cfg env st l3_ro_mpt emap fuel next (some l3e.pfn)
                  { ret := mp.1, info := a.2.1,
                    mach := { m with pt := pte_write m.pt l3e.pfn (l2_table_offset va) e },
                    asserts := ok,
                    trace := trace ++ [PtEvent.l2e_write l3e.pfn (l2_table_offset va) e] }
              else
                let al := env.alloc_mapped_pagetable m
                match al.1 with
                | none =>
                  { run := { ret := -ENOMEM, info := a.2.1, mach := al.2, asserts := ok,
                             trace := trace },
                    l2_ro_mpt := none, error := true }
                | some l2 =>
                  let l3e_new : pte :=
                    { pfn := l2, flags := lay.PAGE_HYPERVISOR_RO ||| _PAGE_USER }
                  let pt := pte_write al.2.pt l3_ro_mpt (l3_table_offset va) l3e_new
                  setup_m2p_table_loop lay cfg env st l3_ro_mpt emap fuel next (some l2)
                    { ret := mp.1, info := a.2.1,
                      mach := { al.2 with pt := pte_write pt l2 (l2_table_offset va) e },
                      asserts := ok,
                      trace := trace ++
                        [PtEvent.l3e_write l3_ro_mpt (l3_table_offset va) l3e_new,
                         PtEvent.l2e_write l2 (l2_table_offset va) e] }
        else
          setup_m2p_table_loop lay cfg env st l3_ro_mpt emap fuel next l2_ro_mpt r
    else { run := r, l2_ro_mpt := l2_ro_mpt, error := false }

/-- The function `setup_m2p_table(info)`, reading the globals of `st`. -/
def setup_m2p_table (lay : Layout) (cfg : Config) (env : MmEnv) (st : State Mach)
    (info : mem_hotadd_info) : HotaddRun :=
  let l4e := st.mach.idle_pg_table (l4_table_offset lay.RO_MPT_VIRT_START)
  let l3_ro_mpt := l4e.pfn
  let smap := info.spfn &&& not64 (shl64 1 (L2_PAGETABLE_SHIFT - 3) - 1)
  let emap := add64 info.epfn (shl64 1 (L2_PAGETABLE_SHIFT - 3) - 1) &&&
    not64 (shl64 1 (L2_PAGETABLE_SHIFT - 3) - 1)
  let l := setup_m2p_table_loop lay cfg env st l3_ro_mpt emap
    ((emap - smap) / shl64 1 (L2_PAGETABLE_SHIFT - 3) + 1) smap none
    { ret := 0, info := info, mach := st.mach,
      asserts := decide (l4e.flags &&& _PAGE_PRESENT ≠ 0), trace := [] }
  if l.error then l.run
  else setup_compat_m2p_table lay cfg env st l.run

/-- The address `pdx_to_page(pdx)`, that is `frame_table + pdx`. -/
def pdx_to_page (lay : Layout) (cfg : Config) (pdx : Nat) : Nat :=
  add64 lay.FRAMETABLE_VIRT_START (mul64 pdx cfg.sizeof_page_info)

/-- The address `mfn_to_page(mfn)`. -/
def mfn_to_page (lay : Layout) (cfg : Config) (mfn : Nat) : Nat :=
  pdx_to_page lay cfg (cfg.pfn_to_pdx mfn)

/-- The loop of `setup_frametable_chunk` (source lines 811 to 817) from the
address `s`: the address reached and the run. -/
def setup_frametable_chunk_loop (cfg : Config) (env : MmEnv) (e : Nat) :
    Nat → Nat → HotaddRun → Nat × HotaddRun
  | 0, s, r => (s, r)
  | fuel + 1, s, r =>
    if s < e then
      let a := alloc_hotadd_mfn r.info
      let mp := env.map_pages_to_xen r.mach s a.1 (shl64 1 PAGETABLE_ORDER) cfg.PAGE_HYPERVISOR
      let r : HotaddRun :=
        { ret := mp.1, info := a.2.1, mach := mp.2, asserts := r.asserts && a.2.2,
          trace := r.trace ++ [PtEvent.alloc_hotadd_mfn a.1,
            PtEvent.map_pages_to_xen s a.1 (shl64 1 PAGETABLE_ORDER) cfg.PAGE_HYPERVISOR] }
      if mp.1 ≠ 0 then (s, r)
      else setup_frametable_chunk_loop cfg env e fuel (add64 s (shl64 1 L2_PAGETABLE_SHIFT)) r
    else (s, r)

/-- The function `setup_frametable_chunk(start, end, info)`, continuing the
run `r`. -/
def setup_frametable_chunk (cfg : Config) (env : MmEnv) (start e : Nat) (r : HotaddRun) :
    HotaddRun :=
  let ok := decide (start &&& (shl64 1 L2_PAGETABLE_SHIFT - 1) = 0) &&
    decide (e &&& (shl64 1 L2_PAGETABLE_SHIFT - 1) = 0)
  let l := setup_frametable_chunk_loop cfg env e
    ((e - start) / shl64 1 L2_PAGETABLE_SHIFT + 1) start
    { r with ret := 0, asserts := r.asserts && ok,
             trace := r.trace ++ [PtEvent.setup_frametable_chunk start e] }
  if l.2.ret ≠ 0 then l.2
  else { l.2 with ret := 0,
                  trace := l.2.trace ++ [PtEvent.memset start 0xFF (sub64 l.1 start)] }

/-- The loop of `extend_frame_table` (source lines 845 to 858) from the value
`cidx`. -/
def extend_frame_table_loop (lay : Layout) (cfg : Config) (env : MmEnv) (st : State Mach)
    (eidx : Nat) : Nat → Nat → HotaddRun → HotaddRun
  | 0, _, r => r
  | fuel + 1, cidx, r =>
    if cidx < eidx then
      let nidx := find_next_bit st.pdx_group_valid eidx cidx
      let nidx := if nidx ≥ eidx then eidx else nidx
      let r := setup_frametable_chunk cfg env
        (pdx_to_page lay cfg (mul64 cidx cfg.PDX_GROUP_COUNT))
        (pdx_to_page lay cfg (mul64 nidx cfg.PDX_GROUP_COUNT)) r
      if r.ret ≠ 0 then r
      else extend_frame_table_loop lay cfg env st eidx fuel
        (find_next_zero_bit st.pdx_group_valid eidx nidx) r
    else r

/-- The function `extend_frame_table(info)`, reading the globals of `st`. -/
def extend_frame_table (lay : Layout) (cfg : Config) (env : MmEnv) (st : State Mach)
    (info : mem_hotadd_info) : HotaddRun :=
  let spfn := info.spfn
  let epfn := info.epfn
  let eidx := sub64 (add64 (cfg.pfn_to_pdx epfn) cfg.PDX_GROUP_COUNT) 1 / cfg.PDX_GROUP_COUNT
  let cidx := cfg.pfn_to_pdx spfn / cfg.PDX_GROUP_COUNT
  let ok := decide (cfg.pfn_to_pdx epfn ≤ env.directmap_frames) &&
    decide (cfg.pfn_to_pdx epfn ≤ cfg.FRAMETABLE_NR)
  let cidx :=
    if test_bit cidx st.pdx_group_valid then find_next_zero_bit st.pdx_group_valid eidx cidx
    else cidx
  let r : HotaddRun := { ret := 0, info := info, mach := st.mach, asserts := ok, trace := [] }
  if cidx ≥ eidx then r
  else
    let l := extend_frame_table_loop lay cfg env st eidx (eidx - cidx + 1) cidx r
    if l.ret ≠ 0 then l
    else { l with ret := 0,
                  trace := l.trace ++ [PtEvent.memset (mfn_to_page lay cfg spfn) 0
                    (sub64 (mfn_to_page lay cfg epfn) (mfn_to_page lay cfg spfn))] }

/-- The callees of `memory_add` on the machine: `extend_frame_table` and
`setup_m2p_table` are those of this unit and `map_pages_to_xen` is that of the
environment; the others are those of `base`. -/
def hotadd_ops (lay : Layout) (cfg : Config) (env : MmEnv) (base : Ops Mach) : Ops Mach :=
  { base with
    map_pages_to_xen := env.map_pages_to_xen,
    extend_frame_table := fun st info =>
      let r := extend_frame_table lay cfg env st info
      (r.ret, r.info, r.mach),
    setup_m2p_table := fun st info =>
      let r := setup_m2p_table lay cfg env st info
      (r.ret, r.info, r.mach) }

/-! ## A machine with 4 GiB of memory and its page tables -/

/-- An environment for runs by hand.  A frame is valid when it is below
`max_page` and its pdx group has frame-table backing; `map_pages_to_xen`
succeeds, and the mappings it makes (direct map, frame table, writable M2P
windows) are not among the tables that the machine holds, nor are those that
`destroy_xen_mappings` removes; `alloc_mapped_pagetable` hands out frame
`0x2000`, cleared; the direct map covers `2 ^ 32` frames. -/
def env0 : MmEnv where
  mfn_valid := fun max_page pdx_group_valid mfn =>
    decide (mfn < max_page) && pdx_group_valid (cfg0.pfn_to_pdx mfn / cfg0.PDX_GROUP_COUNT)
  map_pages_to_xen := fun m _ _ _ _ => (0, m)
  alloc_mapped_pagetable := fun m =>
    (some 0x2000, { m with pt := fun f i => if f = 0x2000 then pte_empty else m.pt f i })
  directmap_frames := 2 ^ 32
  destroy_xen_mappings := fun m _ _ => m

/-- The page tables of a machine with 4 GiB of memory after boot.  Root
entry 256 names the L3 table of the read-only M2P window, in frame `0x1000`;
its entry 0 names the L2 table in frame `0x1001`, whose entries 0 to 3 map
the four 2 MiB chunks of the M2P table (frames `0x400`, `0x600`, `0x800`,
`0xa00`), one chunk for `2 ^ 18` frames of memory.  The compat L2 table maps
the two chunks of the compat M2P table. -/
def mach_4G : Mach where
  idle_pg_table := fun i =>
    if i = 256 then { pfn := 0x1000, flags := _PAGE_PRESENT ||| _PAGE_USER } else pte_empty
  pt := fun f i =>
    if f = 0x1000 ∧ i = 0 then { pfn := 0x1001, flags := _PAGE_PRESENT ||| _PAGE_USER }
    else if f = 0x1001 ∧ i < 4 then
      { pfn := 0x400 + i * 0x200, flags := _PAGE_PSE ||| _PAGE_USER ||| _PAGE_PRESENT }
    else pte_empty
  compat_idle_pg_table_l2 := fun i =>
    if i < 2 then { pfn := 0xc00 + i * 0x200, flags := _PAGE_PSE ||| _PAGE_PRESENT }
    else pte_empty
  machine_to_phys_mapping := fun _ => INVALID_M2P_ENTRY
  compat_machine_to_phys_mapping := fun _ => 2 ^ 32 - 1
  machine_to_phys_mapping_valid := true
  opt_pv32 := true
  page_owner := fun _ => none
  dom_cow := none
  nr_saved_mfns := 0
  nr_shared_mfns := 0

/-- The machine with 4 GiB of memory: the globals of `st_4G` with the page
tables of `mach_4G`. -/
def st_4G_mach : State Mach where
  max_page := 0x100000
  total_pages := 0x100000
  max_pdx := 0x100000
  pdx_group_valid := fun i => decide (i < 16)
  node_data := fun n =>
    if n = 0 then { node_start_pfn := 0, node_spanned_pages := 0x100000,
                    node_present_pages := 0x100000 }
    else { node_start_pfn := 0, node_spanned_pages := 0, node_present_pages := 0 }
  node_online_map := fun n => decide (n = 0)
  mach := mach_4G

/-- The callees of `memory_add` that are not modelled further, for runs by
hand: the proximity domain is node 0, the I/O translation tables need no
synchronisation, and the calls that write neither an entry of the read-only
M2P window nor a global leave the machine as it is. -/
def base_ops : Ops Mach where
  setup_node := fun _ => 0
  valid_numa_range := fun _ _ _ => true
  map_pages_to_xen := fun m _ _ _ _ => (0, m)
  destroy_xen_mappings := fun m _ _ => m
  extend_frame_table := fun st info => (0, info, st.mach)
  cleanup_frame_table := fun st _ => st.mach
  setup_m2p_table := fun st info => (0, info, st.mach)
  destroy_m2p_mapping := fun st _ => st.mach
  is_iommu_enabled := fun _ => false
  iommu_use_hap_pt := fun _ => false
  need_iommu_pt_sync := fun _ => false
  iommu_legacy_map := fun m _ _ => (0, m)
  iommu_legacy_unmap := fun m _ => (0, m)
  share_hotadd_m2p_table := fun st _ => st.mach
  transfer_pages_to_heap := fun st _ => st.mach

/-! ## Undoing the M2P and frame-table extension -/

/-- The function `hotadd_mem_valid(pfn, info)`. -/
def hotadd_mem_valid (pfn : Nat) (info : mem_hotadd_info) : Bool :=
  decide (pfn < info.epfn) && decide (pfn ≥ info.spfn)

/-- The loop of `destroy_compat_m2p_mapping` (source lines 243 to 262) from
the value `i`. -/
def destroy_compat_m2p_mapping_loop (lay : Layout) (env : MmEnv) (emap : Nat) :
    Nat → Nat → HotaddRun → HotaddRun
  | 0, _, r => r
  | fuel + 1, i, r =>
    if i < emap then
      -- unsigned int off = i * sizeof(*compat_machine_to_phys_mapping);
      let off := (i * 4) % 2 ^ 32
      let idx := l2_table_offset off
      let l2e := r.mach.compat_idle_pg_table_l2 idx
      let next := add64 i (shl64 1 (L2_PAGETABLE_SHIFT - 2))
      if l2e.flags &&& _PAGE_PRESENT ≠ 0 ∧ hotadd_mem_valid l2e.pfn r.info = true then
        let rwva := add64 lay.RDWR_COMPAT_MPT_VIRT_START off
        let m := env.destroy_xen_mappings r.mach rwva (add64 rwva (shl64 1 L2_PAGETABLE_SHIFT))
        let m := { m with
          compat_idle_pg_table_l2 := fun k =>
            if k = idx then pte_empty else m.compat_idle_pg_table_l2 k }
        destroy_compat_m2p_mapping_loop lay env emap fuel next
          { r with mach := m,
                   trace := r.trace ++
                     [PtEvent.destroy_xen_mappings rwva (add64 rwva (shl64 1 L2_PAGETABLE_SHIFT)),
                      PtEvent.compat_l2e_write idx pte_empty] }
      else destroy_compat_m2p_mapping_loop lay env emap fuel next r
    else r

/-- The function `destroy_compat_m2p_mapping(info)`, continuing the run `r`. -/
def destroy_compat_m2p_mapping (lay : Layout) (cfg : Config) (env : MmEnv) (r : HotaddRun) :
    HotaddRun :=
  let smap := r.info.spfn
  let emap := r.info.spfn
  let window := (RDWR_COMPAT_MPT_VIRT_END lay cfg - lay.RDWR_COMPAT_MPT_VIRT_START) >>> 2
  if !r.mach.opt_pv32 || decide (smap > window) then r
  else
    let emap := if emap > window then window else emap
    destroy_compat_m2p_mapping_loop lay env emap
      ((emap - smap) / shl64 1 (L2_PAGETABLE_SHIFT - 2) + 1) smap r

/-- The loop of `destroy_m2p_mapping` (source lines 279 to 314) from the value
`i`: the value of `i` at the exit and the run.  `l3_ro_mpt` is the frame of
the L3 table of the read-only M2P window. -/
def destroy_m2p_mapping_loop (lay : Layout) (env : MmEnv) (l3_ro_mpt emap : Nat) :
    Nat → Nat → HotaddRun → Nat × HotaddRun
  | 0, i, r => (i, r)
  | fuel + 1, i, r =>
    if i < emap then
      let va := add64 lay.RO_MPT_VIRT_START (mul64 i 8)
      let rwva := add64 lay.RDWR_MPT_VIRT_START (mul64 i 8)
      let l3e := r.mach.pt l3_ro_mpt (l3_table_offset va)
      -- 1G mapping should not be created by mem hotadd
      if l3e.flags &&& _PAGE_PRESENT = 0 ∨ l3e.flags &&& _PAGE_PSE ≠ 0 then
        destroy_m2p_mapping_loop lay env l3_ro_mpt emap fuel
          (add64 (i &&& not64 (shl64 1 (L3_PAGETABLE_SHIFT - 3) - 1))
            (shl64 1 (L3_PAGETABLE_SHIFT - 3))) r
      else
        let next := add64 (i &&& not64 (shl64 1 (L2_PAGETABLE_SHIFT - 3) - 1))
          (shl64 1 (L2_PAGETABLE_SHIFT - 3))
        let l2e := r.mach.pt l3e.pfn (l2_table_offset va)
        if l2e.flags &&& _PAGE_PRESENT = 0 then
          destroy_m2p_mapping_loop lay env l3_ro_mpt emap fuel next r
        else if hotadd_mem_valid l2e.pfn r.info = true then
          let m := env.destroy_xen_mappings r.mach rwva (add64 rwva (shl64 1 L2_PAGETABLE_SHIFT))
          let m := { m with pt := pte_write m.pt l3e.pfn (l2_table_offset va) pte_empty }
          destroy_m2p_mapping_loop lay env l3_ro_mpt emap fuel next
            { r with mach := m,
                     trace := r.trace ++
                       [PtEvent.destroy_xen_mappings rwva
                          (add64 rwva (shl64 1 L2_PAGETABLE_SHIFT)),
                        PtEvent.l2e_write l3e.pfn (l2_table_offset va) pte_empty] }
        else destroy_m2p_mapping_loop lay env l3_ro_mpt emap fuel next r
    else (i, r)

/-- The fuel that the loop of `destroy_m2p_mapping` is given: it advances `i`
to the next multiple of `2 ^ 18` at least. -/
def destroy_m2p_mapping_fuel (info : mem_hotadd_info) : Nat :=
  (info.epfn - info.spfn) / shl64 1 (L2_PAGETABLE_SHIFT - 3) + 2

/-- The function `destroy_m2p_mapping(info)`, continuing the run `r`. -/
def destroy_m2p_mapping (lay : Layout) (cfg : Config) (env : MmEnv) (r : HotaddRun) :
    HotaddRun :=
  let l3_ro_mpt := (r.mach.idle_pg_table (l4_table_offset lay.RO_MPT_VIRT_START)).pfn
  let smap := r.info.spfn
  let emap := r.info.epfn
  -- No need to clean m2p structure existing before the hotplug
  let l := destroy_m2p_mapping_loop lay env l3_ro_mpt emap (destroy_m2p_mapping_fuel r.info)
    smap r
  let r := destroy_compat_m2p_mapping lay cfg env l.2
  -- Brute-Force flush all TLB
  { r with trace := r.trace ++ [PtEvent.flush_tlb_all] }

/-- The loop of `cleanup_frame_table` (source lines 762 to 794) from the
address `sva`: the value of `sva` at the exit and the run. -/
def cleanup_frame_table_loop (env : MmEnv) (eva : Nat) :
    Nat → Nat → HotaddRun → Nat × HotaddRun
  | 0, sva, r => (sva, r)
  | fuel + 1, sva, r =>
    if sva < eva then
      let l3e := r.mach.pt (r.mach.idle_pg_table (l4_table_offset sva)).pfn (l3_table_offset sva)
      if l3e.flags &&& _PAGE_PRESENT = 0 ∨ l3e.flags &&& _PAGE_PSE ≠ 0 then
        cleanup_frame_table_loop env eva fuel
          (add64 (sva &&& not64 (shl64 1 L3_PAGETABLE_SHIFT - 1)) (shl64 1 L3_PAGETABLE_SHIFT)) r
      else
        let l2e := r.mach.pt l3e.pfn (l2_table_offset sva)
        let ok := r.asserts && decide (l2e.flags &&& _PAGE_PRESENT ≠ 0)
        if l2e.flags &&& (_PAGE_PRESENT ||| _PAGE_PSE) = (_PAGE_PSE ||| _PAGE_PRESENT) then
          let s := sva &&& not64 (shl64 1 L2_PAGETABLE_SHIFT - 1)
          let next := add64 s (shl64 1 L2_PAGETABLE_SHIFT)
          if hotadd_mem_valid l2e.pfn r.info = true then
            let e := sub64 (add64 s (shl64 1 L2_PAGETABLE_SHIFT)) 1
            cleanup_frame_table_loop env eva fuel next
              { r with mach := env.destroy_xen_mappings r.mach s e, asserts := ok,
                       trace := r.trace ++ [PtEvent.destroy_xen_mappings s e] }
          else cleanup_frame_table_loop env eva fuel next { r with asserts := ok }
        else
          let l1e := r.mach.pt l2e.pfn (l1_table_offset sva)
          cleanup_frame_table_loop env eva fuel (add64 (sva &&& PAGE_MASK) PAGE_SIZE)
            { r with asserts := ok && decide (l1e.flags &&& _PAGE_PRESENT ≠ 0) }
    else (sva, r)

/-- The fuel that the loop of `cleanup_frame_table` is given: it advances
`sva` to the next multiple of `PAGE_SIZE` at least. -/
def cleanup_frame_table_fuel (sva eva : Nat) : Nat := (eva - sva) / PAGE_SIZE + 2

/-- The function `cleanup_frame_table(info)`, continuing the run `r`. -/
def cleanup_frame_table (lay : Layout) (cfg : Config) (env : MmEnv) (r : HotaddRun) :
    HotaddRun :=
  let sva := mfn_to_page lay cfg r.info.spfn
  let eva := mfn_to_page lay cfg r.info.epfn
  -- Intialize all page
  let r := { r with trace := r.trace ++ [PtEvent.memset sva 0xFF (sub64 eva sva)] }
  let l := cleanup_frame_table_loop env eva (cleanup_frame_table_fuel sva eva) sva r
  -- Brute-Force flush all TLB
  { l.2 with trace := l.2.trace ++ [PtEvent.flush_tlb_all] }

/-- The event removes a mapping: an `l2e_write` of an empty entry or a call
of `destroy_xen_mappings`. -/
def PtEvent.removes_mapping : PtEvent → Bool
  | PtEvent.l2e_write _ _ e => e == pte_empty
  | PtEvent.compat_l2e_write _ e => e == pte_empty
  | PtEvent.destroy_xen_mappings _ _ => true
  | _ => false

/-- Every removal of a mapping in the trace has a `flush_tlb_all` after it. -/
def flushed_after_unmap (trace : List PtEvent) : Prop :=
  ∀ pre e post, trace = pre ++ e :: post → e.removes_mapping = true →
    PtEvent.flush_tlb_all ∈ post

/-! ## `handle_memadd_fault` -/

/-- Constants that `handle_memadd_fault` takes from headers: they are
parameters of the development. -/
structure FaultEnv where
  /-- The value `EXCRET_fault_fixed`. -/
  EXCRET_fault_fixed : Int
  /-- The address `MACH2PHYS_COMPAT_VIRT_END`. -/
  MACH2PHYS_COMPAT_VIRT_END : Nat

/-- What `handle_memadd_fault` reads of the current domain: the predicate
`is_pv_32bit_domain(d)` and the macros `HYPERVISOR_COMPAT_VIRT_START(d)` and
`COMPAT_L2_PAGETABLE_FIRST_XEN_SLOT(d)`. -/
structure domain where
  is_pv_32bit_domain : Bool
  HYPERVISOR_COMPAT_VIRT_START : Nat
  COMPAT_L2_PAGETABLE_FIRST_XEN_SLOT : Nat
deriving DecidableEq, Repr

/-- What `handle_memadd_fault` leaves: the returned `int`, the machine, and
the calls made to map and unmap frames, in order. -/
structure FaultResult where
  ret : Int
  mach : Mach
  calls : List DomainPageCall

/-- The index `idle_index` that `handle_memadd_fault` computes for `addr`
(source lines 1098 to 1100). -/
def memadd_fault_idle_index (d : domain) (addr : Nat) : Nat :=
  sub64 (l2_table_offset addr) d.COMPAT_L2_PAGETABLE_FIRST_XEN_SLOT / 8

/-- The function `handle_memadd_fault(addr, regs)` for the current domain `d`,
with `cr3` the value of `read_cr3()`. -/
def handle_memadd_fault (fe : FaultEnv) (d : domain) (cr3 : Nat) (m : Mach) (addr : Nat) :
    FaultResult :=
  if !d.is_pv_32bit_domain then { ret := 0, mach := m, calls := [] }
  else if addr < d.HYPERVISOR_COMPAT_VIRT_START ∨ addr ≥ fe.MACH2PHYS_COMPAT_VIRT_END then
    { ret := 0, mach := m, calls := [] }
  else
    let mfn4 := cr3 >>> PAGE_SHIFT
    let l4e := m.pt mfn4 0
    if l4e.flags &&& _PAGE_PRESENT = 0 then
      { ret := 0, mach := m,
        calls := [DomainPageCall.map_domain_page mfn4, DomainPageCall.unmap_domain_page mfn4] }
    else
      let mfn3 := l4e.pfn
      -- We don't need get page type here since it is current CR3
      let l3e := m.pt mfn3 3
      if l3e.flags &&& _PAGE_PRESENT = 0 then
        { ret := 0, mach := m,
          calls := [DomainPageCall.map_domain_page mfn4, DomainPageCall.map_domain_page mfn3,
            DomainPageCall.unmap_domain_page mfn4, DomainPageCall.unmap_domain_page mfn3] }
      else
        let mfn2 := l3e.pfn
        let l2e := m.pt mfn2 (l2_table_offset addr)
        let calls := [DomainPageCall.map_domain_page mfn4, DomainPageCall.map_domain_page mfn3,
          DomainPageCall.map_domain_page mfn2, DomainPageCall.unmap_domain_page mfn4,
          DomainPageCall.unmap_domain_page mfn3, DomainPageCall.unmap_domain_page mfn2]
        if l2e.flags &&& _PAGE_PRESENT = 0 then { ret := 0, mach := m, calls := calls }
        else
          let idle_l2e := m.compat_idle_pg_table_l2 (memadd_fault_idle_index d addr)
          if idle_l2e.flags &&& _PAGE_PRESENT = 0 then { ret := 0, mach := m, calls := calls }
          else
            -- memcpy(&pl2e[l2_table_offset(addr)], &compat_idle_pg_table_l2[idle_index], ..)
            { ret := fe.EXCRET_fault_fixed,
              mach := { m with pt := pte_write m.pt mfn2 (l2_table_offset addr) idle_l2e },
              calls := calls }

/-- The entry of the L2 table of the guest that `handle_memadd_fault` reads
for `addr`: entry `l2_table_offset(addr)` of the table named by entry 3 of
the table named by entry 0 of the root table. -/
def memadd_fault_guest_l2e (cr3 : Nat) (m : Mach) (addr : Nat) : pte :=
  m.pt (m.pt (m.pt (cr3 >>> PAGE_SHIFT) 0).pfn 3).pfn (l2_table_offset addr)

/-- Constants for faults by hand: `EXCRET_fault_fixed` is 1 and the compat
M2P window of a guest ends at `0xffe00000`. -/
def fault_env : FaultEnv where
  EXCRET_fault_fixed := 1
  MACH2PHYS_COMPAT_VIRT_END := 0xffe00000

/-- A 32-bit PV domain whose compat M2P window starts at `0xf5800000`, which
is slot 428 of its L2 table. -/
def fault_domain : domain where
  is_pv_32bit_domain := true
  HYPERVISOR_COMPAT_VIRT_START := 0xf5800000
  COMPAT_L2_PAGETABLE_FIRST_XEN_SLOT := 428

/-- The machine with 4 GiB of memory and the page tables of a guest: the
root table in frame `0x3000`, whose entry 0 names the L3 table in frame
`0x3001`, whose entry 3 names the L2 table in frame `0x3002`; entry 428 of
that table is `guest_l2e`.  Entry 0 of the compat L2 table of Xen is present
(frame `0xc00`). -/
def fault_mach (guest_l2e : pte) : Mach :=
  { mach_4G with
    pt := fun f i =>
      if f = 0x3000 ∧ i = 0 then { pfn := 0x3001, flags := _PAGE_PRESENT ||| _PAGE_USER }
      else if f = 0x3001 ∧ i = 3 then { pfn := 0x3002, flags := _PAGE_PRESENT ||| _PAGE_USER }
      else if f = 0x3002 ∧ i = 428 then guest_l2e
      else mach_4G.pt f i }

/-! ## The mappings that `do_page_walk` makes -/

/-- The calls that map and unmap each of the frames in turn. -/
def scoped_mappings (tables : List Nat) : List DomainPageCall :=
  tables.flatMap fun f => [DomainPageCall.map_domain_page f, DomainPageCall.unmap_domain_page f]

/-- The number of mappings that the calls leave outstanding: the calls of
`map_domain_page` less those of `unmap_domain_page`. -/
def outstanding_mappings (calls : List DomainPageCall) : Int :=
  calls.foldl (fun n c =>
    match c with
    | DomainPageCall.map_domain_page _ => n + 1
    | DomainPageCall.unmap_domain_page _ => n - 1) 0

/-! ## Runs of the M2P extension on the machine with 4 GiB -/

/-- The globals at the call of `setup_m2p_table` in the hot-add of
`[spfn, epfn)` to the machine with 4 GiB of memory. -/
def st_hotadd (spfn epfn : Nat) : State Mach :=
  memory_add_set_counters cfg0 spfn epfn st_4G_mach

/-- The staging record at the call of `setup_m2p_table` in that hot-add, as
`extend_frame_table` leaves it. -/
def info_hotadd (spfn epfn : Nat) : mem_hotadd_info :=
  (extend_frame_table lay0 cfg0 env0 st_4G_mach
    { spfn := spfn, epfn := epfn, cur := spfn }).info

/-- The run of `setup_m2p_table` in that hot-add. -/
def setup_run_4G (spfn epfn : Nat) : HotaddRun :=
  setup_m2p_table lay0 cfg0 env0 (st_hotadd spfn epfn) (info_hotadd spfn epfn)

/-- Every 2 MiB chunk of the M2P table that holds an entry of `[spfn, epfn)`
is mapped: `m2p_mapped` at the first frame of the chunk returns
`M2P_2M_MAPPED` or `M2P_1G_MAPPED`. -/
def m2p_range_mapped (lay : Layout) (m : Mach) (info : mem_hotadd_info) : Prop :=
  ∀ j, j % 2 ^ 18 = 0 → info.spfn / 2 ^ 18 * 2 ^ 18 ≤ j → j < info.epfn →
    m2p_mapped lay m j = M2P_2M_MAPPED ∨ m2p_mapped lay m j = M2P_1G_MAPPED

/-- Every entry of the compat L2 table for a 2 MiB chunk of the compat M2P
table that holds an entry of `[spfn, epfn)` inside the compat window is
present. -/
def compat_range_present (lay : Layout) (cfg : Config) (m : Mach) (info : mem_hotadd_info) :
    Prop :=
  ∀ j, j % 2 ^ 19 = 0 → info.spfn / 2 ^ 19 * 2 ^ 19 ≤ j →
    j < min info.epfn
      ((RDWR_COMPAT_MPT_VIRT_END lay cfg - lay.RDWR_COMPAT_MPT_VIRT_START) >>> 2) →
    (m.compat_idle_pg_table_l2 (l2_table_offset ((j * 4) % 2 ^ 32))).flags &&& _PAGE_PRESENT ≠ 0

/-! ## Successive calls of `alloc_hotadd_mfn` -/

/-- The frames that `n` successive calls of `alloc_hotadd_mfn` return, first
call first, the staging record after the last call, and whether the `ASSERT`
held in every call. -/
def alloc_hotadd_mfn_calls : Nat → mem_hotadd_info → List Nat × mem_hotadd_info × Bool
  | 0, info => ([], info, true)
  | n + 1, info =>
    let a := alloc_hotadd_mfn info
    let r := alloc_hotadd_mfn_calls n a.2.1
    (a.1 :: r.1, r.2.1, a.2.2 && r.2.2)

/-! ## 1 GiB superpages in `XENMEM_machphys_mfn_list` -/

/-- The L3 entry that the loop of `XENMEM_machphys_mfn_list` reads for the
M2P address `v`: `l3e_from_l4e(idle_pg_table[l4_table_offset(v)],
l3_table_offset(v))`. -/
def machphys_slot_l3e (m : Mach) (v : Nat) : pte :=
  m.pt (m.idle_pg_table (l4_table_offset v)).pfn (l3_table_offset v)

/-- The 2 MiB M2P slot at address `v` lies under a present 1 GiB superpage:
the L3 entry has `_PAGE_PRESENT` and `_PAGE_PSE`. -/
def machphys_slot_superpage (m : Mach) (v : Nat) : Prop :=
  (machphys_slot_l3e m v).flags &&& _PAGE_PRESENT ≠ 0 ∧
    (machphys_slot_l3e m v).flags &&& _PAGE_PSE ≠ 0

instance (m : Mach) (v : Nat) : Decidable (machphys_slot_superpage m v) := by
  unfold machphys_slot_superpage
  exact inferInstance

/-- A machine whose writable M2P window is mapped by one 1 GiB superpage on
the frames from `base`: the L3 table in frame `0x1002` (root entry 261) has
entry 0 present with `_PAGE_PSE`. -/
def superpage_mach (base : Nat) : Mach :=
  { export_mach [] with
    pt := fun f i =>
      if f = 0x1002 ∧ i = 0 then { pfn := base, flags := _PAGE_PRESENT ||| _PAGE_PSE }
      else pte_empty }

/-! ## The compat L2 entry that `handle_memadd_fault` consults -/

/-- The machine of `fault_mach` with entry `idx` of the L2 table of the
guest (frame `0x3002`) set to `guest_l2e`; entries 0 and 1 of the compat L2
table of Xen are present, on frames `0xc00` and `0xe00`. -/
def fault_mach_at (idx : Nat) (guest_l2e : pte) : Mach :=
  { fault_mach pte_empty with
    pt := pte_write (fault_mach pte_empty).pt 0x3002 idx guest_l2e }

/-! ## `transfer_pages_to_heap` -/

/-- What `transfer_pages_to_heap` writes: the field `count_info` of the
`struct page_info` at an address, and the calls
`init_domheap_pages(ps, pe)` made, in order. -/
structure HeapState where
  count_info : Nat → Nat
  init_domheap_pages : List (Nat × Nat)

/-- The loop of `transfer_pages_to_heap` (source lines 1151 to 1155) from the
value `i`; `inuse` is the value `PGC_state_inuse`, taken from `mm.h`. -/
def transfer_pages_to_heap_loop (lay : Layout) (cfg : Config) (inuse cur : Nat) :
    Nat → Nat → (Nat → Nat) → (Nat → Nat)
  | 0, _, c => c
  | fuel + 1, i, c =>
    if i < cur then
      transfer_pages_to_heap_loop lay cfg inuse cur fuel (add64 i 1)
        (array_set c (mfn_to_page lay cfg i) inuse)
    else c

/-- The function `transfer_pages_to_heap(info)`; `inuse` is the value
`PGC_state_inuse`. -/
def transfer_pages_to_heap (lay : Layout) (cfg : Config) (inuse : Nat)
    (info : mem_hotadd_info) (h : HeapState) : Int × HeapState :=
  -- Mark the allocated page before put free pages to buddy allocator
  -- to avoid merge in free_heap_pages
  (0, { count_info := transfer_pages_to_heap_loop lay cfg inuse info.cur
          (info.cur - info.spfn) info.spfn h.count_info,
        init_domheap_pages := h.init_domheap_pages ++
          [(pfn_to_paddr info.cur, pfn_to_paddr info.epfn)] })

/-- Modelled from the spec: the frames that a call
`init_domheap_pages(ps, pe)` returns to the general allocator, the frames
that lie wholly in the bytes `[ps, pe)`: from `PFN_UP(ps)` to
`PFN_DOWN(pe)`, the second excluded. -/
def init_domheap_frames (ps pe : Nat) : Nat × Nat :=
  ((ps + (2 ^ 12 - 1)) / 2 ^ 12, pe / 2 ^ 12)

/-! ## Loading a kernel image on Arm: `arch/arm/kernel.c`

Physical addresses, `paddr_t`, are 64-bit integers and wrap as `unsigned
long` does. -/

/-- Modelled from the spec: the macro `MB(n)`, `n` mebibytes. -/
def MB (n : Nat) : Nat := n * 2 ^ 20

/-- Modelled from the spec: the macro `ROUNDUP(x, a)` for a power of two
`a`, that is `((x) + (a) - 1) & ~((a) - 1)`, on `paddr_t`. -/
def ROUNDUP (x a : Nat) : Nat := sub64 (add64 x a) 1 &&& not64 (a - 1)

/-- The first bank of memory of the domain, `mem->bank[0]`. -/
structure membank where
  start : Nat
  size : Nat
deriving DecidableEq, Repr

/-- The function `place_modules(info, kernbase, kernend)`: the values that it
stores in `info->dtb_paddr` and `info->initrd_paddr`, or `none` when it ends
in `panic`.  `initrd_size` is the size of `info->initrd_bootmodule`, `none`
for `NULL`; `fdt_totalsize` is `fdt_totalsize(info->fdt)`; `bank0` is bank 0
of `kernel_info_get_mem(info)`. -/
def place_modules (initrd_size : Option Nat) (fdt_totalsize : Nat) (bank0 : membank)
    (kernbase kernend : Nat) : Option (Nat × Nat) :=
  -- Align DTB and initrd size to 2Mb. Linux only requires 4 byte alignment
  let initrd_len := ROUNDUP (match initrd_size with | some s => s | none => 0) (MB 2)
  let dtb_len := ROUNDUP fdt_totalsize (MB 2)
  let modsize := add64 initrd_len dtb_len
  -- Convenient
  let rambase := bank0.start
  let ramsize := bank0.size
  let ramend := add64 rambase ramsize
  let kernsize := sub64 (ROUNDUP kernend (MB 2)) kernbase
  let ram128mb := add64 rambase (MB 128)
  if add64 modsize kernsize > ramsize then none
  else if ramend ≥ add64 ram128mb modsize ∧ kernend < ram128mb then
    some (ram128mb, add64 ram128mb dtb_len)
  else if sub64 ramend modsize > ROUNDUP kernend (MB 2) then
    some (sub64 ramend modsize, add64 (sub64 ramend modsize) dtb_len)
  else if sub64 kernbase rambase > modsize then
    some (sub64 kernbase modsize, add64 (sub64 kernbase modsize) dtb_len)
  else none

/-- Physical memory as `copy_from_paddr` reads it: the byte at an address. -/
abbrev PhysMem := Nat → Nat

/-- The 32-bit word at `pa` as a little-endian CPU loads it. -/
def read_le32 (mem : PhysMem) (pa : Nat) : Nat :=
  mem pa % 256 + mem (add64 pa 1) % 256 * 2 ^ 8 + mem (add64 pa 2) % 256 * 2 ^ 16 +
    mem (add64 pa 3) % 256 * 2 ^ 24

/-- The 32-bit word at `pa` after `be32_to_cpu`: the first byte is the most
significant. -/
def read_be32 (mem : PhysMem) (pa : Nat) : Nat :=
  mem pa % 256 * 2 ^ 24 + mem (add64 pa 1) % 256 * 2 ^ 16 + mem (add64 pa 2) % 256 * 2 ^ 8 +
    mem (add64 pa 3) % 256

/-- The value of `ZIMAGE32_MAGIC_OFFSET`. -/
def ZIMAGE32_MAGIC_OFFSET : Nat := 0x24

/-- The value of `ZIMAGE32_START_OFFSET`. -/
def ZIMAGE32_START_OFFSET : Nat := 0x28

/-- The value of `ZIMAGE32_END_OFFSET`. -/
def ZIMAGE32_END_OFFSET : Nat := 0x2c

/-- The value of `ZIMAGE32_HEADER_LEN`. -/
def ZIMAGE32_HEADER_LEN : Nat := 0x30

/-- The value of `ZIMAGE32_MAGIC`. -/
def ZIMAGE32_MAGIC : Nat := 0x016f2818

/-- The value of `DTB_MAGIC`. -/
def DTB_MAGIC : Nat := 0xd00dfeed

/-- The fields of `info->zimage` that `kernel_zimage32_probe` sets. -/
structure zimage_info where
  kernel_addr : Nat
  start : Nat
  len : Nat
deriving DecidableEq, Repr

/-- The function `kernel_zimage32_probe(info, addr, size)`: the returned
`int` and the fields of `info->zimage` that it sets when it returns 0.  The
header words `start` and `end` are `uint32_t` and wrap at `2 ^ 32`. -/
def kernel_zimage32_probe (mem : PhysMem) (addr size : Nat) : Int × Option zimage_info :=
  if size < ZIMAGE32_HEADER_LEN then (-EINVAL, none)
  else if read_le32 mem (add64 addr ZIMAGE32_MAGIC_OFFSET) ≠ ZIMAGE32_MAGIC then
    (-EINVAL, none)
  else
    let start := read_le32 mem (add64 addr ZIMAGE32_START_OFFSET)
    let e := read_le32 mem (add64 addr ZIMAGE32_END_OFFSET)
    if (e + (2 ^ 32 - start)) % 2 ^ 32 > size then (-EINVAL, none)
    else
      -- Check for an appended DTB.
      let dtb_hdr := sub64 (add64 addr e) start
      if add64 dtb_hdr 8 ≤ size ∧ read_be32 mem dtb_hdr = DTB_MAGIC then
        let e := (e + read_be32 mem (add64 dtb_hdr 4)) % 2 ^ 32
        if e > add64 addr size then (-EINVAL, none)
        else
          (0, some { kernel_addr := addr, start := start,
                     len := (e + (2 ^ 32 - start)) % 2 ^ 32 })
      else
        (0, some { kernel_addr := addr, start := start,
                   len := (e + (2 ^ 32 - start)) % 2 ^ 32 })

/-- The bytes that `kernel_zimage_load` maps with `ioremap_wc(paddr, len)`
and copies to the guest: from `info->zimage.kernel_addr`, `info->zimage.len`
of them; the first address and the address after the last. -/
def kernel_zimage_load_source (z : zimage_info) : Nat × Nat :=
  (z.kernel_addr, add64 z.kernel_addr z.len)

/-- Physical memory that holds the little-endian 32-bit words `ws`, each at
its address, and zero elsewhere. -/
def mem_of_words (ws : List (Nat × Nat)) : PhysMem :=
  fun pa =>
    match ws.find? (fun w => decide (w.1 ≤ pa ∧ pa < w.1 + 4)) with
    | some w => (w.2 >>> (8 * (pa - w.1))) % 256
    | none => 0

/-- A boot module of `0x10000` bytes at the address `0x1000`: a zImage header
with `start = 0` and `end = 0x100`, and at offset `0x100` the header of a
device tree whose `total_size` is `0x10f00` (both words of that header are
big-endian). -/
def zimage_mem : PhysMem :=
  mem_of_words [(0x1024, 0x016f2818), (0x1028, 0), (0x102c, 0x100),
    (0x1100, 0xedfe0dd0), (0x1104, 0x000f0100)]

/-! ## The chunks of `extend_frame_table` -/

/-- The calls `setup_frametable_chunk(start, end, info)` of a trace, in
order: the arguments `start` and `end`. -/
def frametable_chunk_calls (trace : List PtEvent) : List (Nat × Nat) :=
  trace.filterMap fun ev =>
    match ev with
    | PtEvent.setup_frametable_chunk s e => some (s, e)
    | _ => none

/-- The values of `cidx` and `nidx` in the turns of the loop of
`extend_frame_table` (source lines 845 to 858) from the value `cidx`, when no
call of `setup_frametable_chunk` fails. -/
def extend_frame_table_chunks (bm : Bitmap) (eidx : Nat) : Nat → Nat → List (Nat × Nat)
  | 0, _ => []
  | fuel + 1, cidx =>
    if cidx < eidx then
      let nidx := find_next_bit bm eidx cidx
      let nidx := if nidx ≥ eidx then eidx else nidx
      (cidx, nidx) :: extend_frame_table_chunks bm eidx fuel (find_next_zero_bit bm eidx nidx)
    else []

/-- The value of `cidx` at the loop of `extend_frame_table` (source lines
839 and 840). -/
def extend_frame_table_start (bm : Bitmap) (cidx eidx : Nat) : Nat :=
  if test_bit cidx bm then find_next_zero_bit bm eidx cidx else cidx

/-- The groups `[c, n)` are a maximal run of groups of `[lo, hi)` whose bit
is clear: every bit of the run is clear, the group before it is set or
outside `[lo, hi)`, and so is the group after it. -/
def maximal_clear_run (bm : Bitmap) (lo hi c n : Nat) : Prop :=
  lo ≤ c ∧ c < n ∧ n ≤ hi ∧ (∀ g, c ≤ g → g < n → bm g = false) ∧
    (c = lo ∨ bm (c - 1) = true) ∧ (n = hi ∨ bm n = true)

/-! ## The scratch frames that a hot-add takes from its own range -/

/-- The staging record of the run `r` is one of the range `[spfn, epfn)` with
the cursor at or above `spfn`, and every block that a call of
`alloc_hotadd_mfn` of the trace returned lies between `spfn` and the
cursor. -/
def staging_inv (spfn epfn : Nat) (r : HotaddRun) : Prop :=
  r.info.spfn = spfn ∧ r.info.epfn = epfn ∧ spfn ≤ r.info.cur ∧
    ∀ mfn, PtEvent.alloc_hotadd_mfn mfn ∈ r.trace → spfn ≤ mfn ∧ mfn + 512 ≤ r.info.cur

/-- The run `r2` follows the run `r` by steps without a call of
`alloc_hotadd_mfn`, or by steps with one call. -/
def staging_step (r r2 : HotaddRun) : Prop :=
  (r2.info = r.info ∧
    ∀ mfn, PtEvent.alloc_hotadd_mfn mfn ∈ r2.trace → PtEvent.alloc_hotadd_mfn mfn ∈ r.trace) ∨
  (r2.info = (alloc_hotadd_mfn r.info).2.1 ∧
    ∀ mfn, PtEvent.alloc_hotadd_mfn mfn ∈ r2.trace →
      PtEvent.alloc_hotadd_mfn mfn ∈ r.trace ∨ mfn = r.info.cur)

/-- The run of `extend_frame_table` in `memory_add(spfn, epfn, pxm)`: the
staging record starts with `cur = spfn` (source lines 1285 to 1289). -/
def hotadd_frametable_run (lay : Layout) (cfg : Config) (env : MmEnv) (st : State Mach)
    (spfn epfn : Nat) : HotaddRun :=
  extend_frame_table lay cfg env st { spfn := spfn, epfn := epfn, cur := spfn }

/-- The run of `setup_m2p_table` in `memory_add(spfn, epfn, pxm)`, on the
staging record that `extend_frame_table` left; `st2` holds the globals and the
machine at the call. -/
def hotadd_m2p_run (lay : Layout) (cfg : Config) (env : MmEnv) (st st2 : State Mach)
    (spfn epfn : Nat) : HotaddRun :=
  setup_m2p_table lay cfg env st2 (hotadd_frametable_run lay cfg env st spfn epfn).info

/-! ## The L2 entries that `setup_m2p_table` writes -/

/-- The writes of L2 entries of the read-only M2P window in a trace, in
order: the frame of the table and the index. -/
def l2e_writes (trace : List PtEvent) : List (Nat × Nat) :=
  trace.filterMap fun ev =>
    match ev with
    | PtEvent.l2e_write table idx _ => some (table, idx)
    | _ => none

/-- Entry `idx` of the table in frame `table` is the L2 slot of the chunk of
the M2P table that holds the entry of frame `i`: the L3 entry that covers the
address of the chunk in the read-only window is present, is not a superpage
and names `table`, and `idx` is the L2 index of that address. -/
def m2p_chunk_slot (lay : Layout) (m : Mach) (i table idx : Nat) : Prop :=
  (m.pt (m.idle_pg_table (l4_table_offset (add64 lay.RO_MPT_VIRT_START (mul64 i 8)))).pfn
      (l3_table_offset (add64 lay.RO_MPT_VIRT_START (mul64 i 8)))).flags
    &&& (_PAGE_PRESENT ||| _PAGE_PSE) = _PAGE_PRESENT ∧
  (m.pt (m.idle_pg_table (l4_table_offset (add64 lay.RO_MPT_VIRT_START (mul64 i 8)))).pfn
      (l3_table_offset (add64 lay.RO_MPT_VIRT_START (mul64 i 8)))).pfn = table ∧
  l2_table_offset (add64 lay.RO_MPT_VIRT_START (mul64 i 8)) = idx

instance (lay : Layout) (m : Mach) (i table idx : Nat) :
    Decidable (m2p_chunk_slot lay m i table idx) := by
  unfold m2p_chunk_slot
  exact inferInstance

/-! ## Building the M2P table at boot: the loop of `paging_init` -/

/-- What the loop of `paging_init` that builds the M2P table takes from
outside this unit: `cpu_has_page1gb`, the predicate `mfn_valid`, the node of a
frame and the allocation flag for a node, and the two allocators.  The result
of a call of an allocator is given by the number of calls made before it;
`none` stands for `NULL`. -/
structure BootEnv where
  cpu_has_page1gb : Bool
  mfn_valid : Nat → Bool
  mfn_to_nid : Nat → Nat
  MEMF_node : Nat → Nat
  /-- The call `alloc_domheap_pages(NULL, order, memflags)`: the first frame
  of the pages. -/
  alloc_domheap_pages : Nat → Nat → Nat → Option Nat
  /-- The call `alloc_mapped_pagetable(&mfn)`: the frame of a cleared page. -/
  alloc_mapped_pagetable : Nat → Option Nat

/-- What the loop of `paging_init` does, in the order of execution. -/
inductive BootEvent where
  | alloc_domheap_pages (order memflags : Nat) (mfn : Option Nat)
  | map_pages_to_xen (virt mfn nr flags : Nat)
  | memset (addr val len : Nat)
  | alloc_mapped_pagetable (mfn : Option Nat)
  | l3e_write (idx : Nat) (e : pte)
  | l2e_write (table idx : Nat) (e : pte)
deriving DecidableEq, Repr

/-- The variables of the loop of `paging_init` (source lines 549 to 643): the
counter `i`, the pointer `pl2e` as the frame of an L2 table and an index into
it (`none` for `NULL`), `memflags`, the contents of the page-table frames, the
number of calls made of each allocator, whether every `ASSERT` held, and what
was done. -/
structure BootState where
  i : Nat
  pl2e : Option (Nat × Nat)
  memflags : Nat
  pt : PageTables
  domheap_calls : Nat
  pagetable_calls : Nat
  asserts : Bool
  trace : List BootEvent

/-- The macro `MFN(x)` of `paging_init`: the first frame whose M2P entry lies
in the 2 MiB chunk `x` of the M2P table. -/
def paging_init_MFN (x : Nat) : Nat := shl64 x L2_PAGETABLE_SHIFT / 8

/-- The probe of a chunk in `paging_init` (`for ( n = 0; n < CNT; ++n)`):
the first of the frames `MFN(x) + n * PDX_GROUP_COUNT` that is valid, or
`none` when the loop ends with `n == CNT`. -/
def paging_init_probe (env : BootEnv) (cfg : Config) (x : Nat) : Option Nat :=
  ((List.range (ISOLATE_LSB cfg.sizeof_page_info / 8)).map fun n =>
    add64 (paging_init_MFN x) (mul64 n cfg.PDX_GROUP_COUNT)).find? env.mfn_valid

/-- The loop that counts the holes of a gigabyte (source lines 561 to 574)
from the values `k`, `holes` and `memflags`: the values of `holes` and
`memflags` at its end. -/
def paging_init_holes_loop (env : BootEnv) (cfg : Config) (i : Nat) :
    Nat → Nat → Nat → Nat → Nat × Nat
  | 0, _, holes, memflags => (holes, memflags)
  | fuel + 1, k, holes, memflags =>
    if k < shl64 1 PAGETABLE_ORDER then
      match paging_init_probe env cfg (add64 i k) with
      | none => paging_init_holes_loop env cfg i fuel (k + 1) (holes + 1) memflags
      | some mfn =>
        paging_init_holes_loop env cfg i fuel (k + 1) holes
          (if k = holes then env.MEMF_node (env.mfn_to_nid mfn) else memflags)
    else (holes, memflags)

/-- Whether `!((unsigned long)pl2e & ~PAGE_MASK)` holds: `pl2e` is `NULL` or
points to the start of a page. -/
def pl2e_page_aligned (pl2e : Option (Nat × Nat)) : Bool :=
  match pl2e with
  | none => true
  | some (_, idx) => decide (mul64 idx 8 &&& not64 PAGE_MASK = 0)

/-- The part of a turn of the loop of `paging_init` that maps one 2 MiB chunk
(source lines 600 to 636), with the `i++` of the `for`; the first component
tells whether the turn ended in `goto nomem`. -/
def paging_init_chunk (env : BootEnv) (lay : Layout) (cfg : Config) (l3_ro_mpt : Nat)
    (s : BootState) : Bool × BootState :=
  let va := add64 lay.RO_MPT_VIRT_START (shl64 s.i L2_PAGETABLE_SHIFT)
  let rwva := add64 lay.RDWR_MPT_VIRT_START (shl64 s.i L2_PAGETABLE_SHIFT)
  let probe := paging_init_probe env cfg s.i
  let memflags :=
    match probe with
    | some mfn => env.MEMF_node (env.mfn_to_nid mfn)
    | none => s.memflags
  let l1_pg : Option Nat :=
    match probe with
    | some _ => env.alloc_domheap_pages s.domheap_calls PAGETABLE_ORDER memflags
    | none => none
  let domheap_calls := if probe.isSome then s.domheap_calls + 1 else s.domheap_calls
  let trace :=
    if probe.isSome then
      s.trace ++ [BootEvent.alloc_domheap_pages PAGETABLE_ORDER memflags l1_pg]
    else s.trace
  if probe.isSome && l1_pg.isNone then
    (true, { s with memflags := memflags, domheap_calls := domheap_calls, trace := trace })
  else
    let trace :=
      match l1_pg with
      | some pg =>
        -- Fill with INVALID_M2P_ENTRY.
        trace ++ [BootEvent.map_pages_to_xen rwva pg (shl64 1 PAGETABLE_ORDER)
          cfg.PAGE_HYPERVISOR, BootEvent.memset rwva 0xFF (shl64 1 L2_PAGETABLE_SHIFT)]
      | none => trace
    let leaf (pg : Nat) : pte := { pfn := pg, flags := _PAGE_PSE ||| _PAGE_USER ||| _PAGE_PRESENT }
    if pl2e_page_aligned s.pl2e then
      match env.alloc_mapped_pagetable s.pagetable_calls with
      | none =>
        (true, { s with memflags := memflags, domheap_calls := domheap_calls,
                        pagetable_calls := s.pagetable_calls + 1,
                        trace := trace ++ [BootEvent.alloc_mapped_pagetable none] })
      | some t =>
        let l3e : pte := { pfn := t, flags := lay.PAGE_HYPERVISOR_RO ||| _PAGE_USER }
        let pt : PageTables := fun f idx => if f = t then pte_empty else s.pt f idx
        let pt := pte_write pt l3_ro_mpt (l3_table_offset va) l3e
        let trace := trace ++ [BootEvent.alloc_mapped_pagetable (some t),
          BootEvent.l3e_write (l3_table_offset va) l3e]
        let ok := s.asserts && decide (l2_table_offset va = 0)
        -- NB. Cannot be GLOBAL: guest user mode should not see it.
        match l1_pg with
        | some pg =>
          (false, { i := add64 s.i 1, pl2e := some (t, 1), memflags := memflags,
                    pt := pte_write pt t 0 (leaf pg), domheap_calls := domheap_calls,
                    pagetable_calls := s.pagetable_calls + 1, asserts := ok,
                    trace := trace ++ [BootEvent.l2e_write t 0 (leaf pg)] })
        | none =>
          (false, { i := add64 s.i 1, pl2e := some (t, 1), memflags := memflags,
                    pt := pt, domheap_calls := domheap_calls,
                    pagetable_calls := s.pagetable_calls + 1, asserts := ok,
                    trace := trace })
    else
      match s.pl2e with
      | none => (false, s)
      | some (t, idx) =>
        match l1_pg with
        | some pg =>
          (false, { i := add64 s.i 1, pl2e := some (t, idx + 1), memflags := memflags,
                    pt := pte_write s.pt t idx (leaf pg), domheap_calls := domheap_calls,
                    pagetable_calls := s.pagetable_calls, asserts := s.asserts,
                    trace := trace ++ [BootEvent.l2e_write t idx (leaf pg)] })
        | none =>
          (false, { i := add64 s.i 1, pl2e := some (t, idx + 1), memflags := memflags,
                    pt := s.pt, domheap_calls := domheap_calls,
                    pagetable_calls := s.pagetable_calls, asserts := s.asserts,
                    trace := trace })

/-- One turn of the loop of `paging_init` (source lines 550 to 637), with the
`i++` of the `for`; `mpt_size` is the size of the M2P table in bytes. -/
def paging_init_step (env : BootEnv) (lay : Layout) (cfg : Config) (l3_ro_mpt mpt_size : Nat)
    (s : BootState) : Bool × BootState :=
  let va := add64 lay.RO_MPT_VIRT_START (shl64 s.i L2_PAGETABLE_SHIFT)
  let rwva := add64 lay.RDWR_MPT_VIRT_START (shl64 s.i L2_PAGETABLE_SHIFT)
  if env.cpu_has_page1gb && pl2e_page_aligned s.pl2e &&
      decide (mpt_size >>> L3_PAGETABLE_SHIFT > s.i >>> PAGETABLE_ORDER) then
    let h := paging_init_holes_loop env cfg s.i (shl64 1 PAGETABLE_ORDER) 0 0 s.memflags
    if shl64 1 PAGETABLE_ORDER = h.1 then
      -- k == holes
      (false, { s with i := add64 (add64 s.i (shl64 1 PAGETABLE_ORDER - 1)) 1,
                       memflags := h.2 })
    else
      let l1_pg : Option Nat :=
        if h.1 = 0 then env.alloc_domheap_pages s.domheap_calls (2 * PAGETABLE_ORDER) h.2
        else none
      let domheap_calls := if h.1 = 0 then s.domheap_calls + 1 else s.domheap_calls
      let trace :=
        if h.1 = 0 then
          s.trace ++ [BootEvent.alloc_domheap_pages (2 * PAGETABLE_ORDER) h.2 l1_pg]
        else s.trace
      match l1_pg with
      | some pg =>
        -- Fill with INVALID_M2P_ENTRY.
        -- NB. Cannot be GLOBAL: guest user mode should not see it.
        let l3e : pte := { pfn := pg, flags := _PAGE_PSE ||| _PAGE_USER ||| _PAGE_PRESENT }
        (false, { i := add64 (add64 s.i (shl64 1 PAGETABLE_ORDER - 1)) 1,
                  pl2e := s.pl2e,
                  memflags := h.2,
                  pt := pte_write s.pt l3_ro_mpt (l3_table_offset va) l3e,
                  domheap_calls := domheap_calls,
                  pagetable_calls := s.pagetable_calls,
                  asserts := s.asserts && decide (l2_table_offset va = 0),
                  trace := trace ++
                    [BootEvent.map_pages_to_xen rwva pg (shl64 1 (2 * PAGETABLE_ORDER))
                      cfg.PAGE_HYPERVISOR,
                     BootEvent.memset rwva 0xFF (shl64 1 L3_PAGETABLE_SHIFT),
                     BootEvent.l3e_write (l3_table_offset va) l3e] })
      | none =>
        paging_init_chunk env lay cfg l3_ro_mpt
          { s with memflags := h.2, domheap_calls := domheap_calls, trace := trace }
  else paging_init_chunk env lay cfg l3_ro_mpt s

/-- The loop of `paging_init` that builds the M2P table (source lines 549 to
637) from the state `s`; the first component tells whether it ended in
`goto nomem`. -/
def paging_init_loop (env : BootEnv) (lay : Layout) (cfg : Config) (l3_ro_mpt mpt_size : Nat) :
    Nat → BootState → Bool × BootState
  | 0, s => (false, s)
  | fuel + 1, s =>
    if s.i < mpt_size >>> L2_PAGETABLE_SHIFT then
      let r := paging_init_step env lay cfg l3_ro_mpt mpt_size s
      if r.1 then r else paging_init_loop env lay cfg l3_ro_mpt mpt_size fuel r.2
    else (false, s)

/-- The value of `mpt_size` in `paging_init`: the bytes of the M2P table of
`max_page` frames, rounded up to 2 MiB (source lines 541 and 542). -/
def paging_init_mpt_size (max_page : Nat) : Nat :=
  add64 (mul64 max_page 8) (shl64 1 L2_PAGETABLE_SHIFT - 1) &&&
    not64 (shl64 1 L2_PAGETABLE_SHIFT - 1)

/-- The part of `paging_init` that builds the M2P table, once the L3 table of
the read-only window is allocated in frame `l3_ro_mpt`: the loop from `i = 0`
with `pl2e = NULL` and `memflags = 0`, on the page tables `pt`. -/
def paging_init_m2p (env : BootEnv) (lay : Layout) (cfg : Config) (max_page l3_ro_mpt : Nat)
    (pt : PageTables) : Bool × BootState :=
  paging_init_loop env lay cfg l3_ro_mpt (paging_init_mpt_size max_page)
    ((paging_init_mpt_size max_page >>> L2_PAGETABLE_SHIFT) + 1)
    { i := 0, pl2e := none, memflags := 0, pt := pt, domheap_calls := 0,
      pagetable_calls := 0, asserts := true, trace := [] }

/-- The 2 MiB chunk `j` of the M2P table is covered by a present leaf of the
read-only window: the L3 entry for its address is a present superpage, or it
is present and names an L2 table whose entry for the address is present. -/
def m2p_chunk_covered (lay : Layout) (pt : PageTables) (l3_ro_mpt j : Nat) : Prop :=
  (pt l3_ro_mpt (l3_table_offset (add64 lay.RO_MPT_VIRT_START
      (shl64 j L2_PAGETABLE_SHIFT)))).flags &&& _PAGE_PRESENT ≠ 0 ∧
  ((pt l3_ro_mpt (l3_table_offset (add64 lay.RO_MPT_VIRT_START
      (shl64 j L2_PAGETABLE_SHIFT)))).flags &&& _PAGE_PSE ≠ 0 ∨
    (pt (pt l3_ro_mpt (l3_table_offset (add64 lay.RO_MPT_VIRT_START
        (shl64 j L2_PAGETABLE_SHIFT)))).pfn
      (l2_table_offset (add64 lay.RO_MPT_VIRT_START
        (shl64 j L2_PAGETABLE_SHIFT)))).flags &&& _PAGE_PRESENT ≠ 0)

/-- The 2 MiB chunk `j` of the M2P table lies under a present 1 GiB
superpage leaf of the read-only window. -/
def m2p_chunk_in_superpage (lay : Layout) (pt : PageTables) (l3_ro_mpt j : Nat) : Prop :=
  (pt l3_ro_mpt (l3_table_offset (add64 lay.RO_MPT_VIRT_START
      (shl64 j L2_PAGETABLE_SHIFT)))).flags &&& _PAGE_PRESENT ≠ 0 ∧
  (pt l3_ro_mpt (l3_table_offset (add64 lay.RO_MPT_VIRT_START
      (shl64 j L2_PAGETABLE_SHIFT)))).flags &&& _PAGE_PSE ≠ 0

/-- Pages were mapped for chunk `j` of the M2P table: a call of
`map_pages_to_xen` of the trace covers its address in the writable window. -/
def m2p_chunk_mapped (lay : Layout) (trace : List BootEvent) (j : Nat) : Prop :=
  ∃ virt mfn nr flags, BootEvent.map_pages_to_xen virt mfn nr flags ∈ trace ∧
    virt ≤ lay.RDWR_MPT_VIRT_START + j * 2 ^ 21 ∧
    lay.RDWR_MPT_VIRT_START + j * 2 ^ 21 < virt + nr * 2 ^ 12

/-- The pages from frame `pg` on were mapped at `virt` and the `len` bytes
there filled with `0xFF`: the trace has the call of `map_pages_to_xen` for
`len` bytes of pages and the `memset`. -/
def page_filled (trace : List BootEvent) (virt pg len : Nat) : Prop :=
  ∃ flags, BootEvent.map_pages_to_xen virt pg (len / 2 ^ 12) flags ∈ trace ∧
    BootEvent.memset virt 0xFF len ∈ trace

/-- Chunk `j` of the M2P table is covered by a present leaf whose page was
filled with `0xFF`: either the L3 entry for its address is a present 1 GiB
leaf and its gigabyte of pages was mapped at the gigabyte of the writable
window and filled, or the L3 entry names an L2 table whose entry for the
address is present and its 2 MiB of pages were mapped at the chunk of the
writable window and filled. -/
def m2p_chunk_leaf_filled (lay : Layout) (pt : PageTables) (l3_ro_mpt : Nat)
    (trace : List BootEvent) (j : Nat) : Prop :=
  (pt l3_ro_mpt (l3_table_offset (add64 lay.RO_MPT_VIRT_START
      (shl64 j L2_PAGETABLE_SHIFT)))).flags &&& _PAGE_PRESENT ≠ 0 ∧
  (((pt l3_ro_mpt (l3_table_offset (add64 lay.RO_MPT_VIRT_START
        (shl64 j L2_PAGETABLE_SHIFT)))).flags &&& _PAGE_PSE ≠ 0 ∧
      page_filled trace (lay.RDWR_MPT_VIRT_START + j * 2 ^ 21 / 2 ^ 30 * 2 ^ 30)
        (pt l3_ro_mpt (l3_table_offset (add64 lay.RO_MPT_VIRT_START
          (shl64 j L2_PAGETABLE_SHIFT)))).pfn (2 ^ 30)) ∨
    ((pt l3_ro_mpt (l3_table_offset (add64 lay.RO_MPT_VIRT_START
        (shl64 j L2_PAGETABLE_SHIFT)))).flags &&& _PAGE_PSE = 0 ∧
      (pt (pt l3_ro_mpt (l3_table_offset (add64 lay.RO_MPT_VIRT_START
          (shl64 j L2_PAGETABLE_SHIFT)))).pfn
        (l2_table_offset (add64 lay.RO_MPT_VIRT_START
          (shl64 j L2_PAGETABLE_SHIFT)))).flags &&& _PAGE_PRESENT ≠ 0 ∧
      page_filled trace (lay.RDWR_MPT_VIRT_START + j * 2 ^ 21)
        (pt (pt l3_ro_mpt (l3_table_offset (add64 lay.RO_MPT_VIRT_START
            (shl64 j L2_PAGETABLE_SHIFT)))).pfn
          (l2_table_offset (add64 lay.RO_MPT_VIRT_START
            (shl64 j L2_PAGETABLE_SHIFT)))).pfn (2 ^ 21)))

instance (lay : Layout) (pt : PageTables) (l3_ro_mpt j : Nat) :
    Decidable (m2p_chunk_covered lay pt l3_ro_mpt j) := by
  unfold m2p_chunk_covered
  exact inferInstance

instance (lay : Layout) (pt : PageTables) (l3_ro_mpt j : Nat) :
    Decidable (m2p_chunk_in_superpage lay pt l3_ro_mpt j) := by
  unfold m2p_chunk_in_superpage
  exact inferInstance

/-- A machine at boot for runs by hand: 1 GiB superpages are available; the
frames below `0x80000` and from `0x100000` to `0x140000` are valid (2 GiB of
memory, a hole of 2 GiB, 1 GiB of memory); every frame is on node 0;
`alloc_domheap_pages` hands out the frames from `0x10000` on, `2 ^ 18` apart,
and `alloc_mapped_pagetable` the frames from `0x2000` on. -/
def boot_env : BootEnv where
  cpu_has_page1gb := true
  mfn_valid := fun mfn => decide (mfn < 0x80000) || (decide (0x100000 ≤ mfn) && decide (mfn < 0x140000))
  mfn_to_nid := fun _ => 0
  MEMF_node := fun n => n + 1
  alloc_domheap_pages := fun k _ _ => some (0x10000 + k * 2 ^ 18)
  alloc_mapped_pagetable := fun k => some (0x2000 + k)

/-- The L3 entry `e` names an L2 table: it is present and not a superpage. -/
def l3e_names_table (e : pte) : Prop :=
  e.flags &&& _PAGE_PRESENT ≠ 0 ∧ e.flags &&& _PAGE_PSE = 0

/-- Chunk `j` is covered by a present leaf, by the indices of its address:
L3 entry `j / 512` and L2 entry `j % 512`. -/
def boot_covered (pt : PageTables) (l3_ro_mpt j : Nat) : Prop :=
  (pt l3_ro_mpt (j / 512)).flags &&& _PAGE_PRESENT ≠ 0 ∧
    ((pt l3_ro_mpt (j / 512)).flags &&& _PAGE_PSE ≠ 0 ∨
      (pt (pt l3_ro_mpt (j / 512)).pfn (j % 512)).flags &&& _PAGE_PRESENT ≠ 0)

/-- Chunk `j` is covered by a present leaf whose page was filled, by the
indices of its address. -/
def boot_leaf_filled (lay : Layout) (pt : PageTables) (l3_ro_mpt : Nat)
    (trace : List BootEvent) (j : Nat) : Prop :=
  (pt l3_ro_mpt (j / 512)).flags &&& _PAGE_PRESENT ≠ 0 ∧
  (((pt l3_ro_mpt (j / 512)).flags &&& _PAGE_PSE ≠ 0 ∧
      page_filled trace (lay.RDWR_MPT_VIRT_START + j / 512 * 2 ^ 30)
        (pt l3_ro_mpt (j / 512)).pfn (2 ^ 30)) ∨
    ((pt l3_ro_mpt (j / 512)).flags &&& _PAGE_PSE = 0 ∧
      (pt (pt l3_ro_mpt (j / 512)).pfn (j % 512)).flags &&& _PAGE_PRESENT ≠ 0 ∧
      page_filled trace (lay.RDWR_MPT_VIRT_START + j * 2 ^ 21)
        (pt (pt l3_ro_mpt (j / 512)).pfn (j % 512)).pfn (2 ^ 21)))

/-- What holds of the variables of the loop of `paging_init` before every
turn, for a table of `n` chunks: the chunks below `i` are dealt with and
nothing is written for the others. -/
structure boot_inv (env : BootEnv) (lay : Layout) (cfg : Config) (l3_ro_mpt n : Nat)
    (s : BootState) : Prop where
  i_le : s.i ≤ n
  l3_empty : ∀ g, s.i ≤ 512 * g → s.pt l3_ro_mpt g = pte_empty
  hole_uncovered : ∀ j, j < s.i → paging_init_probe env cfg j = none →
    ¬ boot_covered s.pt l3_ro_mpt j
  valid_covered : ∀ j, j < s.i → paging_init_probe env cfg j ≠ none →
    boot_leaf_filled lay s.pt l3_ro_mpt s.trace j
  superpage_ok : ∀ g, (s.pt l3_ro_mpt g).flags &&& _PAGE_PSE ≠ 0 →
    env.cpu_has_page1gb = true ∧ ∀ k, k < 512 → paging_init_probe env cfg (512 * g + k) ≠ none
  mapped_ok : ∀ j, j < n → m2p_chunk_mapped lay s.trace j →
    j < s.i ∧ paging_init_probe env cfg j ≠ none
  cursor0 : s.i % 512 = 0 → pl2e_page_aligned s.pl2e = true
  cursor : s.i % 512 ≠ 0 → ∃ t, s.pl2e = some (t, s.i % 512) ∧
    s.pt l3_ro_mpt (s.i / 512) = { pfn := t, flags := lay.PAGE_HYPERVISOR_RO ||| _PAGE_USER } ∧
    ∀ idx, s.i % 512 ≤ idx → s.pt t idx = pte_empty
  tables : ∀ g, l3e_names_table (s.pt l3_ro_mpt g) →
    ∃ k, k < s.pagetable_calls ∧ env.alloc_mapped_pagetable k = some (s.pt l3_ro_mpt g).pfn
  distinct : ∀ g g2, g ≠ g2 → l3e_names_table (s.pt l3_ro_mpt g) →
    l3e_names_table (s.pt l3_ro_mpt g2) → (s.pt l3_ro_mpt g).pfn ≠ (s.pt l3_ro_mpt g2).pfn

/-- What the run of the loop of `paging_init` assumes of its environment:
the read-only window starts at a multiple of 512 GiB, the writable window
has 512 GiB below the end of the address space, `__PAGE_HYPERVISOR_RO` has
`_PAGE_PRESENT` and not `_PAGE_PSE`, and `alloc_mapped_pagetable` returns a
frame other than that of the L3 table and never the same frame twice. -/
structure boot_assumptions (env : BootEnv) (lay : Layout) (l3_ro_mpt : Nat) : Prop where
  ro_aligned : lay.RO_MPT_VIRT_START % 2 ^ 39 = 0
  ro_lt : lay.RO_MPT_VIRT_START < 2 ^ 64
  rw_fits : lay.RDWR_MPT_VIRT_START + 2 ^ 39 ≤ 2 ^ 64
  ro_present : (lay.PAGE_HYPERVISOR_RO ||| _PAGE_USER) &&& _PAGE_PRESENT ≠ 0
  ro_not_pse : (lay.PAGE_HYPERVISOR_RO ||| _PAGE_USER) &&& _PAGE_PSE = 0
  table_not_l3 : ∀ k, env.alloc_mapped_pagetable k ≠ some l3_ro_mpt
  table_fresh : ∀ k k2 t, env.alloc_mapped_pagetable k = some t →
    env.alloc_mapped_pagetable k2 = some t → k = k2

/-! ## Facts about masks and wrapping arithmetic -/

theorem or_eq_zero_iff_both (a b : Nat) : a ||| b = 0 ↔ a = 0 ∧ b = 0 := by
  constructor
  · intro h
    have hb : ∀ i, (a.testBit i || b.testBit i) = false := by
      intro i
      rw [← Nat.testBit_or, h, Nat.zero_testBit]
    constructor
    · apply Nat.eq_of_testBit_eq
      intro i
      have := hb i
      simp only [Bool.or_eq_false_iff] at this
      simp [this.1]
    · apply Nat.eq_of_testBit_eq
      intro i
      have := hb i
      simp only [Bool.or_eq_false_iff] at this
      simp [this.2]
  · rintro ⟨rfl, rfl⟩
    rfl

theorem or_mod_two_pow_eq (a b n : Nat) : (a ||| b) % 2 ^ n = a % 2 ^ n ||| b % 2 ^ n := by
  apply Nat.eq_of_testBit_eq
  intro i
  simp only [Nat.testBit_mod_two_pow, Nat.testBit_or]
  by_cases h : i < n <;> simp [h]

theorem or_and_low_mask_eq_zero (a b n : Nat) :
    (a ||| b) &&& (2 ^ n - 1) = 0 ↔ a % 2 ^ n = 0 ∧ b % 2 ^ n = 0 := by
  rw [Nat.and_pow_two_sub_one_eq_mod, or_mod_two_pow_eq, or_eq_zero_iff_both]

theorem and_not_low_mask (x k : Nat) (hx : x < 2 ^ 64) (hk : k ≤ 64) :
    x &&& not64 (2 ^ k - 1) = x / 2 ^ k * 2 ^ k := by
  have hpow : 2 ^ k ≤ 2 ^ 64 := Nat.pow_le_pow_right (by decide) hk
  have hkpos : 0 < 2 ^ k := Nat.two_pow_pos k
  have hmask : not64 (2 ^ k - 1) = (2 ^ (64 - k) - 1) * 2 ^ k := by
    unfold not64
    have h1 : (2 ^ k - 1) % 2 ^ 64 = 2 ^ k - 1 := Nat.mod_eq_of_lt (by omega)
    rw [h1, Nat.sub_mul, ← Nat.pow_add, Nat.sub_add_cancel hk]
    omega
  rw [hmask]
  apply Nat.eq_of_testBit_eq
  intro i
  rw [Nat.testBit_and, ← Nat.shiftLeft_eq, ← Nat.shiftLeft_eq, ← Nat.shiftRight_eq_div_pow,
    Nat.testBit_shiftLeft, Nat.testBit_shiftLeft, Nat.testBit_shiftRight,
    Nat.testBit_two_pow_sub_one]
  by_cases hik : k ≤ i
  · have e1 : k + (i - k) = i := by omega
    by_cases hi : i < 64
    · have : i - k < 64 - k := by omega
      simp [hik, e1, this]
    · have hxi : x.testBit i = false :=
        Nat.testBit_lt_two_pow (Nat.lt_of_lt_of_le hx (Nat.pow_le_pow_right (by decide) (by omega)))
      simp [hik, e1, hxi]
  · simp [hik]

/-! ## `mem_hotadd_check`: what an accepted range satisfies -/

theorem sub64_of_le (a b : Nat) (ha : a < 2 ^ 64) (hba : b ≤ a) : sub64 a b = a - b := by
  unfold sub64
  have hb : b % 2 ^ 64 = b := Nat.mod_eq_of_lt (by omega)
  have ha' : a % 2 ^ 64 = a := Nat.mod_eq_of_lt ha
  rw [hb, ha']
  omega

theorem mask18 (x : Nat) (hx : x < 2 ^ 64) :
    x &&& not64 (shl64 1 (L2_PAGETABLE_SHIFT - 3) - 1) = rounddown x (2 ^ 18) := by
  have h : shl64 1 (L2_PAGETABLE_SHIFT - 3) - 1 = 2 ^ 18 - 1 := by decide
  rw [h]
  exact and_not_low_mask x 18 hx (by decide)

theorem mask19 (x : Nat) (hx : x < 2 ^ 64) :
    x &&& not64 (shl64 1 (L2_PAGETABLE_SHIFT - 2) - 1) = rounddown x (2 ^ 19) := by
  have h : shl64 1 (L2_PAGETABLE_SHIFT - 2) - 1 = 2 ^ 19 - 1 := by decide
  rw [h]
  exact and_not_low_mask x 19 hx (by decide)

theorem sub64_lt (a b : Nat) : sub64 a b < 2 ^ 64 := Nat.mod_lt _ (by decide)

theorem add64_lt (a b : Nat) : add64 a b < 2 ^ 64 := Nat.mod_lt _ (by decide)

theorem roundup18_wrap (e : Nat) (he : e < 2 ^ 64) :
    rounddown (sub64 (add64 e (shl64 1 (L2_PAGETABLE_SHIFT - 3))) 1) (2 ^ 18)
      = roundup e (2 ^ 18) % 2 ^ 64 := by
  have h : shl64 1 (L2_PAGETABLE_SHIFT - 3) = 2 ^ 18 := by decide
  rw [h]
  unfold sub64 add64 roundup rounddown
  omega

theorem roundup19_wrap (e : Nat) (he : e < 2 ^ 64) :
    rounddown (sub64 (add64 e (shl64 1 (L2_PAGETABLE_SHIFT - 2))) 1) (2 ^ 19)
      = roundup e (2 ^ 19) % 2 ^ 64 := by
  have h : shl64 1 (L2_PAGETABLE_SHIFT - 2) = 2 ^ 19 := by decide
  rw [h]
  unfold sub64 add64 roundup rounddown
  omega

theorem footprint_arith (spfn epfn C F s1 r1 s2 r2 : Nat)
    (h1 : spfn < epfn) (he : epfn < 2 ^ 64) (hC : C < 2 ^ 46) (hF : F < 2 ^ 48)
    (hs1 : s1 = rounddown spfn (2 ^ 18)) (hr1 : r1 = roundup epfn (2 ^ 18))
    (hs2 : s2 = rounddown spfn (2 ^ 19)) (hr2 : r2 = roundup epfn (2 ^ 19)) :
    (add64 (if min (r2 % 2 ^ 64) C > s2
        then add64 (mul64 (sub64 (r1 % 2 ^ 64) s1) 8) (mul64 (sub64 (min (r2 % 2 ^ 64) C) s2) 4)
        else mul64 (sub64 (r1 % 2 ^ 64) s1) 8) F / 2 ^ 12 ≤ epfn - spfn) ↔
    ((8 * (r1 - s1) + 4 * (min r2 C - s2) + F) / 2 ^ 12 ≤ epfn - spfn) := by
  have a1 : s1 ≤ spfn ∧ spfn < s1 + 2 ^ 18 := by
    rw [hs1]; unfold rounddown; omega
  have a2 : epfn ≤ r1 ∧ r1 < epfn + 2 ^ 18 := by
    rw [hr1]; unfold roundup; omega
  have a3 : s2 ≤ spfn ∧ spfn < s2 + 2 ^ 19 := by
    rw [hs2]; unfold rounddown; omega
  have a4 : epfn ≤ r2 ∧ r2 < epfn + 2 ^ 19 := by
    rw [hr2]; unfold roundup; omega
  have a5 : r2 % 2 ^ 19 = 0 := by
    rw [hr2]; unfold roundup; omega
  clear hs1 hr1 hs2 hr2
  by_cases hn : epfn - spfn < 2 ^ 60
  · have l1 : mul64 (sub64 (r1 % 2 ^ 64) s1) 8 = 8 * (r1 - s1) := by
      unfold mul64 sub64
      omega
    rw [l1]
    by_cases hr : r2 < 2 ^ 64
    · have e2 : r2 % 2 ^ 64 = r2 := Nat.mod_eq_of_lt hr
      rw [e2]
      by_cases hgt : min r2 C > s2
      · rw [if_pos hgt]
        have l2 : mul64 (sub64 (min r2 C) s2) 4 = 4 * (min r2 C - s2) := by
          unfold mul64 sub64
          omega
        rw [l2]
        have l3 : add64 (add64 (8 * (r1 - s1)) (4 * (min r2 C - s2))) F
            = 8 * (r1 - s1) + 4 * (min r2 C - s2) + F := by
          unfold add64
          omega
        rw [l3]
      · rw [if_neg hgt]
        have l2 : min r2 C - s2 = 0 := by omega
        rw [l2]
        have l3 : add64 (8 * (r1 - s1)) F = 8 * (r1 - s1) + 4 * 0 + F := by
          unfold add64
          omega
        rw [l3]
    · have e2 : r2 % 2 ^ 64 = 0 := by omega
      rw [e2]
      have hgt : ¬ min 0 C > s2 := by omega
      rw [if_neg hgt]
      have l2 : min r2 C - s2 = 0 := by omega
      rw [l2]
      have l3 : add64 (8 * (r1 - s1)) F = 8 * (r1 - s1) + 4 * 0 + F := by
        unfold add64
        omega
      rw [l3]
  · constructor
    · intro _
      omega
    · intro _
      have := add64_lt (if min (r2 % 2 ^ 64) C > s2
        then add64 (mul64 (sub64 (r1 % 2 ^ 64) s1) 8) (mul64 (sub64 (min (r2 % 2 ^ 64) C) s2) 4)
        else mul64 (sub64 (r1 % 2 ^ 64) s1) 8) F
      omega

theorem le_roundup (x a : Nat) (ha : 0 < a) : x ≤ roundup x a := by
  unfold roundup
  have h1 := Nat.div_add_mod (x + a - 1) a
  have h2 := Nat.mod_lt (x + a - 1) ha
  have h3 : (x + a - 1) / a * a = a * ((x + a - 1) / a) := Nat.mul_comm _ _
  omega

theorem roundup_le (x a : Nat) : roundup x a ≤ x + a - 1 := Nat.div_mul_le_self _ _

theorem rounddown_le (x a : Nat) : rounddown x a ≤ x := Nat.div_mul_le_self _ _

theorem frametable_part (cfg : Config) (hwf : cfg.WF) (ps pe : Nat) (hle : ps ≤ pe)
    (hfr : pe ≤ cfg.FRAMETABLE_NR) :
    mul64 (sub64 (add64 pe (cfg.PDX_GROUP_COUNT - 1) &&& not64 (cfg.PDX_GROUP_COUNT - 1))
        (ps &&& not64 (cfg.PDX_GROUP_COUNT - 1))) cfg.sizeof_page_info
      = cfg.sizeof_page_info * (roundup pe cfg.PDX_GROUP_COUNT - rounddown ps cfg.PDX_GROUP_COUNT)
    ∧ cfg.sizeof_page_info * (roundup pe cfg.PDX_GROUP_COUNT - rounddown ps cfg.PDX_GROUP_COUNT)
        < 2 ^ 48 := by
  obtain ⟨g, hg⟩ := hwf.group_pow
  have hGpos : 0 < cfg.PDX_GROUP_COUNT := by rw [hg]; exact Nat.two_pow_pos g
  have hsz := hwf.sizeof_pos
  have hsum : cfg.FRAMETABLE_NR + cfg.PDX_GROUP_COUNT < 2 ^ 48 :=
    Nat.lt_of_le_of_lt (Nat.le_mul_of_pos_left _ hsz) hwf.frametable_bytes
  have hg64 : g ≤ 64 := by
    by_contra hcon
    have : 2 ^ 64 ≤ 2 ^ g := Nat.pow_le_pow_right (by decide) (by omega)
    omega
  have hru := roundup_le pe cfg.PDX_GROUP_COUNT
  have hru2 := le_roundup pe cfg.PDX_GROUP_COUNT hGpos
  have hrd := rounddown_le ps cfg.PDX_GROUP_COUNT
  have hadd : add64 pe (cfg.PDX_GROUP_COUNT - 1) = pe + cfg.PDX_GROUP_COUNT - 1 := by
    unfold add64
    omega
  have hm1 : add64 pe (cfg.PDX_GROUP_COUNT - 1) &&& not64 (cfg.PDX_GROUP_COUNT - 1)
      = roundup pe cfg.PDX_GROUP_COUNT := by
    rw [hadd]
    unfold roundup
    rw [hg]
    exact and_not_low_mask _ g (by omega) hg64
  have hm2 : ps &&& not64 (cfg.PDX_GROUP_COUNT - 1) = rounddown ps cfg.PDX_GROUP_COUNT := by
    unfold rounddown
    rw [hg]
    exact and_not_low_mask _ g (by omega) hg64
  rw [hm1, hm2, sub64_of_le _ _ (by omega) (by omega)]
  have hd : roundup pe cfg.PDX_GROUP_COUNT - rounddown ps cfg.PDX_GROUP_COUNT
      ≤ cfg.FRAMETABLE_NR + cfg.PDX_GROUP_COUNT := by omega
  have hprod : cfg.sizeof_page_info *
      (roundup pe cfg.PDX_GROUP_COUNT - rounddown ps cfg.PDX_GROUP_COUNT) < 2 ^ 48 :=
    Nat.lt_of_le_of_lt (Nat.mul_le_mul_left _ hd) hwf.frametable_bytes
  refine ⟨?_, hprod⟩
  unfold mul64
  rw [Nat.mul_comm]
  exact Nat.mod_eq_of_lt (by omega)

theorem ite_chain_eq_one_iff (c1 c2 c3 c4 c5 c6 c7 c8 : Prop) [Decidable c1] [Decidable c2]
    [Decidable c3] [Decidable c4] [Decidable c5] [Decidable c6] [Decidable c7] [Decidable c8] :
    (if c1 then 0 else if c2 then 0 else if c3 then 0 else if c4 then 0 else if c5 then 0
      else if c6 then 0 else if c7 then 0 else if c8 then 0 else 1) = 1 ↔
    ¬ c1 ∧ ¬ c2 ∧ ¬ c3 ∧ ¬ c4 ∧ ¬ c5 ∧ ¬ c6 ∧ ¬ c7 ∧ ¬ c8 := by
  split_ifs <;> simp [*]

theorem mem_hotadd_check_eq_one_iff (cfg : Config) (bm : Bitmap) (spfn epfn : Nat) :
    mem_hotadd_check cfg bm spfn epfn = 1 ↔
      mem_hotadd_range_ok cfg bm spfn epfn ∧
      ¬ (mem_hotadd_length cfg spfn epfn >>> PAGE_SHIFT > sub64 epfn spfn) := by
  unfold mem_hotadd_check mem_hotadd_range_ok mem_hotadd_length
  simp only []
  rw [ite_chain_eq_one_iff]
  constructor
  · rintro ⟨h1, h2, h3, h4, h5, h6, h7, h8⟩
    exact ⟨⟨h1, h2, not_not.1 h3, by simpa using h4, h5, h6, h7⟩, h8⟩
  · rintro ⟨⟨h1, h2, h3, h4, h5, h6, h7⟩, h8⟩
    exact ⟨h1, h2, not_not.2 h3, by simpa using h4, h5, h6, h7, h8⟩

theorem mem_hotadd_length_fits_iff (cfg : Config) (hwf : cfg.WF) (spfn epfn : Nat)
    (h1 : spfn < epfn) (he : epfn < 2 ^ 64)
    (hpdx : cfg.pfn_to_pdx spfn ≤ cfg.pfn_to_pdx epfn)
    (hfr : cfg.pfn_to_pdx epfn ≤ cfg.FRAMETABLE_NR) :
    mem_hotadd_length cfg spfn epfn >>> PAGE_SHIFT ≤ epfn - spfn ↔
      hotadd_footprint cfg spfn epfn >>> PAGE_SHIFT ≤ epfn - spfn := by
  have hC : cfg.compat_mpt_bytes >>> 2 < 2 ^ 46 := by
    have := hwf.compat_bytes
    rw [Nat.shiftRight_eq_div_pow]
    omega
  obtain ⟨hF1, hF2⟩ := frametable_part cfg hwf _ _ hpdx hfr
  have key := footprint_arith spfn epfn (cfg.compat_mpt_bytes >>> 2) _ _ _ _ _ h1 he hC hF2
    rfl rfl rfl rfl
  unfold mem_hotadd_length hotadd_footprint
  simp only []
  rw [mask18 spfn (by omega), mask18 _ (sub64_lt _ _), roundup18_wrap epfn he,
    mask19 spfn (by omega), mask19 _ (sub64_lt _ _), roundup19_wrap epfn he, hF1,
    Nat.shiftRight_eq_div_pow _ PAGE_SHIFT, Nat.shiftRight_eq_div_pow _ PAGE_SHIFT]
  exact key

theorem mem_hotadd_check_zero_or_one (cfg : Config) (bm : Bitmap) (spfn epfn : Nat) :
    mem_hotadd_check cfg bm spfn epfn = 0 ∨ mem_hotadd_check cfg bm spfn epfn = 1 := by
  unfold mem_hotadd_check
  simp only []
  split_ifs <;> simp

/-- C4: a range that `mem_hotadd_check` accepts is non-empty, has both ends
aligned to `2 ^ PAGETABLE_ORDER` frames, ends within the frame table and is
compressible; a range that violates one of these is rejected with 0. -/
theorem mem_hotadd_check_accepts_only_wellformed (cfg : Config) (bm : Bitmap)
    (spfn epfn : Nat) (he : epfn < 2 ^ 64) :
    (mem_hotadd_check cfg bm spfn epfn = 1 →
      spfn < epfn ∧ spfn % 2 ^ PAGETABLE_ORDER = 0 ∧ epfn % 2 ^ PAGETABLE_ORDER = 0 ∧
      cfg.pfn_to_pdx epfn ≤ cfg.FRAMETABLE_NR ∧
      cfg.pdx_is_region_compressible (pfn_to_paddr spfn) (epfn - spfn) = true) ∧
    (¬ (spfn < epfn ∧ spfn % 2 ^ PAGETABLE_ORDER = 0 ∧ epfn % 2 ^ PAGETABLE_ORDER = 0 ∧
      cfg.pfn_to_pdx epfn ≤ cfg.FRAMETABLE_NR ∧
      cfg.pdx_is_region_compressible (pfn_to_paddr spfn) (epfn - spfn) = true) →
      mem_hotadd_check cfg bm spfn epfn = 0) := by
  have key : mem_hotadd_check cfg bm spfn epfn = 1 →
      spfn < epfn ∧ spfn % 2 ^ PAGETABLE_ORDER = 0 ∧ epfn % 2 ^ PAGETABLE_ORDER = 0 ∧
      cfg.pfn_to_pdx epfn ≤ cfg.FRAMETABLE_NR ∧
      cfg.pdx_is_region_compressible (pfn_to_paddr spfn) (epfn - spfn) = true := by
    intro h
    unfold mem_hotadd_check at h
    simp only [] at h
    by_cases h1 : spfn ≥ epfn
    · simp [h1] at h
    rw [if_neg h1] at h
    by_cases h2 : cfg.pfn_to_pdx epfn > cfg.FRAMETABLE_NR
    · simp [h2] at h
    rw [if_neg h2] at h
    by_cases h3 : (spfn ||| epfn) &&& (shl64 1 PAGETABLE_ORDER - 1) ≠ 0
    · simp [h3] at h
    rw [if_neg h3] at h
    by_cases h4 : (!cfg.pdx_is_region_compressible (pfn_to_paddr spfn) (sub64 epfn spfn)) = true
    · simp [h4] at h
    have hmask : shl64 1 PAGETABLE_ORDER - 1 = 2 ^ PAGETABLE_ORDER - 1 := by decide
    rw [hmask] at h3
    have h3' := (or_and_low_mask_eq_zero spfn epfn PAGETABLE_ORDER).1 (not_not.1 h3)
    rw [sub64_of_le epfn spfn he (by omega)] at h4
    refine ⟨by omega, h3'.1, h3'.2, by omega, ?_⟩
    simpa using h4
  refine ⟨key, fun hn => ?_⟩
  rcases mem_hotadd_check_zero_or_one cfg bm spfn epfn with h | h
  · exact h
  · exact absurd (key h) hn

/-- C4, at the range `[0x100000, 0x130000)` of an empty machine. -/
theorem mem_hotadd_check_accepts_only_wellformed_witness :
    0x100000 < 0x130000 ∧ 0x100000 % 2 ^ PAGETABLE_ORDER = 0 ∧
      0x130000 % 2 ^ PAGETABLE_ORDER = 0 ∧
      cfg0.pfn_to_pdx 0x130000 ≤ cfg0.FRAMETABLE_NR ∧
      cfg0.pdx_is_region_compressible (pfn_to_paddr 0x100000) (0x130000 - 0x100000) = true :=
  (mem_hotadd_check_accepts_only_wellformed cfg0 (fun _ => false) 0x100000 0x130000
    (by decide)).1 (by decide)

/-- C5: `mem_hotadd_check` accepts the range `[0x100000, 0x130000)` (pdx
groups 16 to 18, so `sidx = 16` and `eidx = 18`) although group 16 is already
valid, and also when groups 16 and 17, all groups of `[sidx, eidx)`, are
valid: a range that is already present is not rejected. -/
theorem mem_hotadd_check_accepts_present_range :
    mem_hotadd_check cfg0 (fun i => i == 16) 0x100000 0x130000 = 1 ∧
    mem_hotadd_check cfg0 (fun i => i == 16 || i == 17) 0x100000 0x130000 = 1 := by
  constructor <;> decide

/-- C6: an accepted range has room for its own bookkeeping: the estimated
footprint in pages is at most the number of frames of the range; a range that
passes the earlier tests is rejected when the estimate exceeds its size, and
accepted otherwise. -/
theorem mem_hotadd_check_footprint_fits (cfg : Config) (hwf : cfg.WF) (bm : Bitmap)
    (spfn epfn : Nat) (he : epfn < 2 ^ 64)
    (hpdx : cfg.pfn_to_pdx spfn ≤ cfg.pfn_to_pdx epfn) :
    (mem_hotadd_check cfg bm spfn epfn = 1 →
      hotadd_footprint cfg spfn epfn >>> PAGE_SHIFT ≤ epfn - spfn) ∧
    (mem_hotadd_range_ok cfg bm spfn epfn →
      hotadd_footprint cfg spfn epfn >>> PAGE_SHIFT > epfn - spfn →
      mem_hotadd_check cfg bm spfn epfn = 0) ∧
    (mem_hotadd_range_ok cfg bm spfn epfn →
      hotadd_footprint cfg spfn epfn >>> PAGE_SHIFT ≤ epfn - spfn →
      mem_hotadd_check cfg bm spfn epfn = 1) := by
  have fits : mem_hotadd_range_ok cfg bm spfn epfn →
      (mem_hotadd_length cfg spfn epfn >>> PAGE_SHIFT ≤ sub64 epfn spfn ↔
        hotadd_footprint cfg spfn epfn >>> PAGE_SHIFT ≤ epfn - spfn) := by
    intro hok
    have h1 : spfn < epfn := Nat.lt_of_not_ge hok.1
    have hfr : cfg.pfn_to_pdx epfn ≤ cfg.FRAMETABLE_NR := Nat.le_of_not_gt hok.2.1
    rw [sub64_of_le epfn spfn he (by omega)]
    exact mem_hotadd_length_fits_iff cfg hwf spfn epfn h1 he hpdx hfr
  have one : mem_hotadd_check cfg bm spfn epfn = 1 ↔
      mem_hotadd_range_ok cfg bm spfn epfn ∧
      hotadd_footprint cfg spfn epfn >>> PAGE_SHIFT ≤ epfn - spfn := by
    rw [mem_hotadd_check_eq_one_iff]
    constructor
    · rintro ⟨hok, hlen⟩
      exact ⟨hok, (fits hok).1 (Nat.le_of_not_gt hlen)⟩
    · rintro ⟨hok, hfoot⟩
      exact ⟨hok, Nat.not_lt.2 ((fits hok).2 hfoot)⟩
  refine ⟨fun h => (one.1 h).2, fun hok hbig => ?_, fun hok hfit => one.2 ⟨hok, hfit⟩⟩
  rcases mem_hotadd_check_zero_or_one cfg bm spfn epfn with h | h
  · exact h
  · exact absurd (one.1 h).2 (Nat.not_le.2 hbig)

/-- C6, at the range `[0x100000, 0x130000)`: ten MiB of bookkeeping, 2560
pages, for 196608 frames. -/
theorem mem_hotadd_check_footprint_fits_witness :
    hotadd_footprint cfg0 0x100000 0x130000 >>> PAGE_SHIFT ≤ 0x130000 - 0x100000 :=
  (mem_hotadd_check_footprint_fits cfg0
    ⟨⟨16, rfl⟩, by decide, by decide, by decide⟩ (fun _ => false) 0x100000 0x130000
    (by decide) (by decide)).1 (by decide)

/-! ## `memory_add`: the node span and the rollback -/

theorem resolve_node_max_page (spfn epfn node : Nat) (st : State M) :
    (memory_add_resolve_node spfn epfn node st).max_page = st.max_page := by
  unfold memory_add_resolve_node set_node_start_pfn set_node_spanned_pages node_set_online
  simp only []
  split_ifs <;> rfl

theorem resolve_node_total_pages (spfn epfn node : Nat) (st : State M) :
    (memory_add_resolve_node spfn epfn node st).total_pages = st.total_pages := by
  unfold memory_add_resolve_node set_node_start_pfn set_node_spanned_pages node_set_online
  simp only []
  split_ifs <;> rfl

theorem resolve_node_pdx_group_valid (spfn epfn node : Nat) (st : State M) :
    (memory_add_resolve_node spfn epfn node st).pdx_group_valid = st.pdx_group_valid := by
  unfold memory_add_resolve_node set_node_start_pfn set_node_spanned_pages node_set_online
  simp only []
  split_ifs <;> rfl

theorem resolve_node_present_pages (spfn epfn node n : Nat) (st : State M) :
    ((memory_add_resolve_node spfn epfn node st).node_data n).node_present_pages
      = (st.node_data n).node_present_pages := by
  unfold memory_add_resolve_node set_node_start_pfn set_node_spanned_pages node_set_online
  simp only []
  by_cases hn : n = node
  · subst hn
    split_ifs <;> simp
  · split_ifs <;> simp [hn]

theorem resolve_node_other (spfn epfn node n : Nat) (hn : n ≠ node) (st : State M) :
    (memory_add_resolve_node spfn epfn node st).node_data n = st.node_data n := by
  unfold memory_add_resolve_node set_node_start_pfn set_node_spanned_pages node_set_online
  simp only []
  split_ifs <;> simp [hn]

/-- Writing back the start and the span of the node undoes the resolution of
the node span. -/
theorem restore_node_data (spfn epfn node : Nat) (st : State M) (x : State M)
    (hx : x.node_data = (memory_add_resolve_node spfn epfn node st).node_data) :
    (set_node_spanned_pages node (node_spanned_pages st node)
      (set_node_start_pfn node (node_start_pfn st node) x)).node_data = st.node_data := by
  funext n
  have hp := resolve_node_present_pages spfn epfn node n st
  unfold set_node_spanned_pages set_node_start_pfn node_start_pfn node_spanned_pages
  simp only [hx]
  by_cases hn : n = node
  · subst hn
    simp only [if_true]
    rw [hp]
  · simp only [if_neg hn]
    exact resolve_node_other spfn epfn node n hn st

theorem restore_node_online (spfn epfn node : Nat) (st : State M) :
    (if (!node_online st node) = true then
        clear_bit node (memory_add_resolve_node spfn epfn node st).node_online_map
      else (memory_add_resolve_node spfn epfn node st).node_online_map)
      = st.node_online_map := by
  funext n
  unfold memory_add_resolve_node set_node_start_pfn set_node_spanned_pages node_set_online
    node_online test_bit
  simp only []
  by_cases hon : st.node_online_map node = true
  · simp [hon]
    split_ifs <;> rfl
  · simp only [Bool.not_eq_true] at hon
    simp only [hon, Bool.not_false, if_true, clear_bit, set_bit]
    by_cases hn : n = node
    · subst hn
      simp [hon]
    · simp [hn]

theorem iommu_map_loop_commit_mem (ops : Ops M) (epfn fuel i : Nat) (m : M) (calls : List Call) :
    Call.share_hotadd_m2p_table ∈ (iommu_map_loop ops epfn fuel i m calls).2.2 ↔
      Call.share_hotadd_m2p_table ∈ calls := by
  induction fuel generalizing i m calls with
  | zero => simp [iommu_map_loop]
  | succ fuel ih =>
    unfold iommu_map_loop
    simp only []
    split_ifs
    · simp
    · rw [ih]
      simp
    · rfl

theorem iommu_unmap_loop_commit_mem (ops : Ops M) (old_max fuel i : Nat) (m : M)
    (calls : List Call) :
    Call.share_hotadd_m2p_table ∈ (iommu_unmap_loop ops old_max fuel i m calls).2 ↔
      Call.share_hotadd_m2p_table ∈ calls := by
  induction fuel generalizing i m calls with
  | zero => simp [iommu_unmap_loop]
  | succ fuel ih =>
    unfold iommu_unmap_loop
    simp only []
    split_ifs
    · rw [ih]
      simp
    · rfl

theorem destroy_m2p_unwound (cfg : Config) (ops : Ops M) (spfn epfn : Nat)
    (info : mem_hotadd_info) (node : Nat) (orig_online : Bool)
    (old_node_start old_node_span old_max old_total : Nat)
    (ret : Int) (st : State M) (calls : List Call) :
    memory_add_unwound node orig_online old_node_start old_node_span old_max old_total st
      (memory_add_destroy_m2p cfg ops spfn epfn info node orig_online
        old_node_start old_node_span old_max old_total ret st calls) := by
  cases orig_online <;>
    simp [memory_add_unwound, memory_add_destroy_m2p, memory_add_destroy_frametable,
      memory_add_destroy_directmap, node_set_offline, set_node_spanned_pages,
      set_node_start_pfn]

theorem destroy_m2p_calls (cfg : Config) (ops : Ops M) (spfn epfn : Nat)
    (info : mem_hotadd_info) (node : Nat) (orig_online : Bool)
    (old_node_start old_node_span old_max old_total : Nat)
    (ret : Int) (st : State M) (calls : List Call) :
    Call.share_hotadd_m2p_table ∈ (memory_add_destroy_m2p cfg ops spfn epfn info node
      orig_online old_node_start old_node_span old_max old_total ret st calls).calls ↔
        Call.share_hotadd_m2p_table ∈ calls := by
  simp [memory_add_destroy_m2p, memory_add_destroy_frametable, memory_add_destroy_directmap]

theorem destroy_frametable_unwound (cfg : Config) (ops : Ops M) (spfn epfn : Nat)
    (info : mem_hotadd_info) (node : Nat) (orig_online : Bool)
    (old_node_start old_node_span : Nat)
    (ret : Int) (st : State M) (calls : List Call) :
    memory_add_unwound node orig_online old_node_start old_node_span
      st.max_page st.total_pages st
      (memory_add_destroy_frametable cfg ops spfn epfn info node orig_online
        old_node_start old_node_span ret st calls) := by
  cases orig_online <;>
    simp [memory_add_unwound, memory_add_destroy_frametable,
      memory_add_destroy_directmap, node_set_offline, set_node_spanned_pages,
      set_node_start_pfn]

theorem destroy_frametable_calls (cfg : Config) (ops : Ops M) (spfn epfn : Nat)
    (info : mem_hotadd_info) (node : Nat) (orig_online : Bool)
    (old_node_start old_node_span : Nat)
    (ret : Int) (st : State M) (calls : List Call) :
    Call.share_hotadd_m2p_table ∈ (memory_add_destroy_frametable cfg ops spfn epfn info node
      orig_online old_node_start old_node_span ret st calls).calls ↔
        Call.share_hotadd_m2p_table ∈ calls := by
  simp [memory_add_destroy_frametable, memory_add_destroy_directmap]

theorem commit_committed (ops : Ops M) (spfn epfn : Nat) (info : mem_hotadd_info) (node : Nat)
    (st : State M) (calls : List Call) :
    memory_add_committed_from spfn epfn node st
      (memory_add_commit ops spfn epfn info node st calls) := by
  simp [memory_add_committed_from, memory_add_commit, set_node_present_pages]

theorem commit_calls (ops : Ops M) (spfn epfn : Nat) (info : mem_hotadd_info) (node : Nat)
    (st : State M) (calls : List Call) :
    Call.share_hotadd_m2p_table ∈ (memory_add_commit ops spfn epfn info node st calls).calls := by
  simp [memory_add_commit]

theorem unwound_of_mach (node : Nat) (orig_online : Bool)
    (old_node_start old_node_span old_max old_total : Nat) (st : State M) (m : M)
    (r : Result M)
    (h : memory_add_unwound node orig_online old_node_start old_node_span old_max old_total
      { st with mach := m } r) :
    memory_add_unwound node orig_online old_node_start old_node_span old_max old_total st r := by
  unfold memory_add_unwound set_node_spanned_pages set_node_start_pfn at *
  exact h

theorem committed_from_of_mach (spfn epfn node : Nat) (st : State M) (m : M) (r : Result M)
    (h : memory_add_committed_from spfn epfn node { st with mach := m } r) :
    memory_add_committed_from spfn epfn node st r := by
  unfold memory_add_committed_from at *
  exact h

/-- The part of `memory_add` from the I/O synchronisation on either commits,
leaving the counters as it found them, or unwinds from `destroy_m2p`. -/
theorem memory_add_iommu_outcome (cfg : Config) (ops : Ops M) (spfn epfn : Nat)
    (info : mem_hotadd_info) (node : Nat) (orig_online : Bool)
    (old_node_start old_node_span old_max old_total : Nat)
    (ret : Int) (st : State M) (calls : List Call)
    (hc : Call.share_hotadd_m2p_table ∉ calls) :
    (Call.share_hotadd_m2p_table ∈ (memory_add_iommu cfg ops spfn epfn info node orig_online
        old_node_start old_node_span old_max old_total ret st calls).calls ∧
      memory_add_committed_from spfn epfn node st (memory_add_iommu cfg ops spfn epfn info node
        orig_online old_node_start old_node_span old_max old_total ret st calls)) ∨
    (Call.share_hotadd_m2p_table ∉ (memory_add_iommu cfg ops spfn epfn info node orig_online
        old_node_start old_node_span old_max old_total ret st calls).calls ∧
      memory_add_unwound node orig_online old_node_start old_node_span old_max old_total st
        (memory_add_iommu cfg ops spfn epfn info node orig_online
        old_node_start old_node_span old_max old_total ret st calls)) := by
  unfold memory_add_iommu
  simp only []
  by_cases h1 : (ops.is_iommu_enabled st.mach && !ops.iommu_use_hap_pt st.mach
      && !ops.need_iommu_pt_sync st.mach) = true
  · rw [if_pos h1]
    by_cases h2 : (iommu_map_loop ops epfn (epfn - spfn) spfn st.mach calls).1 ≠ epfn
    · rw [if_pos h2]
      right
      refine ⟨?_, unwound_of_mach _ _ _ _ _ _ _ _ _
        (destroy_m2p_unwound _ _ _ _ _ _ _ _ _ _ _ _ _ _)⟩
      rw [destroy_m2p_calls, iommu_unmap_loop_commit_mem, iommu_map_loop_commit_mem]
      exact hc
    · rw [if_neg h2]
      left
      exact ⟨commit_calls _ _ _ _ _ _ _,
        committed_from_of_mach _ _ _ _ _ _ (commit_committed _ _ _ _ _ _ _)⟩
  · rw [if_neg h1]
    left
    exact ⟨commit_calls _ _ _ _ _ _ _, commit_committed _ _ _ _ _ _ _⟩

theorem unwound_congr (node : Nat) (orig_online : Bool)
    (old_node_start old_node_span old_max old_total : Nat) (st st2 : State M)
    (r : Result M) (h1 : st2.node_data = st.node_data)
    (h2 : st2.node_online_map = st.node_online_map)
    (h : memory_add_unwound node orig_online old_node_start old_node_span old_max old_total
      st2 r) :
    memory_add_unwound node orig_online old_node_start old_node_span old_max old_total st r := by
  unfold memory_add_unwound set_node_spanned_pages set_node_start_pfn at *
  simp only [h1, h2] at h
  exact h

theorem set_counters_node_data (cfg : Config) (spfn epfn : Nat) (st : State M) :
    (memory_add_set_counters cfg spfn epfn st).node_data = st.node_data := by
  unfold memory_add_set_counters
  simp only []
  split_ifs <;> rfl

theorem set_counters_node_online_map (cfg : Config) (spfn epfn : Nat) (st : State M) :
    (memory_add_set_counters cfg spfn epfn st).node_online_map = st.node_online_map := by
  unfold memory_add_set_counters
  simp only []
  split_ifs <;> rfl

theorem set_counters_total_pages (cfg : Config) (spfn epfn : Nat) (st : State M) :
    (memory_add_set_counters cfg spfn epfn st).total_pages
      = add64 st.total_pages (sub64 epfn spfn) := by
  unfold memory_add_set_counters
  simp only []
  split_ifs <;> rfl

theorem set_counters_max_page (cfg : Config) (spfn epfn : Nat) (st : State M) :
    (memory_add_set_counters cfg spfn epfn st).max_page = max st.max_page epfn := by
  unfold memory_add_set_counters
  simp only []
  split_ifs with h
  · exact (Nat.max_eq_right (Nat.le_of_lt h)).symm
  · exact (Nat.max_eq_left (Nat.le_of_not_lt h)).symm

theorem set_counters_max_pdx (cfg : Config) (spfn epfn : Nat) (st : State M)
    (h : st.max_page < epfn) :
    (memory_add_set_counters cfg spfn epfn st).max_pdx
      = add64 (cfg.pfn_to_pdx (sub64 epfn 1)) 1 := by
  unfold memory_add_set_counters
  simp only []
  rw [if_pos h]

theorem committed_of_set_counters (cfg : Config) (spfn epfn node : Nat) (st : State M)
    (r : Result M)
    (h : memory_add_committed_from spfn epfn node (memory_add_set_counters cfg spfn epfn st) r) :
    memory_add_committed cfg st spfn epfn node r := by
  unfold memory_add_committed_from at h
  unfold memory_add_committed
  obtain ⟨h1, h2, h3, h4, h5⟩ := h
  refine ⟨h1, ?_, ?_, ?_, ?_⟩
  · rw [h2, set_counters_max_page]
  · intro hlt
    rw [h3, set_counters_max_pdx cfg spfn epfn st hlt]
  · rw [h4, set_counters_total_pages]
  · rw [h5, set_counters_node_data]

/-- The part of `memory_add` from the update of the counters on either
commits or unwinds from `destroy_m2p`. -/
theorem memory_add_m2p_outcome (cfg : Config) (ops : Ops M) (spfn epfn : Nat)
    (info : mem_hotadd_info) (node : Nat) (orig_online : Bool)
    (old_node_start old_node_span old_max old_total : Nat)
    (st : State M) (calls : List Call)
    (hc : Call.share_hotadd_m2p_table ∉ calls) :
    (Call.share_hotadd_m2p_table ∈ (memory_add_m2p cfg ops spfn epfn info node orig_online
        old_node_start old_node_span old_max old_total st calls).calls ∧
      memory_add_committed cfg st spfn epfn node (memory_add_m2p cfg ops spfn epfn info node
        orig_online old_node_start old_node_span old_max old_total st calls)) ∨
    (Call.share_hotadd_m2p_table ∉ (memory_add_m2p cfg ops spfn epfn info node orig_online
        old_node_start old_node_span old_max old_total st calls).calls ∧
      memory_add_unwound node orig_online old_node_start old_node_span old_max old_total st
        (memory_add_m2p cfg ops spfn epfn info node orig_online
        old_node_start old_node_span old_max old_total st calls)) := by
  have hc2 : Call.share_hotadd_m2p_table ∉
      calls ++ [Call.set_pdx_range spfn epfn, Call.setup_m2p_table] := by simp [hc]
  unfold memory_add_m2p
  simp only []
  by_cases h1 : (ops.setup_m2p_table (memory_add_set_counters cfg spfn epfn st) info).1 ≠ 0
  · rw [if_pos h1]
    right
    refine ⟨?_, unwound_congr _ _ _ _ _ _ _ _ _ (set_counters_node_data cfg spfn epfn st)
      (set_counters_node_online_map cfg spfn epfn st)
      (unwound_of_mach _ _ _ _ _ _ _ _ _ (destroy_m2p_unwound _ _ _ _ _ _ _ _ _ _ _ _ _ _))⟩
    rw [destroy_m2p_calls]
    exact hc2
  · rw [if_neg h1]
    rcases memory_add_iommu_outcome cfg ops spfn epfn
      (ops.setup_m2p_table (memory_add_set_counters cfg spfn epfn st) info).2.1 node orig_online
      old_node_start old_node_span old_max old_total
      (ops.setup_m2p_table (memory_add_set_counters cfg spfn epfn st) info).1
      { memory_add_set_counters cfg spfn epfn st with
        mach := (ops.setup_m2p_table (memory_add_set_counters cfg spfn epfn st) info).2.2 }
      (calls ++ [Call.set_pdx_range spfn epfn, Call.setup_m2p_table]) hc2 with h | h
    · left
      exact ⟨h.1, committed_of_set_counters cfg spfn epfn node st _
        (committed_from_of_mach _ _ _ _ _ _ h.2)⟩
    · right
      exact ⟨h.1, unwound_congr _ _ _ _ _ _ _ _ _ (set_counters_node_data cfg spfn epfn st)
        (set_counters_node_online_map cfg spfn epfn st) (unwound_of_mach _ _ _ _ _ _ _ _ _ h.2)⟩

theorem rolled_back_of_unwound (spfn epfn node : Nat) (st : State M) (m : M) (r : Result M)
    (om ot : Nat) (hom : om = st.max_page) (hot : ot = st.total_pages)
    (h : memory_add_unwound node (node_online st node) (node_start_pfn st node)
      (node_spanned_pages st node) om ot
      { memory_add_resolve_node spfn epfn node st with mach := m } r) :
    memory_add_rolled_back st r := by
  unfold memory_add_unwound at h
  unfold memory_add_rolled_back
  obtain ⟨h1, h2, h3, h4⟩ := h
  refine ⟨by rw [h1, hom], by rw [h2, hot], ?_, ?_⟩
  · rw [h3]
    exact restore_node_data spfn epfn node st _ rfl
  · rw [h4]
    exact restore_node_online spfn epfn node st

theorem committed_of_resolve (cfg : Config) (spfn epfn node : Nat) (st : State M) (m : M)
    (r : Result M)
    (h : memory_add_committed cfg { memory_add_resolve_node spfn epfn node st with mach := m }
      spfn epfn node r) :
    memory_add_committed cfg st spfn epfn node r := by
  unfold memory_add_committed at *
  simp only [resolve_node_max_page, resolve_node_total_pages, resolve_node_present_pages] at h
  exact h

/-- A run of `memory_add` from the resolution of the node span on either
commits or rolls back. -/
theorem memory_add_staged_outcome (cfg : Config) (ops : Ops M) (spfn epfn node : Nat)
    (st : State M) (calls : List Call) (hc : Call.share_hotadd_m2p_table ∉ calls) :
    (Call.share_hotadd_m2p_table ∈
        (memory_add_staged cfg ops spfn epfn node st.max_page st.total_pages st calls).calls ∧
      memory_add_committed cfg st spfn epfn node
        (memory_add_staged cfg ops spfn epfn node st.max_page st.total_pages st calls)) ∨
    (Call.share_hotadd_m2p_table ∉
        (memory_add_staged cfg ops spfn epfn node st.max_page st.total_pages st calls).calls ∧
      memory_add_rolled_back st
        (memory_add_staged cfg ops spfn epfn node st.max_page st.total_pages st calls)) := by
  have hc2 : Call.share_hotadd_m2p_table ∉ calls ++ [Call.extend_frame_table] := by simp [hc]
  unfold memory_add_staged
  simp only []
  by_cases h1 : (ops.extend_frame_table (memory_add_resolve_node spfn epfn node st)
      { spfn := spfn, epfn := epfn, cur := spfn }).1 ≠ 0
  · rw [if_pos h1]
    right
    refine ⟨?_, rolled_back_of_unwound spfn epfn node st _ _ _ _
      (resolve_node_max_page spfn epfn node st) (resolve_node_total_pages spfn epfn node st)
      (destroy_frametable_unwound _ _ _ _ _ _ _ _ _ _ _ _)⟩
    rw [destroy_frametable_calls]
    exact hc2
  · rw [if_neg h1]
    rcases memory_add_m2p_outcome cfg ops spfn epfn
      (ops.extend_frame_table (memory_add_resolve_node spfn epfn node st)
        { spfn := spfn, epfn := epfn, cur := spfn }).2.1 node (node_online st node)
      (node_start_pfn st node) (node_spanned_pages st node) st.max_page st.total_pages
      { memory_add_resolve_node spfn epfn node st with
        mach := (ops.extend_frame_table (memory_add_resolve_node spfn epfn node st)
          { spfn := spfn, epfn := epfn, cur := spfn }).2.2 }
      (calls ++ [Call.extend_frame_table]) hc2 with h | h
    · left
      exact ⟨h.1, committed_of_resolve cfg spfn epfn node st _ _ h.2⟩
    · right
      exact ⟨h.1, rolled_back_of_unwound spfn epfn node st _ _ _ _ rfl rfl h.2⟩

theorem destroy_directmap_rolled_back (cfg : Config) (ops : Ops M) (spfn epfn : Nat)
    (ret : Int) (st : State M) (m : M) (calls : List Call)
    (hc : Call.share_hotadd_m2p_table ∉ calls) :
    Call.share_hotadd_m2p_table ∉
      (memory_add_destroy_directmap cfg ops spfn epfn ret { st with mach := m } calls).calls ∧
    memory_add_rolled_back st
      (memory_add_destroy_directmap cfg ops spfn epfn ret { st with mach := m } calls) := by
  simp [memory_add_destroy_directmap, memory_add_rolled_back, hc]

theorem committed_of_mach (cfg : Config) (spfn epfn node : Nat) (st : State M) (m : M)
    (r : Result M) (h : memory_add_committed cfg { st with mach := m } spfn epfn node r) :
    memory_add_committed cfg st spfn epfn node r := by
  unfold memory_add_committed at *
  exact h

theorem rolled_back_of_mach (st : State M) (m : M) (r : Result M)
    (h : memory_add_rolled_back { st with mach := m } r) : memory_add_rolled_back st r := by
  unfold memory_add_rolled_back at *
  exact h

theorem memory_add_map_high_outcome (cfg : Config) (ops : Ops M) (spfn epfn node i : Nat)
    (st : State M) (m : M) (calls : List Call) (hc : Call.share_hotadd_m2p_table ∉ calls) :
    (Call.share_hotadd_m2p_table ∈ (memory_add_map_high cfg ops spfn epfn node
        st.max_page st.total_pages i { st with mach := m } calls).calls ∧
      memory_add_committed cfg st spfn epfn node (memory_add_map_high cfg ops spfn epfn node
        st.max_page st.total_pages i { st with mach := m } calls)) ∨
    (Call.share_hotadd_m2p_table ∉ (memory_add_map_high cfg ops spfn epfn node
        st.max_page st.total_pages i { st with mach := m } calls).calls ∧
      memory_add_rolled_back st (memory_add_map_high cfg ops spfn epfn node
        st.max_page st.total_pages i { st with mach := m } calls)) := by
  unfold memory_add_map_high
  simp only []
  by_cases h1 : i < epfn
  · rw [if_pos h1]
    generalize (if i < spfn then spfn else i) = j
    by_cases h2 : (ops.map_pages_to_xen m (cfg.mfn_to_virt j) j (sub64 epfn j)
        cfg.PAGE_HYPERVISOR_RW).1 ≠ 0
    · rw [if_pos h2]
      right
      exact destroy_directmap_rolled_back cfg ops spfn epfn _ st _ _ (by simp [hc])
    · rw [if_neg h2]
      rcases memory_add_staged_outcome cfg ops spfn epfn node
        { st with mach := (ops.map_pages_to_xen m (cfg.mfn_to_virt j) j (sub64 epfn j)
            cfg.PAGE_HYPERVISOR_RW).2 }
        (calls ++ [Call.map_pages_to_xen (cfg.mfn_to_virt j) j (sub64 epfn j)
          cfg.PAGE_HYPERVISOR_RW]) (by simp [hc]) with h | h
      · left
        exact ⟨h.1, committed_of_mach cfg spfn epfn node st _ _ h.2⟩
      · right
        exact ⟨h.1, rolled_back_of_mach st _ _ h.2⟩
  · rw [if_neg h1]
    rcases memory_add_staged_outcome cfg ops spfn epfn node { st with mach := m } calls hc
      with h | h
    · left
      exact ⟨h.1, committed_of_mach cfg spfn epfn node st _ _ h.2⟩
    · right
      exact ⟨h.1, rolled_back_of_mach st _ _ h.2⟩

/-- A run of `memory_add` on a range that passes validation either reaches
the commit, with the counters updated, or does not, with the counters and the
node as at entry. -/
theorem memory_add_outcome (cfg : Config) (ops : Ops M) (st : State M) (spfn epfn pxm : Nat)
    (hcheck : mem_hotadd_check cfg st.pdx_group_valid spfn epfn ≠ 0)
    (hnode : ops.setup_node pxm ≠ NUMA_NO_NODE)
    (hnuma : ops.valid_numa_range (shl64 spfn PAGE_SHIFT) (shl64 epfn PAGE_SHIFT)
      (ops.setup_node pxm) = true) :
    (Call.share_hotadd_m2p_table ∈ (memory_add cfg ops st spfn epfn pxm).calls ∧
      memory_add_committed cfg st spfn epfn (ops.setup_node pxm)
        (memory_add cfg ops st spfn epfn pxm)) ∨
    (Call.share_hotadd_m2p_table ∉ (memory_add cfg ops st spfn epfn pxm).calls ∧
      memory_add_rolled_back st (memory_add cfg ops st spfn epfn pxm)) := by
  unfold memory_add
  simp only []
  rw [if_neg hcheck, if_neg hnode]
  have hn : ¬ ((!ops.valid_numa_range (shl64 spfn PAGE_SHIFT) (shl64 epfn PAGE_SHIFT)
      (ops.setup_node pxm)) = true) := by simp [hnuma]
  rw [if_neg hn]
  by_cases h1 : spfn < cfg.directmap_low_end
  · rw [if_pos h1]
    split_ifs with h2
    · right
      exact destroy_directmap_rolled_back cfg ops spfn epfn _ st _ _ (by simp)
    · exact memory_add_map_high_outcome cfg ops spfn epfn _ _ st _ _ (by simp)
  · rw [if_neg h1]
    have := memory_add_map_high_outcome cfg ops spfn epfn (ops.setup_node pxm)
      cfg.directmap_low_end st st.mach [] (by simp)
    exact this

/-! ## `memory_add`: what the specification states of it -/

/-- C1: a call of `memory_add` that passes validation and does not reach the
commit returns with `max_page`, `total_pages` and the start and span of the
target node as they were at entry, and with the node offline again when it
was offline at entry. -/
theorem memory_add_failure_restores_counters (cfg : Config) (ops : Ops M) (st : State M)
    (spfn epfn pxm : Nat)
    (hcheck : mem_hotadd_check cfg st.pdx_group_valid spfn epfn ≠ 0)
    (hnode : ops.setup_node pxm ≠ NUMA_NO_NODE)
    (hnuma : ops.valid_numa_range (shl64 spfn PAGE_SHIFT) (shl64 epfn PAGE_SHIFT)
      (ops.setup_node pxm) = true)
    (hfail : Call.share_hotadd_m2p_table ∉ (memory_add cfg ops st spfn epfn pxm).calls) :
    (memory_add cfg ops st spfn epfn pxm).st.max_page = st.max_page ∧
    (memory_add cfg ops st spfn epfn pxm).st.total_pages = st.total_pages ∧
    node_start_pfn (memory_add cfg ops st spfn epfn pxm).st (ops.setup_node pxm)
      = node_start_pfn st (ops.setup_node pxm) ∧
    node_spanned_pages (memory_add cfg ops st spfn epfn pxm).st (ops.setup_node pxm)
      = node_spanned_pages st (ops.setup_node pxm) ∧
    (node_online st (ops.setup_node pxm) = false →
      node_online (memory_add cfg ops st spfn epfn pxm).st (ops.setup_node pxm) = false) := by
  rcases memory_add_outcome cfg ops st spfn epfn pxm hcheck hnode hnuma with h | h
  · exact absurd h.1 hfail
  · obtain ⟨-, h1, h2, h3, h4⟩ := h
    unfold node_start_pfn node_spanned_pages node_online test_bit
    rw [h3, h4]
    exact ⟨h1, h2, rfl, rfl, fun h => h⟩

/-- C1, when `setup_m2p_table` fails with `-ENOMEM` in a hot-add of
`[0x100000, 0x130000)` to node 1, offline at entry. -/
theorem memory_add_failure_restores_counters_witness :
    (memory_add cfg0 { all_succeed with node := 1, m2p_ret := -ENOMEM }.ops st_4G
      0x100000 0x130000 1).st.max_page = st_4G.max_page ∧
    (memory_add cfg0 { all_succeed with node := 1, m2p_ret := -ENOMEM }.ops st_4G
      0x100000 0x130000 1).st.total_pages = st_4G.total_pages ∧
    node_start_pfn (memory_add cfg0 { all_succeed with node := 1, m2p_ret := -ENOMEM }.ops st_4G
      0x100000 0x130000 1).st 1 = node_start_pfn st_4G 1 ∧
    node_spanned_pages (memory_add cfg0
      { all_succeed with node := 1, m2p_ret := -ENOMEM }.ops st_4G
      0x100000 0x130000 1).st 1 = node_spanned_pages st_4G 1 ∧
    (node_online st_4G 1 = false →
      node_online (memory_add cfg0 { all_succeed with node := 1, m2p_ret := -ENOMEM }.ops st_4G
        0x100000 0x130000 1).st 1 = false) :=
  memory_add_failure_restores_counters cfg0
    { all_succeed with node := 1, m2p_ret := -ENOMEM }.ops st_4G 0x100000 0x130000 1
    (by decide) (by decide) (by decide) (by decide)

/-- C2: when `setup_m2p_table` fails in a hot-add of `[0x100000, 0x130000)`,
or when the I/O mapping of frame `0x100002` fails, `memory_add` rolls back
without reaching the commit, and pdx group 16, clear at entry, is set at
return: the frames of the attempted range stay marked present. -/
theorem memory_add_failure_leaves_pdx_groups_set :
    st_4G.pdx_group_valid 16 = false ∧
    (memory_add cfg0 { all_succeed with m2p_ret := -ENOMEM }.ops st_4G
      0x100000 0x130000 0).ret = -ENOMEM ∧
    Call.share_hotadd_m2p_table ∉ (memory_add cfg0
      { all_succeed with m2p_ret := -ENOMEM }.ops st_4G 0x100000 0x130000 0).calls ∧
    (memory_add cfg0 { all_succeed with m2p_ret := -ENOMEM }.ops st_4G
      0x100000 0x130000 0).st.pdx_group_valid 16 = true ∧
    Call.share_hotadd_m2p_table ∉ (memory_add cfg0
      { all_succeed with iommu_sync := true, iommu_map_fails := fun i => i == 0x100002 }.ops
      st_4G 0x100000 0x130000 0).calls ∧
    (memory_add cfg0
      { all_succeed with iommu_sync := true, iommu_map_fails := fun i => i == 0x100002 }.ops
      st_4G 0x100000 0x130000 0).st.pdx_group_valid 16 = true := by
  refine ⟨?_, ?_, ?_, ?_, ?_, ?_⟩ <;> decide

theorem memory_add_rejected (cfg : Config) (ops : Ops M) (st : State M)
    (spfn epfn pxm : Nat)
    (h : mem_hotadd_check cfg st.pdx_group_valid spfn epfn = 0 ∨
      ops.setup_node pxm = NUMA_NO_NODE ∨
      ops.valid_numa_range (shl64 spfn PAGE_SHIFT) (shl64 epfn PAGE_SHIFT)
        (ops.setup_node pxm) = false) :
    memory_add cfg ops st spfn epfn pxm = { ret := -EINVAL, st := st, calls := [] } := by
  unfold memory_add
  simp only []
  by_cases h1 : mem_hotadd_check cfg st.pdx_group_valid spfn epfn = 0
  · rw [if_pos h1]
  · rw [if_neg h1]
    by_cases h2 : ops.setup_node pxm = NUMA_NO_NODE
    · rw [if_pos h2]
    · rw [if_neg h2]
      rcases h with h | h | h
      · exact absurd h h1
      · exact absurd h h2
      · rw [h]
        rfl

/-- C3: a request that `mem_hotadd_check` rejects, or whose proximity domain
has no node, or whose range is not NUMA-valid for the node, makes `memory_add`
return `-EINVAL` with the whole state (counters, `pdx_group_valid`, node
spans, page tables) unchanged and without any call to a mapping or allocating
function. -/
theorem memory_add_rejects_invalid (cfg : Config) (ops : Ops M) (st : State M)
    (spfn epfn pxm : Nat)
    (h : mem_hotadd_check cfg st.pdx_group_valid spfn epfn = 0 ∨
      ops.setup_node pxm = NUMA_NO_NODE ∨
      ops.valid_numa_range (shl64 spfn PAGE_SHIFT) (shl64 epfn PAGE_SHIFT)
        (ops.setup_node pxm) = false) :
    (memory_add cfg ops st spfn epfn pxm).ret = -EINVAL ∧
    (memory_add cfg ops st spfn epfn pxm).st = st ∧
    (memory_add cfg ops st spfn epfn pxm).calls = [] := by
  rw [memory_add_rejected cfg ops st spfn epfn pxm h]
  exact ⟨rfl, rfl, rfl⟩

/-- C3, for the misaligned range `[0x100000, 0x1300ff)`. -/
theorem memory_add_rejects_invalid_witness :
    (memory_add cfg0 all_succeed.ops st_4G 0x100000 0x1300ff 0).ret = -EINVAL ∧
    (memory_add cfg0 all_succeed.ops st_4G 0x100000 0x1300ff 0).st = st_4G ∧
    (memory_add cfg0 all_succeed.ops st_4G 0x100000 0x1300ff 0).calls = [] :=
  memory_add_rejects_invalid cfg0 all_succeed.ops st_4G 0x100000 0x1300ff 0
    (Or.inl (by decide))

/-- C7: with the I/O translation tables in need of synchronisation and
`iommu_legacy_map` failing at frame `0x100002`, `memory_add` rolls back
(`destroy_m2p_mapping` is called, the commit is not reached) and returns 0,
the value `setup_m2p_table` left in `ret`: the failure is not reported. -/
theorem memory_add_iommu_failure_returns_zero :
    (memory_add cfg0
      { all_succeed with iommu_sync := true, iommu_map_fails := fun i => i == 0x100002 }.ops
      st_4G 0x100000 0x130000 0).ret = 0 ∧
    Call.destroy_m2p_mapping ∈ (memory_add cfg0
      { all_succeed with iommu_sync := true, iommu_map_fails := fun i => i == 0x100002 }.ops
      st_4G 0x100000 0x130000 0).calls ∧
    Call.share_hotadd_m2p_table ∉ (memory_add cfg0
      { all_succeed with iommu_sync := true, iommu_map_fails := fun i => i == 0x100002 }.ops
      st_4G 0x100000 0x130000 0).calls := by
  refine ⟨?_, ?_, ?_⟩ <;> decide

/-- C8: the frames that `memory_add` unmaps after a failed I/O mapping are
those from `k - 1` down to the old `max_page`, not those it mapped.  With
`max_page = 0x300000` above the range, frames `0x100000` and `0x100001` are
mapped, the mapping of `0x100002` fails, and nothing is unmapped; with
`max_page = 0xffffe` below the range, frame `0x100000` is mapped, the mapping
of `0x100001` fails, and frames `0x100000`, `0xfffff` and `0xffffe` are
unmapped. -/
theorem memory_add_iommu_unmap_starts_at_old_max :
    mapped_frames (memory_add cfg0
      { all_succeed with iommu_sync := true, iommu_map_fails := fun i => i == 0x100002 }.ops
      st_two_nodes 0x100000 0x130000 0).calls = [0x100000, 0x100001, 0x100002] ∧
    unmapped_frames (memory_add cfg0
      { all_succeed with iommu_sync := true, iommu_map_fails := fun i => i == 0x100002 }.ops
      st_two_nodes 0x100000 0x130000 0).calls = [] ∧
    mapped_frames (memory_add cfg0
      { all_succeed with iommu_sync := true, iommu_map_fails := fun i => i == 0x100001 }.ops
      { st_4G with max_page := 0xffffe } 0x100000 0x130000 0).calls = [0x100000, 0x100001] ∧
    unmapped_frames (memory_add cfg0
      { all_succeed with iommu_sync := true, iommu_map_fails := fun i => i == 0x100001 }.ops
      { st_4G with max_page := 0xffffe } 0x100000 0x130000 0).calls
        = [0x100000, 0xfffff, 0xffffe] := by
  refine ⟨?_, ?_, ?_, ?_⟩ <;> decide

/-- C9: a call of `memory_add` that reaches the commit returns 0, leaves
`max_page` at the larger of its old value and `epfn`, sets `max_pdx` to
`pfn_to_pdx(max_page - 1) + 1` when `max_page` was raised, and adds the size
of the range to `total_pages` and to the present pages of the node. -/
theorem memory_add_commit_updates_counters (cfg : Config) (ops : Ops M) (st : State M)
    (spfn epfn pxm : Nat) (he : epfn < 2 ^ 64)
    (hcommit : Call.share_hotadd_m2p_table ∈ (memory_add cfg ops st spfn epfn pxm).calls) :
    (memory_add cfg ops st spfn epfn pxm).ret = 0 ∧
    (memory_add cfg ops st spfn epfn pxm).st.max_page = max st.max_page epfn ∧
    (st.max_page < epfn →
      (memory_add cfg ops st spfn epfn pxm).st.max_pdx
        = add64 (cfg.pfn_to_pdx ((memory_add cfg ops st spfn epfn pxm).st.max_page - 1)) 1) ∧
    (memory_add cfg ops st spfn epfn pxm).st.total_pages
      = add64 st.total_pages (epfn - spfn) ∧
    ((memory_add cfg ops st spfn epfn pxm).st.node_data (ops.setup_node pxm)).node_present_pages
      = add64 (st.node_data (ops.setup_node pxm)).node_present_pages (epfn - spfn) ∧
    (st.total_pages + (epfn - spfn) < 2 ^ 64 →
      (memory_add cfg ops st spfn epfn pxm).st.total_pages = st.total_pages + (epfn - spfn)) ∧
    ((st.node_data (ops.setup_node pxm)).node_present_pages + (epfn - spfn) < 2 ^ 64 →
      ((memory_add cfg ops st spfn epfn pxm).st.node_data
        (ops.setup_node pxm)).node_present_pages
        = (st.node_data (ops.setup_node pxm)).node_present_pages + (epfn - spfn)) := by
  by_cases hrej : mem_hotadd_check cfg st.pdx_group_valid spfn epfn = 0 ∨
      ops.setup_node pxm = NUMA_NO_NODE ∨
      ops.valid_numa_range (shl64 spfn PAGE_SHIFT) (shl64 epfn PAGE_SHIFT)
        (ops.setup_node pxm) = false
  · rw [memory_add_rejected cfg ops st spfn epfn pxm hrej] at hcommit
    simp at hcommit
  · simp only [not_or] at hrej
    obtain ⟨hcheck, hnode, hnuma⟩ := hrej
    have hnuma' : ops.valid_numa_range (shl64 spfn PAGE_SHIFT) (shl64 epfn PAGE_SHIFT)
        (ops.setup_node pxm) = true := by simpa using hnuma
    have hlt : spfn < epfn := by
      rcases mem_hotadd_check_zero_or_one cfg st.pdx_group_valid spfn epfn with h | h
      · exact absurd h hcheck
      · exact Nat.lt_of_not_ge
          ((mem_hotadd_check_eq_one_iff cfg st.pdx_group_valid spfn epfn).1 h).1.1
    rcases memory_add_outcome cfg ops st spfn epfn pxm hcheck hnode hnuma' with h | h
    · obtain ⟨-, h1, h2, h3, h4, h5⟩ := h
      rw [sub64_of_le epfn spfn he (by omega)] at h4 h5
      refine ⟨h1, h2, ?_, h4, h5, ?_, ?_⟩
      · intro hmax
        rw [h3 hmax, h2, Nat.max_eq_right (by omega), sub64_of_le epfn 1 he (by omega)]
      · intro hno
        rw [h4]
        exact Nat.mod_eq_of_lt hno
      · intro hno
        rw [h5]
        exact Nat.mod_eq_of_lt hno
    · exact absurd hcommit h.1

/-- C9, for the hot-add of `[0x100000, 0x130000)` to a machine with 4 GiB in
which every stage succeeds. -/
theorem memory_add_commit_updates_counters_witness :
    (memory_add cfg0 all_succeed.ops st_4G 0x100000 0x130000 0).ret = 0 ∧
    (memory_add cfg0 all_succeed.ops st_4G 0x100000 0x130000 0).st.max_page = 0x130000 ∧
    (memory_add cfg0 all_succeed.ops st_4G 0x100000 0x130000 0).st.total_pages = 0x130000 :=
  have h := memory_add_commit_updates_counters cfg0 all_succeed.ops st_4G 0x100000 0x130000 0
    (by decide) (by decide)
  ⟨h.1, h.2.1, h.2.2.2.2.2.1 (by decide)⟩

/-- C10: node 1 is online and spans `[0x200000, 0x300000)`; the hot-add of
`[0x100000, 0x130000)`, below that span, to node 1 succeeds and leaves the
node with start `0x100000` and the old number of spanned pages `0x100000`:
the new span ends at `0x200000` and holds no frame of the previous span. -/
theorem memory_add_node_span_loses_old_span :
    node_online st_two_nodes 1 = true ∧
    node_start_pfn st_two_nodes 1 = 0x200000 ∧
    node_end_pfn st_two_nodes 1 = 0x300000 ∧
    (memory_add cfg0 { all_succeed with node := 1 }.ops st_two_nodes
      0x100000 0x130000 1).ret = 0 ∧
    node_start_pfn (memory_add cfg0 { all_succeed with node := 1 }.ops st_two_nodes
      0x100000 0x130000 1).st 1 = 0x100000 ∧
    node_spanned_pages (memory_add cfg0 { all_succeed with node := 1 }.ops st_two_nodes
      0x100000 0x130000 1).st 1 = 0x100000 ∧
    node_end_pfn (memory_add cfg0 { all_succeed with node := 1 }.ops st_two_nodes
      0x100000 0x130000 1).st 1 = 0x200000 := by
  refine ⟨?_, ?_, ?_, ?_, ?_, ?_, ?_⟩ <;> decide

/-! ## `do_page_walk` -/

/-- The pointer that `do_page_walk` returns, in terms of the entries it
reads. -/
theorem do_page_walk_ptr (mfn_valid : Nat → Bool) (mem : PageTables) (v : vcpu) (addr : Nat) :
    (do_page_walk mfn_valid mem v addr).ptr =
      if (!v.is_pv || !is_canonical_address addr) = true then none
      else if (walk_l4e mem v addr).flags &&& _PAGE_PRESENT = 0 then none
      else if ((walk_l3e mem v addr).flags &&& _PAGE_PRESENT = 0
          || !mfn_valid (walk_l3e mem v addr).pfn) = true then none
      else if (walk_l3e mem v addr).flags &&& _PAGE_PSE ≠ 0 then
        some (add64 (walk_l3e mem v addr).pfn
          (PFN_DOWN (addr &&& (shl64 1 L3_PAGETABLE_SHIFT - 1))), addr &&& not64 PAGE_MASK)
      else if ((walk_l2e mem v addr).flags &&& _PAGE_PRESENT = 0
          || !mfn_valid (walk_l2e mem v addr).pfn) = true then none
      else if (walk_l2e mem v addr).flags &&& _PAGE_PSE ≠ 0 then
        some (add64 (walk_l2e mem v addr).pfn
          (PFN_DOWN (addr &&& (shl64 1 L2_PAGETABLE_SHIFT - 1))), addr &&& not64 PAGE_MASK)
      else if ((walk_l1e mem v addr).flags &&& _PAGE_PRESENT = 0
          || !mfn_valid (walk_l1e mem v addr).pfn) = true then none
      else some ((walk_l1e mem v addr).pfn, addr &&& not64 PAGE_MASK) := by
  unfold do_page_walk walk_l1e walk_l2e walk_l3e walk_l4e
  simp only []
  split_ifs <;> rfl

theorem not64_PAGE_MASK : not64 PAGE_MASK = PAGE_SIZE - 1 := by decide

/-- C18: a successful walk is one of a PV vcpu at a canonical address, and
its result is the location at byte offset `addr & (PAGE_SIZE - 1)` of the
frame that the reference translation gives: the base of the 1 GiB superpage
plus the page index of `addr` in it when the L3 entry is a superpage, else the
base of the 2 MiB superpage plus the page index of `addr` in it when the L2
entry is a superpage, else the frame of the L1 entry.  In particular an
address in a 2 MiB superpage at machine base `M` and aligned virtual base `V`
resolves to frame `M + ((addr - V) >> PAGE_SHIFT)`. -/
theorem do_page_walk_reference_translation (mfn_valid : Nat → Bool) (mem : PageTables)
    (v : vcpu) (addr : Nat) :
    (∀ F off, (do_page_walk mfn_valid mem v addr).ptr = some (F, off) →
      v.is_pv = true ∧ is_canonical_address addr = true ∧
      off = addr &&& (PAGE_SIZE - 1) ∧
      F = if (walk_l3e mem v addr).flags &&& _PAGE_PSE ≠ 0 then
            add64 (walk_l3e mem v addr).pfn ((addr &&& (2 ^ 30 - 1)) >>> PAGE_SHIFT)
          else if (walk_l2e mem v addr).flags &&& _PAGE_PSE ≠ 0 then
            add64 (walk_l2e mem v addr).pfn ((addr &&& (2 ^ 21 - 1)) >>> PAGE_SHIFT)
          else (walk_l1e mem v addr).pfn) ∧
    (∀ V M, v.is_pv = true → is_canonical_address addr = true →
      V % 2 ^ 21 = 0 → V ≤ addr → addr < V + 2 ^ 21 → M + 2 ^ 9 ≤ 2 ^ 64 →
      (walk_l4e mem v addr).flags &&& _PAGE_PRESENT ≠ 0 →
      (walk_l3e mem v addr).flags &&& _PAGE_PRESENT ≠ 0 →
      mfn_valid (walk_l3e mem v addr).pfn = true →
      (walk_l3e mem v addr).flags &&& _PAGE_PSE = 0 →
      (walk_l2e mem v addr).flags &&& _PAGE_PRESENT ≠ 0 →
      (walk_l2e mem v addr).flags &&& _PAGE_PSE ≠ 0 →
      (walk_l2e mem v addr).pfn = M → mfn_valid M = true →
      (do_page_walk mfn_valid mem v addr).ptr
        = some (M + ((addr - V) >>> PAGE_SHIFT), addr &&& (PAGE_SIZE - 1))) := by
  have hm3 : shl64 1 L3_PAGETABLE_SHIFT - 1 = 2 ^ 30 - 1 := by decide
  have hm2 : shl64 1 L2_PAGETABLE_SHIFT - 1 = 2 ^ 21 - 1 := by decide
  constructor
  · intro F off h
    rw [do_page_walk_ptr, not64_PAGE_MASK, hm3, hm2] at h
    unfold PFN_DOWN at h
    split_ifs at h with h0 h4 h3 p3 h2 p2 h1
    · simp only [Bool.or_eq_true, Bool.not_eq_true', not_or, Bool.not_eq_false] at h0
      simp only [Option.some.injEq, Prod.mk.injEq] at h
      exact ⟨h0.1, h0.2, h.2.symm, by rw [if_pos p3]; exact h.1.symm⟩
    · simp only [Bool.or_eq_true, Bool.not_eq_true', not_or, Bool.not_eq_false] at h0
      simp only [Option.some.injEq, Prod.mk.injEq] at h
      exact ⟨h0.1, h0.2, h.2.symm, by rw [if_neg p3, if_pos p2]; exact h.1.symm⟩
    · simp only [Bool.or_eq_true, Bool.not_eq_true', not_or, Bool.not_eq_false] at h0
      simp only [Option.some.injEq, Prod.mk.injEq] at h
      exact ⟨h0.1, h0.2, h.2.symm, by rw [if_neg p3, if_neg p2]; exact h.1.symm⟩
  · intro V M hpv hcan hV hle hlt hM h4 h3 v3 p3 h2 p2 hpfn vM
    rw [do_page_walk_ptr, not64_PAGE_MASK, hm2]
    unfold PFN_DOWN
    have c0 : ¬ ((!v.is_pv || !is_canonical_address addr) = true) := by simp [hpv, hcan]
    have c3 : ¬ (((walk_l3e mem v addr).flags &&& _PAGE_PRESENT = 0
        || !mfn_valid (walk_l3e mem v addr).pfn) = true) := by simp [h3, v3]
    have c2 : ¬ (((walk_l2e mem v addr).flags &&& _PAGE_PRESENT = 0
        || !mfn_valid (walk_l2e mem v addr).pfn) = true) := by simp [h2, hpfn, vM]
    rw [if_neg c0, if_neg h4, if_neg c3, if_neg (not_not.2 p3), if_neg c2, if_pos p2, hpfn,
      Nat.and_pow_two_sub_one_eq_mod]
    have hoff : addr % 2 ^ 21 = addr - V := by omega
    rw [hoff]
    have hsmall : (addr - V) >>> PAGE_SHIFT < 2 ^ 9 := by
      rw [Nat.shiftRight_eq_div_pow]
      unfold PAGE_SHIFT
      omega
    unfold add64
    rw [Nat.mod_eq_of_lt (by omega)]

/-- C18, for the address `0x205678` in the 2 MiB superpage at machine base
`0x800` and virtual base `0x200000`: frame `0x805`, offset `0x678`. -/
theorem do_page_walk_reference_translation_witness :
    (do_page_walk walk_valid walk_mem walk_vcpu 0x205678).ptr
      = some (0x800 + ((0x205678 - 0x200000) >>> PAGE_SHIFT), 0x205678 &&& (PAGE_SIZE - 1)) :=
  (do_page_walk_reference_translation walk_valid walk_mem walk_vcpu 0x205678).2 0x200000 0x800
    (by decide) (by decide) (by decide) (by decide) (by decide) (by decide) (by decide)
    (by decide) (by decide) (by decide) (by decide) (by decide) (by decide) (by decide)

/-- C19: `do_page_walk` returns `NULL` when the root entry is not present,
when the L3 entry is not present, when the L3 entry is not a superpage and the
L2 entry is not present, and when neither the L3 nor the L2 entry is a
superpage and the L1 entry is not present. -/
theorem do_page_walk_not_present (mfn_valid : Nat → Bool) (mem : PageTables)
    (v : vcpu) (addr : Nat) :
    ((walk_l4e mem v addr).flags &&& _PAGE_PRESENT = 0 →
      (do_page_walk mfn_valid mem v addr).ptr = none) ∧
    ((walk_l3e mem v addr).flags &&& _PAGE_PRESENT = 0 →
      (do_page_walk mfn_valid mem v addr).ptr = none) ∧
    ((walk_l3e mem v addr).flags &&& _PAGE_PSE = 0 →
      (walk_l2e mem v addr).flags &&& _PAGE_PRESENT = 0 →
      (do_page_walk mfn_valid mem v addr).ptr = none) ∧
    ((walk_l3e mem v addr).flags &&& _PAGE_PSE = 0 →
      (walk_l2e mem v addr).flags &&& _PAGE_PSE = 0 →
      (walk_l1e mem v addr).flags &&& _PAGE_PRESENT = 0 →
      (do_page_walk mfn_valid mem v addr).ptr = none) := by
  refine ⟨?_, ?_, ?_, ?_⟩
  · intro h
    rw [do_page_walk_ptr]
    split_ifs <;> rfl
  · intro h
    rw [do_page_walk_ptr]
    split_ifs <;> first | rfl | simp_all
  · intro p3 h
    rw [do_page_walk_ptr]
    split_ifs <;> first | rfl | simp_all
  · intro p3 p2 h
    rw [do_page_walk_ptr]
    split_ifs <;> first | rfl | simp_all

/-- C19, for an address whose root entry (index 2) is not present. -/
theorem do_page_walk_not_present_witness :
    (do_page_walk walk_valid walk_mem walk_vcpu 0x10000000000).ptr = none :=
  (do_page_walk_not_present walk_valid walk_mem walk_vcpu 0x10000000000).1 (by decide)

/-- C20, as stated, fails: the walk of `0x70000000`, in the 1 GiB superpage
at frame `0xc0000`, returns frame `0xf0000`, which is not valid; and the
walk of `0x8000000000` goes through the L3 table in frame `0x200000`, named
by the root entry and not valid, and returns frame `0x900`. -/
theorem do_page_walk_unchecked_frames :
    (do_page_walk walk_valid walk_mem walk_vcpu 0x70000000).ptr = some (0xf0000, 0) ∧
    walk_valid 0xf0000 = false ∧
    (do_page_walk walk_valid walk_mem walk_vcpu 0x8000000000).ptr = some (0x900, 0) ∧
    (walk_l4e walk_mem walk_vcpu 0x8000000000).pfn = 0x200000 ∧
    walk_valid 0x200000 = false := by
  refine ⟨?_, ?_, ?_, ?_, ?_⟩ <;> decide

/-- C20, amended: a frame named by the L3 entry, by the L2 entry (read when
the L3 entry is not a superpage) or by the L1 entry (read when the L2 entry is
not a superpage either) that fails `mfn_valid` makes `do_page_walk` return
`NULL`; so when the result is not `NULL` these frames passed `mfn_valid`. -/
theorem do_page_walk_checks_entry_frames (mfn_valid : Nat → Bool) (mem : PageTables)
    (v : vcpu) (addr : Nat) :
    (mfn_valid (walk_l3e mem v addr).pfn = false →
      (do_page_walk mfn_valid mem v addr).ptr = none) ∧
    ((walk_l3e mem v addr).flags &&& _PAGE_PSE = 0 →
      mfn_valid (walk_l2e mem v addr).pfn = false →
      (do_page_walk mfn_valid mem v addr).ptr = none) ∧
    ((walk_l3e mem v addr).flags &&& _PAGE_PSE = 0 →
      (walk_l2e mem v addr).flags &&& _PAGE_PSE = 0 →
      mfn_valid (walk_l1e mem v addr).pfn = false →
      (do_page_walk mfn_valid mem v addr).ptr = none) ∧
    ((do_page_walk mfn_valid mem v addr).ptr ≠ none →
      mfn_valid (walk_l3e mem v addr).pfn = true ∧
      ((walk_l3e mem v addr).flags &&& _PAGE_PSE = 0 →
        mfn_valid (walk_l2e mem v addr).pfn = true) ∧
      ((walk_l3e mem v addr).flags &&& _PAGE_PSE = 0 →
        (walk_l2e mem v addr).flags &&& _PAGE_PSE = 0 →
        mfn_valid (walk_l1e mem v addr).pfn = true)) := by
  have a : mfn_valid (walk_l3e mem v addr).pfn = false →
      (do_page_walk mfn_valid mem v addr).ptr = none := by
    intro h
    rw [do_page_walk_ptr]
    split_ifs <;> first | rfl | simp_all
  have b : (walk_l3e mem v addr).flags &&& _PAGE_PSE = 0 →
      mfn_valid (walk_l2e mem v addr).pfn = false →
      (do_page_walk mfn_valid mem v addr).ptr = none := by
    intro p3 h
    rw [do_page_walk_ptr]
    split_ifs <;> first | rfl | simp_all
  have c : (walk_l3e mem v addr).flags &&& _PAGE_PSE = 0 →
      (walk_l2e mem v addr).flags &&& _PAGE_PSE = 0 →
      mfn_valid (walk_l1e mem v addr).pfn = false →
      (do_page_walk mfn_valid mem v addr).ptr = none := by
    intro p3 p2 h
    rw [do_page_walk_ptr]
    split_ifs <;> first | rfl | simp_all
  refine ⟨a, b, c, fun hne => ⟨?_, fun p3 => ?_, fun p3 p2 => ?_⟩⟩
  · by_contra hv
    exact hne (a (by simpa using hv))
  · by_contra hv
    exact hne (b p3 (by simpa using hv))
  · by_contra hv
    exact hne (c p3 p2 (by simpa using hv))

/-- C20 amended, for the walk of `0x205678`, which succeeds: the L2 table
frame `0x12` and the superpage base `0x800` are valid. -/
theorem do_page_walk_checks_entry_frames_witness :
    walk_valid (walk_l3e walk_mem walk_vcpu 0x205678).pfn = true ∧
    walk_valid (walk_l2e walk_mem walk_vcpu 0x205678).pfn = true :=
  have h := (do_page_walk_checks_entry_frames walk_valid walk_mem walk_vcpu 0x205678).2.2.2
    (by decide)
  ⟨h.1, h.2.1 (by decide)⟩

/-! ## `set_gpfn_from_mfn` -/

/-- C12, as stated, fails: frame 5 is owned by `dom_cow`; after
`set_gpfn_from_mfn(5, 42)` with the M2P table initialised the entry of frame 5
is `SHARED_M2P_ENTRY`, not 42. -/
theorem set_gpfn_from_mfn_shared_page_not_round_trip :
    (export_mach []).machine_to_phys_mapping_valid = true ∧
    (set_gpfn_from_mfn cfg0 (export_mach []) 5 42).machine_to_phys_mapping 5
      = SHARED_M2P_ENTRY ∧
    (set_gpfn_from_mfn cfg0 (export_mach []) 5 42).machine_to_phys_mapping 5 ≠ 42 := by
  refine ⟨?_, ?_, ?_⟩ <;> decide

/-- C12, amended: with the M2P table initialised, after
`set_gpfn_from_mfn(mfn, gfn)` the entry of `mfn` is `gfn` when `gfn` is
`INVALID_M2P_ENTRY` or the page has no owner or an owner other than
`dom_cow`, and it is `SHARED_M2P_ENTRY` when `gfn` is not `INVALID_M2P_ENTRY`
and the owner of the page is `dom_cow`. -/
theorem set_gpfn_from_mfn_round_trip (cfg : Config) (m : Mach) (mfn gfn : Nat)
    (hvalid : m.machine_to_phys_mapping_valid = true) :
    ((gfn = INVALID_M2P_ENTRY ∨ m.page_owner mfn = none ∨ m.page_owner mfn ≠ m.dom_cow) →
      (set_gpfn_from_mfn cfg m mfn gfn).machine_to_phys_mapping mfn = gfn) ∧
    (gfn ≠ INVALID_M2P_ENTRY → (m.page_owner mfn).isSome = true →
      m.page_owner mfn = m.dom_cow →
      (set_gpfn_from_mfn cfg m mfn gfn).machine_to_phys_mapping mfn = SHARED_M2P_ENTRY) := by
  constructor
  · intro h
    unfold set_gpfn_from_mfn
    simp only [hvalid, Bool.not_true, Bool.false_eq_true, if_false, array_set, if_true]
    by_cases hg : gfn = INVALID_M2P_ENTRY
    · simp [hg]
    · rcases h with h | h | h
      · exact absurd h hg
      · simp [hg, h]
      · simp [hg, h]
  · intro hg hs ho
    unfold set_gpfn_from_mfn
    simp [hvalid, array_set, hg, hs, ho.symm]

/-- C12 amended, for frame 6, which has no owner. -/
theorem set_gpfn_from_mfn_round_trip_witness :
    (set_gpfn_from_mfn cfg0 (export_mach []) 6 42).machine_to_phys_mapping 6 = 42 :=
  (set_gpfn_from_mfn_round_trip cfg0 (export_mach []) 6 42 (by decide)).1
    (Or.inr (Or.inl (by decide)))

/-- C13: with the M2P table initialised, after
`set_gpfn_from_mfn(mfn, INVALID_M2P_ENTRY)` the entry of `mfn` is
`INVALID_M2P_ENTRY` whoever owns the page, and with `opt_pv32` set and `mfn`
below the compat limit the compat entry is the 32-bit pattern of all ones. -/
theorem set_gpfn_from_mfn_invalid (cfg : Config) (m : Mach) (mfn : Nat)
    (hvalid : m.machine_to_phys_mapping_valid = true) :
    (set_gpfn_from_mfn cfg m mfn INVALID_M2P_ENTRY).machine_to_phys_mapping mfn
      = INVALID_M2P_ENTRY ∧
    (m.opt_pv32 = true → mfn < cfg.compat_mpt_bytes / 4 →
      (set_gpfn_from_mfn cfg m mfn INVALID_M2P_ENTRY).compat_machine_to_phys_mapping mfn
        = 2 ^ 32 - 1) := by
  constructor
  · unfold set_gpfn_from_mfn
    simp [hvalid, array_set]
  · intro hpv hlt
    unfold set_gpfn_from_mfn
    simp only [hvalid, hpv, hlt, array_set, Bool.not_true, Bool.false_eq_true, if_false,
      ne_eq, not_true_eq_false, decide_True, Bool.and_self, if_true]
    decide

/-- C13, for frame 5, owned by `dom_cow`. -/
theorem set_gpfn_from_mfn_invalid_witness :
    (set_gpfn_from_mfn cfg0 (export_mach []) 5 INVALID_M2P_ENTRY).machine_to_phys_mapping 5
      = INVALID_M2P_ENTRY ∧
    (set_gpfn_from_mfn cfg0 (export_mach []) 5
      INVALID_M2P_ENTRY).compat_machine_to_phys_mapping 5 = 2 ^ 32 - 1 :=
  have h := set_gpfn_from_mfn_invalid cfg0 (export_mach []) 5 (by decide)
  ⟨h.1, h.2 (by decide) (by decide)⟩

/-! ## `subarch_memory_op`: the M2P export queries -/

theorem shl64_one_L2 : shl64 1 L2_PAGETABLE_SHIFT = 2 ^ 21 := by decide

theorem machphys_slot_va_succ (lay : Layout) (i : Nat) :
    add64 (machphys_slot_va lay i) (shl64 1 L2_PAGETABLE_SHIFT)
      = machphys_slot_va lay (i + 1) := by
  rw [shl64_one_L2]
  unfold add64 machphys_slot_va
  omega

theorem machphys_compat_slot_va_succ (lay : Layout) (i : Nat) :
    add64 (machphys_compat_slot_va lay i) (shl64 1 L2_PAGETABLE_SHIFT)
      = machphys_compat_slot_va lay (i + 1) := by
  rw [shl64_one_L2]
  unfold add64 machphys_compat_slot_va
  omega

theorem machphys_slot_mfn_of_unmapped (m : Mach) (v last : Nat)
    (h : machphys_slot_unmapped m v) : machphys_slot_mfn m v last = last := by
  unfold machphys_slot_unmapped at h
  unfold machphys_slot_mfn
  simp only [] at h ⊢
  rcases h with h | ⟨h1, h2⟩
  · rw [if_pos h]
  · by_cases h3 : (m.pt (m.idle_pg_table (l4_table_offset v)).pfn
        (l3_table_offset v)).flags &&& _PAGE_PRESENT = 0
    · rw [if_pos h3]
    · rw [if_neg h3, if_pos h1, if_neg (not_not.2 h2)]

theorem machphys_compat_slot_mfn_of_unmapped (m : Mach) (v last : Nat)
    (h : machphys_compat_slot_unmapped m v) : machphys_compat_slot_mfn m v last = last := by
  unfold machphys_compat_slot_unmapped at h
  unfold machphys_compat_slot_mfn
  simp only []
  rw [if_neg (not_not.2 h)]

/-- Appending the write of extent `i` keeps the carry-forward property when
the extents written so far are those below `i` and the last one carries
`last`. -/
theorem carry_step (unmapped : Nat → Prop) (acc : List GuestAccess) (i last mfn : Nat)
    (hlt : ∀ k x, GuestAccess.copy_to_guest_offset k x ∈ acc → k < i)
    (hlast : i = 0 ∨ GuestAccess.copy_to_guest_offset (i - 1) last ∈ acc)
    (hmfn : unmapped i → mfn = last)
    (hc : ∀ k x, GuestAccess.copy_to_guest_offset (k + 1) x ∈ acc → unmapped (k + 1) →
      GuestAccess.copy_to_guest_offset k x ∈ acc) :
    (∀ k x, GuestAccess.copy_to_guest_offset k x ∈
        acc ++ [GuestAccess.copy_to_guest_offset i mfn] → k < i + 1) ∧
    (i + 1 = 0 ∨ GuestAccess.copy_to_guest_offset (i + 1 - 1) mfn ∈
        acc ++ [GuestAccess.copy_to_guest_offset i mfn]) ∧
    (∀ k x, GuestAccess.copy_to_guest_offset (k + 1) x ∈
        acc ++ [GuestAccess.copy_to_guest_offset i mfn] → unmapped (k + 1) →
      GuestAccess.copy_to_guest_offset k x ∈
        acc ++ [GuestAccess.copy_to_guest_offset i mfn]) := by
  refine ⟨?_, ?_, ?_⟩
  · intro k x hk
    rw [List.mem_append] at hk
    rcases hk with hk | hk
    · exact Nat.lt_succ_of_lt (hlt k x hk)
    · simp only [List.mem_singleton, GuestAccess.copy_to_guest_offset.injEq] at hk
      omega
  · right
    simp
  · intro k x hk hu
    rw [List.mem_append] at hk ⊢
    rcases hk with hk | hk
    · exact Or.inl (hc k x hk hu)
    · simp only [List.mem_singleton, GuestAccess.copy_to_guest_offset.injEq] at hk
      obtain ⟨hki, hx⟩ := hk
      left
      rcases hlast with h0 | hl
      · omega
      · have : mfn = last := hmfn (hki ▸ hu)
        have hk' : i - 1 = k := by omega
        rw [hx, this, ← hk']
        exact hl

theorem machphys_mfn_list_loop_carry (lay : Layout) (m : Mach) (g : Guest)
    (max_extents limit : Nat) :
    ∀ (fuel i last : Nat) (acc : List GuestAccess) (ok : Bool),
      (∀ k x, GuestAccess.copy_to_guest_offset k x ∈ acc → k < i) →
      (i = 0 ∨ GuestAccess.copy_to_guest_offset (i - 1) last ∈ acc) →
      carries_forward lay m acc →
      carries_forward lay m (machphys_mfn_list_loop m g max_extents limit fuel i
        (machphys_slot_va lay i) last acc ok).accesses := by
  intro fuel
  induction fuel with
  | zero =>
    intro i last acc ok _ _ hc
    exact hc
  | succ fuel ih =>
    intro i last acc ok hlt hlast hc
    unfold machphys_mfn_list_loop
    simp only []
    obtain ⟨s1, s2, s3⟩ := carry_step
      (fun k => machphys_slot_unmapped m (machphys_slot_va lay k)) acc i last
      (machphys_slot_mfn m (machphys_slot_va lay i) last) hlt hlast
      (fun hu => machphys_slot_mfn_of_unmapped m _ last hu) hc
    by_cases hcond : i ≠ max_extents ∧ machphys_slot_va lay i < limit
    · rw [if_pos hcond]
      by_cases hf : (!g.extent_ok i) = true
      · rw [if_pos hf]
        exact s3
      · rw [if_neg hf, machphys_slot_va_succ]
        exact ih (i + 1) _ _ _ s1 s2 s3
    · rw [if_neg hcond]
      exact hc

theorem machphys_compat_mfn_list_loop_carry (lay : Layout) (m : Mach) (g : Guest)
    (max_extents limit : Nat) :
    ∀ (fuel i last : Nat) (acc : List GuestAccess) (ok : Bool),
      (∀ k x, GuestAccess.copy_to_guest_offset k x ∈ acc → k < i) →
      (i = 0 ∨ GuestAccess.copy_to_guest_offset (i - 1) last ∈ acc) →
      compat_carries_forward lay m acc →
      compat_carries_forward lay m (machphys_compat_mfn_list_loop m g max_extents limit fuel i
        (machphys_compat_slot_va lay i) last acc ok).accesses := by
  intro fuel
  induction fuel with
  | zero =>
    intro i last acc ok _ _ hc
    exact hc
  | succ fuel ih =>
    intro i last acc ok hlt hlast hc
    unfold machphys_compat_mfn_list_loop
    simp only []
    obtain ⟨s1, s2, s3⟩ := carry_step
      (fun k => machphys_compat_slot_unmapped m (machphys_compat_slot_va lay k)) acc i last
      (machphys_compat_slot_mfn m (machphys_compat_slot_va lay i) last) hlt hlast
      (fun hu => machphys_compat_slot_mfn_of_unmapped m _ last hu) hc
    by_cases hcond : i ≠ max_extents ∧ machphys_compat_slot_va lay i < limit
    · rw [if_pos hcond]
      by_cases hf : (!g.extent_ok i) = true
      · rw [if_pos hf]
        exact s3
      · rw [if_neg hf, machphys_compat_slot_va_succ]
        exact ih (i + 1) _ _ _ s1 s2 s3
    · rw [if_neg hcond]
      exact hc

theorem carries_forward_append_copy (lay : Layout) (m : Mach) (acc : List GuestAccess) (n : Nat)
    (h : carries_forward lay m acc) :
    carries_forward lay m (acc ++ [GuestAccess.copy_to_guest n]) := by
  intro k x hk hu
  simp only [List.mem_append, List.mem_singleton, reduceCtorEq, or_false] at hk ⊢
  exact h k x hk hu

theorem compat_carries_forward_append_copy (lay : Layout) (m : Mach) (acc : List GuestAccess)
    (n : Nat) (h : compat_carries_forward lay m acc) :
    compat_carries_forward lay m (acc ++ [GuestAccess.copy_to_guest n]) := by
  intro k x hk hu
  simp only [List.mem_append, List.mem_singleton, reduceCtorEq, or_false] at hk ⊢
  exact h k x hk hu

theorem carries_forward_start (lay : Layout) (m : Mach) :
    carries_forward lay m [GuestAccess.copy_from_guest] := by
  intro k x hk
  simp at hk

theorem compat_carries_forward_start (lay : Layout) (m : Mach) :
    compat_carries_forward lay m [GuestAccess.copy_from_guest] := by
  intro k x hk
  simp at hk

theorem machphys_slot_va_zero (lay : Layout) (h : lay.RDWR_MPT_VIRT_START < 2 ^ 64) :
    lay.RDWR_MPT_VIRT_START = machphys_slot_va lay 0 := by
  unfold machphys_slot_va
  omega

theorem machphys_compat_slot_va_zero (lay : Layout)
    (h : lay.RDWR_COMPAT_MPT_VIRT_START < 2 ^ 64) :
    lay.RDWR_COMPAT_MPT_VIRT_START = machphys_compat_slot_va lay 0 := by
  unfold machphys_compat_slot_va
  omega

/-- C14: in both export queries, the value written for an extent `k + 1`
whose 2 MiB slot is unmapped is the value written for extent `k`; a table
whose extents are 5, gap, gap, 9 is reported as 5, 5, 5, 9. -/
theorem machphys_mfn_list_carry_forward (lay : Layout) (cfg : Config) (max_page : Nat)
    (m : Mach) (g : Guest) (h1 : lay.RDWR_MPT_VIRT_START < 2 ^ 64)
    (h2 : lay.RDWR_COMPAT_MPT_VIRT_START < 2 ^ 64) :
    (∀ k x, GuestAccess.copy_to_guest_offset (k + 1) x ∈
        (subarch_memory_op lay cfg max_page m g MemOp.XENMEM_machphys_mfn_list).accesses →
      machphys_slot_unmapped m (machphys_slot_va lay (k + 1)) →
      GuestAccess.copy_to_guest_offset k x ∈
        (subarch_memory_op lay cfg max_page m g MemOp.XENMEM_machphys_mfn_list).accesses) ∧
    (∀ k x, GuestAccess.copy_to_guest_offset (k + 1) x ∈
        (subarch_memory_op lay cfg max_page m g
          MemOp.XENMEM_machphys_compat_mfn_list).accesses →
      machphys_compat_slot_unmapped m (machphys_compat_slot_va lay (k + 1)) →
      GuestAccess.copy_to_guest_offset k x ∈
        (subarch_memory_op lay cfg max_page m g
          MemOp.XENMEM_machphys_compat_mfn_list).accesses) ∧
    written_mfns (subarch_memory_op lay0 cfg0 0x200000 (export_mach [5, 0, 0, 9])
      (export_guest 4) MemOp.XENMEM_machphys_mfn_list).accesses = [5, 5, 5, 9] ∧
    written_mfns (subarch_memory_op lay0 cfg0 0x200000 (export_mach [5, 0, 0, 9])
      (export_guest 4) MemOp.XENMEM_machphys_compat_mfn_list).accesses = [5, 5, 5, 9] := by
  refine ⟨?_, ?_, by decide, by decide⟩
  · show carries_forward lay m _
    unfold subarch_memory_op
    simp only []
    cases hx : g.xmml with
    | none =>
      simp only []
      intro k x hk
      simp at hk
    | some xmml =>
      simp only []
      have hl := machphys_mfn_list_loop_carry lay m g xmml.max_extents
        (add64 lay.RDWR_MPT_VIRT_START (mul64 max_page 8)) xmml.max_extents 0 0
        [GuestAccess.copy_from_guest] true (by intro k x hk; simp at hk) (Or.inl rfl)
        (carries_forward_start lay m)
      rw [← machphys_slot_va_zero lay h1] at hl
      split_ifs
      · exact hl
      · exact carries_forward_append_copy lay m _ _ hl
      · exact carries_forward_append_copy lay m _ _ hl
  · show compat_carries_forward lay m _
    unfold subarch_memory_op
    simp only []
    by_cases hpv : (!m.opt_pv32) = true
    · rw [if_pos hpv]
      intro k x hk
      simp at hk
    · rw [if_neg hpv]
      cases hx : g.xmml with
      | none =>
        simp only []
        intro k x hk
        simp at hk
      | some xmml =>
        simp only []
        generalize (if add64 lay.RDWR_COMPAT_MPT_VIRT_START (mul64 max_page 4) >
            RDWR_COMPAT_MPT_VIRT_END lay cfg then RDWR_COMPAT_MPT_VIRT_END lay cfg
          else add64 lay.RDWR_COMPAT_MPT_VIRT_START (mul64 max_page 4)) = limit
        have hl := machphys_compat_mfn_list_loop_carry lay m g xmml.max_extents
          limit xmml.max_extents 0 0
          [GuestAccess.copy_from_guest] true (by intro k x hk; simp at hk) (Or.inl rfl)
          (compat_carries_forward_start lay m)
        rw [← machphys_compat_slot_va_zero lay h2] at hl
        split_ifs
        · exact hl
        · exact compat_carries_forward_append_copy lay m _ _ hl
        · exact compat_carries_forward_append_copy lay m _ _ hl

/-- C14, for the table 5, gap, gap, 9: extent 2, a gap, is reported as 5, and
so is extent 1. -/
theorem machphys_mfn_list_carry_forward_witness :
    GuestAccess.copy_to_guest_offset 1 5 ∈
      (subarch_memory_op lay0 cfg0 0x200000 (export_mach [5, 0, 0, 9]) (export_guest 4)
        MemOp.XENMEM_machphys_mfn_list).accesses :=
  (machphys_mfn_list_carry_forward lay0 cfg0 0x200000 (export_mach [5, 0, 0, 9])
    (export_guest 4) (by decide) (by decide)).1 1 5 (by decide) (by decide)

/-- C15: when the first extent of the table is a gap the query writes 0 for
it, the initial value of `last_mfn`, and `ASSERT(mfn)` fails: for the table
gap, 9 the values written are 0 and 9. -/
theorem machphys_mfn_list_first_gap_reports_zero :
    subarch_memory_op lay0 cfg0 0x200000 (export_mach [0, 9]) (export_guest 2)
      MemOp.XENMEM_machphys_mfn_list
      = { rc := 0
          accesses := [GuestAccess.copy_from_guest, GuestAccess.copy_to_guest_offset 0 0,
            GuestAccess.copy_to_guest_offset 1 9, GuestAccess.copy_to_guest 2]
          asserts := false } := by
  decide

theorem extent_writes_cons (i mfn : Nat) (ws : List Nat) (acc : List GuestAccess) :
    (acc ++ [GuestAccess.copy_to_guest_offset i mfn]) ++ extent_writes (i + 1) ws
      = acc ++ extent_writes i (mfn :: ws) := by
  simp [extent_writes, List.enumFrom]

/-- When no copy faults, the loop of `XENMEM_machphys_mfn_list` writes the
extents from `i` up to the smaller of `max_extents` and the number of extents
of the table, in order, and ends with `i` at that number. -/
theorem machphys_mfn_list_loop_count (lay : Layout) (m : Mach) (g : Guest)
    (max_extents max_page : Nat) (hg : ∀ i, g.extent_ok i = true)
    (hno : lay.RDWR_MPT_VIRT_START + max_page * 8 + 2 ^ 21 ≤ 2 ^ 64) :
    ∀ (fuel i last : Nat) (acc : List GuestAccess) (ok : Bool),
      i ≤ min max_extents (machphys_extents max_page) → max_extents - i ≤ fuel →
      ∃ ws : List Nat,
        ws.length = min max_extents (machphys_extents max_page) - i ∧
        (machphys_mfn_list_loop m g max_extents
          (add64 lay.RDWR_MPT_VIRT_START (mul64 max_page 8)) fuel i
          (lay.RDWR_MPT_VIRT_START + i * 2 ^ 21) last acc ok).fault = false ∧
        (machphys_mfn_list_loop m g max_extents
          (add64 lay.RDWR_MPT_VIRT_START (mul64 max_page 8)) fuel i
          (lay.RDWR_MPT_VIRT_START + i * 2 ^ 21) last acc ok).i
            = min max_extents (machphys_extents max_page) ∧
        (machphys_mfn_list_loop m g max_extents
          (add64 lay.RDWR_MPT_VIRT_START (mul64 max_page 8)) fuel i
          (lay.RDWR_MPT_VIRT_START + i * 2 ^ 21) last acc ok).accesses
            = acc ++ extent_writes i ws := by
  have hlimit : add64 lay.RDWR_MPT_VIRT_START (mul64 max_page 8)
      = lay.RDWR_MPT_VIRT_START + max_page * 8 := by
    unfold add64 mul64
    omega
  rw [hlimit]
  intro fuel
  induction fuel with
  | zero =>
    intro i last acc ok hi hfuel
    refine ⟨[], ?_, rfl, ?_, ?_⟩
    · simp only [List.length_nil]
      omega
    · unfold machphys_mfn_list_loop
      simp only []
      omega
    · simp [machphys_mfn_list_loop, extent_writes]
  | succ fuel ih =>
    intro i last acc ok hi hfuel
    unfold machphys_mfn_list_loop
    simp only []
    by_cases hcond : i ≠ max_extents ∧
        lay.RDWR_MPT_VIRT_START + i * 2 ^ 21 < lay.RDWR_MPT_VIRT_START + max_page * 8
    · rw [if_pos hcond]
      have hf : ¬ ((!g.extent_ok i) = true) := by simp [hg i]
      rw [if_neg hf]
      have hiN : i < machphys_extents max_page := by
        unfold machphys_extents
        omega
      have hN : machphys_extents max_page * 2 ^ 21 ≤ max_page * 8 + 2 ^ 21 - 1 := by
        unfold machphys_extents
        exact Nat.div_mul_le_self _ _
      have hv : add64 (lay.RDWR_MPT_VIRT_START + i * 2 ^ 21) (shl64 1 L2_PAGETABLE_SHIFT)
          = lay.RDWR_MPT_VIRT_START + (i + 1) * 2 ^ 21 := by
        rw [shl64_one_L2]
        unfold add64
        omega
      rw [hv]
      obtain ⟨ws, hlen, hfault, hfi, hacc⟩ := ih (i + 1)
        (machphys_slot_mfn m (lay.RDWR_MPT_VIRT_START + i * 2 ^ 21) last)
        (acc ++ [GuestAccess.copy_to_guest_offset i
          (machphys_slot_mfn m (lay.RDWR_MPT_VIRT_START + i * 2 ^ 21) last)])
        (ok && decide (machphys_slot_mfn m (lay.RDWR_MPT_VIRT_START + i * 2 ^ 21) last ≠ 0))
        (by omega) (by omega)
      refine ⟨machphys_slot_mfn m (lay.RDWR_MPT_VIRT_START + i * 2 ^ 21) last :: ws,
        ?_, hfault, hfi, ?_⟩
      · simp only [List.length_cons]
        omega
      · rw [hacc, extent_writes_cons]
    · rw [if_neg hcond]
      have hdone : i = min max_extents (machphys_extents max_page) := by
        unfold machphys_extents at hi ⊢
        omega
      refine ⟨[], ?_, rfl, hdone, ?_⟩
      · simp only [List.length_nil]
        omega
      · simp [extent_writes]

theorem written_indices_extent_writes (i : Nat) (ws : List Nat) :
    written_indices (extent_writes i ws) = List.range' i ws.length := by
  induction ws generalizing i with
  | nil => rfl
  | cons w ws ih =>
    have h := ih (i + 1)
    simp only [extent_writes, written_indices] at h
    simp only [extent_writes, List.enumFrom, List.map_cons, written_indices,
      List.filterMap_cons, List.length_cons, List.range', h]

theorem written_indices_query (ws : List Nat) (n : Nat) :
    written_indices ([GuestAccess.copy_from_guest] ++ extent_writes 0 ws ++
      [GuestAccess.copy_to_guest n]) = List.range ws.length := by
  have h := written_indices_extent_writes 0 ws
  unfold written_indices at h ⊢
  rw [List.filterMap_append, List.filterMap_append, h, List.range_eq_range']
  simp

/-- C16: a `XENMEM_machphys_mfn_list` query in which no copy faults returns 0
and stores in `nr_extents` the smaller of `max_extents` and the number of
2 MiB extents of the M2P table, `ceil(max_page * 8 / 2 ^ 21)`, which is at
most `max_extents`; the accesses are the read of the argument, one write for
each index below `nr_extents` in increasing order and for no other index, and
the copy back of the argument. -/
theorem machphys_mfn_list_count (lay : Layout) (cfg : Config) (max_page : Nat) (m : Mach)
    (g : Guest) (xmml : xen_machphys_mfn_list) (hx : g.xmml = some xmml)
    (hg : ∀ i, g.extent_ok i = true) (harg : g.arg_ok = true)
    (hno : lay.RDWR_MPT_VIRT_START + max_page * 8 + 2 ^ 21 ≤ 2 ^ 64) :
    (subarch_memory_op lay cfg max_page m g MemOp.XENMEM_machphys_mfn_list).rc = 0 ∧
    min xmml.max_extents (machphys_extents max_page) ≤ xmml.max_extents ∧
    written_indices
        (subarch_memory_op lay cfg max_page m g MemOp.XENMEM_machphys_mfn_list).accesses
      = List.range (min xmml.max_extents (machphys_extents max_page)) ∧
    ∃ ws : List Nat,
      ws.length = min xmml.max_extents (machphys_extents max_page) ∧
      (subarch_memory_op lay cfg max_page m g MemOp.XENMEM_machphys_mfn_list).accesses
        = [GuestAccess.copy_from_guest] ++ extent_writes 0 ws ++
          [GuestAccess.copy_to_guest (min xmml.max_extents (machphys_extents max_page))] := by
  obtain ⟨ws, hlen, hfault, hfi, hacc⟩ := machphys_mfn_list_loop_count lay m g
    xmml.max_extents max_page hg hno xmml.max_extents 0 0 [GuestAccess.copy_from_guest] true
    (Nat.zero_le _) (by omega)
  simp only [Nat.zero_mul, Nat.add_zero, Nat.sub_zero] at hlen hfault hfi hacc
  unfold subarch_memory_op
  simp only [hx, hfault, harg, hfi, hacc, Bool.false_eq_true, if_false, Bool.not_true]
  refine ⟨trivial, Nat.min_le_left _ _, ?_, ws, hlen, rfl⟩
  rw [written_indices_query, hlen]

/-- C16, for a machine with `0x200000` frames, 8 extents, asked for 4. -/
theorem machphys_mfn_list_count_witness :
    (subarch_memory_op lay0 cfg0 0x200000 (export_mach [5, 0, 0, 9]) (export_guest 4)
      MemOp.XENMEM_machphys_mfn_list).rc = 0 ∧
    written_indices (subarch_memory_op lay0 cfg0 0x200000 (export_mach [5, 0, 0, 9])
      (export_guest 4) MemOp.XENMEM_machphys_mfn_list).accesses
      = List.range (min 4 (machphys_extents 0x200000)) ∧
    min 4 (machphys_extents 0x200000) = 4 :=
  ⟨(machphys_mfn_list_count lay0 cfg0 0x200000 (export_mach [5, 0, 0, 9]) (export_guest 4)
      { max_extents := 4, nr_extents := 0 } rfl (fun _ => rfl) rfl (by decide)).1,
    (machphys_mfn_list_count lay0 cfg0 0x200000 (export_mach [5, 0, 0, 9]) (export_guest 4)
      { max_extents := 4, nr_extents := 0 } rfl (fun _ => rfl) rfl (by decide)).2.2.1,
    by decide⟩

/-- The loop of `XENMEM_machphys_compat_mfn_list` ends with `i` at most the
number of 2 MiB slots of the compat window, and writes at most as many extents
as there are slots from `i` on. -/
theorem machphys_compat_mfn_list_loop_bound (lay : Layout) (m : Mach) (g : Guest)
    (max_extents limit bytes : Nat) (halign : bytes % 2 ^ 21 = 0)
    (hend : lay.RDWR_COMPAT_MPT_VIRT_START + bytes < 2 ^ 64)
    (hlimit : limit ≤ lay.RDWR_COMPAT_MPT_VIRT_START + bytes) :
    ∀ (fuel i last : Nat) (acc : List GuestAccess) (ok : Bool),
      i ≤ bytes / 2 ^ 21 →
      (machphys_compat_mfn_list_loop m g max_extents limit fuel i
        (lay.RDWR_COMPAT_MPT_VIRT_START + i * 2 ^ 21) last acc ok).i ≤ bytes / 2 ^ 21 ∧
      (written_indices (machphys_compat_mfn_list_loop m g max_extents limit fuel i
        (lay.RDWR_COMPAT_MPT_VIRT_START + i * 2 ^ 21) last acc ok).accesses).length
          ≤ (written_indices acc).length + (bytes / 2 ^ 21 - i) ∧
      (∀ n, GuestAccess.copy_to_guest n ∈ (machphys_compat_mfn_list_loop m g max_extents limit
        fuel i (lay.RDWR_COMPAT_MPT_VIRT_START + i * 2 ^ 21) last acc ok).accesses →
        GuestAccess.copy_to_guest n ∈ acc) := by
  intro fuel
  induction fuel with
  | zero =>
    intro i last acc ok hi
    simp only [machphys_compat_mfn_list_loop]
    exact ⟨hi, Nat.le_add_right _ _, fun _ h => h⟩
  | succ fuel ih =>
    intro i last acc ok hi
    unfold machphys_compat_mfn_list_loop
    simp only []
    by_cases hcond : i ≠ max_extents ∧ lay.RDWR_COMPAT_MPT_VIRT_START + i * 2 ^ 21 < limit
    · rw [if_pos hcond]
      have hiK : i < bytes / 2 ^ 21 := by omega
      have hw : (written_indices (acc ++ [GuestAccess.copy_to_guest_offset i
          (machphys_compat_slot_mfn m (lay.RDWR_COMPAT_MPT_VIRT_START + i * 2 ^ 21)
            last)])).length = (written_indices acc).length + 1 := by
        simp [written_indices, List.filterMap_append]
      have hm : ∀ n, GuestAccess.copy_to_guest n ∈ acc ++ [GuestAccess.copy_to_guest_offset i
          (machphys_compat_slot_mfn m (lay.RDWR_COMPAT_MPT_VIRT_START + i * 2 ^ 21) last)] →
          GuestAccess.copy_to_guest n ∈ acc := by
        intro n hn
        simpa using hn
      by_cases hf : (!g.extent_ok i) = true
      · rw [if_pos hf]
        simp only []
        refine ⟨hi, ?_, hm⟩
        rw [hw]
        omega
      · rw [if_neg hf]
        have hv : add64 (lay.RDWR_COMPAT_MPT_VIRT_START + i * 2 ^ 21)
            (shl64 1 L2_PAGETABLE_SHIFT)
            = lay.RDWR_COMPAT_MPT_VIRT_START + (i + 1) * 2 ^ 21 := by
          rw [shl64_one_L2]
          unfold add64
          omega
        rw [hv]
        obtain ⟨b1, b2, b3⟩ := ih (i + 1)
          (machphys_compat_slot_mfn m (lay.RDWR_COMPAT_MPT_VIRT_START + i * 2 ^ 21) last)
          (acc ++ [GuestAccess.copy_to_guest_offset i
            (machphys_compat_slot_mfn m (lay.RDWR_COMPAT_MPT_VIRT_START + i * 2 ^ 21) last)])
          (ok && decide (machphys_compat_slot_mfn m
            (lay.RDWR_COMPAT_MPT_VIRT_START + i * 2 ^ 21) last ≠ 0)) (by omega)
        refine ⟨b1, ?_, fun n hn => hm n (b3 n hn)⟩
        rw [hw] at b2
        omega
    · rw [if_neg hcond]
      exact ⟨hi, Nat.le_add_right _ _, fun _ h => h⟩

/-- C17: with `opt_pv32` clear the compat export query returns `-EOPNOTSUPP`
and makes no access to guest memory; with `opt_pv32` set the value it stores
in `nr_extents` and the number of extents it writes are at most the number of
2 MiB slots of the compat M2P window. -/
theorem machphys_compat_mfn_list_bounded (lay : Layout) (cfg : Config) (max_page : Nat)
    (m : Mach) (g : Guest) :
    (m.opt_pv32 = false →
      (subarch_memory_op lay cfg max_page m g MemOp.XENMEM_machphys_compat_mfn_list).rc
        = -EOPNOTSUPP ∧
      (subarch_memory_op lay cfg max_page m g MemOp.XENMEM_machphys_compat_mfn_list).accesses
        = []) ∧
    (m.opt_pv32 = true → cfg.compat_mpt_bytes % 2 ^ 21 = 0 →
      RDWR_COMPAT_MPT_VIRT_END lay cfg < 2 ^ 64 →
      (∀ n, GuestAccess.copy_to_guest n ∈ (subarch_memory_op lay cfg max_page m g
          MemOp.XENMEM_machphys_compat_mfn_list).accesses →
        n ≤ (RDWR_COMPAT_MPT_VIRT_END lay cfg - lay.RDWR_COMPAT_MPT_VIRT_START)
          >>> L2_PAGETABLE_SHIFT) ∧
      (written_indices (subarch_memory_op lay cfg max_page m g
        MemOp.XENMEM_machphys_compat_mfn_list).accesses).length
          ≤ (RDWR_COMPAT_MPT_VIRT_END lay cfg - lay.RDWR_COMPAT_MPT_VIRT_START)
            >>> L2_PAGETABLE_SHIFT) := by
  constructor
  · intro hpv
    unfold subarch_memory_op
    simp [hpv]
  · intro hpv halign hend
    have hsz : RDWR_COMPAT_MPT_VIRT_END lay cfg - lay.RDWR_COMPAT_MPT_VIRT_START
        = cfg.compat_mpt_bytes := by
      unfold RDWR_COMPAT_MPT_VIRT_END
      omega
    rw [hsz]
    unfold RDWR_COMPAT_MPT_VIRT_END at hend
    have hshift : cfg.compat_mpt_bytes >>> L2_PAGETABLE_SHIFT = cfg.compat_mpt_bytes / 2 ^ 21 := by
      rw [Nat.shiftRight_eq_div_pow]
      rfl
    rw [hshift]
    unfold subarch_memory_op
    simp only [hpv, Bool.not_true, Bool.false_eq_true, if_false]
    cases hx : g.xmml with
    | none =>
      simp [written_indices]
    | some xmml =>
      simp only []
      have hlim : (if add64 lay.RDWR_COMPAT_MPT_VIRT_START (mul64 max_page 4) >
            RDWR_COMPAT_MPT_VIRT_END lay cfg then RDWR_COMPAT_MPT_VIRT_END lay cfg
          else add64 lay.RDWR_COMPAT_MPT_VIRT_START (mul64 max_page 4))
          ≤ lay.RDWR_COMPAT_MPT_VIRT_START + cfg.compat_mpt_bytes := by
        unfold RDWR_COMPAT_MPT_VIRT_END
        split_ifs <;> omega
      generalize (if add64 lay.RDWR_COMPAT_MPT_VIRT_START (mul64 max_page 4) >
            RDWR_COMPAT_MPT_VIRT_END lay cfg then RDWR_COMPAT_MPT_VIRT_END lay cfg
          else add64 lay.RDWR_COMPAT_MPT_VIRT_START (mul64 max_page 4)) = limit at hlim ⊢
      obtain ⟨b1, b2, b3⟩ := machphys_compat_mfn_list_loop_bound lay m g xmml.max_extents limit
        cfg.compat_mpt_bytes halign hend hlim xmml.max_extents 0 0
        [GuestAccess.copy_from_guest] true (Nat.zero_le _)
      simp only [Nat.zero_mul, Nat.add_zero, Nat.sub_zero] at b1 b2 b3
      have hw0 : (written_indices [GuestAccess.copy_from_guest]).length = 0 := rfl
      rw [hw0, Nat.zero_add] at b2
      split_ifs
      · refine ⟨fun n hn => ?_, b2⟩
        have := b3 n hn
        simp at this
      · refine ⟨fun n hn => ?_, ?_⟩
        · rw [List.mem_append] at hn
          rcases hn with hn | hn
          · have := b3 n hn
            simp at this
          · simp only [List.mem_singleton, GuestAccess.copy_to_guest.injEq] at hn
            rw [hn]
            exact b1
        · simpa [written_indices, List.filterMap_append] using b2
      · refine ⟨fun n hn => ?_, ?_⟩
        · rw [List.mem_append] at hn
          rcases hn with hn | hn
          · have := b3 n hn
            simp at this
          · simp only [List.mem_singleton, GuestAccess.copy_to_guest.injEq] at hn
            rw [hn]
            exact b1
        · simpa [written_indices, List.filterMap_append] using b2

/-- C17, for a machine without compat support, and for one with a 1 GiB
compat window, 512 slots, asked for 4 extents. -/
theorem machphys_compat_mfn_list_bounded_witness :
    ((subarch_memory_op lay0 cfg0 0x200000 { export_mach [5, 0, 0, 9] with opt_pv32 := false }
      (export_guest 4) MemOp.XENMEM_machphys_compat_mfn_list).rc = -EOPNOTSUPP ∧
    (subarch_memory_op lay0 cfg0 0x200000 { export_mach [5, 0, 0, 9] with opt_pv32 := false }
      (export_guest 4) MemOp.XENMEM_machphys_compat_mfn_list).accesses = []) ∧
    (written_indices (subarch_memory_op lay0 cfg0 0x200000 (export_mach [5, 0, 0, 9])
      (export_guest 4) MemOp.XENMEM_machphys_compat_mfn_list).accesses).length
        ≤ (RDWR_COMPAT_MPT_VIRT_END lay0 cfg0 - lay0.RDWR_COMPAT_MPT_VIRT_START)
          >>> L2_PAGETABLE_SHIFT :=
  ⟨(machphys_compat_mfn_list_bounded lay0 cfg0 0x200000
      { export_mach [5, 0, 0, 9] with opt_pv32 := false } (export_guest 4)).1 rfl,
    ((machphys_compat_mfn_list_bounded lay0 cfg0 0x200000 (export_mach [5, 0, 0, 9])
      (export_guest 4)).2 rfl (by decide) (by decide)).2⟩

/-! ## `setup_m2p_table` at a 1 GiB boundary of the M2P window -/

/-- C11, for a hot-add whose M2P chunks cross a 1 GiB boundary of the
read-only M2P window.  On the machine with 4 GiB of memory the call
`memory_add(0x7fc0000, 0x8040000, 0)` passes validation and returns 0 with
every `ASSERT` of `setup_m2p_table` true; the chunk of frame `0x7fc0000` is
mapped afterwards, but `m2p_mapped(0x8000000)` is `M2P_NO_MAPPED`, and entry 0
of the L2 table of the first gigabyte, which mapped the chunk of frame 0 on
frame `0x400`, names frame `0x7fc1200`, staged for the chunk of frame
`0x8000000`: at the boundary `setup_m2p_table` keeps the L2 table of the
chunk before and writes no L3 entry. -/
theorem setup_m2p_table_misses_chunk_at_1G_boundary :
    mem_hotadd_check cfg0 st_4G_mach.pdx_group_valid 0x7FC0000 0x8040000 = 1 ∧
    (memory_add cfg0 (hotadd_ops lay0 cfg0 env0 base_ops) st_4G_mach
      0x7FC0000 0x8040000 0).ret = 0 ∧
    (setup_m2p_table lay0 cfg0 env0
      (memory_add_set_counters cfg0 0x7FC0000 0x8040000 st_4G_mach)
      { spfn := 0x7FC0000, epfn := 0x8040000, cur := 0x7FC1000 }).asserts = true ∧
    m2p_mapped lay0 (memory_add cfg0 (hotadd_ops lay0 cfg0 env0 base_ops) st_4G_mach
      0x7FC0000 0x8040000 0).st.mach 0x7FC0000 = M2P_2M_MAPPED ∧
    m2p_mapped lay0 (memory_add cfg0 (hotadd_ops lay0 cfg0 env0 base_ops) st_4G_mach
      0x7FC0000 0x8040000 0).st.mach 0x8000000 = M2P_NO_MAPPED ∧
    st_4G_mach.mach.pt 0x1001 0
      = { pfn := 0x400, flags := _PAGE_PSE ||| _PAGE_USER ||| _PAGE_PRESENT } ∧
    (memory_add cfg0 (hotadd_ops lay0 cfg0 env0 base_ops) st_4G_mach
      0x7FC0000 0x8040000 0).st.mach.pt 0x1001 0
      = { pfn := 0x7FC1200, flags := _PAGE_PSE ||| _PAGE_USER ||| _PAGE_PRESENT } ∧
    (setup_m2p_table lay0 cfg0 env0
      (memory_add_set_counters cfg0 0x7FC0000 0x8040000 st_4G_mach)
      { spfn := 0x7FC0000, epfn := 0x8040000, cur := 0x7FC1000 }).trace.take 8
      = [PtEvent.alloc_hotadd_mfn 0x7FC1000,
         PtEvent.map_pages_to_xen 0xffff82803fe00000 0x7FC1000 512 cfg0.PAGE_HYPERVISOR,
         PtEvent.memset 0xffff82803fe00000 0xFF 0x200000,
         PtEvent.l2e_write 0x1001 511
           { pfn := 0x7FC1000, flags := _PAGE_PSE ||| _PAGE_USER ||| _PAGE_PRESENT },
         PtEvent.alloc_hotadd_mfn 0x7FC1200,
         PtEvent.map_pages_to_xen 0xffff828040000000 0x7FC1200 512 cfg0.PAGE_HYPERVISOR,
         PtEvent.memset 0xffff828040000000 0xFF 0x200000,
         PtEvent.l2e_write 0x1001 0
           { pfn := 0x7FC1200, flags := _PAGE_PSE ||| _PAGE_USER ||| _PAGE_PRESENT }] := by
  refine ⟨?_, ?_, ?_, ?_, ?_, ?_, ?_, ?_⟩ <;> decide

/-! ## `do_page_walk`: refusals and temporary mappings -/

/-- C21: for a vcpu that is not a PV vcpu, and for an address that is not
canonical, `do_page_walk` returns `NULL` and makes no call of
`map_domain_page`; the contents of the page-table frames have no part in the
result. -/
theorem do_page_walk_refuses (mfn_valid : Nat → Bool) (mem : PageTables) (v : vcpu)
    (addr : Nat) (h : v.is_pv = false ∨ is_canonical_address addr = false) :
    do_page_walk mfn_valid mem v addr = { ptr := none, calls := [] } ∧
    ∀ mem2 : PageTables, do_page_walk mfn_valid mem2 v addr = do_page_walk mfn_valid mem v addr := by
  have key : ∀ mem : PageTables, do_page_walk mfn_valid mem v addr
      = { ptr := none, calls := [] } := by
    intro mem
    unfold do_page_walk
    have hc : (!v.is_pv || !is_canonical_address addr) = true := by
      rcases h with h | h <;> simp [h]
    simp only [hc, if_true]
  exact ⟨key mem, fun mem2 => by rw [key mem2, key mem]⟩

/-- C21, for the address `0x800000000000`, whose bit 47 is set and whose bits
above are clear, and for a vcpu that is not a PV vcpu. -/
theorem do_page_walk_refuses_witness :
    do_page_walk walk_valid walk_mem walk_vcpu 0x800000000000 = { ptr := none, calls := [] } ∧
    do_page_walk walk_valid walk_mem { walk_vcpu with is_pv := false } 0x205678
      = { ptr := none, calls := [] } :=
  ⟨(do_page_walk_refuses walk_valid walk_mem walk_vcpu 0x800000000000
      (Or.inr (by decide))).1,
    (do_page_walk_refuses walk_valid walk_mem { walk_vcpu with is_pv := false } 0x205678
      (Or.inl rfl)).1⟩

theorem outstanding_mappings_foldl (calls : List DomainPageCall) (n : Int) :
    calls.foldl (fun n c =>
      match c with
      | DomainPageCall.map_domain_page _ => n + 1
      | DomainPageCall.unmap_domain_page _ => n - 1) n = n + outstanding_mappings calls := by
  unfold outstanding_mappings
  induction calls generalizing n with
  | nil => simp
  | cons c cs ih =>
    simp only [List.foldl_cons]
    rw [ih, ih (match c with
      | DomainPageCall.map_domain_page _ => (0 : Int) + 1
      | DomainPageCall.unmap_domain_page _ => 0 - 1)]
    cases c <;> simp <;> omega

theorem outstanding_mappings_append (a b : List DomainPageCall) :
    outstanding_mappings (a ++ b) = outstanding_mappings a + outstanding_mappings b := by
  unfold outstanding_mappings
  rw [List.foldl_append, outstanding_mappings_foldl]
  rfl

theorem outstanding_scoped_mappings (tables : List Nat) :
    outstanding_mappings (scoped_mappings tables) = 0 := by
  induction tables with
  | nil => rfl
  | cons f fs ih =>
    have h : scoped_mappings (f :: fs)
        = [DomainPageCall.map_domain_page f, DomainPageCall.unmap_domain_page f]
          ++ scoped_mappings fs := by
      simp [scoped_mappings]
    rw [h, outstanding_mappings_append, ih]
    rfl

/-- The calls of `do_page_walk`: the tables it reads, each mapped and
unmapped in turn, and then the frame it returns, if any. -/
theorem do_page_walk_calls (mfn_valid : Nat → Bool) (mem : PageTables) (v : vcpu) (addr : Nat) :
    ∃ tables : List Nat, tables.length ≤ 4 ∧
      (do_page_walk mfn_valid mem v addr).calls = scoped_mappings tables ++
        (match (do_page_walk mfn_valid mem v addr).ptr with
         | none => []
         | some p => [DomainPageCall.map_domain_page p.1]) := by
  unfold do_page_walk
  simp only []
  split_ifs
  · exact ⟨[], by simp, rfl⟩
  · exact ⟨[v.guest_table], by simp, rfl⟩
  · exact ⟨[v.guest_table, (mem v.guest_table (l4_table_offset addr)).pfn], by simp, rfl⟩
  · exact ⟨[v.guest_table, (mem v.guest_table (l4_table_offset addr)).pfn], by simp, rfl⟩
  · exact ⟨[v.guest_table, (mem v.guest_table (l4_table_offset addr)).pfn,
      (mem (mem v.guest_table (l4_table_offset addr)).pfn (l3_table_offset addr)).pfn],
      by simp, rfl⟩
  · exact ⟨[v.guest_table, (mem v.guest_table (l4_table_offset addr)).pfn,
      (mem (mem v.guest_table (l4_table_offset addr)).pfn (l3_table_offset addr)).pfn],
      by simp, rfl⟩
  · exact ⟨[v.guest_table, (mem v.guest_table (l4_table_offset addr)).pfn,
      (mem (mem v.guest_table (l4_table_offset addr)).pfn (l3_table_offset addr)).pfn,
      (mem (mem (mem v.guest_table (l4_table_offset addr)).pfn (l3_table_offset addr)).pfn
        (l2_table_offset addr)).pfn], by simp, rfl⟩
  · exact ⟨[v.guest_table, (mem v.guest_table (l4_table_offset addr)).pfn,
      (mem (mem v.guest_table (l4_table_offset addr)).pfn (l3_table_offset addr)).pfn,
      (mem (mem (mem v.guest_table (l4_table_offset addr)).pfn (l3_table_offset addr)).pfn
        (l2_table_offset addr)).pfn], by simp, rfl⟩

/-- C28: `do_page_walk` maps and unmaps each table it reads before it maps
the next (at most four tables), and after them it maps the frame it returns,
if any; so a `NULL` return leaves as many mappings outstanding as there were
at entry, and a success leaves one more, that of the frame returned.  The
walk has the page tables as an input only. -/
theorem do_page_walk_scoped_mappings (mfn_valid : Nat → Bool) (mem : PageTables) (v : vcpu)
    (addr : Nat) :
    (∃ tables : List Nat, tables.length ≤ 4 ∧
      (do_page_walk mfn_valid mem v addr).calls = scoped_mappings tables ++
        (match (do_page_walk mfn_valid mem v addr).ptr with
         | none => []
         | some p => [DomainPageCall.map_domain_page p.1])) ∧
    ((do_page_walk mfn_valid mem v addr).ptr = none →
      outstanding_mappings (do_page_walk mfn_valid mem v addr).calls = 0) ∧
    (∀ F off, (do_page_walk mfn_valid mem v addr).ptr = some (F, off) →
      outstanding_mappings (do_page_walk mfn_valid mem v addr).calls = 1 ∧
      (do_page_walk mfn_valid mem v addr).calls.getLast?
        = some (DomainPageCall.map_domain_page F)) := by
  obtain ⟨tables, hlen, hcalls⟩ := do_page_walk_calls mfn_valid mem v addr
  refine ⟨⟨tables, hlen, hcalls⟩, ?_, ?_⟩
  · intro hp
    rw [hcalls, hp, outstanding_mappings_append, outstanding_scoped_mappings]
    rfl
  · intro F off hp
    rw [hcalls, hp]
    constructor
    · rw [outstanding_mappings_append, outstanding_scoped_mappings]
      rfl
    · simp

/-- C28, for the walk of `0x205678`, which succeeds with frame `0x805`. -/
theorem do_page_walk_scoped_mappings_witness :
    outstanding_mappings (do_page_walk walk_valid walk_mem walk_vcpu 0x205678).calls = 1 ∧
    (do_page_walk walk_valid walk_mem walk_vcpu 0x205678).calls.getLast?
      = some (DomainPageCall.map_domain_page 0x805) :=
  (do_page_walk_scoped_mappings walk_valid walk_mem walk_vcpu 0x205678).2.2 0x805 0x678
    (by decide)

/-! ## `handle_memadd_fault` -/

/-- C22: `handle_memadd_fault` returns 0 and leaves the machine as it is for
a domain that is not a 32-bit PV domain and for an address below
`HYPERVISOR_COMPAT_VIRT_START(d)` or not below `MACH2PHYS_COMPAT_VIRT_END`;
and whenever it returns 0 the machine, with the page tables of the guest, is
as it was (`EXCRET_fault_fixed` is not 0). -/
theorem handle_memadd_fault_declines (fe : FaultEnv) (d : domain) (cr3 : Nat) (m : Mach)
    (addr : Nat) :
    (d.is_pv_32bit_domain = false →
      (handle_memadd_fault fe d cr3 m addr).ret = 0 ∧
      (handle_memadd_fault fe d cr3 m addr).mach = m) ∧
    (addr < d.HYPERVISOR_COMPAT_VIRT_START ∨ addr ≥ fe.MACH2PHYS_COMPAT_VIRT_END →
      (handle_memadd_fault fe d cr3 m addr).ret = 0 ∧
      (handle_memadd_fault fe d cr3 m addr).mach = m) ∧
    (fe.EXCRET_fault_fixed ≠ 0 → (handle_memadd_fault fe d cr3 m addr).ret = 0 →
      (handle_memadd_fault fe d cr3 m addr).mach = m) := by
  refine ⟨?_, ?_, ?_⟩
  · intro h
    unfold handle_memadd_fault
    simp [h]
  · intro h
    unfold handle_memadd_fault
    by_cases hd : (!d.is_pv_32bit_domain) = true
    · rw [if_pos hd]
      exact ⟨rfl, rfl⟩
    · rw [if_neg hd, if_pos h]
      exact ⟨rfl, rfl⟩
  · intro hfix
    unfold handle_memadd_fault
    simp only []
    split_ifs <;> intro hret <;> first | rfl | exact absurd hret hfix

/-- C22, for the address `0x1000`, below the window of the domain, and for a
fault inside the window that is not fixed. -/
theorem handle_memadd_fault_declines_witness :
    ((handle_memadd_fault fault_env fault_domain 0x3000000 (fault_mach pte_empty) 0x1000).ret = 0 ∧
      (handle_memadd_fault fault_env fault_domain 0x3000000 (fault_mach pte_empty) 0x1000).mach
        = fault_mach pte_empty) ∧
    (handle_memadd_fault fault_env fault_domain 0x3000000 (fault_mach pte_empty)
      0xf5800000).mach = fault_mach pte_empty :=
  ⟨(handle_memadd_fault_declines fault_env fault_domain 0x3000000 (fault_mach pte_empty)
      0x1000).2.1 (Or.inl (by decide)),
    (handle_memadd_fault_declines fault_env fault_domain 0x3000000 (fault_mach pte_empty)
      0xf5800000).2.2 (by decide) (by decide)⟩

/-- C23, for the address `0xf5800000`, the first of the compat M2P window of
the domain, whose guest L4 entry 0 and L3 entry 3 are present and whose entry
of the compat L2 table of Xen (index 0) is present.  With the L2 entry of the
guest not present, `handle_memadd_fault` returns 0 and leaves the entry not
present; with the L2 entry of the guest present (frame `0x5555`) it returns
`EXCRET_fault_fixed` and overwrites the entry with that of Xen. -/
theorem handle_memadd_fault_fixes_present_entry :
    0xf5800000 ≥ fault_domain.HYPERVISOR_COMPAT_VIRT_START ∧
    0xf5800000 < fault_env.MACH2PHYS_COMPAT_VIRT_END ∧
    memadd_fault_idle_index fault_domain 0xf5800000 = 0 ∧
    (fault_mach pte_empty).compat_idle_pg_table_l2 0
      = { pfn := 0xc00, flags := _PAGE_PSE ||| _PAGE_PRESENT } ∧
    memadd_fault_guest_l2e 0x3000000 (fault_mach pte_empty) 0xf5800000 = pte_empty ∧
    (handle_memadd_fault fault_env fault_domain 0x3000000 (fault_mach pte_empty)
      0xf5800000).ret = 0 ∧
    memadd_fault_guest_l2e 0x3000000
      (handle_memadd_fault fault_env fault_domain 0x3000000 (fault_mach pte_empty)
        0xf5800000).mach 0xf5800000 = pte_empty ∧
    memadd_fault_guest_l2e 0x3000000
      (fault_mach { pfn := 0x5555, flags := _PAGE_PRESENT }) 0xf5800000
      = { pfn := 0x5555, flags := _PAGE_PRESENT } ∧
    (handle_memadd_fault fault_env fault_domain 0x3000000
      (fault_mach { pfn := 0x5555, flags := _PAGE_PRESENT }) 0xf5800000).ret
      = fault_env.EXCRET_fault_fixed ∧
    memadd_fault_guest_l2e 0x3000000
      (handle_memadd_fault fault_env fault_domain 0x3000000
        (fault_mach { pfn := 0x5555, flags := _PAGE_PRESENT }) 0xf5800000).mach 0xf5800000
      = { pfn := 0xc00, flags := _PAGE_PSE ||| _PAGE_PRESENT } := by
  refine ⟨?_, ?_, ?_, ?_, ?_, ?_, ?_, ?_, ?_, ?_⟩ <;> decide

/-! ## `set_gpfn_from_mfn`: the value stored and the entries written -/

/-- C29: with the M2P table initialised, `set_gpfn_from_mfn(mfn, pfn)` stores
`SHARED_M2P_ENTRY` at `mfn` when `pfn` is not `INVALID_M2P_ENTRY` and the
owner of the page is `dom_cow`, and stores `pfn` when the page has no owner or
an owner other than `dom_cow`; with the M2P table not initialised the call
leaves both tables, and the machine, as they are. -/
theorem set_gpfn_from_mfn_sentinel (cfg : Config) (m : Mach) (mfn pfn : Nat) :
    (m.machine_to_phys_mapping_valid = true → pfn ≠ INVALID_M2P_ENTRY →
      ∀ d, m.page_owner mfn = some d → m.dom_cow = some d →
        (set_gpfn_from_mfn cfg m mfn pfn).machine_to_phys_mapping mfn = SHARED_M2P_ENTRY) ∧
    (m.machine_to_phys_mapping_valid = true →
      (m.page_owner mfn = none ∨ m.page_owner mfn ≠ m.dom_cow) →
        (set_gpfn_from_mfn cfg m mfn pfn).machine_to_phys_mapping mfn = pfn) ∧
    (m.machine_to_phys_mapping_valid = false → set_gpfn_from_mfn cfg m mfn pfn = m) := by
  refine ⟨?_, ?_, ?_⟩
  · intro hvalid hp d ho hc
    unfold set_gpfn_from_mfn
    simp [hvalid, array_set, hp, ho, hc]
  · intro hvalid h
    unfold set_gpfn_from_mfn
    simp only [hvalid, Bool.not_true, Bool.false_eq_true, if_false, array_set, if_true]
    by_cases hp : pfn = INVALID_M2P_ENTRY
    · simp [hp]
    · rcases h with h | h
      · simp [hp, h]
      · simp [hp, h]
  · intro hvalid
    unfold set_gpfn_from_mfn
    simp [hvalid]

/-- C29, for frame 5, owned by `dom_cow`, for frame 6, which has no owner,
and for a machine whose M2P table is not initialised. -/
theorem set_gpfn_from_mfn_sentinel_witness :
    (set_gpfn_from_mfn cfg0 (export_mach []) 5 42).machine_to_phys_mapping 5
      = SHARED_M2P_ENTRY ∧
    (set_gpfn_from_mfn cfg0 (export_mach []) 6 42).machine_to_phys_mapping 6 = 42 ∧
    set_gpfn_from_mfn cfg0 { export_mach [] with machine_to_phys_mapping_valid := false } 5 42
      = { export_mach [] with machine_to_phys_mapping_valid := false } :=
  ⟨(set_gpfn_from_mfn_sentinel cfg0 (export_mach []) 5 42).1 (by decide) (by decide) 7
      (by decide) (by decide),
    (set_gpfn_from_mfn_sentinel cfg0 (export_mach []) 6 42).2.1 (by decide)
      (Or.inl (by decide)),
    (set_gpfn_from_mfn_sentinel cfg0
      { export_mach [] with machine_to_phys_mapping_valid := false } 5 42).2.2 rfl⟩

/-- C30: after `set_gpfn_from_mfn(mfn, pfn)` with the M2P table initialised,
the compat entry of `mfn` is the low 32 bits of the main entry of `mfn` when
`opt_pv32` holds and `mfn` is below the number of entries of the compat
window; otherwise the compat table is as it was; and in both tables the
entries at the other indices are as they were. -/
theorem set_gpfn_from_mfn_compat_mirror (lay : Layout) (cfg : Config) (m : Mach)
    (mfn pfn : Nat) (hvalid : m.machine_to_phys_mapping_valid = true) :
    (m.opt_pv32 = true →
      mfn < (RDWR_COMPAT_MPT_VIRT_END lay cfg - lay.RDWR_COMPAT_MPT_VIRT_START) / 4 →
      (set_gpfn_from_mfn cfg m mfn pfn).compat_machine_to_phys_mapping mfn
        = (set_gpfn_from_mfn cfg m mfn pfn).machine_to_phys_mapping mfn % 2 ^ 32) ∧
    (¬ (m.opt_pv32 = true ∧
        mfn < (RDWR_COMPAT_MPT_VIRT_END lay cfg - lay.RDWR_COMPAT_MPT_VIRT_START) / 4) →
      (set_gpfn_from_mfn cfg m mfn pfn).compat_machine_to_phys_mapping
        = m.compat_machine_to_phys_mapping) ∧
    (∀ k, k ≠ mfn →
      (set_gpfn_from_mfn cfg m mfn pfn).machine_to_phys_mapping k
        = m.machine_to_phys_mapping k ∧
      (set_gpfn_from_mfn cfg m mfn pfn).compat_machine_to_phys_mapping k
        = m.compat_machine_to_phys_mapping k) := by
  have hsz : RDWR_COMPAT_MPT_VIRT_END lay cfg - lay.RDWR_COMPAT_MPT_VIRT_START
      = cfg.compat_mpt_bytes := by
    unfold RDWR_COMPAT_MPT_VIRT_END
    omega
  rw [hsz]
  unfold set_gpfn_from_mfn
  simp only [hvalid, Bool.not_true, Bool.false_eq_true, if_false]
  refine ⟨?_, ?_, ?_⟩
  · intro hpv hlt
    simp [hpv, hlt, array_set]
  · intro h
    by_cases hc : (m.opt_pv32 && decide (mfn < cfg.compat_mpt_bytes / 4)) = true
    · exfalso
      apply h
      simpa using hc
    · rw [if_neg hc]
  · intro k hk
    by_cases hc : (m.opt_pv32 && decide (mfn < cfg.compat_mpt_bytes / 4)) = true
    · rw [if_pos hc]
      simp [array_set, hk]
    · rw [if_neg hc]
      simp [array_set, hk]

/-- C30, for frame 5 of a machine with compat support: the main entry is
`SHARED_M2P_ENTRY` and the compat entry its low 32 bits. -/
theorem set_gpfn_from_mfn_compat_mirror_witness :
    (set_gpfn_from_mfn cfg0 (export_mach []) 5 42).compat_machine_to_phys_mapping 5
      = (set_gpfn_from_mfn cfg0 (export_mach []) 5 42).machine_to_phys_mapping 5 % 2 ^ 32 :=
  (set_gpfn_from_mfn_compat_mirror lay0 cfg0 (export_mach []) 5 42 (by decide)).1
    (by decide) (by decide)

/-! ## Rollback: the flush after the removals -/

theorem flushed_after_unmap_append_flush (evs : List PtEvent) :
    flushed_after_unmap (evs ++ [PtEvent.flush_tlb_all]) := by
  intro pre e post heq he
  rcases List.eq_nil_or_concat post with hp | ⟨post2, x, hp⟩
  · subst hp
    have h : [PtEvent.flush_tlb_all] = [e] :=
      (List.append_inj' (show evs ++ [PtEvent.flush_tlb_all] = pre ++ [e] from heq) rfl).2
    simp only [List.cons.injEq, and_true] at h
    rw [← h] at he
    exact absurd he (by decide)
  · subst hp
    have heq2 : evs ++ [PtEvent.flush_tlb_all] = (pre ++ e :: post2) ++ [x] := by
      rw [heq]
      simp
    have h := (List.append_inj' heq2 rfl).2
    simp only [List.cons.injEq, and_true] at h
    rw [← h]
    simp

theorem shl64_one_27 : shl64 1 (L3_PAGETABLE_SHIFT - 3) = 2 ^ 27 := by decide

theorem shl64_one_18 : shl64 1 (L2_PAGETABLE_SHIFT - 3) = 2 ^ 18 := by decide

theorem shl64_one_30 : shl64 1 L3_PAGETABLE_SHIFT = 2 ^ 30 := by decide

theorem PAGE_SIZE_eq : PAGE_SIZE = 2 ^ 12 := by decide

/-- The next value of `i` after a step of `2 ^ k` frames or bytes: the next
multiple of `2 ^ k`, without wrap-around. -/
theorem step_mask (x k : Nat) (hk : k ≤ 64) (hx : x + 2 ^ k < 2 ^ 64) :
    add64 (x &&& not64 (2 ^ k - 1)) (2 ^ k) = x / 2 ^ k * 2 ^ k + 2 ^ k := by
  have hpos : 0 < 2 ^ k := Nat.two_pow_pos k
  have hx64 : x < 2 ^ 64 := by omega
  rw [and_not_low_mask x k hx64 hk]
  unfold add64
  have hle : x / 2 ^ k * 2 ^ k ≤ x := Nat.div_mul_le_self x (2 ^ k)
  exact Nat.mod_eq_of_lt (by omega)

/-- One turn of the loop of `destroy_m2p_mapping`: `i` moves to the next
multiple of `2 ^ 27` or of `2 ^ 18`, and the trace grows at its end. -/
theorem destroy_m2p_mapping_loop_step (lay : Layout) (env : MmEnv) (l3_ro_mpt emap : Nat)
    (fuel i : Nat) (r : HotaddRun) (h : i < emap) :
    ∃ i2 r2 evs,
      destroy_m2p_mapping_loop lay env l3_ro_mpt emap (fuel + 1) i r
        = destroy_m2p_mapping_loop lay env l3_ro_mpt emap fuel i2 r2 ∧
      r2.trace = r.trace ++ evs ∧
      (i2 = add64 (i &&& not64 (2 ^ 27 - 1)) (2 ^ 27) ∨
        i2 = add64 (i &&& not64 (2 ^ 18 - 1)) (2 ^ 18)) := by
  rw [destroy_m2p_mapping_loop]
  simp only [h, if_true, shl64_one_27, shl64_one_18]
  split_ifs
  · exact ⟨_, _, [], rfl, by simp, Or.inl rfl⟩
  · exact ⟨_, _, [], rfl, by simp, Or.inr rfl⟩
  · exact ⟨_, _, _, rfl, rfl, Or.inr rfl⟩
  · exact ⟨_, _, [], rfl, by simp, Or.inr rfl⟩

/-- The loop of `destroy_m2p_mapping` appends to the trace. -/
theorem destroy_m2p_mapping_loop_trace (lay : Layout) (env : MmEnv) (l3_ro_mpt emap : Nat) :
    ∀ (fuel i : Nat) (r : HotaddRun), ∃ evs,
      (destroy_m2p_mapping_loop lay env l3_ro_mpt emap fuel i r).2.trace = r.trace ++ evs := by
  intro fuel
  induction fuel with
  | zero =>
    intro i r
    exact ⟨[], by simp [destroy_m2p_mapping_loop]⟩
  | succ fuel ih =>
    intro i r
    by_cases h : i < emap
    · obtain ⟨i2, r2, evs, heq, htr, _⟩ :=
        destroy_m2p_mapping_loop_step lay env l3_ro_mpt emap fuel i r h
      obtain ⟨evs2, h2⟩ := ih i2 r2
      exact ⟨evs ++ evs2, by rw [heq, h2, htr, List.append_assoc]⟩
    · refine ⟨[], ?_⟩
      rw [destroy_m2p_mapping_loop]
      simp [h]

/-- With the fuel it is given, the loop of `destroy_m2p_mapping` ends because
`i` has reached `emap`. -/
theorem destroy_m2p_mapping_loop_exit (lay : Layout) (env : MmEnv) (l3_ro_mpt emap : Nat)
    (hemap : emap + 2 ^ 27 < 2 ^ 64) :
    ∀ (fuel i : Nat) (r : HotaddRun), emap ≤ i / 2 ^ 18 * 2 ^ 18 + fuel * 2 ^ 18 →
      emap ≤ (destroy_m2p_mapping_loop lay env l3_ro_mpt emap fuel i r).1 := by
  intro fuel
  induction fuel with
  | zero =>
    intro i r hf
    have hle : i / 2 ^ 18 * 2 ^ 18 ≤ i := Nat.div_mul_le_self i (2 ^ 18)
    simp only [destroy_m2p_mapping_loop]
    omega
  | succ fuel ih =>
    intro i r hf
    by_cases h : i < emap
    · obtain ⟨i2, r2, evs, heq, _, hi2⟩ :=
        destroy_m2p_mapping_loop_step lay env l3_ro_mpt emap fuel i r h
      rw [heq]
      apply ih
      rcases hi2 with hi2 | hi2
      · rw [hi2, step_mask i 27 (by decide) (by omega)]
        omega
      · rw [hi2, step_mask i 18 (by decide) (by omega)]
        omega
    · rw [destroy_m2p_mapping_loop]
      simp only [h, if_false]
      omega

/-- The loop of `destroy_compat_m2p_mapping` appends to the trace. -/
theorem destroy_compat_m2p_mapping_loop_trace (lay : Layout) (env : MmEnv) (emap : Nat) :
    ∀ (fuel i : Nat) (r : HotaddRun), ∃ evs,
      (destroy_compat_m2p_mapping_loop lay env emap fuel i r).trace = r.trace ++ evs := by
  intro fuel
  induction fuel with
  | zero =>
    intro i r
    exact ⟨[], by simp [destroy_compat_m2p_mapping_loop]⟩
  | succ fuel ih =>
    intro i r
    rw [destroy_compat_m2p_mapping_loop]
    simp only []
    split_ifs
    · obtain ⟨evs2, h2⟩ := ih (add64 i (shl64 1 (L2_PAGETABLE_SHIFT - 2)))
        { r with
          mach := { env.destroy_xen_mappings r.mach
              (add64 lay.RDWR_COMPAT_MPT_VIRT_START ((i * 4) % 2 ^ 32))
              (add64 (add64 lay.RDWR_COMPAT_MPT_VIRT_START ((i * 4) % 2 ^ 32))
                (shl64 1 L2_PAGETABLE_SHIFT)) with
            compat_idle_pg_table_l2 := fun k =>
              if k = l2_table_offset ((i * 4) % 2 ^ 32) then pte_empty
              else (env.destroy_xen_mappings r.mach
                (add64 lay.RDWR_COMPAT_MPT_VIRT_START ((i * 4) % 2 ^ 32))
                (add64 (add64 lay.RDWR_COMPAT_MPT_VIRT_START ((i * 4) % 2 ^ 32))
                  (shl64 1 L2_PAGETABLE_SHIFT))).compat_idle_pg_table_l2 k },
          trace := r.trace ++
            [PtEvent.destroy_xen_mappings
               (add64 lay.RDWR_COMPAT_MPT_VIRT_START ((i * 4) % 2 ^ 32))
               (add64 (add64 lay.RDWR_COMPAT_MPT_VIRT_START ((i * 4) % 2 ^ 32))
                 (shl64 1 L2_PAGETABLE_SHIFT)),
             PtEvent.compat_l2e_write (l2_table_offset ((i * 4) % 2 ^ 32)) pte_empty] }
      exact ⟨_, by rw [h2, List.append_assoc]⟩
    · exact ih _ r
    · exact ⟨[], by simp⟩

/-- The function `destroy_compat_m2p_mapping` appends to the trace. -/
theorem destroy_compat_m2p_mapping_trace (lay : Layout) (cfg : Config) (env : MmEnv)
    (r : HotaddRun) :
    ∃ evs, (destroy_compat_m2p_mapping lay cfg env r).trace = r.trace ++ evs := by
  unfold destroy_compat_m2p_mapping
  simp only []
  split_ifs
  · exact ⟨[], by simp⟩
  · exact destroy_compat_m2p_mapping_loop_trace lay env _ _ _ r
  · exact destroy_compat_m2p_mapping_loop_trace lay env _ _ _ r

theorem PAGE_MASK_eq : PAGE_MASK = not64 (2 ^ 12 - 1) := by decide

theorem shl64_one_21 : shl64 1 L2_PAGETABLE_SHIFT = 2 ^ 21 := by decide

/-- One turn of the loop of `cleanup_frame_table`: `sva` moves to the next
multiple of `2 ^ 30`, of `2 ^ 21` or of `2 ^ 12`, and the trace grows at its
end. -/
theorem cleanup_frame_table_loop_step (env : MmEnv) (eva fuel sva : Nat) (r : HotaddRun)
    (h : sva < eva) :
    ∃ s2 r2 evs,
      cleanup_frame_table_loop env eva (fuel + 1) sva r
        = cleanup_frame_table_loop env eva fuel s2 r2 ∧
      r2.trace = r.trace ++ evs ∧
      (s2 = add64 (sva &&& not64 (2 ^ 30 - 1)) (2 ^ 30) ∨
        s2 = add64 (sva &&& not64 (2 ^ 21 - 1)) (2 ^ 21) ∨
        s2 = add64 (sva &&& not64 (2 ^ 12 - 1)) (2 ^ 12)) := by
  rw [cleanup_frame_table_loop]
  simp only [h, if_true, shl64_one_30, shl64_one_21, PAGE_MASK_eq, PAGE_SIZE_eq]
  split_ifs
  · exact ⟨_, _, [], rfl, by simp, Or.inl rfl⟩
  · exact ⟨_, _, _, rfl, rfl, Or.inr (Or.inl rfl)⟩
  · exact ⟨_, _, [], rfl, by simp, Or.inr (Or.inl rfl)⟩
  · exact ⟨_, _, [], rfl, by simp, Or.inr (Or.inr rfl)⟩

/-- The loop of `cleanup_frame_table` appends to the trace. -/
theorem cleanup_frame_table_loop_trace (env : MmEnv) (eva : Nat) :
    ∀ (fuel sva : Nat) (r : HotaddRun), ∃ evs,
      (cleanup_frame_table_loop env eva fuel sva r).2.trace = r.trace ++ evs := by
  intro fuel
  induction fuel with
  | zero =>
    intro sva r
    exact ⟨[], by simp [cleanup_frame_table_loop]⟩
  | succ fuel ih =>
    intro sva r
    by_cases h : sva < eva
    · obtain ⟨s2, r2, evs, heq, htr, _⟩ := cleanup_frame_table_loop_step env eva fuel sva r h
      obtain ⟨evs2, h2⟩ := ih s2 r2
      exact ⟨evs ++ evs2, by rw [heq, h2, htr, List.append_assoc]⟩
    · refine ⟨[], ?_⟩
      rw [cleanup_frame_table_loop]
      simp [h]

/-- With the fuel it is given, the loop of `cleanup_frame_table` ends because
`sva` has reached `eva`. -/
theorem cleanup_frame_table_loop_exit (env : MmEnv) (eva : Nat)
    (heva : eva + 2 ^ 30 < 2 ^ 64) :
    ∀ (fuel sva : Nat) (r : HotaddRun), eva ≤ sva / 2 ^ 12 * 2 ^ 12 + fuel * 2 ^ 12 →
      eva ≤ (cleanup_frame_table_loop env eva fuel sva r).1 := by
  intro fuel
  induction fuel with
  | zero =>
    intro sva r hf
    have hle : sva / 2 ^ 12 * 2 ^ 12 ≤ sva := Nat.div_mul_le_self sva (2 ^ 12)
    simp only [cleanup_frame_table_loop]
    omega
  | succ fuel ih =>
    intro sva r hf
    by_cases h : sva < eva
    · obtain ⟨s2, r2, evs, heq, _, hs2⟩ := cleanup_frame_table_loop_step env eva fuel sva r h
      rw [heq]
      apply ih
      rcases hs2 with hs2 | hs2 | hs2
      · rw [hs2, step_mask sva 30 (by decide) (by omega)]
        omega
      · rw [hs2, step_mask sva 21 (by decide) (by omega)]
        omega
      · rw [hs2, step_mask sva 12 (by decide) (by omega)]
        omega
    · rw [cleanup_frame_table_loop]
      simp only [h, if_false]
      omega

/-- C27: `destroy_m2p_mapping` and `cleanup_frame_table` end their trace
with `flush_tlb_all`, after every `l2e_write` of an empty entry and every
`destroy_xen_mappings` they make; their loops end because the counter has
reached its bound (for ranges that do not wrap around); so in the trace of a
rollback, `destroy_m2p_mapping` followed by `cleanup_frame_table`, every
removal of a mapping has a `flush_tlb_all` after it. -/
theorem rollback_flushes_after_unmap (lay : Layout) (cfg : Config) (env : MmEnv)
    (r : HotaddRun) :
    (∃ evs, (destroy_m2p_mapping lay cfg env r).trace
        = r.trace ++ evs ++ [PtEvent.flush_tlb_all] ∧
      flushed_after_unmap (evs ++ [PtEvent.flush_tlb_all])) ∧
    (∃ evs, (cleanup_frame_table lay cfg env r).trace
        = r.trace ++ evs ++ [PtEvent.flush_tlb_all] ∧
      flushed_after_unmap (evs ++ [PtEvent.flush_tlb_all])) ∧
    (∃ evs, (cleanup_frame_table lay cfg env (destroy_m2p_mapping lay cfg env r)).trace
        = r.trace ++ evs ∧ flushed_after_unmap evs) ∧
    (r.info.epfn + 2 ^ 27 < 2 ^ 64 →
      r.info.epfn ≤ (destroy_m2p_mapping_loop lay env
        (r.mach.idle_pg_table (l4_table_offset lay.RO_MPT_VIRT_START)).pfn r.info.epfn
        (destroy_m2p_mapping_fuel r.info) r.info.spfn r).1) ∧
    (mfn_to_page lay cfg r.info.epfn + 2 ^ 30 < 2 ^ 64 →
      mfn_to_page lay cfg r.info.epfn ≤ (cleanup_frame_table_loop env
        (mfn_to_page lay cfg r.info.epfn)
        (cleanup_frame_table_fuel (mfn_to_page lay cfg r.info.spfn)
          (mfn_to_page lay cfg r.info.epfn))
        (mfn_to_page lay cfg r.info.spfn)
        { r with trace := r.trace ++ [PtEvent.memset (mfn_to_page lay cfg r.info.spfn) 0xFF
          (sub64 (mfn_to_page lay cfg r.info.epfn) (mfn_to_page lay cfg r.info.spfn))] }).1) := by
  have hd : ∀ r : HotaddRun, ∃ evs, (destroy_m2p_mapping lay cfg env r).trace
      = r.trace ++ evs ++ [PtEvent.flush_tlb_all] := by
    intro r
    unfold destroy_m2p_mapping
    simp only []
    obtain ⟨evs1, h1⟩ := destroy_m2p_mapping_loop_trace lay env
      (r.mach.idle_pg_table (l4_table_offset lay.RO_MPT_VIRT_START)).pfn r.info.epfn
      (destroy_m2p_mapping_fuel r.info) r.info.spfn r
    obtain ⟨evs2, h2⟩ := destroy_compat_m2p_mapping_trace lay cfg env
      (destroy_m2p_mapping_loop lay env
        (r.mach.idle_pg_table (l4_table_offset lay.RO_MPT_VIRT_START)).pfn r.info.epfn
        (destroy_m2p_mapping_fuel r.info) r.info.spfn r).2
    exact ⟨evs1 ++ evs2, by rw [h2, h1]; simp⟩
  have hc : ∀ r : HotaddRun, ∃ evs, (cleanup_frame_table lay cfg env r).trace
      = r.trace ++ evs ++ [PtEvent.flush_tlb_all] := by
    intro r
    unfold cleanup_frame_table
    simp only []
    obtain ⟨evs1, h1⟩ := cleanup_frame_table_loop_trace env (mfn_to_page lay cfg r.info.epfn)
      (cleanup_frame_table_fuel (mfn_to_page lay cfg r.info.spfn)
        (mfn_to_page lay cfg r.info.epfn))
      (mfn_to_page lay cfg r.info.spfn)
      { r with trace := r.trace ++ [PtEvent.memset (mfn_to_page lay cfg r.info.spfn) 0xFF
        (sub64 (mfn_to_page lay cfg r.info.epfn) (mfn_to_page lay cfg r.info.spfn))] }
    exact ⟨PtEvent.memset (mfn_to_page lay cfg r.info.spfn) 0xFF
      (sub64 (mfn_to_page lay cfg r.info.epfn) (mfn_to_page lay cfg r.info.spfn)) :: evs1,
      by rw [h1]; simp⟩
  refine ⟨?_, ?_, ?_, ?_, ?_⟩
  · obtain ⟨evs, h⟩ := hd r
    exact ⟨evs, h, flushed_after_unmap_append_flush evs⟩
  · obtain ⟨evs, h⟩ := hc r
    exact ⟨evs, h, flushed_after_unmap_append_flush evs⟩
  · obtain ⟨evs1, h1⟩ := hd r
    obtain ⟨evs2, h2⟩ := hc (destroy_m2p_mapping lay cfg env r)
    refine ⟨(evs1 ++ [PtEvent.flush_tlb_all] ++ evs2) ++ [PtEvent.flush_tlb_all], ?_,
      flushed_after_unmap_append_flush _⟩
    rw [h2, h1]
    simp
  · intro hno
    apply destroy_m2p_mapping_loop_exit lay env _ _ hno
    unfold destroy_m2p_mapping_fuel
    rw [shl64_one_18]
    have hle : r.info.spfn / 2 ^ 18 * 2 ^ 18 ≤ r.info.spfn := Nat.div_mul_le_self _ _
    omega
  · intro hno
    apply cleanup_frame_table_loop_exit env _ hno
    unfold cleanup_frame_table_fuel
    rw [PAGE_SIZE_eq]
    omega

/-! ## `setup_m2p_table` on a range that is mapped already -/

theorem shl64_one_19 : shl64 1 (L2_PAGETABLE_SHIFT - 2) = 2 ^ 19 := by decide

/-- One turn of the loop of `setup_m2p_table` at a chunk that is mapped: `i`
moves to the next multiple of `2 ^ 27` or of `2 ^ 18` and the run is as it
was. -/
theorem setup_m2p_table_loop_step_mapped (lay : Layout) (cfg : Config) (env : MmEnv)
    (st : State Mach) (l3_ro_mpt emap fuel i : Nat) (l2_ro_mpt : Option Nat) (r : HotaddRun)
    (h : i < emap)
    (hm : m2p_mapped lay r.mach i = M2P_2M_MAPPED ∨ m2p_mapped lay r.mach i = M2P_1G_MAPPED) :
    ∃ i2 l2,
      setup_m2p_table_loop lay cfg env st l3_ro_mpt emap (fuel + 1) i l2_ro_mpt r
        = setup_m2p_table_loop lay cfg env st l3_ro_mpt emap fuel i2 l2 r ∧
      (i2 = add64 (i &&& not64 (2 ^ 27 - 1)) (2 ^ 27) ∨
        i2 = add64 (i &&& not64 (2 ^ 18 - 1)) (2 ^ 18)) := by
  rw [setup_m2p_table_loop]
  simp only [h, if_true, shl64_one_27, shl64_one_18]
  rcases hm with hm | hm
  · have h1 : ¬ (m2p_mapped lay r.mach i = M2P_1G_MAPPED) := by
      rw [hm]
      decide
    rw [if_neg h1, if_pos hm]
    exact ⟨_, _, rfl, Or.inr rfl⟩
  · rw [if_pos hm]
    exact ⟨_, _, rfl, Or.inl rfl⟩

/-- The loop of `setup_m2p_table` over chunks that are all mapped leaves the
run as it was. -/
theorem setup_m2p_table_loop_mapped (lay : Layout) (cfg : Config) (env : MmEnv)
    (st : State Mach) (l3_ro_mpt emap smap : Nat) (r : HotaddRun)
    (hemap : emap + 2 ^ 27 < 2 ^ 64)
    (hm : ∀ j, j % 2 ^ 18 = 0 → smap ≤ j → j < emap →
      m2p_mapped lay r.mach j = M2P_2M_MAPPED ∨ m2p_mapped lay r.mach j = M2P_1G_MAPPED) :
    ∀ (fuel i : Nat) (l2_ro_mpt : Option Nat), i % 2 ^ 18 = 0 → smap ≤ i →
      (setup_m2p_table_loop lay cfg env st l3_ro_mpt emap fuel i l2_ro_mpt r).run = r ∧
      (setup_m2p_table_loop lay cfg env st l3_ro_mpt emap fuel i l2_ro_mpt r).error = false := by
  intro fuel
  induction fuel with
  | zero =>
    intro i l2 _ _
    simp [setup_m2p_table_loop]
  | succ fuel ih =>
    intro i l2 hal hge
    by_cases h : i < emap
    · obtain ⟨i2, l2b, heq, hi2⟩ := setup_m2p_table_loop_step_mapped lay cfg env st l3_ro_mpt
        emap fuel i l2 r h (hm i hal hge h)
      rw [heq]
      rcases hi2 with hi2 | hi2
      · have hs := step_mask i 27 (by decide) (by omega)
        rw [hs] at hi2
        exact ih i2 l2b (by omega) (by omega)
      · have hs := step_mask i 18 (by decide) (by omega)
        rw [hs] at hi2
        exact ih i2 l2b (by omega) (by omega)
    · rw [setup_m2p_table_loop]
      simp [h]

/-- The loop of `setup_compat_m2p_table` over entries that are all present
leaves the run as it was. -/
theorem setup_compat_m2p_table_loop_present (lay : Layout) (cfg : Config) (env : MmEnv)
    (st : State Mach) (emap smap : Nat) (r : HotaddRun) (hemap : emap + 2 ^ 19 < 2 ^ 64)
    (hp : ∀ j, j % 2 ^ 19 = 0 → smap ≤ j → j < emap →
      (r.mach.compat_idle_pg_table_l2 (l2_table_offset ((j * 4) % 2 ^ 32))).flags
        &&& _PAGE_PRESENT ≠ 0) :
    ∀ (fuel i : Nat), i % 2 ^ 19 = 0 → smap ≤ i →
      setup_compat_m2p_table_loop lay cfg env st emap fuel i r = r := by
  intro fuel
  induction fuel with
  | zero =>
    intro i _ _
    simp [setup_compat_m2p_table_loop]
  | succ fuel ih =>
    intro i hal hge
    rw [setup_compat_m2p_table_loop]
    by_cases h : i < emap
    · simp only [h, if_true, shl64_one_19]
      rw [if_pos (hp i hal hge h)]
      have hn : add64 i (2 ^ 19) = i + 2 ^ 19 := by
        unfold add64
        exact Nat.mod_eq_of_lt (by omega)
      rw [hn]
      exact ih (i + 2 ^ 19) (by omega) (by omega)
    · simp [h]

/-- The bound `emap` that the code computes from `epfn` for chunks of
`2 ^ k` frames: `epfn` rounded up. -/
theorem emap_eq (epfn k : Nat) (hk : k ≤ 64) (he : epfn + 2 ^ k < 2 ^ 64) :
    add64 epfn (2 ^ k - 1) &&& not64 (2 ^ k - 1) = (epfn + 2 ^ k - 1) / 2 ^ k * 2 ^ k := by
  have hpos : 0 < 2 ^ k := Nat.two_pow_pos k
  have h1 : add64 epfn (2 ^ k - 1) = epfn + 2 ^ k - 1 := by
    unfold add64
    rw [Nat.mod_eq_of_lt (by omega)]
    omega
  rw [h1]
  exact and_not_low_mask _ k (by omega) hk

/-- On a range all of whose compat L2 entries are present,
`setup_compat_m2p_table` returns 0 and leaves the run as it was. -/
theorem setup_compat_m2p_table_present (lay : Layout) (cfg : Config) (env : MmEnv)
    (st : State Mach) (r : HotaddRun)
    (hrange : r.info.spfn ≤ r.info.epfn) (hno : r.info.epfn + 2 ^ 28 < 2 ^ 64)
    (hp : compat_range_present lay cfg r.mach r.info) :
    setup_compat_m2p_table lay cfg env st r = { r with ret := 0 } := by
  have hs19 : r.info.spfn &&& not64 (2 ^ 19 - 1) = r.info.spfn / 2 ^ 19 * 2 ^ 19 :=
    and_not_low_mask _ 19 (by omega) (by decide)
  unfold compat_range_present at hp
  unfold setup_compat_m2p_table
  simp only [shl64_one_19]
  rw [hs19]
  generalize (RDWR_COMPAT_MPT_VIRT_END lay cfg - lay.RDWR_COMPAT_MPT_VIRT_START) >>> 2 = W
    at hp ⊢
  by_cases h1 : (!r.mach.opt_pv32 || decide (r.info.spfn / 2 ^ 19 * 2 ^ 19 > W)) = true
  · rw [if_pos h1]
  · rw [if_neg h1]
    by_cases h2 : r.info.epfn > W
    · rw [if_pos h2]
      have he19 := emap_eq W 19 (by decide) (by omega)
      rw [he19]
      have hle : (W + 2 ^ 19 - 1) / 2 ^ 19 * 2 ^ 19 ≤ W + 2 ^ 19 - 1 := Nat.div_mul_le_self _ _
      refine setup_compat_m2p_table_loop_present lay cfg env st _
        (r.info.spfn / 2 ^ 19 * 2 ^ 19) { r with ret := 0 } (by omega) ?_ _ _ (by omega)
        (Nat.le_refl _)
      intro j hj hge hlt
      refine hp j hj hge ?_
      rw [Nat.min_eq_right (Nat.le_of_lt h2)]
      omega
    · rw [if_neg h2]
      have he19 := emap_eq r.info.epfn 19 (by decide) (by omega)
      rw [he19]
      have hle : (r.info.epfn + 2 ^ 19 - 1) / 2 ^ 19 * 2 ^ 19 ≤ r.info.epfn + 2 ^ 19 - 1 :=
        Nat.div_mul_le_self _ _
      refine setup_compat_m2p_table_loop_present lay cfg env st _
        (r.info.spfn / 2 ^ 19 * 2 ^ 19) { r with ret := 0 } (by omega) ?_ _ _ (by omega)
        (Nat.le_refl _)
      intro j hj hge hlt
      refine hp j hj hge ?_
      rw [Nat.min_eq_left (Nat.le_of_not_lt h2)]
      omega

/-- The body of `setup_m2p_table`, with the constants of the chunk size
evaluated. -/
theorem setup_m2p_table_unfold (lay : Layout) (cfg : Config) (env : MmEnv)
    (st : State Mach) (info : mem_hotadd_info) :
    setup_m2p_table lay cfg env st info =
      if (setup_m2p_table_loop lay cfg env st
          (st.mach.idle_pg_table (l4_table_offset lay.RO_MPT_VIRT_START)).pfn
          (add64 info.epfn (2 ^ 18 - 1) &&& not64 (2 ^ 18 - 1))
          (((add64 info.epfn (2 ^ 18 - 1) &&& not64 (2 ^ 18 - 1)) -
            (info.spfn &&& not64 (2 ^ 18 - 1))) / 2 ^ 18 + 1)
          (info.spfn &&& not64 (2 ^ 18 - 1)) none
          { ret := 0, info := info, mach := st.mach,
            asserts := decide ((st.mach.idle_pg_table
              (l4_table_offset lay.RO_MPT_VIRT_START)).flags &&& _PAGE_PRESENT ≠ 0),
            trace := [] }).error = true
      then (setup_m2p_table_loop lay cfg env st
          (st.mach.idle_pg_table (l4_table_offset lay.RO_MPT_VIRT_START)).pfn
          (add64 info.epfn (2 ^ 18 - 1) &&& not64 (2 ^ 18 - 1))
          (((add64 info.epfn (2 ^ 18 - 1) &&& not64 (2 ^ 18 - 1)) -
            (info.spfn &&& not64 (2 ^ 18 - 1))) / 2 ^ 18 + 1)
          (info.spfn &&& not64 (2 ^ 18 - 1)) none
          { ret := 0, info := info, mach := st.mach,
            asserts := decide ((st.mach.idle_pg_table
              (l4_table_offset lay.RO_MPT_VIRT_START)).flags &&& _PAGE_PRESENT ≠ 0),
            trace := [] }).run
      else setup_compat_m2p_table lay cfg env st (setup_m2p_table_loop lay cfg env st
          (st.mach.idle_pg_table (l4_table_offset lay.RO_MPT_VIRT_START)).pfn
          (add64 info.epfn (2 ^ 18 - 1) &&& not64 (2 ^ 18 - 1))
          (((add64 info.epfn (2 ^ 18 - 1) &&& not64 (2 ^ 18 - 1)) -
            (info.spfn &&& not64 (2 ^ 18 - 1))) / 2 ^ 18 + 1)
          (info.spfn &&& not64 (2 ^ 18 - 1)) none
          { ret := 0, info := info, mach := st.mach,
            asserts := decide ((st.mach.idle_pg_table
              (l4_table_offset lay.RO_MPT_VIRT_START)).flags &&& _PAGE_PRESENT ≠ 0),
            trace := [] }).run := by
  unfold setup_m2p_table
  simp only [shl64_one_18]

/-- On a range all of whose M2P chunks are mapped and all of whose compat L2
entries are present, `setup_m2p_table` returns 0, leaves the staging record
and the machine as they were, and writes nothing. -/
theorem setup_m2p_table_mapped_noop (lay : Layout) (cfg : Config) (env : MmEnv)
    (st : State Mach) (info : mem_hotadd_info)
    (hrange : info.spfn ≤ info.epfn) (hno : info.epfn + 2 ^ 28 < 2 ^ 64)
    (hm : m2p_range_mapped lay st.mach info)
    (hp : compat_range_present lay cfg st.mach info) :
    setup_m2p_table lay cfg env st info =
      { ret := 0, info := info, mach := st.mach,
        asserts := decide ((st.mach.idle_pg_table
          (l4_table_offset lay.RO_MPT_VIRT_START)).flags &&& _PAGE_PRESENT ≠ 0),
        trace := [] } := by
  have hs18 : info.spfn &&& not64 (2 ^ 18 - 1) = info.spfn / 2 ^ 18 * 2 ^ 18 :=
    and_not_low_mask _ 18 (by omega) (by decide)
  have he18 := emap_eq info.epfn 18 (by decide) (by omega)
  have hle : (info.epfn + 2 ^ 18 - 1) / 2 ^ 18 * 2 ^ 18 ≤ info.epfn + 2 ^ 18 - 1 :=
    Nat.div_mul_le_self _ _
  rw [setup_m2p_table_unfold, hs18, he18]
  obtain ⟨hrun, herr⟩ := setup_m2p_table_loop_mapped lay cfg env st
    (st.mach.idle_pg_table (l4_table_offset lay.RO_MPT_VIRT_START)).pfn
    ((info.epfn + 2 ^ 18 - 1) / 2 ^ 18 * 2 ^ 18) (info.spfn / 2 ^ 18 * 2 ^ 18)
    { ret := 0, info := info, mach := st.mach,
      asserts := decide ((st.mach.idle_pg_table
        (l4_table_offset lay.RO_MPT_VIRT_START)).flags &&& _PAGE_PRESENT ≠ 0),
      trace := [] }
    (by omega)
    (fun j hj hge hlt => hm j hj hge (by omega))
    (((info.epfn + 2 ^ 18 - 1) / 2 ^ 18 * 2 ^ 18 - info.spfn / 2 ^ 18 * 2 ^ 18) / 2 ^ 18 + 1)
    (info.spfn / 2 ^ 18 * 2 ^ 18) none (by omega) (Nat.le_refl _)
  rw [herr, hrun]
  simp only [Bool.false_eq_true, if_false]
  exact setup_compat_m2p_table_present lay cfg env st
    { ret := 0, info := info, mach := st.mach,
      asserts := decide ((st.mach.idle_pg_table
        (l4_table_offset lay.RO_MPT_VIRT_START)).flags &&& _PAGE_PRESENT ≠ 0),
      trace := [] } hrange hno hp

/-! ## `setup_m2p_table` and `destroy_m2p_mapping` on the machine with 4 GiB -/

/-- C24, for a second run after a successful first run.  In the hot-add of
`[0x7fc0000, 0x8040000)` to the machine with 4 GiB of memory the first run of
`setup_m2p_table` returns 0 and leaves the chunk of frame `0x8000000` not
mapped; run again on the same range, `setup_m2p_table` returns 0, takes a
scratch frame (`cur` moves from `0x7fc1800` to `0x7fc1a00`), takes frame
`0x2000` for an L2 table and writes an L3 and an L2 entry. -/
theorem setup_m2p_table_second_run_maps_again :
    (setup_run_4G 0x7FC0000 0x8040000).ret = 0 ∧
    (setup_run_4G 0x7FC0000 0x8040000).info
      = { spfn := 0x7FC0000, epfn := 0x8040000, cur := 0x7FC1800 } ∧
    m2p_mapped lay0 (setup_run_4G 0x7FC0000 0x8040000).mach 0x8000000 = M2P_NO_MAPPED ∧
    (setup_m2p_table lay0 cfg0 env0
      { st_hotadd 0x7FC0000 0x8040000 with mach := (setup_run_4G 0x7FC0000 0x8040000).mach }
      (setup_run_4G 0x7FC0000 0x8040000).info).ret = 0 ∧
    (setup_m2p_table lay0 cfg0 env0
      { st_hotadd 0x7FC0000 0x8040000 with mach := (setup_run_4G 0x7FC0000 0x8040000).mach }
      (setup_run_4G 0x7FC0000 0x8040000).info).info
      = { spfn := 0x7FC0000, epfn := 0x8040000, cur := 0x7FC1A00 } ∧
    (setup_m2p_table lay0 cfg0 env0
      { st_hotadd 0x7FC0000 0x8040000 with mach := (setup_run_4G 0x7FC0000 0x8040000).mach }
      (setup_run_4G 0x7FC0000 0x8040000).info).trace
      = [PtEvent.alloc_hotadd_mfn 0x7FC1800,
         PtEvent.map_pages_to_xen 0xffff828040000000 0x7FC1800 512 cfg0.PAGE_HYPERVISOR,
         PtEvent.memset 0xffff828040000000 0xFF 0x200000,
         PtEvent.l3e_write 0x1000 1
           { pfn := 0x2000, flags := lay0.PAGE_HYPERVISOR_RO ||| _PAGE_USER },
         PtEvent.l2e_write 0x2000 0
           { pfn := 0x7FC1800, flags := _PAGE_PSE ||| _PAGE_USER ||| _PAGE_PRESENT }] := by
  refine ⟨?_, ?_, ?_, ?_, ?_, ?_⟩ <;> decide

/-- C25, for the hot-add of `[0xffc0000, 0x10040000)` to the machine with
4 GiB of memory, whose M2P chunks lie on either side of a 1 GiB boundary of
the read-only M2P window.  None of the four leaves of the M2P table is backed
by a frame of the range beforehand and the chunk of frame `0x8000000` is not
mapped.
`setup_m2p_table` returns 0 with every `ASSERT` true; after
`destroy_m2p_mapping` the chunk of frame `0x8000000` is mapped, by entry 0 of
the L2 table in frame `0x2000`, on frame `0xffc1200` of the range:
`destroy_m2p_mapping` clears entry 511 of that table only. -/
theorem destroy_m2p_mapping_leaves_stale_chunk :
    mem_hotadd_check cfg0 st_4G_mach.pdx_group_valid 0xFFC0000 0x10040000 = 1 ∧
    (∀ i, i < 4 →
      hotadd_mem_valid (mach_4G.pt 0x1001 i).pfn (info_hotadd 0xFFC0000 0x10040000) = false) ∧
    m2p_mapped lay0 mach_4G 0x8000000 = M2P_NO_MAPPED ∧
    (setup_run_4G 0xFFC0000 0x10040000).ret = 0 ∧
    (setup_run_4G 0xFFC0000 0x10040000).asserts = true ∧
    m2p_mapped lay0 (destroy_m2p_mapping lay0 cfg0 env0
      (setup_run_4G 0xFFC0000 0x10040000)).mach 0x8000000 = M2P_2M_MAPPED ∧
    (destroy_m2p_mapping lay0 cfg0 env0 (setup_run_4G 0xFFC0000 0x10040000)).mach.pt 0x2000 0
      = { pfn := 0xFFC1200, flags := _PAGE_PSE ||| _PAGE_USER ||| _PAGE_PRESENT } ∧
    hotadd_mem_valid 0xFFC1200 (info_hotadd 0xFFC0000 0x10040000) = true ∧
    (destroy_m2p_mapping lay0 cfg0 env0 (setup_run_4G 0xFFC0000 0x10040000)).trace.drop
        (setup_run_4G 0xFFC0000 0x10040000).trace.length
      = [PtEvent.destroy_xen_mappings 0xffff82807fe00000 0xffff828080000000,
         PtEvent.l2e_write 0x2000 511 pte_empty,
         PtEvent.flush_tlb_all] := by
  refine ⟨?_, ?_, ?_, ?_, ?_, ?_, ?_, ?_, ?_⟩ <;> decide

/-- C26, for the hot-add of `[0x100000, 0x130000)` to the machine with 4 GiB
of memory, with `opt_pv32` set.  `setup_m2p_table` returns 0 and
`setup_compat_m2p_table` installs entry 2 of the compat L2 table, for the
frames from `0x100000`, on frame `0x100800` of the range; after
`destroy_m2p_mapping` that entry is still present on that frame: the loop of
`destroy_compat_m2p_mapping` runs from `spfn` to `spfn`. -/
theorem destroy_m2p_mapping_keeps_compat_entry :
    mach_4G.opt_pv32 = true ∧
    mach_4G.compat_idle_pg_table_l2 2 = pte_empty ∧
    l2_table_offset ((0x100000 * 4) % 2 ^ 32) = 2 ∧
    (setup_run_4G 0x100000 0x130000).ret = 0 ∧
    (setup_run_4G 0x100000 0x130000).mach.compat_idle_pg_table_l2 2
      = { pfn := 0x100800, flags := _PAGE_PSE ||| _PAGE_PRESENT } ∧
    (destroy_m2p_mapping lay0 cfg0 env0
      (setup_run_4G 0x100000 0x130000)).mach.compat_idle_pg_table_l2 2
      = { pfn := 0x100800, flags := _PAGE_PSE ||| _PAGE_PRESENT } ∧
    hotadd_mem_valid 0x100800 (info_hotadd 0x100000 0x130000) = true ∧
    (destroy_m2p_mapping lay0 cfg0 env0 (setup_run_4G 0x100000 0x130000)).trace.drop
        (setup_run_4G 0x100000 0x130000).trace.length
      = [PtEvent.destroy_xen_mappings 0xffff828000800000 0xffff828000a00000,
         PtEvent.l2e_write 0x1001 4 pte_empty,
         PtEvent.flush_tlb_all] := by
  refine ⟨?_, ?_, ?_, ?_, ?_, ?_, ?_, ?_⟩ <;> decide

/-- C27, for the rollback of the hot-add of `[0x100000, 0x130000)` to the
machine with 4 GiB of memory: both loops run to their bound. -/
theorem rollback_flushes_after_unmap_witness :
    (setup_run_4G 0x100000 0x130000).info.epfn ≤ (destroy_m2p_mapping_loop lay0 env0
      ((setup_run_4G 0x100000 0x130000).mach.idle_pg_table
        (l4_table_offset lay0.RO_MPT_VIRT_START)).pfn
      (setup_run_4G 0x100000 0x130000).info.epfn
      (destroy_m2p_mapping_fuel (setup_run_4G 0x100000 0x130000).info)
      (setup_run_4G 0x100000 0x130000).info.spfn (setup_run_4G 0x100000 0x130000)).1 :=
  (rollback_flushes_after_unmap lay0 cfg0 env0 (setup_run_4G 0x100000 0x130000)).2.2.2.1
    (by decide)

theorem shl64_one_order : shl64 1 PAGETABLE_ORDER = 512 := by decide

/-- One call of `alloc_hotadd_mfn` whose `ASSERT` holds, without wrap-around
of the cursor. -/
theorem alloc_hotadd_mfn_step (info : mem_hotadd_info) (hc : info.cur + 512 < 2 ^ 64)
    (hok : (alloc_hotadd_mfn info).2.2 = true) :
    (alloc_hotadd_mfn info).1 = info.cur ∧
    (alloc_hotadd_mfn info).2.1 = { info with cur := info.cur + 512 } ∧
    info.spfn ≤ info.cur ∧ info.cur + 512 < info.epfn := by
  unfold alloc_hotadd_mfn at hok ⊢
  rw [shl64_one_order] at hok ⊢
  have h : add64 info.cur 512 = info.cur + 512 := by
    unfold add64; exact Nat.mod_eq_of_lt hc
  rw [h] at hok ⊢
  simp only [Bool.and_eq_true, decide_eq_true_eq] at hok
  exact ⟨rfl, rfl, hok.2, hok.1⟩

/-- The calls of `alloc_hotadd_mfn` from a cursor `cur`, all with a true
`ASSERT`: the frames returned, the record left and the bounds of the
cursor. -/
theorem alloc_hotadd_mfn_calls_spec (n : Nat) :
    ∀ info : mem_hotadd_info, info.cur + 512 < 2 ^ 64 → info.epfn + 512 ≤ 2 ^ 64 →
      (alloc_hotadd_mfn_calls n info).2.2 = true →
      (alloc_hotadd_mfn_calls n info).2.1 = { info with cur := info.cur + 512 * n } ∧
      (alloc_hotadd_mfn_calls n info).1 = (List.range n).map (fun k => info.cur + 512 * k) ∧
      (0 < n → info.spfn ≤ info.cur ∧ info.cur + 512 * n < info.epfn) := by
  induction n with
  | zero =>
    intro info _ _ _
    exact ⟨rfl, rfl, fun h => absurd h (by decide)⟩
  | succ n ih =>
    intro info hc he hok
    unfold alloc_hotadd_mfn_calls at hok ⊢
    simp only [Bool.and_eq_true] at hok
    obtain ⟨h1, h2, h3, h4⟩ := alloc_hotadd_mfn_step info hc hok.1
    have hok2 := hok.2
    rw [h2] at hok2
    have hc2 : ({ info with cur := info.cur + 512 } : mem_hotadd_info).cur + 512 < 2 ^ 64 := by
      show info.cur + 512 + 512 < 2 ^ 64
      omega
    obtain ⟨i1, i2, i3⟩ := ih { info with cur := info.cur + 512 } hc2 he hok2
    simp only [h1, h2]
    refine ⟨?_, ?_, ?_⟩
    · rw [i1]
      show ({ spfn := info.spfn, epfn := info.epfn, cur := info.cur + 512 + 512 * n } :
        mem_hotadd_info) = { spfn := info.spfn, epfn := info.epfn, cur := info.cur + 512 * (n + 1) }
      congr 1
      omega
    · rw [i2, List.range_succ_eq_map, List.map_cons, List.map_map]
      congr 1
      apply List.map_congr_left
      intro k _
      show info.cur + 512 + 512 * k = info.cur + 512 * (k + 1)
      omega
    · intro _
      refine ⟨h3, ?_⟩
      rcases Nat.eq_zero_or_pos n with h0 | hp
      · subst h0; omega
      · have := (i3 hp).2
        show info.cur + 512 * (n + 1) < info.epfn
        have h5 : info.cur + 512 + 512 * n < info.epfn := this
        omega

/-- C40: the staging cursor.  From `cur = spfn`, with frame numbers that leave
room for one block below `2 ^ 64`, `n` calls of `alloc_hotadd_mfn` whose
`ASSERT` holds leave `spfn` and `epfn` as they were and `cur = spfn + 512 * n`
with `spfn ≤ cur`, and `cur < epfn` after a call; call `k` returns the cursor
it found, `spfn + 512 * k`, so that the blocks returned are in increasing
order and pairwise disjoint, and every frame of every block returned passes
`hotadd_mem_valid`. -/
theorem alloc_hotadd_mfn_cursor_invariant (n : Nat) (info : mem_hotadd_info)
    (hstart : info.cur = info.spfn) (hs : info.spfn + 512 < 2 ^ 64)
    (he : info.epfn + 512 ≤ 2 ^ 64)
    (hok : (alloc_hotadd_mfn_calls n info).2.2 = true) :
    (alloc_hotadd_mfn_calls n info).2.1.spfn = info.spfn ∧
    (alloc_hotadd_mfn_calls n info).2.1.epfn = info.epfn ∧
    (alloc_hotadd_mfn_calls n info).2.1.cur = info.spfn + 512 * n ∧
    info.spfn ≤ (alloc_hotadd_mfn_calls n info).2.1.cur ∧
    (0 < n → (alloc_hotadd_mfn_calls n info).2.1.cur < info.epfn) ∧
    (alloc_hotadd_mfn_calls n info).1 = (List.range n).map (fun k => info.spfn + 512 * k) ∧
    (alloc_hotadd_mfn_calls n info).1.Pairwise (fun a b => a + 512 ≤ b) ∧
    (∀ mfn ∈ (alloc_hotadd_mfn_calls n info).1, ∀ j, j < 512 →
      hotadd_mem_valid (mfn + j) info = true ∧
      mfn + j < (alloc_hotadd_mfn_calls n info).2.1.cur) := by
  obtain ⟨h1, h2, h3⟩ := alloc_hotadd_mfn_calls_spec n info (by rw [hstart]; exact hs) he hok
  rw [hstart] at h1 h2 h3
  rw [h1, h2]
  refine ⟨rfl, rfl, rfl, Nat.le_add_right _ _, fun hn => (h3 hn).2, rfl, ?_, ?_⟩
  · rw [List.pairwise_map]
    refine List.Pairwise.imp ?_ (List.pairwise_lt_range n)
    intro a b hab
    omega
  · intro mfn hm j hj
    rw [List.mem_map] at hm
    obtain ⟨k, hk, rfl⟩ := hm
    rw [List.mem_range] at hk
    have hn : 0 < n := by omega
    have h4 := (h3 hn).2
    refine ⟨?_, ?_⟩
    · unfold hotadd_mem_valid
      simp only [Bool.and_eq_true, decide_eq_true_eq]
      constructor <;> omega
    · show info.spfn + 512 * k + j < info.spfn + 512 * n
      omega

/-- C40, for three calls on the staging record of `[0x100000, 0x130000)`. -/
theorem alloc_hotadd_mfn_cursor_invariant_witness :
    (alloc_hotadd_mfn_calls 3 { spfn := 0x100000, epfn := 0x130000, cur := 0x100000 }).2.1.cur
      = 0x100000 + 512 * 3 ∧
    (alloc_hotadd_mfn_calls 3 { spfn := 0x100000, epfn := 0x130000, cur := 0x100000 }).1
      = [0x100000, 0x100200, 0x100400] :=
  have h := alloc_hotadd_mfn_cursor_invariant 3
    { spfn := 0x100000, epfn := 0x130000, cur := 0x100000 } rfl (by decide) (by decide)
    (by decide)
  ⟨h.2.2.1, h.2.2.2.2.2.1⟩

theorem l2_table_offset_eq (v : Nat) : l2_table_offset v = v / 2 ^ 21 % 512 := by
  unfold l2_table_offset
  have h : PAGETABLE_ENTRIES - 1 = 2 ^ 9 - 1 := by decide
  rw [h, Nat.and_pow_two_sub_one_eq_mod, Nat.shiftRight_eq_div_pow]
  rfl

theorem l3_table_offset_eq (v : Nat) : l3_table_offset v = v / 2 ^ 30 % 512 := by
  unfold l3_table_offset
  have h : PAGETABLE_ENTRIES - 1 = 2 ^ 9 - 1 := by decide
  rw [h, Nat.and_pow_two_sub_one_eq_mod, Nat.shiftRight_eq_div_pow]
  rfl

theorem l4_table_offset_eq (v : Nat) : l4_table_offset v = v / 2 ^ 39 % 512 := by
  unfold l4_table_offset
  have h : PAGETABLE_ENTRIES - 1 = 2 ^ 9 - 1 := by decide
  rw [h, Nat.and_pow_two_sub_one_eq_mod, Nat.shiftRight_eq_div_pow]
  rfl

/-- Under a present superpage L3 entry the value computed for the slot does
not depend on `last_mfn`. -/
theorem machphys_slot_mfn_of_superpage (m : Mach) (v last : Nat)
    (h : machphys_slot_superpage m v) :
    machphys_slot_mfn m v last
      = ((machphys_slot_l3e m v).pfn + 512 * l2_table_offset v) % 2 ^ 64 := by
  unfold machphys_slot_superpage machphys_slot_l3e at h
  unfold machphys_slot_mfn machphys_slot_l3e
  simp only []
  rw [if_neg h.1, if_neg h.2]
  have h2 : shl64 (l2_table_offset v) PAGETABLE_ORDER = 512 * l2_table_offset v := by
    unfold shl64
    rw [Nat.shiftLeft_eq, l2_table_offset_eq]
    have : PAGETABLE_ORDER = 9 := rfl
    rw [this]
    omega
  rw [h2]
  rfl

/-- Every extent that the loop writes carries the value of `machphys_slot_mfn`
at its slot, for some `last_mfn`. -/
theorem machphys_mfn_list_loop_values (lay : Layout) (m : Mach) (g : Guest)
    (max_extents limit : Nat) :
    ∀ (fuel i last : Nat) (acc : List GuestAccess) (ok : Bool),
      (∀ k x, GuestAccess.copy_to_guest_offset k x ∈ acc →
        ∃ l, x = machphys_slot_mfn m (machphys_slot_va lay k) l) →
      ∀ k x, GuestAccess.copy_to_guest_offset k x ∈
          (machphys_mfn_list_loop m g max_extents limit fuel i
            (machphys_slot_va lay i) last acc ok).accesses →
        ∃ l, x = machphys_slot_mfn m (machphys_slot_va lay k) l := by
  intro fuel
  induction fuel with
  | zero =>
    intro i last acc ok hacc
    exact hacc
  | succ fuel ih =>
    intro i last acc ok hacc
    unfold machphys_mfn_list_loop
    simp only []
    have hstep : ∀ k x, GuestAccess.copy_to_guest_offset k x ∈
        acc ++ [GuestAccess.copy_to_guest_offset i
          (machphys_slot_mfn m (machphys_slot_va lay i) last)] →
        ∃ l, x = machphys_slot_mfn m (machphys_slot_va lay k) l := by
      intro k x hk
      rw [List.mem_append, List.mem_singleton] at hk
      rcases hk with hk | hk
      · exact hacc k x hk
      · injection hk with hk1 hk2
        subst hk1
        exact ⟨last, hk2⟩
    by_cases hcond : i ≠ max_extents ∧ machphys_slot_va lay i < limit
    · rw [if_pos hcond]
      by_cases hf : (!g.extent_ok i) = true
      · rw [if_pos hf]
        exact hstep
      · rw [if_neg hf, machphys_slot_va_succ]
        exact ih (i + 1) _ _ _ hstep
    · rw [if_neg hcond]
      exact hacc

/-- Every extent that `XENMEM_machphys_mfn_list` writes carries the value of
`machphys_slot_mfn` at its slot, for some `last_mfn`. -/
theorem machphys_mfn_list_values (lay : Layout) (cfg : Config) (max_page : Nat)
    (m : Mach) (g : Guest) (h1 : lay.RDWR_MPT_VIRT_START < 2 ^ 64) :
    ∀ k x, GuestAccess.copy_to_guest_offset k x ∈
        (subarch_memory_op lay cfg max_page m g MemOp.XENMEM_machphys_mfn_list).accesses →
      ∃ l, x = machphys_slot_mfn m (machphys_slot_va lay k) l := by
  unfold subarch_memory_op
  simp only []
  cases hx : g.xmml with
  | none =>
    simp only []
    intro k x hk
    simp at hk
  | some xmml =>
    simp only []
    have hl := machphys_mfn_list_loop_values lay m g xmml.max_extents
      (add64 lay.RDWR_MPT_VIRT_START (mul64 max_page 8)) xmml.max_extents 0 0
      [GuestAccess.copy_from_guest] true (by intro k x hk; simp at hk)
    rw [← machphys_slot_va_zero lay h1] at hl
    have happ : ∀ (n : Nat) k x, GuestAccess.copy_to_guest_offset k x ∈
        (machphys_mfn_list_loop m g xmml.max_extents
          (add64 lay.RDWR_MPT_VIRT_START (mul64 max_page 8)) xmml.max_extents 0
          lay.RDWR_MPT_VIRT_START 0 [GuestAccess.copy_from_guest] true).accesses ++
          [GuestAccess.copy_to_guest n] →
        ∃ l, x = machphys_slot_mfn m (machphys_slot_va lay k) l := by
      intro n k x hk
      rw [List.mem_append, List.mem_singleton] at hk
      rcases hk with hk | hk
      · exact hl k x hk
      · cases hk
    split_ifs
    · exact hl
    · exact happ _
    · exact happ _

/-- C36: an extent that `XENMEM_machphys_mfn_list` writes for a slot `v`
under a present 1 GiB superpage L3 entry with frame `B` carries
`B + 512 * l2_table_offset(v)`, reduced to an `unsigned long`; with
`B + 2 ^ 18` within an `unsigned long`, the values written for two
consecutive extents with the same L3 entry whose addresses lie in the same
gigabyte differ by 512. -/
theorem machphys_mfn_list_superpage (lay : Layout) (cfg : Config) (max_page : Nat)
    (m : Mach) (g : Guest) (h1 : lay.RDWR_MPT_VIRT_START < 2 ^ 64) :
    (∀ k x, GuestAccess.copy_to_guest_offset k x ∈
        (subarch_memory_op lay cfg max_page m g MemOp.XENMEM_machphys_mfn_list).accesses →
      machphys_slot_superpage m (machphys_slot_va lay k) →
      x = ((machphys_slot_l3e m (machphys_slot_va lay k)).pfn +
        512 * l2_table_offset (machphys_slot_va lay k)) % 2 ^ 64) ∧
    (∀ k x y, GuestAccess.copy_to_guest_offset k x ∈
        (subarch_memory_op lay cfg max_page m g MemOp.XENMEM_machphys_mfn_list).accesses →
      GuestAccess.copy_to_guest_offset (k + 1) y ∈
        (subarch_memory_op lay cfg max_page m g MemOp.XENMEM_machphys_mfn_list).accesses →
      machphys_slot_superpage m (machphys_slot_va lay k) →
      machphys_slot_l3e m (machphys_slot_va lay (k + 1))
        = machphys_slot_l3e m (machphys_slot_va lay k) →
      machphys_slot_va lay (k + 1) / 2 ^ 30 = machphys_slot_va lay k / 2 ^ 30 →
      (machphys_slot_l3e m (machphys_slot_va lay k)).pfn + 2 ^ 18 ≤ 2 ^ 64 →
      y = x + 512) := by
  have hv := machphys_mfn_list_values lay cfg max_page m g h1
  constructor
  · intro k x hk hs
    obtain ⟨l, hl⟩ := hv k x hk
    rw [hl]
    exact machphys_slot_mfn_of_superpage m _ l hs
  · intro k x y hk hk1 hs he hg hb
    have hs1 : machphys_slot_superpage m (machphys_slot_va lay (k + 1)) := by
      unfold machphys_slot_superpage at hs ⊢
      rw [he]
      exact hs
    obtain ⟨l, hl⟩ := hv k x hk
    obtain ⟨l1, hl1⟩ := hv (k + 1) y hk1
    rw [hl, hl1, machphys_slot_mfn_of_superpage m _ l hs,
      machphys_slot_mfn_of_superpage m _ l1 hs1, he, l2_table_offset_eq, l2_table_offset_eq]
    generalize (machphys_slot_l3e m (machphys_slot_va lay k)).pfn = B at hb ⊢
    have hsucc : machphys_slot_va lay (k + 1)
        = (machphys_slot_va lay k + 2 ^ 21) % 2 ^ 64 := by
      unfold machphys_slot_va
      omega
    rw [hsucc] at hg ⊢
    generalize machphys_slot_va lay k = v at hg ⊢
    omega

/-- C36, for a window mapped by one superpage on the frames from `0x40000`:
extents 0, 1 and 2 are reported as `0x40000`, `0x40200` and `0x40400`. -/
theorem machphys_mfn_list_superpage_witness :
    written_mfns (subarch_memory_op lay0 cfg0 0x200000 (superpage_mach 0x40000)
      (export_guest 3) MemOp.XENMEM_machphys_mfn_list).accesses
      = [0x40000, 0x40200, 0x40400] ∧
    0x40200 = ((machphys_slot_l3e (superpage_mach 0x40000) (machphys_slot_va lay0 1)).pfn +
      512 * l2_table_offset (machphys_slot_va lay0 1)) % 2 ^ 64 :=
  ⟨by decide,
   (machphys_mfn_list_superpage lay0 cfg0 0x200000 (superpage_mach 0x40000) (export_guest 3)
    (by decide)).1 1 0x40200 (by decide) (by decide)⟩

/-- C35: `handle_memadd_fault` divides the slot difference by 8.  The
addresses `0xf5800000` and `0xf5a00000` of the compat M2P window of the
domain lie in the L2 slots 428 and 429, the first two of the window, and the
entries 0 and 1 of the compat L2 table of Xen differ; for both addresses the
index consulted is 0, and for `0xf5a00000` with the guest entry present
`handle_memadd_fault` returns `EXCRET_fault_fixed` and copies entry 0 (frame
`0xc00`) into slot 429 of the guest, not entry 1 (frame `0xe00`). -/
theorem handle_memadd_fault_index_divided_by_entry_size :
    l2_table_offset 0xf5800000 = 428 ∧
    l2_table_offset 0xf5a00000 = 429 ∧
    fault_domain.COMPAT_L2_PAGETABLE_FIRST_XEN_SLOT = 428 ∧
    memadd_fault_idle_index fault_domain 0xf5800000 = 0 ∧
    memadd_fault_idle_index fault_domain 0xf5a00000 = 0 ∧
    (fault_mach_at 429 { pfn := 0x5555, flags := _PAGE_PRESENT }).compat_idle_pg_table_l2 0
      = { pfn := 0xc00, flags := _PAGE_PSE ||| _PAGE_PRESENT } ∧
    (fault_mach_at 429 { pfn := 0x5555, flags := _PAGE_PRESENT }).compat_idle_pg_table_l2 1
      = { pfn := 0xe00, flags := _PAGE_PSE ||| _PAGE_PRESENT } ∧
    (handle_memadd_fault fault_env fault_domain 0x3000000
      (fault_mach_at 429 { pfn := 0x5555, flags := _PAGE_PRESENT }) 0xf5a00000).ret
      = fault_env.EXCRET_fault_fixed ∧
    memadd_fault_guest_l2e 0x3000000
      (handle_memadd_fault fault_env fault_domain 0x3000000
        (fault_mach_at 429 { pfn := 0x5555, flags := _PAGE_PRESENT }) 0xf5a00000).mach
      0xf5a00000 = { pfn := 0xc00, flags := _PAGE_PSE ||| _PAGE_PRESENT } := by
  refine ⟨?_, ?_, ?_, ?_, ?_, ?_, ?_, ?_, ?_⟩ <;> decide

/-! ## `transfer_pages_to_heap` -/

theorem transfer_loop_keeps (lay : Layout) (cfg : Config) (inuse cur : Nat) :
    ∀ (fuel i : Nat) (c : Nat → Nat) (a : Nat), c a = inuse →
      transfer_pages_to_heap_loop lay cfg inuse cur fuel i c a = inuse := by
  intro fuel
  induction fuel with
  | zero => intro i c a h; exact h
  | succ fuel ih =>
    intro i c a h
    unfold transfer_pages_to_heap_loop
    by_cases hi : i < cur
    · rw [if_pos hi]
      apply ih
      unfold array_set
      by_cases ha : a = mfn_to_page lay cfg i
      · rw [if_pos ha]
      · rw [if_neg ha]; exact h
    · rw [if_neg hi]; exact h

theorem transfer_loop_marks (lay : Layout) (cfg : Config) (inuse cur : Nat)
    (hcur : cur < 2 ^ 64) :
    ∀ (fuel i : Nat) (c : Nat → Nat) (j : Nat), cur - i ≤ fuel → i ≤ j → j < cur →
      transfer_pages_to_heap_loop lay cfg inuse cur fuel i c (mfn_to_page lay cfg j)
        = inuse := by
  intro fuel
  induction fuel with
  | zero => intro i c j hf hij hj; omega
  | succ fuel ih =>
    intro i c j hf hij hj
    unfold transfer_pages_to_heap_loop
    have hi : i < cur := by omega
    rw [if_pos hi]
    have hnext : add64 i 1 = i + 1 := by
      unfold add64; exact Nat.mod_eq_of_lt (by omega)
    rw [hnext]
    rcases Nat.eq_or_lt_of_le hij with h | h
    · subst h
      apply transfer_loop_keeps
      unfold array_set
      rw [if_pos rfl]
    · exact ih (i + 1) _ j (by omega) h hj

theorem transfer_loop_others (lay : Layout) (cfg : Config) (inuse cur : Nat)
    (hcur : cur < 2 ^ 64) :
    ∀ (fuel i : Nat) (c : Nat → Nat) (a : Nat),
      (∀ j, i ≤ j → j < cur → a ≠ mfn_to_page lay cfg j) →
      transfer_pages_to_heap_loop lay cfg inuse cur fuel i c a = c a := by
  intro fuel
  induction fuel with
  | zero => intro i c a _; rfl
  | succ fuel ih =>
    intro i c a h
    unfold transfer_pages_to_heap_loop
    by_cases hi : i < cur
    · rw [if_pos hi]
      have hnext : add64 i 1 = i + 1 := by
        unfold add64; exact Nat.mod_eq_of_lt (by omega)
      rw [hnext, ih (i + 1) _ a (fun j hj1 hj2 => h j (by omega) hj2)]
      unfold array_set
      rw [if_neg (h i (Nat.le_refl _) hi)]
    · rw [if_neg hi]

theorem pfn_to_paddr_eq (pfn : Nat) (h : pfn < 2 ^ 52) : pfn_to_paddr pfn = pfn * 2 ^ 12 := by
  unfold pfn_to_paddr shl64
  rw [Nat.shiftLeft_eq]
  have : PAGE_SHIFT = 12 := rfl
  rw [this]
  omega

/-- C31: with `spfn ≤ cur ≤ epfn` and frame numbers below `2 ^ 52`,
`transfer_pages_to_heap` returns 0, sets `count_info` of the `struct
page_info` of every frame of `[spfn, cur)` to `PGC_state_inuse` and of no
other, and makes one call of `init_domheap_pages`, for the bytes from
`pfn_to_paddr(cur)` to `pfn_to_paddr(epfn)`, which are the frames of
`[cur, epfn)`; a frame of `[spfn, epfn)` is in one of the two sets and not in
both, and a frame of a block that `alloc_hotadd_mfn` returned in calls from
`cur = spfn` with a true `ASSERT` is below the cursor left, so not among those
given to the allocator. -/
theorem transfer_pages_to_heap_partition (lay : Layout) (cfg : Config) (inuse : Nat)
    (info : mem_hotadd_info) (h : HeapState)
    (hs : info.spfn ≤ info.cur) (hc : info.cur ≤ info.epfn) (he : info.epfn < 2 ^ 52) :
    (transfer_pages_to_heap lay cfg inuse info h).1 = 0 ∧
    (∀ i, info.spfn ≤ i → i < info.cur →
      (transfer_pages_to_heap lay cfg inuse info h).2.count_info (mfn_to_page lay cfg i)
        = inuse) ∧
    (∀ a, (∀ i, info.spfn ≤ i → i < info.cur → a ≠ mfn_to_page lay cfg i) →
      (transfer_pages_to_heap lay cfg inuse info h).2.count_info a = h.count_info a) ∧
    (transfer_pages_to_heap lay cfg inuse info h).2.init_domheap_pages
      = h.init_domheap_pages ++ [(pfn_to_paddr info.cur, pfn_to_paddr info.epfn)] ∧
    init_domheap_frames (pfn_to_paddr info.cur) (pfn_to_paddr info.epfn)
      = (info.cur, info.epfn) ∧
    (∀ f, (info.spfn ≤ f ∧ f < info.epfn) ↔
      ((info.spfn ≤ f ∧ f < info.cur) ∨ (info.cur ≤ f ∧ f < info.epfn))) ∧
    (∀ f, ¬ ((info.spfn ≤ f ∧ f < info.cur) ∧ (info.cur ≤ f ∧ f < info.epfn))) ∧
    (∀ n, info = (alloc_hotadd_mfn_calls n { info with cur := info.spfn }).2.1 →
      (alloc_hotadd_mfn_calls n { info with cur := info.spfn }).2.2 = true →
      ∀ mfn ∈ (alloc_hotadd_mfn_calls n { info with cur := info.spfn }).1, ∀ j, j < 512 →
        info.spfn ≤ mfn + j ∧ mfn + j < info.cur) := by
  have hcur : info.cur < 2 ^ 64 := by omega
  refine ⟨rfl, ?_, ?_, rfl, ?_, ?_, ?_, ?_⟩
  · intro i hi1 hi2
    exact transfer_loop_marks lay cfg inuse info.cur hcur _ _ _ i (Nat.le_refl _) hi1 hi2
  · intro a ha
    exact transfer_loop_others lay cfg inuse info.cur hcur _ _ _ a ha
  · unfold init_domheap_frames
    rw [pfn_to_paddr_eq _ (by omega), pfn_to_paddr_eq _ he]
    congr 1 <;> omega
  · intro f
    omega
  · intro f
    omega
  · intro n hinfo hok mfn hm j hj
    obtain ⟨h1, h2, h3⟩ := alloc_hotadd_mfn_calls_spec n { info with cur := info.spfn }
      (by show info.spfn + 512 < 2 ^ 64; omega) (by show info.epfn + 512 ≤ 2 ^ 64; omega) hok
    rw [h2] at hm
    rw [List.mem_map] at hm
    obtain ⟨k, hk, rfl⟩ := hm
    rw [List.mem_range] at hk
    have hcur2 : info.cur = info.spfn + 512 * n := by
      have := congrArg mem_hotadd_info.cur hinfo
      rw [h1] at this
      exact this
    show info.spfn ≤ info.spfn + 512 * k + j ∧ info.spfn + 512 * k + j < info.cur
    omega

/-- C31, for the staging record of `[0x100000, 0x130000)` after three calls
of `alloc_hotadd_mfn`: frame `0x1005ff`, the last of the third block, is
marked in use and the allocator gets the frames from `0x100600`. -/
theorem transfer_pages_to_heap_partition_witness :
    (transfer_pages_to_heap lay0 cfg0 1
      { spfn := 0x100000, epfn := 0x130000, cur := 0x100600 }
      { count_info := fun _ => 0, init_domheap_pages := [] }).2.count_info
        (mfn_to_page lay0 cfg0 0x1005ff) = 1 ∧
    init_domheap_frames (pfn_to_paddr 0x100600) (pfn_to_paddr 0x130000)
      = (0x100600, 0x130000) :=
  have h := transfer_pages_to_heap_partition lay0 cfg0 1
    { spfn := 0x100000, epfn := 0x130000, cur := 0x100600 }
    { count_info := fun _ => 0, init_domheap_pages := [] } (by decide) (by decide) (by decide)
  ⟨h.2.1 0x1005ff (by decide) (by decide), h.2.2.2.2.1⟩

theorem ROUNDUP_2M (x : Nat) (hx : x + 2 ^ 21 < 2 ^ 64) :
    ROUNDUP x (MB 2) = (x + (2 ^ 21 - 1)) / 2 ^ 21 * 2 ^ 21 := by
  unfold ROUNDUP
  have hmb : MB 2 = 2 ^ 21 := by decide
  rw [hmb]
  have h1 : sub64 (add64 x (2 ^ 21)) 1 = x + (2 ^ 21 - 1) := by
    unfold add64
    rw [Nat.mod_eq_of_lt hx, sub64_of_le _ _ hx (by omega)]
    omega
  rw [h1]
  exact and_not_low_mask _ 21 (by omega) (by decide)

/-- C38: `place_modules` on a kernel inside the first bank, without
arithmetic overflow.  When it does not end in `panic`, the region of
`dtb_len + initrd_len` bytes from `dtb_paddr` lies in `[rambase, ramend]` and
below `kernbase` or from `kernend` on; `initrd_paddr` is `dtb_paddr +
dtb_len`; both lengths are multiples of 2 MiB; and `dtb_paddr` is `rambase +
128 MiB` when `ramend ≥ rambase + 128 MiB + modsize` and `kernend < rambase +
128 MiB`. -/
theorem place_modules_region (initrd_size : Option Nat) (fdt_totalsize : Nat)
    (bank0 : membank) (kernbase kernend dtb_paddr initrd_paddr : Nat)
    (hram : bank0.start + bank0.size < 2 ^ 63)
    (hinitrd : (match initrd_size with | some s => s | none => 0) < 2 ^ 61)
    (hfdt : fdt_totalsize < 2 ^ 61)
    (hk1 : bank0.start ≤ kernbase) (hk2 : kernbase ≤ kernend)
    (hk3 : kernend ≤ bank0.start + bank0.size)
    (hres : place_modules initrd_size fdt_totalsize bank0 kernbase kernend
      = some (dtb_paddr, initrd_paddr)) :
    bank0.start ≤ dtb_paddr ∧
    dtb_paddr + ROUNDUP fdt_totalsize (MB 2) +
        ROUNDUP (match initrd_size with | some s => s | none => 0) (MB 2)
      ≤ bank0.start + bank0.size ∧
    (dtb_paddr + ROUNDUP fdt_totalsize (MB 2) +
        ROUNDUP (match initrd_size with | some s => s | none => 0) (MB 2) ≤ kernbase ∨
      kernend ≤ dtb_paddr) ∧
    initrd_paddr = dtb_paddr + ROUNDUP fdt_totalsize (MB 2) ∧
    ROUNDUP fdt_totalsize (MB 2) % 2 ^ 21 = 0 ∧
    ROUNDUP (match initrd_size with | some s => s | none => 0) (MB 2) % 2 ^ 21 = 0 ∧
    (bank0.start + bank0.size ≥ bank0.start + MB 128 + (ROUNDUP fdt_totalsize (MB 2) +
        ROUNDUP (match initrd_size with | some s => s | none => 0) (MB 2)) →
      kernend < bank0.start + MB 128 → dtb_paddr = bank0.start + MB 128) := by
  unfold place_modules at hres
  simp only [] at hres
  generalize (match initrd_size with | some s => s | none => 0) = isz at hinitrd hres ⊢
  have hI := ROUNDUP_2M isz (by omega)
  have hD := ROUNDUP_2M fdt_totalsize (by omega)
  have hK := ROUNDUP_2M kernend (by omega)
  have hmb : MB 128 = 2 ^ 27 := by decide
  rw [hI, hD, hK, hmb] at hres
  rw [hI, hD, hmb]
  generalize hIv : (isz + (2 ^ 21 - 1)) / 2 ^ 21 * 2 ^ 21 = I at hres ⊢
  generalize hDv : (fdt_totalsize + (2 ^ 21 - 1)) / 2 ^ 21 * 2 ^ 21 = D at hres ⊢
  generalize hKv : (kernend + (2 ^ 21 - 1)) / 2 ^ 21 * 2 ^ 21 = K at hres ⊢
  have hIb : I < 2 ^ 61 + 2 ^ 21 := by omega
  have hDb : D < 2 ^ 61 + 2 ^ 21 := by omega
  have hKb : K < 2 ^ 63 + 2 ^ 21 := by omega
  have hKk : kernend ≤ K := by omega
  have hIm : I % 2 ^ 21 = 0 := by omega
  have hDm : D % 2 ^ 21 = 0 := by omega
  have e1 : add64 I D = I + D := by unfold add64; exact Nat.mod_eq_of_lt (by omega)
  have e2 : add64 bank0.start bank0.size = bank0.start + bank0.size := by
    unfold add64; exact Nat.mod_eq_of_lt (by omega)
  have e3 : sub64 K kernbase = K - kernbase := sub64_of_le _ _ (by omega) (by omega)
  have e4 : add64 bank0.start (2 ^ 27) = bank0.start + 2 ^ 27 := by
    unfold add64; exact Nat.mod_eq_of_lt (by omega)
  have e5 : add64 (bank0.start + 2 ^ 27) (I + D) = bank0.start + 2 ^ 27 + (I + D) := by
    unfold add64; exact Nat.mod_eq_of_lt (by omega)
  have e6 : add64 (I + D) (K - kernbase) = I + D + (K - kernbase) := by
    unfold add64; exact Nat.mod_eq_of_lt (by omega)
  rw [e1, e2, e3, e4, e5, e6] at hres
  by_cases c0 : I + D + (K - kernbase) > bank0.size
  · rw [if_pos c0] at hres
    cases hres
  · rw [if_neg c0] at hres
    have e7 : sub64 (bank0.start + bank0.size) (I + D) = bank0.start + bank0.size - (I + D) :=
      sub64_of_le _ _ (by omega) (by omega)
    rw [e7] at hres
    by_cases c1 : bank0.start + bank0.size ≥ bank0.start + 2 ^ 27 + (I + D) ∧
        kernend < bank0.start + 2 ^ 27
    · rw [if_pos c1] at hres
      have e8 : add64 (bank0.start + 2 ^ 27) D = bank0.start + 2 ^ 27 + D := by
        unfold add64; exact Nat.mod_eq_of_lt (by omega)
      rw [e8] at hres
      injection hres with hres
      injection hres with h1 h2
      subst h1 h2
      refine ⟨?_, ?_, ?_, rfl, hDm, hIm, ?_⟩
      · omega
      · omega
      · right; omega
      · intro _ _; rfl
    · rw [if_neg c1] at hres
      by_cases c2 : bank0.start + bank0.size - (I + D) > K
      · rw [if_pos c2] at hres
        have e8 : add64 (bank0.start + bank0.size - (I + D)) D
            = bank0.start + bank0.size - (I + D) + D := by
          unfold add64; exact Nat.mod_eq_of_lt (by omega)
        rw [e8] at hres
        injection hres with hres
        injection hres with h1 h2
        subst h1 h2
        refine ⟨?_, ?_, ?_, rfl, hDm, hIm, ?_⟩
        · omega
        · omega
        · right; omega
        · intro a b
          exact absurd ⟨by omega, b⟩ c1
      · rw [if_neg c2] at hres
        have e9 : sub64 kernbase bank0.start = kernbase - bank0.start :=
          sub64_of_le _ _ (by omega) hk1
        rw [e9] at hres
        by_cases c3 : kernbase - bank0.start > I + D
        · rw [if_pos c3] at hres
          have e10 : sub64 kernbase (I + D) = kernbase - (I + D) :=
            sub64_of_le _ _ (by omega) (by omega)
          have e11 : add64 (kernbase - (I + D)) D = kernbase - (I + D) + D := by
            unfold add64; exact Nat.mod_eq_of_lt (by omega)
          rw [e10, e11] at hres
          injection hres with hres
          injection hres with h1 h2
          subst h1 h2
          refine ⟨?_, ?_, ?_, rfl, hDm, hIm, ?_⟩
          · omega
          · omega
          · left; omega
          · intro a b
            exact absurd ⟨by omega, b⟩ c1
        · rw [if_neg c3] at hres
          cases hres

/-- C38, for a bank of 256 MiB at `0x40000000`, a kernel of 16 MiB placed at
`0x40200000`, a device tree of `0x5000` bytes and an initrd of 3 MiB: the
device tree goes to `rambase + 128 MiB` and the initrd 2 MiB above it. -/
theorem place_modules_region_witness :
    place_modules (some 0x300000) 0x5000 { start := 0x40000000, size := 0x10000000 }
      0x40200000 0x41200000 = some (0x48000000, 0x48200000) ∧
    (0x40000000 : Nat) ≤ 0x48000000 ∧
    (0x48000000 + ROUNDUP 0x5000 (MB 2) + ROUNDUP 0x300000 (MB 2) ≤ 0x40200000 ∨
      0x41200000 ≤ 0x48000000) :=
  have h := place_modules_region (some 0x300000) 0x5000
    { start := 0x40000000, size := 0x10000000 } 0x40200000 0x41200000 0x48000000 0x48200000
    (by decide) (by decide) (by decide) (by decide) (by decide) (by decide) (by decide)
  ⟨by decide, h.1, h.2.2.1⟩

/-- C39: `kernel_zimage32_probe` on a boot module of `0x10000` bytes at the
address `0x1000` whose zImage header has `start = 0` and `end = 0x100` and
which holds at offset `0x100` the header of a device tree with `total_size =
0x10f00`.  The two checks of the appended tree compare `addr + end - start +
8` with `size` and `end` with `addr + size`; the probe returns 0 and records
`len = 0x11000`, more than `size`, and `kernel_zimage_load` reads the bytes up
to `0x12000`, beyond the end `0x11000` of the module. -/
theorem kernel_zimage32_probe_accepts_oversized_image :
    read_le32 zimage_mem (0x1000 + ZIMAGE32_MAGIC_OFFSET) = ZIMAGE32_MAGIC ∧
    read_le32 zimage_mem (0x1000 + ZIMAGE32_START_OFFSET) = 0 ∧
    read_le32 zimage_mem (0x1000 + ZIMAGE32_END_OFFSET) = 0x100 ∧
    read_be32 zimage_mem 0x1100 = DTB_MAGIC ∧
    read_be32 zimage_mem 0x1104 = 0x10f00 ∧
    kernel_zimage32_probe zimage_mem 0x1000 0x10000
      = (0, some { kernel_addr := 0x1000, start := 0, len := 0x11000 }) ∧
    (0x10000 : Nat) < 0x11000 ∧
    kernel_zimage_load_source { kernel_addr := 0x1000, start := 0, len := 0x11000 }
      = (0x1000, 0x12000) ∧
    (0x1000 + 0x10000 : Nat) < 0x12000 := by
  refine ⟨?_, ?_, ?_, ?_, ?_, ?_, ?_, ?_, ?_⟩ <;> decide

/-- What `find_next_from` returns with enough fuel: the least index from `i`
below `size` whose bit is `want`, or `size`. -/
theorem find_next_from_spec (bm : Bitmap) (size : Nat) (want : Bool) :
    ∀ (fuel i : Nat), size - i ≤ fuel → i ≤ size →
      i ≤ find_next_from bm size want fuel i ∧
      find_next_from bm size want fuel i ≤ size ∧
      (∀ g, i ≤ g → g < find_next_from bm size want fuel i → bm g = !want) ∧
      (find_next_from bm size want fuel i < size →
        bm (find_next_from bm size want fuel i) = want) := by
  intro fuel
  induction fuel with
  | zero =>
    intro i hf hi
    unfold find_next_from
    refine ⟨hi, Nat.le_refl _, ?_, ?_⟩
    · intro g h1 h2; omega
    · intro h; omega
  | succ fuel ih =>
    intro i hf hi
    unfold find_next_from
    by_cases h1 : size ≤ i
    · rw [if_pos h1]
      refine ⟨hi, Nat.le_refl _, ?_, ?_⟩
      · intro g h1 h2; omega
      · intro h; omega
    · rw [if_neg h1]
      by_cases h2 : bm i = want
      · rw [if_pos h2]
        refine ⟨Nat.le_refl _, by omega, ?_, fun _ => h2⟩
        intro g h1 h2; omega
      · rw [if_neg h2]
        obtain ⟨a, b, c, d⟩ := ih (i + 1) (by omega) (by omega)
        refine ⟨by omega, b, ?_, d⟩
        intro g hg1 hg2
        rcases Nat.eq_or_lt_of_le hg1 with h | h
        · subst h
          cases hb : bm i <;> cases want <;> simp_all
        · exact c g h hg2

theorem find_next_bit_spec (bm : Bitmap) (size i : Nat) (hi : i ≤ size) :
    i ≤ find_next_bit bm size i ∧ find_next_bit bm size i ≤ size ∧
    (∀ g, i ≤ g → g < find_next_bit bm size i → bm g = false) ∧
    (find_next_bit bm size i < size → bm (find_next_bit bm size i) = true) :=
  find_next_from_spec bm size true (size - i) i (Nat.le_refl _) hi

theorem find_next_zero_bit_spec (bm : Bitmap) (size i : Nat) (hi : i ≤ size) :
    i ≤ find_next_zero_bit bm size i ∧ find_next_zero_bit bm size i ≤ size ∧
    (∀ g, i ≤ g → g < find_next_zero_bit bm size i → bm g = true) ∧
    (find_next_zero_bit bm size i < size → bm (find_next_zero_bit bm size i) = false) :=
  find_next_from_spec bm size false (size - i) i (Nat.le_refl _) hi

/-- The chunks of the loop of `extend_frame_table` from a group `cidx` whose
bit is clear are the maximal runs of clear groups from `cidx` on. -/
theorem extend_frame_table_chunks_spec (bm : Bitmap) (eidx : Nat) :
    ∀ (fuel cidx : Nat), eidx - cidx < fuel → (cidx < eidx → bm cidx = false) →
      ∀ c n, (c, n) ∈ extend_frame_table_chunks bm eidx fuel cidx ↔
        (cidx ≤ c ∧ c < n ∧ n ≤ eidx ∧ (∀ g, c ≤ g → g < n → bm g = false) ∧
          (c = cidx ∨ bm (c - 1) = true) ∧ (n = eidx ∨ bm n = true)) := by
  intro fuel
  induction fuel with
  | zero => intro cidx hf; omega
  | succ fuel ih =>
    intro cidx hf hclear c n
    unfold extend_frame_table_chunks
    by_cases h : cidx < eidx
    · rw [if_pos h]
      simp only []
      obtain ⟨a1, a2, a3, a4⟩ := find_next_bit_spec bm eidx cidx (Nat.le_of_lt h)
      have hn : (if find_next_bit bm eidx cidx ≥ eidx then eidx else find_next_bit bm eidx cidx)
          = find_next_bit bm eidx cidx := by
        by_cases hc : find_next_bit bm eidx cidx ≥ eidx
        · rw [if_pos hc]; omega
        · rw [if_neg hc]
      rw [hn]
      generalize find_next_bit bm eidx cidx = nidx at a1 a2 a3 a4
      have hlt : cidx < nidx := by
        rcases Nat.eq_or_lt_of_le a1 with he | he
        · subst he
          have := a4 h
          rw [hclear h] at this
          cases this
        · exact he
      obtain ⟨b1, b2, b3, b4⟩ := find_next_zero_bit_spec bm eidx nidx a2
      generalize find_next_zero_bit bm eidx nidx = cnext at b1 b2 b3 b4
      have hgt : cnext < eidx → nidx < cnext := by
        intro hce
        rcases Nat.eq_or_lt_of_le b1 with he | he
        · subst he
          have h1 := a4 hce
          rw [b4 hce] at h1
          cases h1
        · exact he
      have hrec := ih cnext (by omega) b4 c n
      rw [List.mem_cons, hrec]
      constructor
      · rintro (hhead | ⟨r1, r2, r3, r4, r5, r6⟩)
        · injection hhead with e1 e2
          subst e1 e2
          refine ⟨Nat.le_refl _, hlt, a2, a3, Or.inl rfl, ?_⟩
          rcases Nat.eq_or_lt_of_le a2 with he | he
          · exact Or.inl he
          · exact Or.inr (a4 he)
        · refine ⟨by omega, r2, r3, r4, ?_, r6⟩
          rcases r5 with r5 | r5
          · right
            subst r5
            have hce : c < eidx := by omega
            exact b3 (c - 1) (by have := hgt hce; omega) (by have := hgt hce; omega)
          · exact Or.inr r5
      · rintro ⟨r1, r2, r3, r4, r5, r6⟩
        by_cases hcc : c = cidx
        · left
          subst hcc
          have hnn : n = nidx := by
            rcases Nat.lt_trichotomy n nidx with h1 | h1 | h1
            · exfalso
              rcases r6 with r6 | r6
              · omega
              · have := a3 n (by omega) h1
                rw [r6] at this
                cases this
            · exact h1
            · exfalso
              have h2 : nidx < eidx := by omega
              have := r4 nidx (by omega) h1
              rw [a4 h2] at this
              cases this
          rw [hnn]
        · right
          have hprev : bm (c - 1) = true := by
            rcases r5 with r5 | r5
            · exact absurd r5 hcc
            · exact r5
          have hc1 : nidx ≤ c - 1 := by
            by_contra hcon
            have := a3 (c - 1) (by omega) (by omega)
            rw [hprev] at this
            cases this
          have hc2 : cnext ≤ c := by
            by_contra hcon
            have := b3 c (by omega) (by omega)
            rw [r4 c (Nat.le_refl _) r2] at this
            cases this
          exact ⟨hc2, r2, r3, r4, Or.inr hprev, r6⟩
    · rw [if_neg h]
      constructor
      · intro hm; cases hm
      · rintro ⟨r1, r2, r3, _⟩
        omega

/-- The chunks of `extend_frame_table` are the maximal runs of clear groups
of `[cidx, eidx)`. -/
theorem extend_frame_table_chunks_maximal (bm : Bitmap) (cidx eidx : Nat) (h : cidx ≤ eidx)
    (c n : Nat) :
    (c, n) ∈ extend_frame_table_chunks bm eidx
        (eidx - extend_frame_table_start bm cidx eidx + 1)
        (extend_frame_table_start bm cidx eidx) ↔
      maximal_clear_run bm cidx eidx c n := by
  unfold maximal_clear_run
  by_cases ht : test_bit cidx bm = true
  · have hs : extend_frame_table_start bm cidx eidx = find_next_zero_bit bm eidx cidx := by
      unfold extend_frame_table_start
      rw [if_pos ht]
    rw [hs]
    obtain ⟨b1, b2, b3, b4⟩ := find_next_zero_bit_spec bm eidx cidx h
    generalize find_next_zero_bit bm eidx cidx = start at b1 b2 b3 b4
    have hbit : bm cidx = true := ht
    rw [extend_frame_table_chunks_spec bm eidx _ start (by omega) b4 c n]
    constructor
    · rintro ⟨r1, r2, r3, r4, r5, r6⟩
      refine ⟨by omega, r2, r3, r4, ?_, r6⟩
      rcases r5 with r5 | r5
      · right
        subst r5
        have hne : c ≠ cidx := by
          intro he
          subst he
          have := r4 c (Nat.le_refl _) r2
          rw [hbit] at this
          cases this
        exact b3 (c - 1) (by omega) (by omega)
      · exact Or.inr r5
    · rintro ⟨r1, r2, r3, r4, r5, r6⟩
      have hcs : start ≤ c := by
        by_contra hcon
        have := b3 c r1 (by omega)
        rw [r4 c (Nat.le_refl _) r2] at this
        cases this
      refine ⟨hcs, r2, r3, r4, ?_, r6⟩
      rcases r5 with r5 | r5
      · exfalso
        subst r5
        have := r4 c (Nat.le_refl _) r2
        rw [hbit] at this
        cases this
      · exact Or.inr r5
  · have hs : extend_frame_table_start bm cidx eidx = cidx := by
      unfold extend_frame_table_start
      rw [if_neg ht]
    rw [hs]
    have hbit : bm cidx = false := by
      unfold test_bit at ht
      cases hb : bm cidx
      · rfl
      · exact absurd hb ht
    exact extend_frame_table_chunks_spec bm eidx _ cidx (by omega) (fun _ => hbit) c n

theorem frametable_chunk_calls_append (a b : List PtEvent) :
    frametable_chunk_calls (a ++ b) = frametable_chunk_calls a ++ frametable_chunk_calls b := by
  unfold frametable_chunk_calls
  exact List.filterMap_append _ _ _

theorem setup_frametable_chunk_loop_calls (cfg : Config) (env : MmEnv) (e : Nat) :
    ∀ (fuel s : Nat) (r : HotaddRun),
      frametable_chunk_calls (setup_frametable_chunk_loop cfg env e fuel s r).2.trace
        = frametable_chunk_calls r.trace := by
  intro fuel
  induction fuel with
  | zero => intro s r; rfl
  | succ fuel ih =>
    intro s r
    unfold setup_frametable_chunk_loop
    by_cases h : s < e
    · rw [if_pos h]
      simp only []
      by_cases h2 : (env.map_pages_to_xen r.mach s (alloc_hotadd_mfn r.info).1
          (shl64 1 PAGETABLE_ORDER) cfg.PAGE_HYPERVISOR).1 ≠ 0
      · rw [if_pos h2]
        simp only []
        rw [frametable_chunk_calls_append]
        simp [frametable_chunk_calls]
      · rw [if_neg h2, ih, frametable_chunk_calls_append]
        simp [frametable_chunk_calls]
    · rw [if_neg h]

theorem setup_frametable_chunk_calls (cfg : Config) (env : MmEnv) (s e : Nat) (r : HotaddRun) :
    frametable_chunk_calls (setup_frametable_chunk cfg env s e r).trace
      = frametable_chunk_calls r.trace ++ [(s, e)] := by
  unfold setup_frametable_chunk
  simp only []
  split_ifs
  · rw [setup_frametable_chunk_loop_calls, frametable_chunk_calls_append]
    simp [frametable_chunk_calls]
  · simp only []
    rw [frametable_chunk_calls_append, setup_frametable_chunk_loop_calls,
      frametable_chunk_calls_append]
    simp [frametable_chunk_calls]

/-- When the loop of `extend_frame_table` returns 0 its calls of
`setup_frametable_chunk` are those of `extend_frame_table_chunks`. -/
theorem extend_frame_table_loop_calls (lay : Layout) (cfg : Config) (env : MmEnv)
    (st : State Mach) (eidx : Nat) :
    ∀ (fuel cidx : Nat) (r : HotaddRun),
      (extend_frame_table_loop lay cfg env st eidx fuel cidx r).ret = 0 →
      frametable_chunk_calls (extend_frame_table_loop lay cfg env st eidx fuel cidx r).trace
        = frametable_chunk_calls r.trace ++
          (extend_frame_table_chunks st.pdx_group_valid eidx fuel cidx).map (fun p =>
            (pdx_to_page lay cfg (mul64 p.1 cfg.PDX_GROUP_COUNT),
             pdx_to_page lay cfg (mul64 p.2 cfg.PDX_GROUP_COUNT))) := by
  intro fuel
  induction fuel with
  | zero =>
    intro cidx r _
    simp [extend_frame_table_loop, extend_frame_table_chunks]
  | succ fuel ih =>
    intro cidx r
    unfold extend_frame_table_loop extend_frame_table_chunks
    by_cases h : cidx < eidx
    · rw [if_pos h, if_pos h]
      simp only []
      generalize (if find_next_bit st.pdx_group_valid eidx cidx ≥ eidx then eidx
        else find_next_bit st.pdx_group_valid eidx cidx) = nidx
      by_cases h2 : (setup_frametable_chunk cfg env
          (pdx_to_page lay cfg (mul64 cidx cfg.PDX_GROUP_COUNT))
          (pdx_to_page lay cfg (mul64 nidx cfg.PDX_GROUP_COUNT)) r).ret ≠ 0
      · rw [if_pos h2]
        intro h3
        exact absurd h3 h2
      · rw [if_neg h2]
        intro h3
        rw [ih _ _ h3, setup_frametable_chunk_calls, List.map_cons, List.append_assoc]
        rfl
    · rw [if_neg h, if_neg h]
      intro _
      simp

/-- The chunks of the loop of `extend_frame_table` are in increasing order
and apart: a chunk ends below the start of the next. -/
theorem extend_frame_table_chunks_sorted (bm : Bitmap) (eidx : Nat) :
    ∀ (fuel cidx : Nat), eidx - cidx < fuel → (cidx < eidx → bm cidx = false) →
      (extend_frame_table_chunks bm eidx fuel cidx).Pairwise (fun p q => p.2 < q.1) := by
  intro fuel
  induction fuel with
  | zero => intro cidx hf; omega
  | succ fuel ih =>
    intro cidx hf hclear
    unfold extend_frame_table_chunks
    by_cases h : cidx < eidx
    · rw [if_pos h]
      simp only []
      obtain ⟨a1, a2, a3, a4⟩ := find_next_bit_spec bm eidx cidx (Nat.le_of_lt h)
      have hn : (if find_next_bit bm eidx cidx ≥ eidx then eidx else find_next_bit bm eidx cidx)
          = find_next_bit bm eidx cidx := by
        by_cases hc : find_next_bit bm eidx cidx ≥ eidx
        · rw [if_pos hc]; omega
        · rw [if_neg hc]
      rw [hn]
      generalize find_next_bit bm eidx cidx = nidx at a1 a2 a3 a4
      have hlt : cidx < nidx := by
        rcases Nat.eq_or_lt_of_le a1 with he | he
        · subst he
          have := a4 h
          rw [hclear h] at this
          cases this
        · exact he
      obtain ⟨b1, b2, b3, b4⟩ := find_next_zero_bit_spec bm eidx nidx a2
      generalize hcn : find_next_zero_bit bm eidx nidx = cnext at b1 b2 b3 b4
      have hgt : cnext < eidx → nidx < cnext := by
        intro hce
        rcases Nat.eq_or_lt_of_le b1 with he | he
        · subst he
          have h1 := a4 hce
          rw [b4 hce] at h1
          cases h1
        · exact he
      rw [List.pairwise_cons]
      refine ⟨?_, ih cnext (by omega) b4⟩
      intro q hq
      obtain ⟨q1, q2⟩ := q
      have := (extend_frame_table_chunks_spec bm eidx fuel cnext (by omega) b4 q1 q2).1 hq
      show nidx < q1
      have h5 := hgt (by omega)
      omega
    · rw [if_neg h]
      exact List.Pairwise.nil

theorem extend_frame_table_start_spec (bm : Bitmap) (cidx eidx : Nat) (h : cidx ≤ eidx) :
    cidx ≤ extend_frame_table_start bm cidx eidx ∧
    (extend_frame_table_start bm cidx eidx < eidx →
      bm (extend_frame_table_start bm cidx eidx) = false) ∧
    (extend_frame_table_start bm cidx eidx ≥ eidx ↔ ∀ g, cidx ≤ g → g < eidx → bm g = true) := by
  unfold extend_frame_table_start
  by_cases ht : test_bit cidx bm = true
  · rw [if_pos ht]
    obtain ⟨b1, b2, b3, b4⟩ := find_next_zero_bit_spec bm eidx cidx h
    generalize find_next_zero_bit bm eidx cidx = start at b1 b2 b3 b4
    refine ⟨b1, b4, ?_⟩
    constructor
    · intro hge g h1 h2
      exact b3 g h1 (by omega)
    · intro hall
      by_contra hcon
      have h1 := b4 (by omega)
      rw [hall start b1 (by omega)] at h1
      cases h1
  · rw [if_neg ht]
    have hbit : bm cidx = false := by
      unfold test_bit at ht
      cases hb : bm cidx
      · rfl
      · exact absurd hb ht
    refine ⟨Nat.le_refl _, fun _ => hbit, ?_⟩
    constructor
    · intro hge g h1 h2
      omega
    · intro hall
      by_contra hcon
      have h1 := hall cidx (Nat.le_refl _) (by omega)
      rw [hbit] at h1
      cases h1

theorem extend_frame_table_unfold (lay : Layout) (cfg : Config) (env : MmEnv) (st : State Mach)
    (info : mem_hotadd_info) (eidx : Nat)
    (he : sub64 (add64 (cfg.pfn_to_pdx info.epfn) cfg.PDX_GROUP_COUNT) 1 / cfg.PDX_GROUP_COUNT
      = eidx) :
    extend_frame_table lay cfg env st info =
      if extend_frame_table_start st.pdx_group_valid
          (cfg.pfn_to_pdx info.spfn / cfg.PDX_GROUP_COUNT) eidx ≥ eidx then
        { ret := 0, info := info, mach := st.mach,
          asserts := decide (cfg.pfn_to_pdx info.epfn ≤ env.directmap_frames) &&
            decide (cfg.pfn_to_pdx info.epfn ≤ cfg.FRAMETABLE_NR),
          trace := [] }
      else if (extend_frame_table_loop lay cfg env st eidx
          (eidx - extend_frame_table_start st.pdx_group_valid
            (cfg.pfn_to_pdx info.spfn / cfg.PDX_GROUP_COUNT) eidx + 1)
          (extend_frame_table_start st.pdx_group_valid
            (cfg.pfn_to_pdx info.spfn / cfg.PDX_GROUP_COUNT) eidx)
          { ret := 0, info := info, mach := st.mach,
            asserts := decide (cfg.pfn_to_pdx info.epfn ≤ env.directmap_frames) &&
              decide (cfg.pfn_to_pdx info.epfn ≤ cfg.FRAMETABLE_NR),
            trace := [] }).ret ≠ 0 then
        extend_frame_table_loop lay cfg env st eidx
          (eidx - extend_frame_table_start st.pdx_group_valid
            (cfg.pfn_to_pdx info.spfn / cfg.PDX_GROUP_COUNT) eidx + 1)
          (extend_frame_table_start st.pdx_group_valid
            (cfg.pfn_to_pdx info.spfn / cfg.PDX_GROUP_COUNT) eidx)
          { ret := 0, info := info, mach := st.mach,
            asserts := decide (cfg.pfn_to_pdx info.epfn ≤ env.directmap_frames) &&
              decide (cfg.pfn_to_pdx info.epfn ≤ cfg.FRAMETABLE_NR),
            trace := [] }
      else
        { extend_frame_table_loop lay cfg env st eidx
            (eidx - extend_frame_table_start st.pdx_group_valid
              (cfg.pfn_to_pdx info.spfn / cfg.PDX_GROUP_COUNT) eidx + 1)
            (extend_frame_table_start st.pdx_group_valid
              (cfg.pfn_to_pdx info.spfn / cfg.PDX_GROUP_COUNT) eidx)
            { ret := 0, info := info, mach := st.mach,
              asserts := decide (cfg.pfn_to_pdx info.epfn ≤ env.directmap_frames) &&
                decide (cfg.pfn_to_pdx info.epfn ≤ cfg.FRAMETABLE_NR),
              trace := [] } with
          ret := 0,
          trace := (extend_frame_table_loop lay cfg env st eidx
            (eidx - extend_frame_table_start st.pdx_group_valid
              (cfg.pfn_to_pdx info.spfn / cfg.PDX_GROUP_COUNT) eidx + 1)
            (extend_frame_table_start st.pdx_group_valid
              (cfg.pfn_to_pdx info.spfn / cfg.PDX_GROUP_COUNT) eidx)
            { ret := 0, info := info, mach := st.mach,
              asserts := decide (cfg.pfn_to_pdx info.epfn ≤ env.directmap_frames) &&
                decide (cfg.pfn_to_pdx info.epfn ≤ cfg.FRAMETABLE_NR),
              trace := [] }).trace ++
            [PtEvent.memset (mfn_to_page lay cfg info.spfn) 0
              (sub64 (mfn_to_page lay cfg info.epfn) (mfn_to_page lay cfg info.spfn))] } := by
  subst he
  rfl

/-- C34, where the claim fails: on the machine with 4 GiB of memory the
groups of `[0x80000, 0x90000)` are valid already (`cidx = 8`, `eidx = 9`), and
`extend_frame_table` returns 0 at `if ( cidx >= eidx )` without a call of
`setup_frametable_chunk` and without the `memset` that clears the entries of
the range. -/
theorem extend_frame_table_valid_groups_not_zeroed :
    cfg0.pfn_to_pdx 0x80000 / cfg0.PDX_GROUP_COUNT = 8 ∧
    sub64 (add64 (cfg0.pfn_to_pdx 0x90000) cfg0.PDX_GROUP_COUNT) 1 / cfg0.PDX_GROUP_COUNT = 9 ∧
    st_4G_mach.pdx_group_valid 8 = true ∧
    (extend_frame_table lay0 cfg0 env0 st_4G_mach
      { spfn := 0x80000, epfn := 0x90000, cur := 0x80000 }).ret = 0 ∧
    (extend_frame_table lay0 cfg0 env0 st_4G_mach
      { spfn := 0x80000, epfn := 0x90000, cur := 0x80000 }).trace = [] := by
  refine ⟨?_, ?_, ?_, ?_, ?_⟩ <;> decide

/-- C34, amended: when `extend_frame_table` returns 0, its calls of
`setup_frametable_chunk` are, in increasing order, for the maximal runs of
groups of `[cidx0, eidx)` whose bit of `pdx_group_valid` is clear, with
`cidx0 = pfn_to_pdx(spfn) / PDX_GROUP_COUNT` and `eidx` the quotient of
`pfn_to_pdx(epfn)` by `PDX_GROUP_COUNT` rounded up.  When a group of
`[cidx0, eidx)` is clear, the last thing done is the `memset` with 0 of the
frame-table entries from `mfn_to_page(spfn)` to `mfn_to_page(epfn)`; when
every group is valid already, nothing is written. -/
theorem extend_frame_table_backs_clear_runs (lay : Layout) (cfg : Config) (env : MmEnv)
    (st : State Mach) (info : mem_hotadd_info)
    (hG : 0 < cfg.PDX_GROUP_COUNT)
    (hle : cfg.pfn_to_pdx info.spfn ≤ cfg.pfn_to_pdx info.epfn)
    (hno : cfg.pfn_to_pdx info.epfn + cfg.PDX_GROUP_COUNT < 2 ^ 64)
    (hret : (extend_frame_table lay cfg env st info).ret = 0) :
    frametable_chunk_calls (extend_frame_table lay cfg env st info).trace
      = (extend_frame_table_chunks st.pdx_group_valid
          ((cfg.pfn_to_pdx info.epfn + cfg.PDX_GROUP_COUNT - 1) / cfg.PDX_GROUP_COUNT)
          ((cfg.pfn_to_pdx info.epfn + cfg.PDX_GROUP_COUNT - 1) / cfg.PDX_GROUP_COUNT -
            extend_frame_table_start st.pdx_group_valid
              (cfg.pfn_to_pdx info.spfn / cfg.PDX_GROUP_COUNT)
              ((cfg.pfn_to_pdx info.epfn + cfg.PDX_GROUP_COUNT - 1) / cfg.PDX_GROUP_COUNT) + 1)
          (extend_frame_table_start st.pdx_group_valid
            (cfg.pfn_to_pdx info.spfn / cfg.PDX_GROUP_COUNT)
            ((cfg.pfn_to_pdx info.epfn + cfg.PDX_GROUP_COUNT - 1) / cfg.PDX_GROUP_COUNT))).map
        (fun p => (pdx_to_page lay cfg (mul64 p.1 cfg.PDX_GROUP_COUNT),
          pdx_to_page lay cfg (mul64 p.2 cfg.PDX_GROUP_COUNT))) ∧
    (∀ c n, (c, n) ∈ extend_frame_table_chunks st.pdx_group_valid
          ((cfg.pfn_to_pdx info.epfn + cfg.PDX_GROUP_COUNT - 1) / cfg.PDX_GROUP_COUNT)
          ((cfg.pfn_to_pdx info.epfn + cfg.PDX_GROUP_COUNT - 1) / cfg.PDX_GROUP_COUNT -
            extend_frame_table_start st.pdx_group_valid
              (cfg.pfn_to_pdx info.spfn / cfg.PDX_GROUP_COUNT)
              ((cfg.pfn_to_pdx info.epfn + cfg.PDX_GROUP_COUNT - 1) / cfg.PDX_GROUP_COUNT) + 1)
          (extend_frame_table_start st.pdx_group_valid
            (cfg.pfn_to_pdx info.spfn / cfg.PDX_GROUP_COUNT)
            ((cfg.pfn_to_pdx info.epfn + cfg.PDX_GROUP_COUNT - 1) / cfg.PDX_GROUP_COUNT)) ↔
      maximal_clear_run st.pdx_group_valid (cfg.pfn_to_pdx info.spfn / cfg.PDX_GROUP_COUNT)
        ((cfg.pfn_to_pdx info.epfn + cfg.PDX_GROUP_COUNT - 1) / cfg.PDX_GROUP_COUNT) c n) ∧
    (extend_frame_table_chunks st.pdx_group_valid
          ((cfg.pfn_to_pdx info.epfn + cfg.PDX_GROUP_COUNT - 1) / cfg.PDX_GROUP_COUNT)
          ((cfg.pfn_to_pdx info.epfn + cfg.PDX_GROUP_COUNT - 1) / cfg.PDX_GROUP_COUNT -
            extend_frame_table_start st.pdx_group_valid
              (cfg.pfn_to_pdx info.spfn / cfg.PDX_GROUP_COUNT)
              ((cfg.pfn_to_pdx info.epfn + cfg.PDX_GROUP_COUNT - 1) / cfg.PDX_GROUP_COUNT) + 1)
          (extend_frame_table_start st.pdx_group_valid
            (cfg.pfn_to_pdx info.spfn / cfg.PDX_GROUP_COUNT)
            ((cfg.pfn_to_pdx info.epfn + cfg.PDX_GROUP_COUNT - 1) /
              cfg.PDX_GROUP_COUNT))).Pairwise (fun p q => p.2 < q.1) ∧
    ((∃ g, cfg.pfn_to_pdx info.spfn / cfg.PDX_GROUP_COUNT ≤ g ∧
        g < (cfg.pfn_to_pdx info.epfn + cfg.PDX_GROUP_COUNT - 1) / cfg.PDX_GROUP_COUNT ∧
        st.pdx_group_valid g = false) →
      (extend_frame_table lay cfg env st info).trace.getLast?
        = some (PtEvent.memset (mfn_to_page lay cfg info.spfn) 0
            (sub64 (mfn_to_page lay cfg info.epfn) (mfn_to_page lay cfg info.spfn)))) ∧
    ((∀ g, cfg.pfn_to_pdx info.spfn / cfg.PDX_GROUP_COUNT ≤ g →
        g < (cfg.pfn_to_pdx info.epfn + cfg.PDX_GROUP_COUNT - 1) / cfg.PDX_GROUP_COUNT →
        st.pdx_group_valid g = true) →
      (extend_frame_table lay cfg env st info).trace = [] ∧
      (extend_frame_table lay cfg env st info).mach = st.mach) := by
  have he : sub64 (add64 (cfg.pfn_to_pdx info.epfn) cfg.PDX_GROUP_COUNT) 1 / cfg.PDX_GROUP_COUNT
      = (cfg.pfn_to_pdx info.epfn + cfg.PDX_GROUP_COUNT - 1) / cfg.PDX_GROUP_COUNT := by
    have h1 : add64 (cfg.pfn_to_pdx info.epfn) cfg.PDX_GROUP_COUNT
        = cfg.pfn_to_pdx info.epfn + cfg.PDX_GROUP_COUNT := by
      unfold add64; exact Nat.mod_eq_of_lt hno
    rw [h1, sub64_of_le _ _ hno (by omega)]
  have hunf := extend_frame_table_unfold lay cfg env st info _ he
  rw [hunf] at hret ⊢
  generalize hE : (cfg.pfn_to_pdx info.epfn + cfg.PDX_GROUP_COUNT - 1) / cfg.PDX_GROUP_COUNT
    = eidx at hret ⊢
  have hce : cfg.pfn_to_pdx info.spfn / cfg.PDX_GROUP_COUNT ≤ eidx := by
    rw [← hE]
    exact Nat.div_le_div_right (by omega)
  generalize cfg.pfn_to_pdx info.spfn / cfg.PDX_GROUP_COUNT = cidx0 at hret hce ⊢
  obtain ⟨s1, s2, s3⟩ := extend_frame_table_start_spec st.pdx_group_valid cidx0 eidx hce
  have hmax := extend_frame_table_chunks_maximal st.pdx_group_valid cidx0 eidx hce
  have hsorted := extend_frame_table_chunks_sorted st.pdx_group_valid eidx
    (eidx - extend_frame_table_start st.pdx_group_valid cidx0 eidx + 1)
    (extend_frame_table_start st.pdx_group_valid cidx0 eidx) (by omega) s2
  generalize extend_frame_table_start st.pdx_group_valid cidx0 eidx = start
    at hret s1 s2 s3 hmax hsorted ⊢
  refine ⟨?_, hmax, hsorted, ?_, ?_⟩
  · by_cases h1 : start ≥ eidx
    · rw [if_pos h1]
      have : extend_frame_table_chunks st.pdx_group_valid eidx (eidx - start + 1) start = [] := by
        unfold extend_frame_table_chunks
        rw [if_neg (by omega)]
      rw [this]
      rfl
    · rw [if_neg h1] at hret ⊢
      generalize hr0 : (HotaddRun.mk 0 info st.mach
          (decide (cfg.pfn_to_pdx info.epfn ≤ env.directmap_frames) &&
            decide (cfg.pfn_to_pdx info.epfn ≤ cfg.FRAMETABLE_NR)) []) = r0 at hret ⊢
      have htr : frametable_chunk_calls r0.trace = [] := by rw [← hr0]; rfl
      by_cases h2 : (extend_frame_table_loop lay cfg env st eidx (eidx - start + 1) start r0).ret
          ≠ 0
      · rw [if_pos h2] at hret
        exact absurd hret h2
      · rw [if_neg h2]
        simp only []
        rw [frametable_chunk_calls_append,
          extend_frame_table_loop_calls lay cfg env st eidx _ _ r0 (not_not.1 h2), htr]
        simp [frametable_chunk_calls]
  · rintro ⟨g, g1, g2, g3⟩
    have h1 : ¬ start ≥ eidx := by
      intro hcon
      have := s3.1 hcon g g1 g2
      rw [g3] at this
      cases this
    rw [if_neg h1] at hret ⊢
    split_ifs at hret ⊢ with h2
    · exact absurd hret h2
    · simp
  · intro hall
    rw [if_pos (s3.2 hall)]
    exact ⟨rfl, rfl⟩

/-- C34, amended, for the hot-add of `[0x100000, 0x130000)` to the machine
with 4 GiB of memory: the groups 16, 17 and 18 are clear and the last event
is the `memset` with 0. -/
theorem extend_frame_table_backs_clear_runs_witness :
    (extend_frame_table lay0 cfg0 env0 st_4G_mach
      { spfn := 0x100000, epfn := 0x130000, cur := 0x100000 }).trace.getLast?
      = some (PtEvent.memset (mfn_to_page lay0 cfg0 0x100000) 0
          (sub64 (mfn_to_page lay0 cfg0 0x130000) (mfn_to_page lay0 cfg0 0x100000))) :=
  (extend_frame_table_backs_clear_runs lay0 cfg0 env0 st_4G_mach
    { spfn := 0x100000, epfn := 0x130000, cur := 0x100000 } (by decide) (by decide)
    (by decide) (by decide)).2.2.2.1 ⟨16, by decide, by decide, by decide⟩

theorem staging_inv_alloc (spfn epfn : Nat) (r r2 : HotaddRun)
    (hinv : staging_inv spfn epfn r) (hcur : r.info.cur + 512 < 2 ^ 64)
    (hinfo : r2.info = (alloc_hotadd_mfn r.info).2.1)
    (htr : ∀ mfn, PtEvent.alloc_hotadd_mfn mfn ∈ r2.trace →
      PtEvent.alloc_hotadd_mfn mfn ∈ r.trace ∨ mfn = r.info.cur) :
    staging_inv spfn epfn r2 ∧ r2.info.cur = r.info.cur + 512 := by
  obtain ⟨h1, h2, h3, h4⟩ := hinv
  have hc : r2.info.cur = r.info.cur + 512 := by
    rw [hinfo]
    show add64 r.info.cur (shl64 1 PAGETABLE_ORDER) = r.info.cur + 512
    rw [shl64_one_order]
    unfold add64
    exact Nat.mod_eq_of_lt hcur
  have hs : r2.info.spfn = r.info.spfn := by rw [hinfo]; unfold alloc_hotadd_mfn; rfl
  have he : r2.info.epfn = r.info.epfn := by rw [hinfo]; unfold alloc_hotadd_mfn; rfl
  refine ⟨⟨?_, ?_, ?_, ?_⟩, hc⟩
  · rw [hs]; exact h1
  · rw [he]; exact h2
  · omega
  · intro mfn hm
    rcases htr mfn hm with h | h
    · have := h4 mfn h
      omega
    · subst h
      omega

theorem staging_inv_same (spfn epfn : Nat) (r r2 : HotaddRun)
    (hinv : staging_inv spfn epfn r) (hinfo : r2.info = r.info)
    (htr : ∀ mfn, PtEvent.alloc_hotadd_mfn mfn ∈ r2.trace →
      PtEvent.alloc_hotadd_mfn mfn ∈ r.trace) :
    staging_inv spfn epfn r2 := by
  obtain ⟨h1, h2, h3, h4⟩ := hinv
  refine ⟨?_, ?_, ?_, ?_⟩
  · rw [hinfo]; exact h1
  · rw [hinfo]; exact h2
  · rw [hinfo]; exact h3
  · intro mfn hm
    rw [hinfo]
    exact h4 mfn (htr mfn hm)

/-- The loop of `setup_frametable_chunk` takes at most one block per 2 MiB
from `s` to `e`. -/
theorem setup_frametable_chunk_loop_staging (cfg : Config) (env : MmEnv) (e spfn epfn : Nat)
    (he : e + 2 ^ 21 ≤ 2 ^ 64) :
    ∀ (fuel s : Nat) (r : HotaddRun), staging_inv spfn epfn r →
      r.info.cur + 512 * ((e - s + (2 ^ 21 - 1)) / 2 ^ 21) + 512 < 2 ^ 64 →
      staging_inv spfn epfn (setup_frametable_chunk_loop cfg env e fuel s r).2 ∧
      (setup_frametable_chunk_loop cfg env e fuel s r).2.info.cur
        ≤ r.info.cur + 512 * ((e - s + (2 ^ 21 - 1)) / 2 ^ 21) := by
  intro fuel
  induction fuel with
  | zero =>
    intro s r hinv _
    exact ⟨hinv, Nat.le_add_right _ _⟩
  | succ fuel ih =>
    intro s r hinv hb
    unfold setup_frametable_chunk_loop
    by_cases h : s < e
    · rw [if_pos h]
      simp only []
      generalize hr2 : (HotaddRun.mk
        (env.map_pages_to_xen r.mach s (alloc_hotadd_mfn r.info).1 (shl64 1 PAGETABLE_ORDER)
          cfg.PAGE_HYPERVISOR).1
        (alloc_hotadd_mfn r.info).2.1
        (env.map_pages_to_xen r.mach s (alloc_hotadd_mfn r.info).1 (shl64 1 PAGETABLE_ORDER)
          cfg.PAGE_HYPERVISOR).2
        (r.asserts && (alloc_hotadd_mfn r.info).2.2)
        (r.trace ++ [PtEvent.alloc_hotadd_mfn (alloc_hotadd_mfn r.info).1,
          PtEvent.map_pages_to_xen s (alloc_hotadd_mfn r.info).1 (shl64 1 PAGETABLE_ORDER)
            cfg.PAGE_HYPERVISOR])) = r2
      have hpos : 1 ≤ (e - s + (2 ^ 21 - 1)) / 2 ^ 21 := by omega
      obtain ⟨i1, i2⟩ := staging_inv_alloc spfn epfn r r2 hinv (by omega)
        (by rw [← hr2]) (by
          rw [← hr2]
          intro mfn hm
          simp only [List.mem_append, List.mem_cons, List.mem_singleton, PtEvent.alloc_hotadd_mfn.injEq,
            List.not_mem_nil, or_false, reduceCtorEq] at hm
          rcases hm with hm | hm
          · exact Or.inl hm
          · exact Or.inr hm)
      by_cases h2 : (env.map_pages_to_xen r.mach s (alloc_hotadd_mfn r.info).1
          (shl64 1 PAGETABLE_ORDER) cfg.PAGE_HYPERVISOR).1 ≠ 0
      · rw [if_pos h2]
        refine ⟨i1, ?_⟩
        show r2.info.cur ≤ _
        omega
      · rw [if_neg h2]
        have hn : add64 s (shl64 1 L2_PAGETABLE_SHIFT) = s + 2 ^ 21 := by
          rw [shl64_one_L2]
          unfold add64
          exact Nat.mod_eq_of_lt (by omega)
        rw [hn]
        have hrem : (e - (s + 2 ^ 21) + (2 ^ 21 - 1)) / 2 ^ 21 + 1
            = (e - s + (2 ^ 21 - 1)) / 2 ^ 21 := by omega
        obtain ⟨j1, j2⟩ := ih (s + 2 ^ 21) r2 i1 (by omega)
        exact ⟨j1, by omega⟩
    · rw [if_neg h]
      exact ⟨hinv, Nat.le_add_right _ _⟩

theorem setup_frametable_chunk_staging (cfg : Config) (env : MmEnv) (s e spfn epfn : Nat)
    (he : e + 2 ^ 21 ≤ 2 ^ 64) (r : HotaddRun) (hinv : staging_inv spfn epfn r)
    (hb : r.info.cur + 512 * ((e - s + (2 ^ 21 - 1)) / 2 ^ 21) + 512 < 2 ^ 64) :
    staging_inv spfn epfn (setup_frametable_chunk cfg env s e r) ∧
    (setup_frametable_chunk cfg env s e r).info.cur
      ≤ r.info.cur + 512 * ((e - s + (2 ^ 21 - 1)) / 2 ^ 21) := by
  unfold setup_frametable_chunk
  simp only [shl64_one_L2]
  generalize hr0 : (HotaddRun.mk 0 r.info r.mach
    (r.asserts && (decide (s &&& 2 ^ 21 - 1 = 0) && decide (e &&& 2 ^ 21 - 1 = 0)))
    (r.trace ++ [PtEvent.setup_frametable_chunk s e])) = r0
  have h0 : staging_inv spfn epfn r0 := by
    refine staging_inv_same spfn epfn r r0 hinv (by rw [← hr0]) ?_
    rw [← hr0]
    intro mfn hm
    simp only [List.mem_append, List.mem_singleton, reduceCtorEq, or_false] at hm
    exact hm
  have hc0 : r0.info.cur = r.info.cur := by rw [← hr0]
  obtain ⟨l1, l2⟩ := setup_frametable_chunk_loop_staging cfg env e spfn epfn he
    ((e - s) / 2 ^ 21 + 1) s r0 h0 (by rw [hc0]; exact hb)
  rw [hc0] at l2
  by_cases h2 : (setup_frametable_chunk_loop cfg env e ((e - s) / 2 ^ 21 + 1) s r0).2.ret ≠ 0
  · rw [if_pos h2]
    exact ⟨l1, l2⟩
  · rw [if_neg h2]
    refine ⟨staging_inv_same spfn epfn _ _ l1 rfl ?_, l2⟩
    intro mfn hm
    simp only [List.mem_append, List.mem_singleton, reduceCtorEq, or_false] at hm
    exact hm

theorem pdx_to_page_group (lay : Layout) (cfg : Config) (hsz : cfg.sizeof_page_info = 32)
    (hG : cfg.PDX_GROUP_COUNT = 2 ^ 16) (k : Nat)
    (hk : lay.FRAMETABLE_VIRT_START + k * 2 ^ 21 < 2 ^ 64) :
    pdx_to_page lay cfg (mul64 k cfg.PDX_GROUP_COUNT)
      = lay.FRAMETABLE_VIRT_START + k * 2 ^ 21 := by
  unfold pdx_to_page mul64 add64
  rw [hsz, hG]
  omega

/-- The loop of `extend_frame_table` takes at most one block per group from
`cidx` to `eidx`. -/
theorem extend_frame_table_loop_staging (lay : Layout) (cfg : Config) (env : MmEnv)
    (st : State Mach) (eidx spfn epfn : Nat)
    (hsz : cfg.sizeof_page_info = 32) (hG : cfg.PDX_GROUP_COUNT = 2 ^ 16)
    (hft : lay.FRAMETABLE_VIRT_START + eidx * 2 ^ 21 + 2 ^ 21 ≤ 2 ^ 64) :
    ∀ (fuel cidx : Nat) (r : HotaddRun), cidx ≤ eidx → staging_inv spfn epfn r →
      r.info.cur + 512 * (eidx - cidx) + 512 < 2 ^ 64 →
      staging_inv spfn epfn (extend_frame_table_loop lay cfg env st eidx fuel cidx r) ∧
      (extend_frame_table_loop lay cfg env st eidx fuel cidx r).info.cur
        ≤ r.info.cur + 512 * (eidx - cidx) := by
  intro fuel
  induction fuel with
  | zero =>
    intro cidx r _ hinv _
    exact ⟨hinv, Nat.le_add_right _ _⟩
  | succ fuel ih =>
    intro cidx r hce hinv hb
    unfold extend_frame_table_loop
    by_cases h : cidx < eidx
    · rw [if_pos h]
      simp only []
      obtain ⟨a1, a2, _, _⟩ := find_next_bit_spec st.pdx_group_valid eidx cidx hce
      have hn : (if find_next_bit st.pdx_group_valid eidx cidx ≥ eidx then eidx
          else find_next_bit st.pdx_group_valid eidx cidx)
          = find_next_bit st.pdx_group_valid eidx cidx := by
        by_cases hc : find_next_bit st.pdx_group_valid eidx cidx ≥ eidx
        · rw [if_pos hc]; omega
        · rw [if_neg hc]
      rw [hn]
      generalize find_next_bit st.pdx_group_valid eidx cidx = nidx at a1 a2
      obtain ⟨b1, b2, _, _⟩ := find_next_zero_bit_spec st.pdx_group_valid eidx nidx a2
      generalize find_next_zero_bit st.pdx_group_valid eidx nidx = cnext at b1 b2
      have hmul : ∀ a b : Nat, a ≤ b → a * 2 ^ 21 ≤ b * 2 ^ 21 :=
        fun a b hab => Nat.mul_le_mul_right _ hab
      have hc1 := hmul cidx eidx hce
      have hn1 := hmul nidx eidx a2
      have hcn := hmul cidx nidx a1
      rw [pdx_to_page_group lay cfg hsz hG cidx (by omega),
        pdx_to_page_group lay cfg hsz hG nidx (by omega)]
      have hcount : (lay.FRAMETABLE_VIRT_START + nidx * 2 ^ 21 -
          (lay.FRAMETABLE_VIRT_START + cidx * 2 ^ 21) + (2 ^ 21 - 1)) / 2 ^ 21
          = nidx - cidx := by
        have : nidx * 2 ^ 21 = cidx * 2 ^ 21 + (nidx - cidx) * 2 ^ 21 := by
          rw [← Nat.add_mul]
          congr 1
          omega
        omega
      obtain ⟨c1, c2⟩ := setup_frametable_chunk_staging cfg env
        (lay.FRAMETABLE_VIRT_START + cidx * 2 ^ 21) (lay.FRAMETABLE_VIRT_START + nidx * 2 ^ 21)
        spfn epfn (by omega) r hinv (by rw [hcount]; omega)
      rw [hcount] at c2
      generalize setup_frametable_chunk cfg env (lay.FRAMETABLE_VIRT_START + cidx * 2 ^ 21)
        (lay.FRAMETABLE_VIRT_START + nidx * 2 ^ 21) r = r2 at c1 c2
      by_cases h2 : r2.ret ≠ 0
      · rw [if_pos h2]
        exact ⟨c1, by omega⟩
      · rw [if_neg h2]
        obtain ⟨d1, d2⟩ := ih cnext r2 b2 c1 (by omega)
        exact ⟨d1, by omega⟩
    · rw [if_neg h]
      exact ⟨hinv, Nat.le_add_right _ _⟩

/-- The end of `extend_frame_table`: the `memset` does not take a block. -/
theorem extend_frame_table_finish (spfn epfn B : Nat) (l : HotaddRun) (ev : PtEvent)
    (hev : ∀ mfn, ev ≠ PtEvent.alloc_hotadd_mfn mfn)
    (l1 : staging_inv spfn epfn l) (l3 : l.info.cur ≤ B) :
    staging_inv spfn epfn
      (if l.ret ≠ 0 then l else { l with ret := 0, trace := l.trace ++ [ev] }) ∧
    (if l.ret ≠ 0 then l else { l with ret := 0, trace := l.trace ++ [ev] }).info.cur ≤ B := by
  by_cases h2 : l.ret ≠ 0
  · rw [if_pos h2]
    exact ⟨l1, l3⟩
  · rw [if_neg h2]
    refine ⟨staging_inv_same _ _ _ _ l1 rfl ?_, l3⟩
    intro mfn hm
    simp only [List.mem_append, List.mem_singleton] at hm
    rcases hm with hm | hm
    · exact hm
    · exact absurd hm.symm (hev mfn)

/-- From a cursor at or above `spfn`, `extend_frame_table` takes at most one
block per pdx group that the range touches. -/
theorem extend_frame_table_staging (lay : Layout) (cfg : Config) (env : MmEnv)
    (st : State Mach) (info : mem_hotadd_info)
    (hpdx : ∀ x, cfg.pfn_to_pdx x = x)
    (hsz : cfg.sizeof_page_info = 32) (hG : cfg.PDX_GROUP_COUNT = 2 ^ 16)
    (hle : info.spfn ≤ info.epfn) (hcur : info.spfn ≤ info.cur) (hc52 : info.cur < 2 ^ 52)
    (hfr : cfg.FRAMETABLE_NR < 2 ^ 52) (he : info.epfn ≤ cfg.FRAMETABLE_NR)
    (hft : lay.FRAMETABLE_VIRT_START + (cfg.FRAMETABLE_NR + 2 ^ 17) * 32 ≤ 2 ^ 64) :
    staging_inv info.spfn info.epfn (extend_frame_table lay cfg env st info) ∧
    (extend_frame_table lay cfg env st info).info.cur
      ≤ info.cur + 512 * ((info.epfn + 2 ^ 16 - 1) / 2 ^ 16 - info.spfn / 2 ^ 16) := by
  have heq : sub64 (add64 (cfg.pfn_to_pdx info.epfn) cfg.PDX_GROUP_COUNT) 1 / cfg.PDX_GROUP_COUNT
      = (info.epfn + 2 ^ 16 - 1) / 2 ^ 16 := by
    rw [hpdx, hG]
    have h1 : add64 info.epfn (2 ^ 16) = info.epfn + 2 ^ 16 := by
      unfold add64; exact Nat.mod_eq_of_lt (by omega)
    rw [h1, sub64_of_le _ _ (by omega) (by omega)]
  have hcidx : cfg.pfn_to_pdx info.spfn / cfg.PDX_GROUP_COUNT = info.spfn / 2 ^ 16 := by
    rw [hpdx, hG]
  rw [extend_frame_table_unfold lay cfg env st info _ heq]
  generalize hE : (info.epfn + 2 ^ 16 - 1) / 2 ^ 16 = eidx
  generalize cfg.pfn_to_pdx info.spfn / cfg.PDX_GROUP_COUNT = cidx0 at hcidx ⊢
  generalize hq : info.spfn / 2 ^ 16 = q at hcidx
  have hce : cidx0 ≤ eidx := by omega
  have heb : eidx ≤ 2 ^ 36 := by omega
  have hfb : lay.FRAMETABLE_VIRT_START + eidx * 2 ^ 21 + 2 ^ 21 ≤ 2 ^ 64 := by omega
  clear hft
  obtain ⟨s1, _, _⟩ := extend_frame_table_start_spec st.pdx_group_valid cidx0 eidx hce
  generalize extend_frame_table_start st.pdx_group_valid cidx0 eidx = start at s1
  generalize hr0 : (HotaddRun.mk 0 info st.mach
    (decide (cfg.pfn_to_pdx info.epfn ≤ env.directmap_frames) &&
      decide (cfg.pfn_to_pdx info.epfn ≤ cfg.FRAMETABLE_NR)) []) = r0
  have h0 : staging_inv info.spfn info.epfn r0 := by
    rw [← hr0]
    refine ⟨rfl, rfl, hcur, ?_⟩
    intro mfn hm
    cases hm
  have hc0 : r0.info.cur = info.cur := by rw [← hr0]
  by_cases h1 : start ≥ eidx
  · rw [if_pos h1]
    exact ⟨h0, by rw [hc0]; exact Nat.le_add_right _ _⟩
  · rw [if_neg h1]
    obtain ⟨l1, l2⟩ := extend_frame_table_loop_staging lay cfg env st eidx info.spfn info.epfn
      hsz hG hfb (eidx - start + 1) start r0 (by omega) h0 (by rw [hc0]; omega)
    rw [hc0] at l2
    generalize extend_frame_table_loop lay cfg env st eidx (eidx - start + 1) start r0 = l
      at l1 l2
    have l3 : l.info.cur ≤ info.cur + 512 * (eidx - q) := by omega
    exact extend_frame_table_finish _ _ _ l _ (fun mfn hm => by cases hm) l1 l3

/-- One turn of the loop of `setup_m2p_table`: it ends the loop with an
error, or goes on from a larger `i`; the run takes no block when the chunk is
mapped or has no valid frame, and one block otherwise, and then `i` moves by
a chunk. -/
theorem setup_m2p_table_loop_step (lay : Layout) (cfg : Config) (env : MmEnv)
    (st : State Mach) (l3_ro_mpt emap fuel i : Nat) (l2_ro_mpt : Option Nat) (r : HotaddRun)
    (h : i < emap) (hno : emap + 2 ^ 27 < 2 ^ 64) :
    ∃ r2,
      ((∃ i2 l2b,
          setup_m2p_table_loop lay cfg env st l3_ro_mpt emap (fuel + 1) i l2_ro_mpt r
            = setup_m2p_table_loop lay cfg env st l3_ro_mpt emap fuel i2 l2b r2 ∧
          ((i < i2 ∧ staging_step r r2 ∧ r2.info = r.info) ∨
            (i + 2 ^ 18 ≤ i2 ∧ staging_step r r2))) ∨
        ((setup_m2p_table_loop lay cfg env st l3_ro_mpt emap (fuel + 1) i l2_ro_mpt r).run
          = r2 ∧ staging_step r r2)) := by
  have hs27 := step_mask i 27 (by decide) (by omega)
  have hs18 := step_mask i 18 (by decide) (by omega)
  have hn18 : add64 i (2 ^ 18) = i + 2 ^ 18 := by
    unfold add64; exact Nat.mod_eq_of_lt (by omega)
  have hsame : staging_step r r := Or.inl ⟨rfl, fun _ hm => hm⟩
  rw [setup_m2p_table_loop]
  simp only [h, if_true, shl64_one_27, shl64_one_18, shl64_one_30]
  generalize (if add64 lay.RO_MPT_VIRT_START (mul64 i 8) &&& 2 ^ 30 - 1 ≠ 0 then none
    else l2_ro_mpt) = l2c
  by_cases c1 : m2p_mapped lay r.mach i = M2P_1G_MAPPED
  · rw [if_pos c1]
    exact ⟨r, Or.inl ⟨_, _, rfl, Or.inl ⟨by rw [hs27]; omega, hsame, rfl⟩⟩⟩
  · rw [if_neg c1]
    by_cases c2 : m2p_mapped lay r.mach i = M2P_2M_MAPPED
    · rw [if_pos c2]
      exact ⟨r, Or.inl ⟨_, _, rfl, Or.inl ⟨by rw [hs18]; omega, hsame, rfl⟩⟩⟩
    · rw [if_neg c2]
      by_cases c3 : m2p_chunk_probe cfg env st (ISOLATE_LSB cfg.sizeof_page_info / 8) i = true
      · rw [if_pos c3]
        by_cases c4 : (env.map_pages_to_xen r.mach (add64 lay.RDWR_MPT_VIRT_START (mul64 i 8))
            (alloc_hotadd_mfn r.info).1 (shl64 1 PAGETABLE_ORDER) cfg.PAGE_HYPERVISOR).1 ≠ 0
        · rw [if_pos c4]
          refine ⟨_, Or.inr ⟨rfl, Or.inr ⟨rfl, ?_⟩⟩⟩
          intro mfn hm
          simp at hm
          rcases hm with hm | hm
          · exact Or.inl hm
          · exact Or.inr hm
        · rw [if_neg c4]
          cases l2c with
          | some l2v =>
            simp only []
            refine ⟨_, Or.inl ⟨_, _, rfl, Or.inr ⟨by rw [hn18], Or.inr ⟨rfl, ?_⟩⟩⟩⟩
            intro mfn hm
            simp at hm
            rcases hm with hm | hm
            · exact Or.inl hm
            · exact Or.inr hm
          | none =>
            simp only []
            split
            · refine ⟨_, Or.inl ⟨_, _, rfl, Or.inr ⟨by rw [hn18], Or.inr ⟨rfl, ?_⟩⟩⟩⟩
              intro mfn hm
              simp at hm
              rcases hm with hm | hm
              · exact Or.inl hm
              · exact Or.inr hm
            · split
              · refine ⟨_, Or.inr ⟨rfl, Or.inr ⟨rfl, ?_⟩⟩⟩
                intro mfn hm
                simp at hm
                rcases hm with hm | hm
                · exact Or.inl hm
                · exact Or.inr hm
              · refine ⟨_, Or.inl ⟨_, _, rfl, Or.inr ⟨by rw [hn18], Or.inr ⟨rfl, ?_⟩⟩⟩⟩
                intro mfn hm
                simp at hm
                rcases hm with hm | hm
                · exact Or.inl hm
                · exact Or.inr hm
      · rw [if_neg c3]
        exact ⟨r, Or.inl ⟨_, _, rfl, Or.inl ⟨by rw [hn18]; omega, hsame, rfl⟩⟩⟩

theorem staging_inv_step (spfn epfn : Nat) (r r2 : HotaddRun)
    (hinv : staging_inv spfn epfn r) (hcur : r.info.cur + 512 < 2 ^ 64)
    (hstep : staging_step r r2) :
    staging_inv spfn epfn r2 ∧ r2.info.cur ≤ r.info.cur + 512 := by
  rcases hstep with ⟨h1, h2⟩ | ⟨h1, h2⟩
  · exact ⟨staging_inv_same spfn epfn r r2 hinv h1 h2, by rw [h1]; omega⟩
  · obtain ⟨a, b⟩ := staging_inv_alloc spfn epfn r r2 hinv hcur h1 h2
    exact ⟨a, by omega⟩

/-- The loop of `setup_m2p_table` takes at most one block per chunk of
`2 ^ 18` frames from `i` to `emap`. -/
theorem setup_m2p_table_loop_staging (lay : Layout) (cfg : Config) (env : MmEnv)
    (st : State Mach) (l3_ro_mpt emap spfn epfn : Nat) (hno : emap + 2 ^ 27 < 2 ^ 64) :
    ∀ (fuel i : Nat) (l2_ro_mpt : Option Nat) (r : HotaddRun), staging_inv spfn epfn r →
      r.info.cur + 512 * ((emap - i + (2 ^ 18 - 1)) / 2 ^ 18) + 512 < 2 ^ 64 →
      staging_inv spfn epfn
        (setup_m2p_table_loop lay cfg env st l3_ro_mpt emap fuel i l2_ro_mpt r).run ∧
      (setup_m2p_table_loop lay cfg env st l3_ro_mpt emap fuel i l2_ro_mpt r).run.info.cur
        ≤ r.info.cur + 512 * ((emap - i + (2 ^ 18 - 1)) / 2 ^ 18) := by
  intro fuel
  induction fuel with
  | zero =>
    intro i l2 r hinv _
    exact ⟨hinv, Nat.le_add_right _ _⟩
  | succ fuel ih =>
    intro i l2 r hinv hb
    by_cases h : i < emap
    · have hpos : 1 ≤ (emap - i + (2 ^ 18 - 1)) / 2 ^ 18 := by omega
      obtain ⟨r2, hcase⟩ := setup_m2p_table_loop_step lay cfg env st l3_ro_mpt emap fuel i l2 r
        h hno
      rcases hcase with ⟨i2, l2b, heq, hrel⟩ | ⟨heq, hrel⟩
      · rw [heq]
        rcases hrel with ⟨hlt, hstep, hinfo⟩ | ⟨hlt, hstep⟩
        · obtain ⟨s1, _⟩ := staging_inv_step spfn epfn r r2 hinv (by omega) hstep
          have hc : r2.info.cur = r.info.cur := by rw [hinfo]
          obtain ⟨j1, j2⟩ := ih i2 l2b r2 s1 (by rw [hc]; omega)
          refine ⟨j1, ?_⟩
          rw [hc] at j2
          omega
        · obtain ⟨s1, s2⟩ := staging_inv_step spfn epfn r r2 hinv (by omega) hstep
          obtain ⟨j1, j2⟩ := ih i2 l2b r2 s1 (by omega)
          refine ⟨j1, ?_⟩
          omega
      · rw [heq]
        obtain ⟨s1, s2⟩ := staging_inv_step spfn epfn r r2 hinv (by omega) hrel
        exact ⟨s1, by omega⟩
    · rw [setup_m2p_table_loop]
      rw [if_neg h]
      exact ⟨hinv, Nat.le_add_right _ _⟩

/-- One turn of the loop of `setup_compat_m2p_table`. -/
theorem setup_compat_m2p_table_loop_step (lay : Layout) (cfg : Config) (env : MmEnv)
    (st : State Mach) (emap fuel i : Nat) (r : HotaddRun)
    (h : i < emap) (hno : emap + 2 ^ 19 < 2 ^ 64) :
    ∃ r2, staging_step r r2 ∧
      (setup_compat_m2p_table_loop lay cfg env st emap (fuel + 1) i r
          = setup_compat_m2p_table_loop lay cfg env st emap fuel (i + 2 ^ 19) r2 ∨
        setup_compat_m2p_table_loop lay cfg env st emap (fuel + 1) i r = r2) := by
  have hn19 : add64 i (2 ^ 19) = i + 2 ^ 19 := by
    unfold add64; exact Nat.mod_eq_of_lt (by omega)
  have hsame : staging_step r r := Or.inl ⟨rfl, fun _ hm => hm⟩
  rw [setup_compat_m2p_table_loop]
  simp only [h, if_true, shl64_one_19, hn19]
  split
  · exact ⟨r, hsame, Or.inl rfl⟩
  · split
    · exact ⟨r, hsame, Or.inl rfl⟩
    · split
      · refine ⟨_, ?_, Or.inr rfl⟩
        refine Or.inr ⟨rfl, ?_⟩
        intro mfn hm
        simp at hm
        rcases hm with hm | hm
        · exact Or.inl hm
        · exact Or.inr hm
      · refine ⟨_, ?_, Or.inl rfl⟩
        refine Or.inr ⟨rfl, ?_⟩
        intro mfn hm
        simp at hm
        rcases hm with hm | hm
        · exact Or.inl hm
        · exact Or.inr hm

/-- The loop of `setup_compat_m2p_table` takes at most one block per chunk of
`2 ^ 19` frames from `i` to `emap`. -/
theorem setup_compat_m2p_table_loop_staging (lay : Layout) (cfg : Config) (env : MmEnv)
    (st : State Mach) (emap spfn epfn : Nat) (hno : emap + 2 ^ 19 < 2 ^ 64) :
    ∀ (fuel i : Nat) (r : HotaddRun), staging_inv spfn epfn r →
      r.info.cur + 512 * ((emap - i + (2 ^ 19 - 1)) / 2 ^ 19) + 512 < 2 ^ 64 →
      staging_inv spfn epfn (setup_compat_m2p_table_loop lay cfg env st emap fuel i r) ∧
      (setup_compat_m2p_table_loop lay cfg env st emap fuel i r).info.cur
        ≤ r.info.cur + 512 * ((emap - i + (2 ^ 19 - 1)) / 2 ^ 19) := by
  intro fuel
  induction fuel with
  | zero =>
    intro i r hinv _
    exact ⟨hinv, Nat.le_add_right _ _⟩
  | succ fuel ih =>
    intro i r hinv hb
    by_cases h : i < emap
    · have hpos : 1 ≤ (emap - i + (2 ^ 19 - 1)) / 2 ^ 19 := by omega
      have hrem : (emap - (i + 2 ^ 19) + (2 ^ 19 - 1)) / 2 ^ 19 + 1
          = (emap - i + (2 ^ 19 - 1)) / 2 ^ 19 := by omega
      obtain ⟨r2, hstep, hcase⟩ := setup_compat_m2p_table_loop_step lay cfg env st emap fuel i r
        h hno
      obtain ⟨s1, s2⟩ := staging_inv_step spfn epfn r r2 hinv (by omega) hstep
      rcases hcase with heq | heq
      · rw [heq]
        obtain ⟨j1, j2⟩ := ih (i + 2 ^ 19) r2 s1 (by omega)
        exact ⟨j1, by omega⟩
      · rw [heq]
        exact ⟨s1, by omega⟩
    · rw [setup_compat_m2p_table_loop]
      rw [if_neg h]
      exact ⟨hinv, Nat.le_add_right _ _⟩

/-- From a run on the range `[spfn, epfn)`, `setup_compat_m2p_table` takes at
most one block per chunk of `2 ^ 19` frames that the range touches below the
end of the compat window. -/
theorem setup_compat_m2p_table_staging (lay : Layout) (cfg : Config) (env : MmEnv)
    (st : State Mach) (spfn epfn : Nat) (r : HotaddRun) (hinv : staging_inv spfn epfn r)
    (he : epfn < 2 ^ 52) (hW : (cfg.compat_mpt_bytes >>> 2) % 2 ^ 19 = 0)
    (hW2 : cfg.compat_mpt_bytes >>> 2 < 2 ^ 52) (hc : r.info.cur < 2 ^ 53) :
    staging_inv spfn epfn (setup_compat_m2p_table lay cfg env st r) ∧
    (setup_compat_m2p_table lay cfg env st r).info.cur
      ≤ r.info.cur + 512 * ((min (roundup epfn (2 ^ 19)) (cfg.compat_mpt_bytes >>> 2) -
          rounddown spfn (2 ^ 19)) / 2 ^ 19) := by
  have hinv0 : staging_inv spfn epfn { r with ret := 0 } :=
    staging_inv_same spfn epfn r _ hinv rfl (fun _ hm => hm)
  obtain ⟨h1, h2, h3, _⟩ := hinv
  have hwin : (RDWR_COMPAT_MPT_VIRT_END lay cfg - lay.RDWR_COMPAT_MPT_VIRT_START) >>> 2
      = cfg.compat_mpt_bytes >>> 2 := by
    unfold RDWR_COMPAT_MPT_VIRT_END
    rw [Nat.add_sub_cancel_left]
  have hs19 : spfn &&& not64 (2 ^ 19 - 1) = spfn / 2 ^ 19 * 2 ^ 19 :=
    and_not_low_mask _ 19 (by omega) (by decide)
  unfold setup_compat_m2p_table
  simp only [shl64_one_19]
  rw [h1, h2, hwin, hs19]
  unfold roundup rounddown
  generalize cfg.compat_mpt_bytes >>> 2 = W at hW hW2 ⊢
  have hS1 : spfn / 2 ^ 19 * 2 ^ 19 ≤ spfn := Nat.div_mul_le_self _ _
  have hS2 : spfn / 2 ^ 19 * 2 ^ 19 % 2 ^ 19 = 0 := Nat.mul_mod_left _ _
  generalize spfn / 2 ^ 19 * 2 ^ 19 = S at hS1 hS2 ⊢
  have hWr : (W + 2 ^ 19 - 1) / 2 ^ 19 * 2 ^ 19 = W := by omega
  have hR1 : epfn ≤ (epfn + 2 ^ 19 - 1) / 2 ^ 19 * 2 ^ 19 := by omega
  have hR2 : (epfn + 2 ^ 19 - 1) / 2 ^ 19 * 2 ^ 19 < epfn + 2 ^ 19 := by omega
  have hR3 : (epfn + 2 ^ 19 - 1) / 2 ^ 19 * 2 ^ 19 % 2 ^ 19 = 0 := Nat.mul_mod_left _ _
  by_cases c1 : (!r.mach.opt_pv32 || decide (S > W)) = true
  · rw [if_pos c1]
    exact ⟨hinv0, Nat.le_add_right _ _⟩
  · rw [if_neg c1]
    by_cases c2 : epfn > W
    · rw [if_pos c2]
      have he19 := emap_eq W 19 (by decide) (by omega)
      rw [he19, hWr]
      generalize (epfn + 2 ^ 19 - 1) / 2 ^ 19 * 2 ^ 19 = R at hR1 hR2 hR3 ⊢
      have hmin : min R W = W := Nat.min_eq_right (by omega)
      rw [hmin]
      have hrem : (W - S + (2 ^ 19 - 1)) / 2 ^ 19 = (W - S) / 2 ^ 19 := by omega
      have hq : (W - S) / 2 ^ 19 ≤ 2 ^ 33 := by omega
      obtain ⟨l1, l2⟩ := setup_compat_m2p_table_loop_staging lay cfg env st W spfn epfn
        (by omega) ((W - S) / 2 ^ 19 + 1) S { r with ret := 0 } hinv0
        (by rw [hrem]; show r.info.cur + 512 * ((W - S) / 2 ^ 19) + 512 < 2 ^ 64; omega)
      rw [hrem] at l2
      exact ⟨l1, l2⟩
    · rw [if_neg c2]
      have he19 := emap_eq epfn 19 (by decide) (by omega)
      rw [he19]
      generalize (epfn + 2 ^ 19 - 1) / 2 ^ 19 * 2 ^ 19 = R at hR1 hR2 hR3 ⊢
      have hle : R ≤ W := by omega
      have hmin : min R W = R := Nat.min_eq_left hle
      rw [hmin]
      have hrem : (R - S + (2 ^ 19 - 1)) / 2 ^ 19 = (R - S) / 2 ^ 19 := by omega
      have hq : (R - S) / 2 ^ 19 ≤ 2 ^ 33 := by omega
      obtain ⟨l1, l2⟩ := setup_compat_m2p_table_loop_staging lay cfg env st R spfn epfn
        (by omega) ((R - S) / 2 ^ 19 + 1) S { r with ret := 0 } hinv0
        (by rw [hrem]; show r.info.cur + 512 * ((R - S) / 2 ^ 19) + 512 < 2 ^ 64; omega)
      rw [hrem] at l2
      exact ⟨l1, l2⟩

/-- From a cursor at or above `spfn`, `setup_m2p_table` takes at most one
block per chunk of `2 ^ 18` frames that the range touches and one per chunk of
`2 ^ 19` frames that it touches below the end of the compat window. -/
theorem setup_m2p_table_staging (lay : Layout) (cfg : Config) (env : MmEnv)
    (st : State Mach) (info : mem_hotadd_info)
    (hle : info.spfn ≤ info.epfn) (hcur : info.spfn ≤ info.cur) (hc52 : info.cur < 2 ^ 52)
    (he : info.epfn < 2 ^ 52) (hW : (cfg.compat_mpt_bytes >>> 2) % 2 ^ 19 = 0)
    (hW2 : cfg.compat_mpt_bytes >>> 2 < 2 ^ 52) :
    staging_inv info.spfn info.epfn (setup_m2p_table lay cfg env st info) ∧
    (setup_m2p_table lay cfg env st info).info.cur
      ≤ info.cur + 512 * ((roundup info.epfn (2 ^ 18) - rounddown info.spfn (2 ^ 18)) / 2 ^ 18)
        + 512 * ((min (roundup info.epfn (2 ^ 19)) (cfg.compat_mpt_bytes >>> 2) -
          rounddown info.spfn (2 ^ 19)) / 2 ^ 19) := by
  have hs18 : info.spfn &&& not64 (2 ^ 18 - 1) = info.spfn / 2 ^ 18 * 2 ^ 18 :=
    and_not_low_mask _ 18 (by omega) (by decide)
  have he18 := emap_eq info.epfn 18 (by decide) (by omega)
  rw [setup_m2p_table_unfold, hs18, he18]
  generalize hr0 : (HotaddRun.mk 0 info st.mach
    (decide ((st.mach.idle_pg_table (l4_table_offset lay.RO_MPT_VIRT_START)).flags &&&
      _PAGE_PRESENT ≠ 0)) []) = r0
  have h0 : staging_inv info.spfn info.epfn r0 := by
    rw [← hr0]
    refine ⟨rfl, rfl, hcur, ?_⟩
    intro mfn hm
    cases hm
  have hc0 : r0.info.cur = info.cur := by rw [← hr0]
  obtain ⟨l1, l2⟩ := setup_m2p_table_loop_staging lay cfg env st
    (st.mach.idle_pg_table (l4_table_offset lay.RO_MPT_VIRT_START)).pfn
    ((info.epfn + 2 ^ 18 - 1) / 2 ^ 18 * 2 ^ 18) info.spfn info.epfn (by omega)
    (((info.epfn + 2 ^ 18 - 1) / 2 ^ 18 * 2 ^ 18 - info.spfn / 2 ^ 18 * 2 ^ 18) / 2 ^ 18 + 1)
    (info.spfn / 2 ^ 18 * 2 ^ 18) none r0 h0 (by rw [hc0]; omega)
  rw [hc0] at l2
  have l3 : (setup_m2p_table_loop lay cfg env st
      (st.mach.idle_pg_table (l4_table_offset lay.RO_MPT_VIRT_START)).pfn
      ((info.epfn + 2 ^ 18 - 1) / 2 ^ 18 * 2 ^ 18)
      (((info.epfn + 2 ^ 18 - 1) / 2 ^ 18 * 2 ^ 18 - info.spfn / 2 ^ 18 * 2 ^ 18) / 2 ^ 18 + 1)
      (info.spfn / 2 ^ 18 * 2 ^ 18) none r0).run.info.cur
      ≤ info.cur + 512 * ((roundup info.epfn (2 ^ 18) - rounddown info.spfn (2 ^ 18)) / 2 ^ 18) := by
    unfold roundup rounddown
    omega
  generalize setup_m2p_table_loop lay cfg env st
      (st.mach.idle_pg_table (l4_table_offset lay.RO_MPT_VIRT_START)).pfn
      ((info.epfn + 2 ^ 18 - 1) / 2 ^ 18 * 2 ^ 18)
      (((info.epfn + 2 ^ 18 - 1) / 2 ^ 18 * 2 ^ 18 - info.spfn / 2 ^ 18 * 2 ^ 18) / 2 ^ 18 + 1)
      (info.spfn / 2 ^ 18 * 2 ^ 18) none r0 = l at l1 l2 l3
  have hA : (roundup info.epfn (2 ^ 18) - rounddown info.spfn (2 ^ 18)) / 2 ^ 18 ≤ 2 ^ 35 := by
    unfold roundup rounddown
    omega
  by_cases c1 : l.error = true
  · rw [if_pos c1]
    exact ⟨l1, by omega⟩
  · rw [if_neg c1]
    obtain ⟨m1, m2⟩ := setup_compat_m2p_table_staging lay cfg env st info.spfn info.epfn l.run
      l1 he hW hW2 (by omega)
    exact ⟨m1, by omega⟩

theorem mul64_small (x c : Nat) (hx : x < 2 ^ 54) (hc : c ≤ 32) : mul64 x c = c * x := by
  unfold mul64
  rw [Nat.mul_comm]
  apply Nat.mod_eq_of_lt
  have : c * x ≤ 32 * x := Nat.mul_le_mul_right _ hc
  omega

theorem add64_small (x y : Nat) (h : x + y < 2 ^ 64) : add64 x y = x + y := by
  unfold add64
  exact Nat.mod_eq_of_lt h

/-- The estimate of `mem_hotadd_check` without wrap-around, for the identity
pdx map, 32 bytes per `struct page_info` and pdx groups of `2 ^ 16` frames. -/
theorem mem_hotadd_length_value (cfg : Config) (hpdx : ∀ x, cfg.pfn_to_pdx x = x)
    (hsz : cfg.sizeof_page_info = 32) (hG : cfg.PDX_GROUP_COUNT = 2 ^ 16)
    (spfn epfn : Nat) (h1 : spfn < epfn) (he : epfn < 2 ^ 52)
    (hW : cfg.compat_mpt_bytes >>> 2 < 2 ^ 52) :
    mem_hotadd_length cfg spfn epfn
      = 8 * (roundup epfn (2 ^ 18) - rounddown spfn (2 ^ 18))
        + 4 * (min (roundup epfn (2 ^ 19)) (cfg.compat_mpt_bytes >>> 2) - rounddown spfn (2 ^ 19))
        + 32 * (roundup epfn (2 ^ 16) - rounddown spfn (2 ^ 16)) := by
  have hs16 : spfn &&& not64 (2 ^ 16 - 1) = rounddown spfn (2 ^ 16) :=
    and_not_low_mask _ 16 (by omega) (by decide)
  have he16 : add64 epfn (2 ^ 16 - 1) &&& not64 (2 ^ 16 - 1) = roundup epfn (2 ^ 16) :=
    emap_eq epfn 16 (by decide) (by omega)
  have a2 : roundup epfn (2 ^ 18) < 2 ^ 53 := by
    have := roundup_le epfn (2 ^ 18)
    omega
  have a5 : roundup epfn (2 ^ 19) < 2 ^ 53 := by
    have := roundup_le epfn (2 ^ 19)
    omega
  have a8 : roundup epfn (2 ^ 16) < 2 ^ 53 := by
    have := roundup_le epfn (2 ^ 16)
    omega
  have b1 : rounddown spfn (2 ^ 18) ≤ roundup epfn (2 ^ 18) := by
    have := rounddown_le spfn (2 ^ 18)
    have := le_roundup epfn (2 ^ 18) (by decide)
    omega
  have b3 : rounddown spfn (2 ^ 16) ≤ roundup epfn (2 ^ 16) := by
    have := rounddown_le spfn (2 ^ 16)
    have := le_roundup epfn (2 ^ 16) (by decide)
    omega
  unfold mem_hotadd_length
  simp only []
  rw [hpdx, hpdx, hsz, hG, mask18 spfn (by omega), mask18 _ (sub64_lt _ _),
    roundup18_wrap epfn (by omega), mask19 spfn (by omega), mask19 _ (sub64_lt _ _),
    roundup19_wrap epfn (by omega), hs16, he16]
  clear hs16 he16 h1 he
  generalize rounddown spfn (2 ^ 18) = S18 at b1 ⊢
  generalize roundup epfn (2 ^ 18) = R18 at a2 b1 ⊢
  generalize rounddown spfn (2 ^ 19) = S19
  generalize roundup epfn (2 ^ 19) = R19 at a5 ⊢
  generalize rounddown spfn (2 ^ 16) = S16 at b3 ⊢
  generalize roundup epfn (2 ^ 16) = R16 at a8 b3 ⊢
  generalize cfg.compat_mpt_bytes >>> 2 = W at hW ⊢
  have m18 : R18 % 2 ^ 64 = R18 := Nat.mod_eq_of_lt (by omega)
  have m19 : R19 % 2 ^ 64 = R19 := Nat.mod_eq_of_lt (by omega)
  rw [m18, m19, sub64_of_le R18 S18 (by omega) b1, sub64_of_le R16 S16 (by omega) b3]
  have x18 : R18 - S18 < 2 ^ 53 := by omega
  have x16 : R16 - S16 < 2 ^ 53 := by omega
  rw [mul64_small _ 8 (by omega) (by decide), mul64_small _ 32 (by omega) (by decide)]
  generalize R18 - S18 = X at x18 ⊢
  generalize R16 - S16 = Z at x16 ⊢
  clear b1 b3 a2 a8 m18
  by_cases c : min R19 W > S19
  · rw [if_pos c]
    have hm : min R19 W < 2 ^ 53 := by omega
    rw [sub64_of_le _ _ (by omega) (by omega)]
    have y19 : min R19 W - S19 < 2 ^ 53 := by omega
    rw [mul64_small _ 4 (by omega) (by decide)]
    generalize min R19 W - S19 = Y at y19 ⊢
    clear c hm m19 a5 hW
    rw [add64_small (8 * X) (4 * Y) (by omega), add64_small _ _ (by omega)]
  · rw [if_neg c]
    have e2 : min R19 W - S19 = 0 := by omega
    rw [e2]
    clear c e2 m19 a5 hW
    rw [add64_small _ _ (by omega)]
    omega

/-- The blocks that the three loops can take fit the estimate, and the
estimate is below the size of a range that spans a pdx group. -/
theorem staging_arith (spfn epfn W : Nat) (he : epfn < 2 ^ 52) (hW : W % 2 ^ 19 = 0)
    (hgrp : (spfn + 2 ^ 16 - 1) / 2 ^ 16 < (epfn - 1) / 2 ^ 16) :
    (8 * (roundup epfn (2 ^ 18) - rounddown spfn (2 ^ 18))
        + 4 * (min (roundup epfn (2 ^ 19)) W - rounddown spfn (2 ^ 19))
        + 32 * (roundup epfn (2 ^ 16) - rounddown spfn (2 ^ 16))) / 2 ^ 12
      = 512 * ((epfn + 2 ^ 16 - 1) / 2 ^ 16 - spfn / 2 ^ 16)
        + 512 * ((roundup epfn (2 ^ 18) - rounddown spfn (2 ^ 18)) / 2 ^ 18)
        + 512 * ((min (roundup epfn (2 ^ 19)) W - rounddown spfn (2 ^ 19)) / 2 ^ 19) ∧
    512 * ((epfn + 2 ^ 16 - 1) / 2 ^ 16 - spfn / 2 ^ 16)
        + 512 * ((roundup epfn (2 ^ 18) - rounddown spfn (2 ^ 18)) / 2 ^ 18)
        + 512 * ((min (roundup epfn (2 ^ 19)) W - rounddown spfn (2 ^ 19)) / 2 ^ 19)
      < epfn - spfn := by
  unfold roundup rounddown
  have hn : spfn + 2 ^ 16 < epfn := by omega
  clear hgrp
  have p16 : spfn < spfn / 2 ^ 16 * 2 ^ 16 + 2 ^ 16 := by omega
  have q16 : (epfn + 2 ^ 16 - 1) / 2 ^ 16 * 2 ^ 16 < epfn + 2 ^ 16 := by omega
  have p18 : spfn < spfn / 2 ^ 18 * 2 ^ 18 + 2 ^ 18 := by omega
  have q18 : (epfn + 2 ^ 18 - 1) / 2 ^ 18 * 2 ^ 18 < epfn + 2 ^ 18 := by omega
  have p19 : spfn < spfn / 2 ^ 19 * 2 ^ 19 + 2 ^ 19 := by omega
  have q19 : (epfn + 2 ^ 19 - 1) / 2 ^ 19 * 2 ^ 19 < epfn + 2 ^ 19 := by omega
  generalize spfn / 2 ^ 16 = a16 at p16 ⊢
  generalize (epfn + 2 ^ 16 - 1) / 2 ^ 16 = b16 at q16 ⊢
  generalize spfn / 2 ^ 18 = a18 at p18 ⊢
  generalize (epfn + 2 ^ 18 - 1) / 2 ^ 18 = b18 at q18 ⊢
  generalize spfn / 2 ^ 19 = a19 at p19 ⊢
  generalize (epfn + 2 ^ 19 - 1) / 2 ^ 19 = b19 at q19 ⊢
  obtain ⟨w, hw⟩ : ∃ w, W = w * 2 ^ 19 := ⟨W / 2 ^ 19, by omega⟩
  subst hw
  clear hW
  have hmin : min (b19 * 2 ^ 19) (w * 2 ^ 19) = min b19 w * 2 ^ 19 := by
    rcases Nat.le_total b19 w with h | h
    · rw [Nat.min_eq_left h, Nat.min_eq_left (Nat.mul_le_mul_right _ h)]
    · rw [Nat.min_eq_right h, Nat.min_eq_right (Nat.mul_le_mul_right _ h)]
  have hm : min b19 w * 2 ^ 19 ≤ b19 * 2 ^ 19 := Nat.mul_le_mul_right _ (Nat.min_le_left _ _)
  rw [hmin]
  generalize min b19 w = m19 at hm ⊢
  rw [← Nat.sub_mul, ← Nat.sub_mul, ← Nat.sub_mul, Nat.mul_div_cancel _ (by decide : 0 < 2 ^ 18),
    Nat.mul_div_cancel _ (by decide : 0 < 2 ^ 19)]
  have x16 : (b16 - a16) * 2 ^ 16 < (epfn - spfn) + 2 ^ 17 := by
    rw [Nat.sub_mul]
    omega
  have x18 : (b18 - a18) * 2 ^ 18 < (epfn - spfn) + 2 ^ 19 := by
    rw [Nat.sub_mul]
    omega
  have x19 : (m19 - a19) * 2 ^ 19 < (epfn - spfn) + 2 ^ 20 := by
    rw [Nat.sub_mul]
    omega
  have hn2 : 2 ^ 16 < epfn - spfn := by omega
  generalize epfn - spfn = n at x16 x18 x19 hn2 ⊢
  generalize b16 - a16 = x at x16 ⊢
  generalize b18 - a18 = y at x18 ⊢
  generalize m19 - a19 = z at x19 ⊢
  clear p16 q16 p18 q18 p19 q19 hm hmin hn he
  constructor
  · have e : 8 * (y * 2 ^ 18) + 4 * (z * 2 ^ 19) + 32 * (x * 2 ^ 16)
        = (512 * x + 512 * y + 512 * z) * 2 ^ 12 := by ring
    rw [e, Nat.mul_div_cancel _ (by decide : 0 < 2 ^ 12)]
  · omega

/-- What the tests of `mem_hotadd_check` before the estimate give for the
identity pdx map and pdx groups of `2 ^ 16` frames. -/
theorem mem_hotadd_range_ok_group (cfg : Config) (hpdx : ∀ x, cfg.pfn_to_pdx x = x)
    (hG : cfg.PDX_GROUP_COUNT = 2 ^ 16) (hfr : cfg.FRAMETABLE_NR < 2 ^ 52) (bm : Bitmap)
    (spfn epfn : Nat) (hok : mem_hotadd_range_ok cfg bm spfn epfn) :
    spfn < epfn ∧ epfn < 2 ^ 52 ∧ epfn ≤ cfg.FRAMETABLE_NR ∧
      (spfn + 2 ^ 16 - 1) / 2 ^ 16 < (epfn - 1) / 2 ^ 16 := by
  unfold mem_hotadd_range_ok at hok
  simp only [] at hok
  obtain ⟨h1, h2, _, _, h5, _, _⟩ := hok
  rw [hpdx] at h2
  have hlt : spfn < epfn := Nat.lt_of_not_ge h1
  have he : epfn < 2 ^ 52 := by omega
  refine ⟨hlt, he, Nat.le_of_not_gt h2, ?_⟩
  rw [hpdx, hpdx, hG] at h5
  have e1 : sub64 (add64 spfn (2 ^ 16)) 1 = spfn + 2 ^ 16 - 1 := by
    rw [add64_small _ _ (by omega), sub64_of_le _ _ (by omega) (by omega)]
  rw [e1, and_not_low_mask _ 16 (by omega) (by decide),
    and_not_low_mask _ 16 (by omega) (by decide),
    Nat.mul_div_cancel _ (by decide : 0 < 2 ^ 16),
    Nat.mul_div_cancel _ (by decide : 0 < 2 ^ 16)] at h5
  exact Nat.lt_of_not_ge h5

/-- C33: for the identity pdx map, 32 bytes per `struct page_info`, pdx
groups of `2 ^ 16` frames, a frame table for fewer than `2 ^ 52` frames that
lies within the address space with two pdx groups to spare, and a compat M2P
window of a whole number of 2 MiB chunks: on a range that `mem_hotadd_check` accepts, every call of
`alloc_hotadd_mfn` by `extend_frame_table` and by `setup_m2p_table` (with
`setup_compat_m2p_table`) in `memory_add` finds `cur ≥ spfn` and `cur + 512 <
epfn`, and the frames taken, `cur - spfn`, never exceed the estimate `length
>> PAGE_SHIFT` of `mem_hotadd_check`. -/
theorem hotadd_allocations_within_estimate (lay : Layout) (cfg : Config) (env : MmEnv)
    (st st2 : State Mach) (spfn epfn : Nat)
    (hpdx : ∀ x, cfg.pfn_to_pdx x = x) (hsz : cfg.sizeof_page_info = 32)
    (hG : cfg.PDX_GROUP_COUNT = 2 ^ 16) (hfr : cfg.FRAMETABLE_NR < 2 ^ 52)
    (hft : lay.FRAMETABLE_VIRT_START + (cfg.FRAMETABLE_NR + 2 ^ 17) * 32 ≤ 2 ^ 64)
    (hW : cfg.compat_mpt_bytes % 2 ^ 21 = 0) (hW2 : cfg.compat_mpt_bytes < 2 ^ 54)
    (hcheck : mem_hotadd_check cfg st.pdx_group_valid spfn epfn = 1) :
    (∀ mfn, PtEvent.alloc_hotadd_mfn mfn ∈ (hotadd_frametable_run lay cfg env st spfn epfn).trace →
      spfn ≤ mfn ∧ mfn + 512 < epfn) ∧
    (∀ mfn, PtEvent.alloc_hotadd_mfn mfn ∈ (hotadd_m2p_run lay cfg env st st2 spfn epfn).trace →
      spfn ≤ mfn ∧ mfn + 512 < epfn) ∧
    spfn ≤ (hotadd_frametable_run lay cfg env st spfn epfn).info.cur ∧
    (hotadd_frametable_run lay cfg env st spfn epfn).info.cur - spfn
      ≤ mem_hotadd_length cfg spfn epfn >>> PAGE_SHIFT ∧
    spfn ≤ (hotadd_m2p_run lay cfg env st st2 spfn epfn).info.cur ∧
    (hotadd_m2p_run lay cfg env st st2 spfn epfn).info.cur - spfn
      ≤ mem_hotadd_length cfg spfn epfn >>> PAGE_SHIFT ∧
    mem_hotadd_length cfg spfn epfn >>> PAGE_SHIFT < epfn - spfn := by
  obtain ⟨hok, _⟩ := (mem_hotadd_check_eq_one_iff cfg st.pdx_group_valid spfn epfn).1 hcheck
  obtain ⟨hlt, he, hen, hgrp⟩ := mem_hotadd_range_ok_group cfg hpdx hG hfr st.pdx_group_valid
    spfn epfn hok
  have hWq : (cfg.compat_mpt_bytes >>> 2) % 2 ^ 19 = 0 := by
    rw [Nat.shiftRight_eq_div_pow]
    omega
  have hWb : cfg.compat_mpt_bytes >>> 2 < 2 ^ 52 := by
    rw [Nat.shiftRight_eq_div_pow]
    omega
  have hlen := mem_hotadd_length_value cfg hpdx hsz hG spfn epfn hlt he hWb
  obtain ⟨ar1, ar2⟩ := staging_arith spfn epfn (cfg.compat_mpt_bytes >>> 2) he hWq hgrp
  have hL : mem_hotadd_length cfg spfn epfn >>> PAGE_SHIFT
      = 512 * ((epfn + 2 ^ 16 - 1) / 2 ^ 16 - spfn / 2 ^ 16)
        + 512 * ((roundup epfn (2 ^ 18) - rounddown spfn (2 ^ 18)) / 2 ^ 18)
        + 512 * ((min (roundup epfn (2 ^ 19)) (cfg.compat_mpt_bytes >>> 2) -
            rounddown spfn (2 ^ 19)) / 2 ^ 19) := by
    rw [hlen, Nat.shiftRight_eq_div_pow]
    exact ar1
  rw [hL]
  obtain ⟨f1, f2⟩ := extend_frame_table_staging lay cfg env st
    { spfn := spfn, epfn := epfn, cur := spfn } hpdx hsz hG (Nat.le_of_lt hlt) (Nat.le_refl _)
    (by show spfn < 2 ^ 52; omega) hfr hen hft
  have f3 : (hotadd_frametable_run lay cfg env st spfn epfn).info.cur
      ≤ spfn + 512 * ((epfn + 2 ^ 16 - 1) / 2 ^ 16 - spfn / 2 ^ 16) := f2
  have f4 : staging_inv spfn epfn (hotadd_frametable_run lay cfg env st spfn epfn) := f1
  clear f1 f2
  obtain ⟨i1, i2, i3, i4⟩ := f4
  have m0 := setup_m2p_table_staging lay cfg env st2
    (hotadd_frametable_run lay cfg env st spfn epfn).info
  rw [i1, i2] at m0
  obtain ⟨m1, m2⟩ := m0 (Nat.le_of_lt hlt) i3 (by omega) he hWq hWb
  have m3 : (hotadd_m2p_run lay cfg env st st2 spfn epfn).info.cur
      ≤ (hotadd_frametable_run lay cfg env st spfn epfn).info.cur
        + 512 * ((roundup epfn (2 ^ 18) - rounddown spfn (2 ^ 18)) / 2 ^ 18)
        + 512 * ((min (roundup epfn (2 ^ 19)) (cfg.compat_mpt_bytes >>> 2) -
            rounddown spfn (2 ^ 19)) / 2 ^ 19) := m2
  have m4 : staging_inv spfn epfn (hotadd_m2p_run lay cfg env st st2 spfn epfn) := m1
  clear m1 m2
  obtain ⟨j1, j2, j3, j4⟩ := m4
  generalize (hotadd_frametable_run lay cfg env st spfn epfn).info.cur = c1 at f3 i3 i4 m3
  generalize (hotadd_m2p_run lay cfg env st st2 spfn epfn).info.cur = c2 at m3 j3 j4
  generalize (hotadd_frametable_run lay cfg env st spfn epfn).trace = t1 at i4
  generalize (hotadd_m2p_run lay cfg env st st2 spfn epfn).trace = t2 at j4
  generalize 512 * ((epfn + 2 ^ 16 - 1) / 2 ^ 16 - spfn / 2 ^ 16) = F at f3 ar2 ⊢
  generalize 512 * ((roundup epfn (2 ^ 18) - rounddown spfn (2 ^ 18)) / 2 ^ 18) = A at m3 ar2 ⊢
  generalize 512 * ((min (roundup epfn (2 ^ 19)) (cfg.compat_mpt_bytes >>> 2) -
    rounddown spfn (2 ^ 19)) / 2 ^ 19) = C at m3 ar2 ⊢
  clear hL ar1 hlen hgrp hWq hWb hok hcheck i1 i2 j1 j2
  refine ⟨?_, ?_, i3, by omega, j3, by omega, ar2⟩
  · intro mfn hm
    have := i4 mfn hm
    omega
  · intro mfn hm
    have := j4 mfn hm
    omega

/-- C33, for the hot-add of `[0x100000, 0x130000)` to the machine with 4 GiB
of memory: `setup_m2p_table` takes the block from `0x100600` for the first
chunk of the M2P table, within the range. -/
theorem hotadd_allocations_within_estimate_witness :
    PtEvent.alloc_hotadd_mfn 0x100600 ∈
      (hotadd_m2p_run lay0 cfg0 env0 st_4G_mach (st_hotadd 0x100000 0x130000)
        0x100000 0x130000).trace ∧
    0x100000 ≤ 0x100600 ∧ 0x100600 + 512 < 0x130000 :=
  ⟨by decide,
   (hotadd_allocations_within_estimate lay0 cfg0 env0 st_4G_mach (st_hotadd 0x100000 0x130000)
    0x100000 0x130000 (fun _ => rfl) rfl rfl (by decide) (by decide) (by decide) (by decide)
    (by decide)).2.1 0x100600 (by decide)⟩

/-- C32, for the hot-add of `[0x7fc0000, 0x8040000)` to the machine with
4 GiB of memory, whose two chunks of the M2P table, those of the frames
`0x7fc0000` and `0x8000000`, lie on either side of a 1 GiB boundary of the
read-only window.  `setup_m2p_table` returns 0 and writes two L2 entries,
511 and 0 of the table in frame `0x1001`.  Entry 0 was present before, as the
slot of the chunk of frame 0, which is outside the range; it is the slot of
neither chunk of the range, before or after the run: the L3 entry that covers
the chunk of frame `0x8000000` is not present after the run.  The entry is
not what it was: it names frame `0x7fc1200`. -/
theorem setup_m2p_table_overwrites_mapped_slot :
    (setup_run_4G 0x7FC0000 0x8040000).ret = 0 ∧
    l2e_writes (setup_run_4G 0x7FC0000 0x8040000).trace = [(0x1001, 511), (0x1001, 0)] ∧
    ((st_hotadd 0x7FC0000 0x8040000).mach.pt 0x1001 0).flags &&& _PAGE_PRESENT ≠ 0 ∧
    m2p_chunk_slot lay0 (st_hotadd 0x7FC0000 0x8040000).mach 0 0x1001 0 ∧
    ¬ m2p_chunk_slot lay0 (st_hotadd 0x7FC0000 0x8040000).mach 0x7FC0000 0x1001 0 ∧
    ¬ m2p_chunk_slot lay0 (st_hotadd 0x7FC0000 0x8040000).mach 0x8000000 0x1001 0 ∧
    ¬ m2p_chunk_slot lay0 (setup_run_4G 0x7FC0000 0x8040000).mach 0x7FC0000 0x1001 0 ∧
    ¬ m2p_chunk_slot lay0 (setup_run_4G 0x7FC0000 0x8040000).mach 0x8000000 0x1001 0 ∧
    ((setup_run_4G 0x7FC0000 0x8040000).mach.pt 0x1000
      (l3_table_offset (add64 lay0.RO_MPT_VIRT_START (mul64 0x8000000 8)))).flags
      &&& _PAGE_PRESENT = 0 ∧
    (st_hotadd 0x7FC0000 0x8040000).mach.pt 0x1001 0
      = { pfn := 0x400, flags := _PAGE_PSE ||| _PAGE_USER ||| _PAGE_PRESENT } ∧
    (setup_run_4G 0x7FC0000 0x8040000).mach.pt 0x1001 0
      = { pfn := 0x7FC1200, flags := _PAGE_PSE ||| _PAGE_USER ||| _PAGE_PRESENT } := by
  refine ⟨?_, ?_, ?_, ?_, ?_, ?_, ?_, ?_, ?_, ?_, ?_⟩ <;> decide

theorem boot_va (lay : Layout) (i : Nat) (hi : i < 2 ^ 18)
    (ha : lay.RO_MPT_VIRT_START % 2 ^ 39 = 0) (hl : lay.RO_MPT_VIRT_START < 2 ^ 64) :
    l3_table_offset (add64 lay.RO_MPT_VIRT_START (shl64 i L2_PAGETABLE_SHIFT)) = i / 512 ∧
    l2_table_offset (add64 lay.RO_MPT_VIRT_START (shl64 i L2_PAGETABLE_SHIFT)) = i % 512 := by
  have h1 : shl64 i L2_PAGETABLE_SHIFT = i * 2 ^ 21 := by
    unfold shl64
    rw [Nat.shiftLeft_eq]
    have : L2_PAGETABLE_SHIFT = 21 := rfl
    rw [this]
    omega
  have h2 : add64 lay.RO_MPT_VIRT_START (i * 2 ^ 21) = lay.RO_MPT_VIRT_START + i * 2 ^ 21 := by
    unfold add64
    omega
  rw [h1, h2, l3_table_offset_eq, l2_table_offset_eq]
  generalize lay.RO_MPT_VIRT_START = R at ha hl
  constructor <;> omega

theorem boot_rwva (lay : Layout) (i : Nat) (hi : i < 2 ^ 18)
    (hl : lay.RDWR_MPT_VIRT_START + 2 ^ 39 ≤ 2 ^ 64) :
    add64 lay.RDWR_MPT_VIRT_START (shl64 i L2_PAGETABLE_SHIFT)
      = lay.RDWR_MPT_VIRT_START + i * 2 ^ 21 := by
  have h1 : shl64 i L2_PAGETABLE_SHIFT = i * 2 ^ 21 := by
    unfold shl64
    rw [Nat.shiftLeft_eq]
    have : L2_PAGETABLE_SHIFT = 21 := rfl
    rw [this]
    omega
  rw [h1]
  unfold add64
  omega

theorem pl2e_page_aligned_some (t idx : Nat) (h : idx ≤ 512) :
    pl2e_page_aligned (some (t, idx)) = true ↔ idx % 512 = 0 := by
  unfold pl2e_page_aligned
  simp only [decide_eq_true_eq]
  rw [not64_PAGE_MASK, PAGE_SIZE_eq]
  have h1 : mul64 idx 8 = idx * 8 := by
    unfold mul64
    omega
  rw [h1, Nat.and_pow_two_sub_one_eq_mod]
  omega

theorem m2p_chunk_covered_iff (lay : Layout) (pt : PageTables) (l3_ro_mpt j : Nat)
    (hj : j < 2 ^ 18) (ha : lay.RO_MPT_VIRT_START % 2 ^ 39 = 0)
    (hl : lay.RO_MPT_VIRT_START < 2 ^ 64) :
    m2p_chunk_covered lay pt l3_ro_mpt j ↔ boot_covered pt l3_ro_mpt j := by
  unfold m2p_chunk_covered boot_covered
  obtain ⟨h3, h2⟩ := boot_va lay j hj ha hl
  rw [h3, h2]

theorem m2p_chunk_in_superpage_iff (lay : Layout) (pt : PageTables) (l3_ro_mpt j : Nat)
    (hj : j < 2 ^ 18) (ha : lay.RO_MPT_VIRT_START % 2 ^ 39 = 0)
    (hl : lay.RO_MPT_VIRT_START < 2 ^ 64) :
    m2p_chunk_in_superpage lay pt l3_ro_mpt j ↔
      ((pt l3_ro_mpt (j / 512)).flags &&& _PAGE_PRESENT ≠ 0 ∧
        (pt l3_ro_mpt (j / 512)).flags &&& _PAGE_PSE ≠ 0) := by
  unfold m2p_chunk_in_superpage
  obtain ⟨h3, _⟩ := boot_va lay j hj ha hl
  rw [h3]

/-- The count of holes: at the end of the loop `holes` is the start value
plus the number of chunks from `k` on without a valid frame. -/
theorem paging_init_holes_loop_spec (env : BootEnv) (cfg : Config) (i : Nat) :
    ∀ (fuel k holes mf : Nat), 512 - k ≤ fuel → k ≤ 512 →
      holes ≤ (paging_init_holes_loop env cfg i fuel k holes mf).1 ∧
      (paging_init_holes_loop env cfg i fuel k holes mf).1 ≤ holes + (512 - k) ∧
      ((paging_init_holes_loop env cfg i fuel k holes mf).1 = holes + (512 - k) →
        ∀ k2, k ≤ k2 → k2 < 512 → paging_init_probe env cfg (add64 i k2) = none) ∧
      ((paging_init_holes_loop env cfg i fuel k holes mf).1 = holes →
        ∀ k2, k ≤ k2 → k2 < 512 → paging_init_probe env cfg (add64 i k2) ≠ none) := by
  intro fuel
  induction fuel with
  | zero =>
    intro k holes mf hf hk
    unfold paging_init_holes_loop
    refine ⟨Nat.le_refl _, Nat.le_add_right _ _, ?_, ?_⟩
    · intro _ k2 h1 h2; omega
    · intro _ k2 h1 h2; omega
  | succ fuel ih =>
    intro k holes mf hf hk
    unfold paging_init_holes_loop
    rw [shl64_one_order]
    by_cases h : k < 512
    · rw [if_pos h]
      cases hp : paging_init_probe env cfg (add64 i k) with
      | none =>
        simp only []
        obtain ⟨a, b, c, d⟩ := ih (k + 1) (holes + 1) mf (by omega) (by omega)
        refine ⟨by omega, by omega, ?_, ?_⟩
        · intro he k2 h1 h2
          rcases Nat.eq_or_lt_of_le h1 with h3 | h3
          · subst h3; exact hp
          · exact c (by omega) k2 h3 h2
        · intro he
          omega
      | some mfn =>
        simp only []
        obtain ⟨a, b, c, d⟩ := ih (k + 1) holes
          (if k = holes then env.MEMF_node (env.mfn_to_nid mfn) else mf) (by omega) (by omega)
        refine ⟨a, by omega, ?_, ?_⟩
        · intro he
          omega
        · intro he k2 h1 h2
          rcases Nat.eq_or_lt_of_le h1 with h3 | h3
          · subst h3
            rw [hp]
            exact Option.some_ne_none _
          · exact d he k2 h3 h2
    · rw [if_neg h]
      refine ⟨Nat.le_refl _, Nat.le_add_right _ _, ?_, ?_⟩
      · intro _ k2 h1 h2; omega
      · intro _ k2 h1 h2; omega

theorem boot_covered_frame (pt pt2 : PageTables) (l3 j : Nat)
    (h1 : pt2 l3 (j / 512) = pt l3 (j / 512))
    (h2 : l3e_names_table (pt l3 (j / 512)) →
      pt2 (pt l3 (j / 512)).pfn (j % 512) = pt (pt l3 (j / 512)).pfn (j % 512)) :
    boot_covered pt2 l3 j ↔ boot_covered pt l3 j := by
  unfold boot_covered
  rw [h1]
  by_cases hp : (pt l3 (j / 512)).flags &&& _PAGE_PRESENT ≠ 0
  · by_cases hs : (pt l3 (j / 512)).flags &&& _PAGE_PSE = 0
    · rw [h2 ⟨hp, hs⟩]
    · constructor
      · intro _; exact ⟨hp, Or.inl hs⟩
      · intro _; exact ⟨hp, Or.inl hs⟩
  · constructor
    · intro h; exact absurd h.1 hp
    · intro h; exact absurd h.1 hp

theorem page_filled_mono (tr tr2 : List BootEvent) (virt pg len : Nat)
    (h1 : ∀ a v l, BootEvent.memset a v l ∈ tr → BootEvent.memset a v l ∈ tr2)
    (h2 : ∀ v m k f, BootEvent.map_pages_to_xen v m k f ∈ tr →
      BootEvent.map_pages_to_xen v m k f ∈ tr2)
    (h : page_filled tr virt pg len) : page_filled tr2 virt pg len := by
  obtain ⟨f, c1, c2⟩ := h
  exact ⟨f, h2 _ _ _ _ c1, h1 _ _ _ c2⟩

theorem boot_leaf_filled_trace (lay : Layout) (pt : PageTables) (l3 : Nat)
    (tr tr2 : List BootEvent) (j : Nat)
    (h1 : ∀ a v l, BootEvent.memset a v l ∈ tr → BootEvent.memset a v l ∈ tr2)
    (h2 : ∀ v m k f, BootEvent.map_pages_to_xen v m k f ∈ tr →
      BootEvent.map_pages_to_xen v m k f ∈ tr2)
    (h : boot_leaf_filled lay pt l3 tr j) : boot_leaf_filled lay pt l3 tr2 j := by
  obtain ⟨c1, c2⟩ := h
  refine ⟨c1, ?_⟩
  rcases c2 with ⟨a, b⟩ | ⟨a, b, c⟩
  · exact Or.inl ⟨a, page_filled_mono tr tr2 _ _ _ h1 h2 b⟩
  · exact Or.inr ⟨a, b, page_filled_mono tr tr2 _ _ _ h1 h2 c⟩

theorem boot_leaf_filled_frame (lay : Layout) (pt pt2 : PageTables) (l3 : Nat)
    (tr : List BootEvent) (j : Nat)
    (h1 : pt2 l3 (j / 512) = pt l3 (j / 512))
    (h2 : l3e_names_table (pt l3 (j / 512)) →
      pt2 (pt l3 (j / 512)).pfn (j % 512) = pt (pt l3 (j / 512)).pfn (j % 512))
    (h : boot_leaf_filled lay pt l3 tr j) : boot_leaf_filled lay pt2 l3 tr j := by
  unfold boot_leaf_filled at h ⊢
  rw [h1]
  obtain ⟨c1, c2⟩ := h
  refine ⟨c1, ?_⟩
  rcases c2 with c | ⟨a, b⟩
  · exact Or.inl c
  · rw [h2 ⟨c1, a⟩]
    exact Or.inr ⟨a, b⟩

theorem boot_leaf_filled_covered (lay : Layout) (pt : PageTables) (l3 : Nat)
    (tr : List BootEvent) (j : Nat) (h : boot_leaf_filled lay pt l3 tr j) :
    boot_covered pt l3 j := by
  obtain ⟨c1, c2⟩ := h
  refine ⟨c1, ?_⟩
  rcases c2 with c | ⟨_, b, _⟩
  · exact Or.inl c.1
  · exact Or.inr b

/-- A turn of the loop keeps the invariant when it moves `i` forward, writes
the L3 entry of the gigabyte of `i` only at its first chunk, writes no L2
entry of a chunk below `i`, and deals with the chunks from `i` to the new
`i`. -/
theorem boot_inv_next (env : BootEnv) (lay : Layout) (cfg : Config) (l3 n : Nat)
    (ha : boot_assumptions env lay l3) (s s2 : BootState)
    (hinv : boot_inv env lay cfg l3 n s)
    (h_i : s.i < s2.i) (h_n : s2.i ≤ n)
    (h_F1 : ∀ g, (g ≠ s.i / 512 ∨ s.i % 512 ≠ 0) → s2.pt l3 g = s.pt l3 g)
    (h_F2 : ∀ g idx, l3e_names_table (s.pt l3 g) → (g ≠ s.i / 512 ∨ idx < s.i % 512) →
      s2.pt (s.pt l3 g).pfn idx = s.pt (s.pt l3 g).pfn idx)
    (h_new : ∀ j, s.i ≤ j → j < s2.i →
      (paging_init_probe env cfg j = none → ¬ boot_covered s2.pt l3 j) ∧
      (paging_init_probe env cfg j ≠ none →
        boot_leaf_filled lay s2.pt l3 s2.trace j))
    (h_trace : ∀ e, e ∈ s.trace → e ∈ s2.trace)
    (h_mapped : ∀ j, j < n → m2p_chunk_mapped lay s2.trace j →
      m2p_chunk_mapped lay s.trace j ∨
        (s.i ≤ j ∧ j < s2.i ∧ paging_init_probe env cfg j ≠ none))
    (h_sp : s.i % 512 = 0 → (s2.pt l3 (s.i / 512)).flags &&& _PAGE_PSE ≠ 0 →
      env.cpu_has_page1gb = true ∧
        ∀ k, k < 512 → paging_init_probe env cfg (512 * (s.i / 512) + k) ≠ none)
    (h_cursor0 : s2.i % 512 = 0 → pl2e_page_aligned s2.pl2e = true)
    (h_cursor : s2.i % 512 ≠ 0 → ∃ t, s2.pl2e = some (t, s2.i % 512) ∧
      s2.pt l3 (s2.i / 512) = { pfn := t, flags := lay.PAGE_HYPERVISOR_RO ||| _PAGE_USER } ∧
      ∀ idx, s2.i % 512 ≤ idx → s2.pt t idx = pte_empty)
    (h_calls : s.pagetable_calls ≤ s2.pagetable_calls)
    (h_tab : s.i % 512 = 0 → l3e_names_table (s2.pt l3 (s.i / 512)) →
      ∃ k, s.pagetable_calls ≤ k ∧ k < s2.pagetable_calls ∧
        env.alloc_mapped_pagetable k = some (s2.pt l3 (s.i / 512)).pfn) :
    boot_inv env lay cfg l3 n s2 := by
  have hold : ∀ g, (g ≠ s.i / 512 ∨ s.i % 512 ≠ 0) → l3e_names_table (s2.pt l3 g) →
      ∃ k, k < s.pagetable_calls ∧ env.alloc_mapped_pagetable k = some (s2.pt l3 g).pfn := by
    intro g hg hn
    rw [h_F1 g hg] at hn ⊢
    exact hinv.tables g hn
  refine ⟨h_n, ?_, ?_, ?_, ?_, ?_, h_cursor0, h_cursor, ?_, ?_⟩
  · intro g hg
    rw [h_F1 g (Or.inl (by omega))]
    exact hinv.l3_empty g (by omega)
  · intro j hj hp
    by_cases hlt : j < s.i
    · rw [boot_covered_frame s.pt s2.pt l3 j (h_F1 _ (by omega))
        (fun hn => h_F2 _ _ hn (by omega))]
      exact hinv.hole_uncovered j hlt hp
    · exact (h_new j (by omega) hj).1 hp
  · intro j hj hp
    by_cases hlt : j < s.i
    · refine boot_leaf_filled_frame lay s.pt s2.pt l3 _ j (h_F1 _ (by omega))
        (fun hn => h_F2 _ _ hn (by omega)) ?_
      exact boot_leaf_filled_trace lay s.pt l3 s.trace _ j (fun _ _ _ h => h_trace _ h)
        (fun _ _ _ _ h => h_trace _ h) (hinv.valid_covered j hlt hp)
    · exact (h_new j (by omega) hj).2 hp
  · intro g hg
    by_cases hc : g ≠ s.i / 512 ∨ s.i % 512 ≠ 0
    · rw [h_F1 g hc] at hg
      exact hinv.superpage_ok g hg
    · have h1 : g = s.i / 512 := by
        by_contra hne
        exact hc (Or.inl hne)
      have h2 : s.i % 512 = 0 := by
        by_contra hne
        exact hc (Or.inr hne)
      subst h1
      exact h_sp h2 hg
  · intro j hj hm
    rcases h_mapped j hj hm with h | ⟨h1, h2, h3⟩
    · obtain ⟨a, b⟩ := hinv.mapped_ok j hj h
      exact ⟨by omega, b⟩
    · exact ⟨h2, h3⟩
  · intro g hn
    by_cases hc : g ≠ s.i / 512 ∨ s.i % 512 ≠ 0
    · obtain ⟨k, k1, k2⟩ := hold g hc hn
      exact ⟨k, by omega, k2⟩
    · have h1 : g = s.i / 512 := by
        by_contra hne
        exact hc (Or.inl hne)
      have h2 : s.i % 512 = 0 := by
        by_contra hne
        exact hc (Or.inr hne)
      subst h1
      obtain ⟨k, _, k1, k2⟩ := h_tab h2 hn
      exact ⟨k, k1, k2⟩
  · intro g g2 hne hn hn2 heq
    by_cases hc : g ≠ s.i / 512 ∨ s.i % 512 ≠ 0
    · by_cases hc2 : g2 ≠ s.i / 512 ∨ s.i % 512 ≠ 0
      · have e1 := h_F1 g hc
        have e2 := h_F1 g2 hc2
        rw [e1] at hn heq
        rw [e2] at hn2 heq
        exact hinv.distinct g g2 hne hn hn2 heq
      · have h1 : g2 = s.i / 512 := by
          by_contra hne
          exact hc2 (Or.inl hne)
        have h2 : s.i % 512 = 0 := by
          by_contra hne
          exact hc2 (Or.inr hne)
        subst h1
        obtain ⟨k, k0, k1, k2⟩ := h_tab h2 hn2
        obtain ⟨k', k1', k2'⟩ := hold g hc hn
        rw [heq] at k2'
        have := ha.table_fresh k' k _ k2' k2
        omega
    · have h1 : g = s.i / 512 := by
        by_contra hne
        exact hc (Or.inl hne)
      have h2 : s.i % 512 = 0 := by
        by_contra hne
        exact hc (Or.inr hne)
      subst h1
      obtain ⟨k, k0, k1, k2⟩ := h_tab h2 hn
      obtain ⟨k', k1', k2'⟩ := hold g2 (Or.inl (Ne.symm hne)) hn2
      rw [← heq] at k2'
      have := ha.table_fresh k' k _ k2' k2
      omega

/-- The invariant of the loop does not read `memflags` or the count of calls
of `alloc_domheap_pages`, and of the trace only the mappings and fills. -/
theorem boot_inv_aux (env : BootEnv) (lay : Layout) (cfg : Config) (l3 n : Nat)
    (s : BootState) (mf dc : Nat) (tr : List BootEvent)
    (hinv : boot_inv env lay cfg l3 n s)
    (h1 : ∀ a v l, BootEvent.memset a v l ∈ tr ↔ BootEvent.memset a v l ∈ s.trace)
    (h2 : ∀ v m k f, BootEvent.map_pages_to_xen v m k f ∈ tr ↔
      BootEvent.map_pages_to_xen v m k f ∈ s.trace) :
    boot_inv env lay cfg l3 n { s with memflags := mf, domheap_calls := dc, trace := tr } := by
  refine ⟨hinv.i_le, hinv.l3_empty, hinv.hole_uncovered, ?_, hinv.superpage_ok, ?_,
    hinv.cursor0, hinv.cursor, hinv.tables, hinv.distinct⟩
  · intro j hj hp
    exact boot_leaf_filled_trace lay s.pt l3 s.trace tr j (fun a v l h => (h1 a v l).2 h)
      (fun v m k f h => (h2 v m k f).2 h) (hinv.valid_covered j hj hp)
  · intro j hj hm
    obtain ⟨v, m, k, f, c1, c2⟩ := hm
    exact hinv.mapped_ok j hj ⟨v, m, k, f, (h2 v m k f).1 c1, c2⟩

theorem boot_cursor_aligned (env : BootEnv) (lay : Layout) (cfg : Config) (l3 n : Nat)
    (s : BootState) (hinv : boot_inv env lay cfg l3 n s) :
    pl2e_page_aligned s.pl2e = true ↔ s.i % 512 = 0 := by
  constructor
  · intro h
    by_contra hne
    obtain ⟨t, e, _, _⟩ := hinv.cursor hne
    rw [e, pl2e_page_aligned_some t _ (by omega)] at h
    omega
  · exact hinv.cursor0

theorem boot_leaf_present (pg : Nat) :
    ({ pfn := pg, flags := _PAGE_PSE ||| _PAGE_USER ||| _PAGE_PRESENT } : pte).flags
      &&& _PAGE_PRESENT ≠ 0 := by
  show (_PAGE_PSE ||| _PAGE_USER ||| _PAGE_PRESENT) &&& _PAGE_PRESENT ≠ 0
  decide

theorem boot_leaf_pse (pg : Nat) :
    ({ pfn := pg, flags := _PAGE_PSE ||| _PAGE_USER ||| _PAGE_PRESENT } : pte).flags
      &&& _PAGE_PSE ≠ 0 := by
  show (_PAGE_PSE ||| _PAGE_USER ||| _PAGE_PRESENT) &&& _PAGE_PSE ≠ 0
  decide

theorem boot_empty_not_present : pte_empty.flags &&& _PAGE_PRESENT = 0 := by
  decide

theorem boot_empty_not_pse : pte_empty.flags &&& _PAGE_PSE = 0 := by
  decide

/-- A chunk without a valid frame, when `pl2e` stands inside an L2 table:
nothing is allocated or written and `pl2e` moves on. -/
theorem paging_init_chunk_hole_inside (env : BootEnv) (lay : Layout) (cfg : Config)
    (l3 n : Nat) (ha : boot_assumptions env lay l3) (hn : n ≤ 2 ^ 18) (s : BootState)
    (hinv : boot_inv env lay cfg l3 n s) (hi : s.i < n)
    (hp : paging_init_probe env cfg s.i = none) (hr : s.i % 512 ≠ 0) :
    (paging_init_chunk env lay cfg l3 s).1 = false ∧
    boot_inv env lay cfg l3 n (paging_init_chunk env lay cfg l3 s).2 ∧
    s.i < (paging_init_chunk env lay cfg l3 s).2.i := by
  obtain ⟨t, e1, e2, e3⟩ := hinv.cursor hr
  have hal : pl2e_page_aligned s.pl2e = false := by
    rw [← Bool.not_eq_true, boot_cursor_aligned env lay cfg l3 n s hinv]
    exact hr
  have hadd : add64 s.i 1 = s.i + 1 := by
    unfold add64
    omega
  have hres : paging_init_chunk env lay cfg l3 s
      = (false, { s with i := s.i + 1, pl2e := some (t, s.i % 512 + 1) }) := by
    unfold paging_init_chunk
    rw [e1] at hal
    simp only [hp, hal, e1, hadd, Option.isSome_none, Bool.false_and, Bool.false_eq_true,
      if_false]
  rw [hres]
  refine ⟨rfl, ?_, Nat.lt_succ_self _⟩
  have hm : (s.i + 1) % 512 = (s.i % 512 + 1) % 512 := by omega
  have hnt : l3e_names_table (s.pt l3 (s.i / 512)) := by
    rw [e2]
    exact ⟨ha.ro_present, ha.ro_not_pse⟩
  refine boot_inv_next env lay cfg l3 n ha s _ hinv (Nat.lt_succ_self _) hi
    (fun _ _ => rfl) (fun _ _ _ _ => rfl) ?_ (fun _ h => h) (fun _ _ h => Or.inl h)
    (fun h => absurd h hr) ?_ ?_ (Nat.le_refl _) (fun h => absurd h hr)
  · intro j h1 h2
    have hj : j = s.i := by
      have : j < s.i + 1 := h2
      omega
    subst hj
    refine ⟨fun _ => ?_, fun h => absurd hp h⟩
    intro hc
    have hc2 : boot_covered s.pt l3 s.i := hc
    unfold boot_covered at hc2
    rw [e2] at hc2
    rcases hc2.2 with h | h
    · exact h ha.ro_not_pse
    · have h5 : s.pt t (s.i % 512) = pte_empty := e3 _ (Nat.le_refl _)
      have h6 : (s.pt t (s.i % 512)).flags &&& _PAGE_PRESENT ≠ 0 := h
      rw [h5] at h6
      exact h6 boot_empty_not_present
  · intro h
    show pl2e_page_aligned (some (t, s.i % 512 + 1)) = true
    rw [pl2e_page_aligned_some t _ (by omega)]
    have : (s.i + 1) % 512 = 0 := h
    omega
  · intro h
    have h' : (s.i + 1) % 512 ≠ 0 := h
    refine ⟨t, ?_, ?_, ?_⟩
    · show some (t, s.i % 512 + 1) = some (t, (s.i + 1) % 512)
      have : (s.i + 1) % 512 = s.i % 512 + 1 := by omega
      rw [this]
    · show s.pt l3 ((s.i + 1) / 512) = _
      have : (s.i + 1) / 512 = s.i / 512 := by omega
      rw [this, e2]
    · intro idx hidx
      have : (s.i + 1) % 512 ≤ idx := hidx
      exact e3 idx (by omega)

/-- A chunk with a valid frame, when `pl2e` stands inside an L2 table: 2 MiB
are allocated, mapped and filled, and the entry at `pl2e` is written. -/
theorem paging_init_chunk_valid_inside (env : BootEnv) (lay : Layout) (cfg : Config)
    (l3 n : Nat) (ha : boot_assumptions env lay l3) (hn : n ≤ 2 ^ 18) (s : BootState)
    (hinv : boot_inv env lay cfg l3 n s) (hi : s.i < n) (mfn pg : Nat)
    (hp : paging_init_probe env cfg s.i = some mfn)
    (halloc : env.alloc_domheap_pages s.domheap_calls PAGETABLE_ORDER
      (env.MEMF_node (env.mfn_to_nid mfn)) = some pg)
    (hr : s.i % 512 ≠ 0) :
    (paging_init_chunk env lay cfg l3 s).1 = false ∧
    boot_inv env lay cfg l3 n (paging_init_chunk env lay cfg l3 s).2 ∧
    s.i < (paging_init_chunk env lay cfg l3 s).2.i := by
  obtain ⟨t, e1, e2, e3⟩ := hinv.cursor hr
  have hal : pl2e_page_aligned s.pl2e = false := by
    rw [← Bool.not_eq_true, boot_cursor_aligned env lay cfg l3 n s hinv]
    exact hr
  have hadd : add64 s.i 1 = s.i + 1 := by
    unfold add64
    omega
  have hrw := boot_rwva lay s.i (by omega) ha.rw_fits
  have hres : paging_init_chunk env lay cfg l3 s
      = (false, { s with
          i := s.i + 1, pl2e := some (t, s.i % 512 + 1),
          memflags := env.MEMF_node (env.mfn_to_nid mfn),
          pt := pte_write s.pt t (s.i % 512)
            { pfn := pg, flags := _PAGE_PSE ||| _PAGE_USER ||| _PAGE_PRESENT },
          domheap_calls := s.domheap_calls + 1,
          trace := s.trace ++ [BootEvent.alloc_domheap_pages PAGETABLE_ORDER
              (env.MEMF_node (env.mfn_to_nid mfn)) (some pg)] ++
            [BootEvent.map_pages_to_xen (lay.RDWR_MPT_VIRT_START + s.i * 2 ^ 21) pg
              512 cfg.PAGE_HYPERVISOR,
             BootEvent.memset (lay.RDWR_MPT_VIRT_START + s.i * 2 ^ 21) 0xFF (2 ^ 21)] ++
            [BootEvent.l2e_write t (s.i % 512)
              { pfn := pg, flags := _PAGE_PSE ||| _PAGE_USER ||| _PAGE_PRESENT }] }) := by
    unfold paging_init_chunk
    rw [e1] at hal
    simp only [hp, hal, e1, hadd, hrw, halloc, Option.isSome_some, Option.isNone_some,
      Bool.and_false, Bool.false_eq_true, if_false, if_true, shl64_one_order, shl64_one_21]
  rw [hres]
  refine ⟨rfl, ?_, Nat.lt_succ_self _⟩
  have hnt : l3e_names_table (s.pt l3 (s.i / 512)) := by
    rw [e2]
    exact ⟨ha.ro_present, ha.ro_not_pse⟩
  have htl3 : t ≠ l3 := by
    obtain ⟨k, _, k2⟩ := hinv.tables _ hnt
    rw [e2] at k2
    intro h
    rw [h] at k2
    exact ha.table_not_l3 k k2
  have hl3 : ∀ g, pte_write s.pt t (s.i % 512)
      { pfn := pg, flags := _PAGE_PSE ||| _PAGE_USER ||| _PAGE_PRESENT } l3 g = s.pt l3 g := by
    intro g
    unfold pte_write
    rw [if_neg]
    intro h
    exact htl3 h.1.symm
  refine boot_inv_next env lay cfg l3 n ha s _ hinv (Nat.lt_succ_self _) hi
    (fun g _ => hl3 g) ?_ ?_ ?_ ?_
    (fun h => absurd h hr) ?_ ?_ (Nat.le_refl _) (fun h => absurd h hr)
  · intro g idx hg hc
    show pte_write s.pt t (s.i % 512) _ _ idx = _
    unfold pte_write
    rw [if_neg]
    intro h
    rcases hc with hc | hc
    · have := hinv.distinct g (s.i / 512) hc hg hnt
      rw [e2] at this
      exact this h.1
    · omega
  · intro j h1 h2
    have hj : j = s.i := by
      have : j < s.i + 1 := h2
      omega
    subst hj
    refine ⟨fun h => ?_, fun _ => ?_⟩
    · rw [hp] at h
      exact absurd h (Option.some_ne_none _)
    · dsimp only []
      unfold boot_leaf_filled
      rw [hl3, e2]
      refine ⟨ha.ro_present, Or.inr ⟨ha.ro_not_pse, ?_⟩⟩
      dsimp only []
      have hw : pte_write s.pt t (s.i % 512)
          { pfn := pg, flags := _PAGE_PSE ||| _PAGE_USER ||| _PAGE_PRESENT } t (s.i % 512)
          = { pfn := pg, flags := _PAGE_PSE ||| _PAGE_USER ||| _PAGE_PRESENT } := by
        unfold pte_write
        rw [if_pos ⟨rfl, rfl⟩]
      rw [hw]
      refine ⟨boot_leaf_present pg, cfg.PAGE_HYPERVISOR, ?_, ?_⟩
      · simp
      · simp
  · intro e he
    simp only [List.mem_append]
    exact Or.inl (Or.inl (Or.inl he))
  · intro j hj hm
    obtain ⟨v, m, k, f, c1, c2, c3⟩ := hm
    have c1' : BootEvent.map_pages_to_xen v m k f ∈ s.trace ∨
        (v = lay.RDWR_MPT_VIRT_START + s.i * 2 ^ 21 ∧ k = 512) := by
      simp only [List.mem_append, List.mem_cons, List.mem_singleton, BootEvent.map_pages_to_xen.injEq,
        List.not_mem_nil, or_false, false_or, reduceCtorEq] at c1
      rcases c1 with c1 | c1
      · exact Or.inl c1
      · exact Or.inr ⟨c1.1, c1.2.2.1⟩
    rcases c1' with c | ⟨c4, c5⟩
    · exact Or.inl ⟨v, m, k, f, c, c2, c3⟩
    · right
      subst c4 c5
      have hj2 : j = s.i := by omega
      subst hj2
      refine ⟨Nat.le_refl _, Nat.lt_succ_self _, ?_⟩
      rw [hp]
      exact Option.some_ne_none _
  · intro h
    show pl2e_page_aligned (some (t, s.i % 512 + 1)) = true
    rw [pl2e_page_aligned_some t _ (by omega)]
    have : (s.i + 1) % 512 = 0 := h
    omega
  · intro h
    have h' : (s.i + 1) % 512 ≠ 0 := h
    refine ⟨t, ?_, ?_, ?_⟩
    · show some (t, s.i % 512 + 1) = some (t, (s.i + 1) % 512)
      have : (s.i + 1) % 512 = s.i % 512 + 1 := by omega
      rw [this]
    · show pte_write s.pt t (s.i % 512) _ l3 ((s.i + 1) / 512) = _
      have : (s.i + 1) / 512 = s.i / 512 := by omega
      rw [this, hl3, e2]
    · intro idx hidx
      have : (s.i + 1) % 512 ≤ idx := hidx
      show pte_write s.pt t (s.i % 512) _ t idx = _
      unfold pte_write
      rw [if_neg (by omega)]
      exact e3 idx (by omega)

/-- What a fresh L2 table means for the tables the L3 table names: the frame
that `alloc_mapped_pagetable` returns next is none of them, and not the L3
table. -/
theorem boot_fresh_table (env : BootEnv) (lay : Layout) (cfg : Config) (l3 n : Nat)
    (ha : boot_assumptions env lay l3) (s : BootState) (hinv : boot_inv env lay cfg l3 n s)
    (t : Nat) (ht : env.alloc_mapped_pagetable s.pagetable_calls = some t) :
    t ≠ l3 ∧ ∀ g, l3e_names_table (s.pt l3 g) → (s.pt l3 g).pfn ≠ t := by
  constructor
  · intro h
    rw [h] at ht
    exact ha.table_not_l3 _ ht
  · intro g hg h
    obtain ⟨k, k1, k2⟩ := hinv.tables g hg
    rw [h] at k2
    have := ha.table_fresh _ _ _ k2 ht
    omega

/-- A chunk without a valid frame, when `pl2e` stands at the start of a page:
a new L2 table is installed for the gigabyte and its first entry is left
empty. -/
theorem paging_init_chunk_hole_aligned (env : BootEnv) (lay : Layout) (cfg : Config)
    (l3 n : Nat) (ha : boot_assumptions env lay l3) (hn : n ≤ 2 ^ 18) (s : BootState)
    (hinv : boot_inv env lay cfg l3 n s) (hi : s.i < n) (t : Nat)
    (hp : paging_init_probe env cfg s.i = none)
    (ht : env.alloc_mapped_pagetable s.pagetable_calls = some t)
    (hr : s.i % 512 = 0) :
    (paging_init_chunk env lay cfg l3 s).1 = false ∧
    boot_inv env lay cfg l3 n (paging_init_chunk env lay cfg l3 s).2 ∧
    s.i < (paging_init_chunk env lay cfg l3 s).2.i := by
  have hal : pl2e_page_aligned s.pl2e = true := hinv.cursor0 hr
  have hadd : add64 s.i 1 = s.i + 1 := by
    unfold add64
    omega
  obtain ⟨hv3, hv2⟩ := boot_va lay s.i (by omega) ha.ro_aligned ha.ro_lt
  obtain ⟨htl3, hfresh⟩ := boot_fresh_table env lay cfg l3 n ha s hinv t ht
  have hres : paging_init_chunk env lay cfg l3 s
      = (false, { s with
          i := s.i + 1, pl2e := some (t, 1),
          pt := pte_write (fun f idx => if f = t then pte_empty else s.pt f idx) l3 (s.i / 512)
            { pfn := t, flags := lay.PAGE_HYPERVISOR_RO ||| _PAGE_USER },
          pagetable_calls := s.pagetable_calls + 1,
          asserts := s.asserts && decide (s.i % 512 = 0),
          trace := s.trace ++ [BootEvent.alloc_mapped_pagetable (some t),
            BootEvent.l3e_write (s.i / 512)
              { pfn := t, flags := lay.PAGE_HYPERVISOR_RO ||| _PAGE_USER }] }) := by
    unfold paging_init_chunk
    simp only [hp, hal, hadd, ht, hv3, hv2, Option.isSome_none, Bool.false_and,
      Bool.false_eq_true, if_false, if_true]
  rw [hres]
  refine ⟨rfl, ?_, Nat.lt_succ_self _⟩
  have hl3 : ∀ g, pte_write (fun f idx => if f = t then pte_empty else s.pt f idx) l3 (s.i / 512)
      { pfn := t, flags := lay.PAGE_HYPERVISOR_RO ||| _PAGE_USER } l3 g
        = if g = s.i / 512 then { pfn := t, flags := lay.PAGE_HYPERVISOR_RO ||| _PAGE_USER }
          else s.pt l3 g := by
    intro g
    unfold pte_write
    by_cases hg : g = s.i / 512
    · rw [if_pos ⟨rfl, hg⟩, if_pos hg]
    · rw [if_neg (fun h => hg h.2), if_neg hg]
      beta_reduce
      rw [if_neg (Ne.symm htl3)]
  have hlt : ∀ idx, pte_write (fun f idx => if f = t then pte_empty else s.pt f idx) l3 (s.i / 512)
      { pfn := t, flags := lay.PAGE_HYPERVISOR_RO ||| _PAGE_USER } t idx = pte_empty := by
    intro idx
    unfold pte_write
    rw [if_neg (fun h => htl3 h.1)]
    beta_reduce
    rw [if_pos rfl]
  have hdiv : (s.i + 1) / 512 = s.i / 512 := by omega
  have hmod : (s.i + 1) % 512 = 1 := by omega
  refine boot_inv_next env lay cfg l3 n ha s _ hinv (Nat.lt_succ_self _) hi
    ?_ ?_ ?_ (fun e he => List.mem_append_left _ he)
    ?_ ?_ ?_ ?_ (Nat.le_succ _) ?_
  · intro g hg
    dsimp only []
    rw [hl3, if_neg]
    rcases hg with hg | hg
    · exact hg
    · exact absurd hr hg
  · intro g idx hg hc
    dsimp only []
    unfold pte_write
    have h1 : (s.pt l3 g).pfn ≠ l3 := by
      obtain ⟨k, _, k2⟩ := hinv.tables g hg
      intro h
      rw [h] at k2
      exact ha.table_not_l3 _ k2
    rw [if_neg (fun h => h1 h.1)]
    beta_reduce
    rw [if_neg (hfresh g hg)]
  · intro j h1 h2
    have hj : j = s.i := by
      have : j < s.i + 1 := h2
      omega
    subst hj
    refine ⟨fun _ => ?_, fun h => absurd hp h⟩
    intro hc
    have hc2 : boot_covered (pte_write (fun f idx => if f = t then pte_empty else s.pt f idx)
      l3 (s.i / 512) { pfn := t, flags := lay.PAGE_HYPERVISOR_RO ||| _PAGE_USER }) l3 s.i := hc
    unfold boot_covered at hc2
    rw [hl3, if_pos rfl] at hc2
    rcases hc2.2 with h | h
    · exact h ha.ro_not_pse
    · have h6 : (pte_write (fun f idx => if f = t then pte_empty else s.pt f idx)
          l3 (s.i / 512) { pfn := t, flags := lay.PAGE_HYPERVISOR_RO ||| _PAGE_USER }
          t (s.i % 512)).flags &&& _PAGE_PRESENT ≠ 0 := h
      rw [hlt] at h6
      exact h6 boot_empty_not_present
  · intro j hj hm
    left
    obtain ⟨v, m, k, f, c1, c2⟩ := hm
    refine ⟨v, m, k, f, ?_, c2⟩
    simp only [List.mem_append, List.mem_cons, List.mem_singleton, List.not_mem_nil, or_false,
      reduceCtorEq] at c1
    exact c1
  · intro _ h
    have h2 : (pte_write (fun f idx => if f = t then pte_empty else s.pt f idx)
      l3 (s.i / 512) { pfn := t, flags := lay.PAGE_HYPERVISOR_RO ||| _PAGE_USER }
      l3 (s.i / 512)).flags &&& _PAGE_PSE ≠ 0 := h
    rw [hl3, if_pos rfl] at h2
    exact absurd ha.ro_not_pse h2
  · intro h
    have : (s.i + 1) % 512 = 0 := h
    omega
  · intro _
    refine ⟨t, ?_, ?_, ?_⟩
    · show some (t, 1) = some (t, (s.i + 1) % 512)
      rw [hmod]
    · dsimp only []
      rw [hdiv, hl3, if_pos rfl]
    · intro idx _
      exact hlt idx
  · intro _ _
    refine ⟨s.pagetable_calls, Nat.le_refl _, Nat.lt_succ_self _, ?_⟩
    dsimp only []
    rw [hl3, if_pos rfl]
    exact ht

/-- A chunk with a valid frame, when `pl2e` stands at the start of a page: a
new L2 table is installed for the gigabyte and its first entry maps the 2 MiB
that were allocated, mapped and filled. -/
theorem paging_init_chunk_valid_aligned (env : BootEnv) (lay : Layout) (cfg : Config)
    (l3 n : Nat) (ha : boot_assumptions env lay l3) (hn : n ≤ 2 ^ 18) (s : BootState)
    (hinv : boot_inv env lay cfg l3 n s) (hi : s.i < n) (mfn pg t : Nat)
    (hp : paging_init_probe env cfg s.i = some mfn)
    (halloc : env.alloc_domheap_pages s.domheap_calls PAGETABLE_ORDER
      (env.MEMF_node (env.mfn_to_nid mfn)) = some pg)
    (ht : env.alloc_mapped_pagetable s.pagetable_calls = some t)
    (hr : s.i % 512 = 0) :
    (paging_init_chunk env lay cfg l3 s).1 = false ∧
    boot_inv env lay cfg l3 n (paging_init_chunk env lay cfg l3 s).2 ∧
    s.i < (paging_init_chunk env lay cfg l3 s).2.i := by
  have hal : pl2e_page_aligned s.pl2e = true := hinv.cursor0 hr
  have hadd : add64 s.i 1 = s.i + 1 := by
    unfold add64
    omega
  obtain ⟨hv3, hv2⟩ := boot_va lay s.i (by omega) ha.ro_aligned ha.ro_lt
  have hrw := boot_rwva lay s.i (by omega) ha.rw_fits
  obtain ⟨htl3, hfresh⟩ := boot_fresh_table env lay cfg l3 n ha s hinv t ht
  have hres : paging_init_chunk env lay cfg l3 s
      = (false, { s with
          i := s.i + 1, pl2e := some (t, 1),
          memflags := env.MEMF_node (env.mfn_to_nid mfn),
          pt := pte_write
            (pte_write (fun f idx => if f = t then pte_empty else s.pt f idx) l3 (s.i / 512)
              { pfn := t, flags := lay.PAGE_HYPERVISOR_RO ||| _PAGE_USER }) t 0
            { pfn := pg, flags := _PAGE_PSE ||| _PAGE_USER ||| _PAGE_PRESENT },
          domheap_calls := s.domheap_calls + 1,
          pagetable_calls := s.pagetable_calls + 1,
          asserts := s.asserts && decide (s.i % 512 = 0),
          trace := s.trace ++ [BootEvent.alloc_domheap_pages PAGETABLE_ORDER
              (env.MEMF_node (env.mfn_to_nid mfn)) (some pg)] ++
            [BootEvent.map_pages_to_xen (lay.RDWR_MPT_VIRT_START + s.i * 2 ^ 21) pg
              512 cfg.PAGE_HYPERVISOR,
             BootEvent.memset (lay.RDWR_MPT_VIRT_START + s.i * 2 ^ 21) 0xFF (2 ^ 21)] ++
            [BootEvent.alloc_mapped_pagetable (some t),
             BootEvent.l3e_write (s.i / 512)
              { pfn := t, flags := lay.PAGE_HYPERVISOR_RO ||| _PAGE_USER }] ++
            [BootEvent.l2e_write t 0
              { pfn := pg, flags := _PAGE_PSE ||| _PAGE_USER ||| _PAGE_PRESENT }] }) := by
    unfold paging_init_chunk
    simp only [hp, hal, hadd, ht, hv3, hv2, hrw, halloc, Option.isSome_some, Option.isNone_some,
      Bool.and_false, Bool.false_eq_true, if_false, if_true, shl64_one_order, shl64_one_21]
  rw [hres]
  refine ⟨rfl, ?_, Nat.lt_succ_self _⟩
  have hl3 : ∀ g, pte_write
      (pte_write (fun f idx => if f = t then pte_empty else s.pt f idx) l3 (s.i / 512)
        { pfn := t, flags := lay.PAGE_HYPERVISOR_RO ||| _PAGE_USER }) t 0
      { pfn := pg, flags := _PAGE_PSE ||| _PAGE_USER ||| _PAGE_PRESENT } l3 g
        = if g = s.i / 512 then { pfn := t, flags := lay.PAGE_HYPERVISOR_RO ||| _PAGE_USER }
          else s.pt l3 g := by
    intro g
    unfold pte_write
    rw [if_neg (fun h => htl3 h.1.symm)]
    by_cases hg : g = s.i / 512
    · rw [if_pos ⟨rfl, hg⟩, if_pos hg]
    · rw [if_neg (fun h => hg h.2), if_neg hg]
      beta_reduce
      rw [if_neg (Ne.symm htl3)]
  have hlt : ∀ idx, pte_write
      (pte_write (fun f idx => if f = t then pte_empty else s.pt f idx) l3 (s.i / 512)
        { pfn := t, flags := lay.PAGE_HYPERVISOR_RO ||| _PAGE_USER }) t 0
      { pfn := pg, flags := _PAGE_PSE ||| _PAGE_USER ||| _PAGE_PRESENT } t idx
        = if idx = 0 then { pfn := pg, flags := _PAGE_PSE ||| _PAGE_USER ||| _PAGE_PRESENT }
          else pte_empty := by
    intro idx
    unfold pte_write
    by_cases h0 : idx = 0
    · rw [if_pos ⟨rfl, h0⟩, if_pos h0]
    · rw [if_neg (fun h => h0 h.2), if_neg h0, if_neg (fun h => htl3 h.1)]
      beta_reduce
      rw [if_pos rfl]
  have hdiv : (s.i + 1) / 512 = s.i / 512 := by omega
  have hmod : (s.i + 1) % 512 = 1 := by omega
  refine boot_inv_next env lay cfg l3 n ha s _ hinv (Nat.lt_succ_self _) hi
    ?_ ?_ ?_ ?_ ?_ ?_ ?_ ?_ (Nat.le_succ _) ?_
  · intro g hg
    dsimp only []
    rw [hl3, if_neg]
    rcases hg with hg | hg
    · exact hg
    · exact absurd hr hg
  · intro g idx hg hc
    dsimp only []
    unfold pte_write
    have h1 : (s.pt l3 g).pfn ≠ l3 := by
      obtain ⟨k, _, k2⟩ := hinv.tables g hg
      intro h
      rw [h] at k2
      exact ha.table_not_l3 _ k2
    rw [if_neg (fun h => hfresh g hg h.1), if_neg (fun h => h1 h.1)]
    beta_reduce
    rw [if_neg (hfresh g hg)]
  · intro j h1 h2
    have hj : j = s.i := by
      have : j < s.i + 1 := h2
      omega
    subst hj
    refine ⟨fun h => ?_, fun _ => ?_⟩
    · rw [hp] at h
      exact absurd h (Option.some_ne_none _)
    · dsimp only []
      unfold boot_leaf_filled
      rw [hl3, if_pos rfl]
      refine ⟨ha.ro_present, Or.inr ⟨ha.ro_not_pse, ?_⟩⟩
      dsimp only []
      rw [hlt, hr, if_pos rfl]
      refine ⟨boot_leaf_present pg, cfg.PAGE_HYPERVISOR, ?_, ?_⟩
      · simp
      · simp
  · intro e he
    simp only [List.mem_append]
    exact Or.inl (Or.inl (Or.inl (Or.inl he)))
  · intro j hj hm
    obtain ⟨v, m, k, f, c1, c2, c3⟩ := hm
    have c1' : BootEvent.map_pages_to_xen v m k f ∈ s.trace ∨
        (v = lay.RDWR_MPT_VIRT_START + s.i * 2 ^ 21 ∧ k = 512) := by
      simp only [List.mem_append, List.mem_cons, List.mem_singleton, BootEvent.map_pages_to_xen.injEq,
        List.not_mem_nil, or_false, false_or, reduceCtorEq] at c1
      rcases c1 with c1 | c1
      · exact Or.inl c1
      · exact Or.inr ⟨c1.1, c1.2.2.1⟩
    rcases c1' with c | ⟨c4, c5⟩
    · exact Or.inl ⟨v, m, k, f, c, c2, c3⟩
    · right
      subst c4 c5
      have hj2 : j = s.i := by omega
      subst hj2
      refine ⟨Nat.le_refl _, Nat.lt_succ_self _, ?_⟩
      rw [hp]
      exact Option.some_ne_none _
  · intro _ h
    dsimp only [] at h
    rw [hl3, if_pos rfl] at h
    exact absurd ha.ro_not_pse h
  · intro h
    have : (s.i + 1) % 512 = 0 := h
    omega
  · intro _
    refine ⟨t, ?_, ?_, ?_⟩
    · show some (t, 1) = some (t, (s.i + 1) % 512)
      rw [hmod]
    · dsimp only []
      rw [hdiv, hl3, if_pos rfl]
    · intro idx hidx
      have h1 : (s.i + 1) % 512 ≤ idx := hidx
      dsimp only []
      rw [hlt, if_neg (by omega)]
  · intro _ _
    refine ⟨s.pagetable_calls, Nat.le_refl _, Nat.lt_succ_self _, ?_⟩
    dsimp only []
    rw [hl3, if_pos rfl]
    exact ht

/-- The 2 MiB path of a turn keeps the invariant and moves `i` on, unless it
ends in `nomem`. -/
theorem paging_init_chunk_inv (env : BootEnv) (lay : Layout) (cfg : Config)
    (l3 n : Nat) (ha : boot_assumptions env lay l3) (hn : n ≤ 2 ^ 18) (s : BootState)
    (hinv : boot_inv env lay cfg l3 n s) (hi : s.i < n)
    (hres : (paging_init_chunk env lay cfg l3 s).1 = false) :
    boot_inv env lay cfg l3 n (paging_init_chunk env lay cfg l3 s).2 ∧
    s.i < (paging_init_chunk env lay cfg l3 s).2.i := by
  by_cases hr : s.i % 512 = 0
  · have hal : pl2e_page_aligned s.pl2e = true := hinv.cursor0 hr
    cases ht : env.alloc_mapped_pagetable s.pagetable_calls with
    | none =>
      exfalso
      cases hp : paging_init_probe env cfg s.i with
      | none =>
        unfold paging_init_chunk at hres
        simp only [hp, hal, ht, Option.isSome_none, Bool.false_and, Bool.false_eq_true,
          if_false, if_true, reduceCtorEq] at hres
      | some mfn =>
        cases halloc : env.alloc_domheap_pages s.domheap_calls PAGETABLE_ORDER
            (env.MEMF_node (env.mfn_to_nid mfn)) with
        | none =>
          unfold paging_init_chunk at hres
          simp only [hp, halloc, Option.isSome_some, Option.isNone_none, Bool.and_self,
            if_true, reduceCtorEq] at hres
        | some pg =>
          unfold paging_init_chunk at hres
          simp only [hp, hal, ht, halloc, Option.isSome_some, Option.isNone_some,
            Bool.and_false, Bool.false_eq_true, if_false, if_true, reduceCtorEq] at hres
    | some t =>
      cases hp : paging_init_probe env cfg s.i with
      | none => exact (paging_init_chunk_hole_aligned env lay cfg l3 n ha hn s hinv hi t hp ht hr).2
      | some mfn =>
        cases halloc : env.alloc_domheap_pages s.domheap_calls PAGETABLE_ORDER
            (env.MEMF_node (env.mfn_to_nid mfn)) with
        | none =>
          exfalso
          unfold paging_init_chunk at hres
          simp only [hp, halloc, Option.isSome_some, Option.isNone_none, Bool.and_self,
            if_true, reduceCtorEq] at hres
        | some pg =>
          exact (paging_init_chunk_valid_aligned env lay cfg l3 n ha hn s hinv hi mfn pg t hp
            halloc ht hr).2
  · cases hp : paging_init_probe env cfg s.i with
    | none => exact (paging_init_chunk_hole_inside env lay cfg l3 n ha hn s hinv hi hp hr).2
    | some mfn =>
      cases halloc : env.alloc_domheap_pages s.domheap_calls PAGETABLE_ORDER
          (env.MEMF_node (env.mfn_to_nid mfn)) with
      | none =>
        exfalso
        unfold paging_init_chunk at hres
        simp only [hp, halloc, Option.isSome_some, Option.isNone_none, Bool.and_self,
          if_true, reduceCtorEq] at hres
      | some pg =>
        exact (paging_init_chunk_valid_inside env lay cfg l3 n ha hn s hinv hi mfn pg hp
          halloc hr).2

/-- The turn that finds a gigabyte of holes only moves `i` to the next
gigabyte. -/
theorem paging_init_skip_inv (env : BootEnv) (lay : Layout) (cfg : Config)
    (l3 n : Nat) (ha : boot_assumptions env lay l3) (s : BootState)
    (hinv : boot_inv env lay cfg l3 n s) (hi : s.i + 512 ≤ n) (hr : s.i % 512 = 0)
    (mf : Nat)
    (hholes : ∀ k, k < 512 → paging_init_probe env cfg (s.i + k) = none) :
    boot_inv env lay cfg l3 n { s with i := s.i + 512, memflags := mf } := by
  have hal : pl2e_page_aligned s.pl2e = true := hinv.cursor0 hr
  have hemp : s.pt l3 (s.i / 512) = pte_empty := hinv.l3_empty _ (by omega)
  refine boot_inv_next env lay cfg l3 n ha s _ hinv (Nat.lt_add_of_pos_right (by decide)) hi
    (fun _ _ => rfl) (fun _ _ _ _ => rfl) ?_ (fun _ h => h) (fun _ _ h => Or.inl h)
    ?_ (fun _ => hal) ?_ (Nat.le_refl _) ?_
  · intro j h1 h2
    have h3 : j < s.i + 512 := h2
    have hpj : paging_init_probe env cfg j = none := by
      have := hholes (j - s.i) (by omega)
      rw [Nat.add_sub_cancel' h1] at this
      exact this
    refine ⟨fun _ => ?_, fun h => absurd hpj h⟩
    intro hc
    have hc2 : boot_covered s.pt l3 j := hc
    unfold boot_covered at hc2
    have hd : j / 512 = s.i / 512 := by omega
    rw [hd, hemp] at hc2
    exact hc2.1 boot_empty_not_present
  · intro _ h
    dsimp only [] at h
    rw [hemp] at h
    exact absurd boot_empty_not_pse h
  · intro h
    have : (s.i + 512) % 512 ≠ 0 := h
    omega
  · intro _ h
    dsimp only [] at h
    rw [hemp] at h
    exact absurd boot_empty_not_present h.1

/-- The turn that finds no hole in a gigabyte and gets its pages installs a
1 GiB leaf in the L3 table, after mapping and filling the gigabyte. -/
theorem paging_init_superpage_inv (env : BootEnv) (lay : Layout) (cfg : Config)
    (l3 n : Nat) (ha : boot_assumptions env lay l3) (s : BootState)
    (hinv : boot_inv env lay cfg l3 n s) (hi : s.i + 512 ≤ n) (hr : s.i % 512 = 0)
    (hcpu : env.cpu_has_page1gb = true) (mf dc pg flags : Nat) (ok : Bool) (ev : BootEvent)
    (hev : ∀ v m k f, ev ≠ BootEvent.map_pages_to_xen v m k f)
    (hvalid : ∀ k, k < 512 → paging_init_probe env cfg (s.i + k) ≠ none) :
    boot_inv env lay cfg l3 n
      { i := s.i + 512, pl2e := s.pl2e, memflags := mf,
        pt := pte_write s.pt l3 (s.i / 512)
          { pfn := pg, flags := _PAGE_PSE ||| _PAGE_USER ||| _PAGE_PRESENT },
        domheap_calls := dc, pagetable_calls := s.pagetable_calls, asserts := ok,
        trace := (s.trace ++ [ev]) ++
          [BootEvent.map_pages_to_xen (lay.RDWR_MPT_VIRT_START + s.i * 2 ^ 21) pg (2 ^ 18) flags,
           BootEvent.memset (lay.RDWR_MPT_VIRT_START + s.i * 2 ^ 21) 0xFF (2 ^ 30),
           BootEvent.l3e_write (s.i / 512)
             { pfn := pg, flags := _PAGE_PSE ||| _PAGE_USER ||| _PAGE_PRESENT }] } := by
  have hal : pl2e_page_aligned s.pl2e = true := hinv.cursor0 hr
  have hl3 : ∀ g, pte_write s.pt l3 (s.i / 512)
      { pfn := pg, flags := _PAGE_PSE ||| _PAGE_USER ||| _PAGE_PRESENT } l3 g
        = if g = s.i / 512 then { pfn := pg, flags := _PAGE_PSE ||| _PAGE_USER ||| _PAGE_PRESENT }
          else s.pt l3 g := by
    intro g
    unfold pte_write
    by_cases hg : g = s.i / 512
    · rw [if_pos ⟨rfl, hg⟩, if_pos hg]
    · rw [if_neg (fun h => hg h.2), if_neg hg]
  refine boot_inv_next env lay cfg l3 n ha s _ hinv (Nat.lt_add_of_pos_right (by decide)) hi
    ?_ ?_ ?_ ?_ ?_ ?_ (fun _ => hal) ?_ (Nat.le_refl _) ?_
  · intro g hg
    dsimp only []
    rw [hl3, if_neg]
    rcases hg with hg | hg
    · exact hg
    · exact absurd hr hg
  · intro g idx hg _
    dsimp only []
    unfold pte_write
    have h1 : (s.pt l3 g).pfn ≠ l3 := by
      obtain ⟨k, _, k2⟩ := hinv.tables g hg
      intro h
      rw [h] at k2
      exact ha.table_not_l3 _ k2
    rw [if_neg (fun h => h1 h.1)]
  · intro j h1 h2
    have h3 : j < s.i + 512 := h2
    have hpj : paging_init_probe env cfg j ≠ none := by
      have := hvalid (j - s.i) (by omega)
      rw [Nat.add_sub_cancel' h1] at this
      exact this
    refine ⟨fun h => absurd h hpj, fun _ => ?_⟩
    dsimp only []
    unfold boot_leaf_filled
    have hd : j / 512 = s.i / 512 := by omega
    have hd2 : s.i / 512 * 2 ^ 30 = s.i * 2 ^ 21 := by omega
    rw [hd, hl3, if_pos rfl, hd2]
    refine ⟨boot_leaf_present pg, Or.inl ⟨boot_leaf_pse pg, flags, ?_, ?_⟩⟩
    · simp
    · simp
  · intro e he
    simp only [List.mem_append]
    exact Or.inl (Or.inl he)
  · intro j hj hm
    obtain ⟨v, m, k, f, c1, c2, c3⟩ := hm
    have c1' : BootEvent.map_pages_to_xen v m k f ∈ s.trace ∨
        (v = lay.RDWR_MPT_VIRT_START + s.i * 2 ^ 21 ∧ k = 2 ^ 18) := by
      simp only [List.mem_append, List.mem_cons, List.mem_singleton,
        BootEvent.map_pages_to_xen.injEq, List.not_mem_nil, or_false, false_or,
        reduceCtorEq] at c1
      rcases c1 with (c1 | c1) | c1
      · exact Or.inl c1
      · exact absurd c1.symm (hev v m k f)
      · exact Or.inr ⟨c1.1, c1.2.2.1⟩
    rcases c1' with c | ⟨c4, c5⟩
    · exact Or.inl ⟨v, m, k, f, c, c2, c3⟩
    · right
      subst c4 c5
      have hpj : paging_init_probe env cfg j ≠ none := by
        have := hvalid (j - s.i) (by omega)
        rw [Nat.add_sub_cancel' (by omega)] at this
        exact this
      exact ⟨by omega, by show j < s.i + 512; omega, hpj⟩
  · intro _ _
    refine ⟨hcpu, ?_⟩
    intro k hk
    have : 512 * (s.i / 512) = s.i := by omega
    rw [this]
    exact hvalid k hk
  · intro h
    have : (s.i + 512) % 512 ≠ 0 := h
    omega
  · intro _ h
    dsimp only [] at h
    rw [hl3, if_pos rfl] at h
    exact absurd h.2 (boot_leaf_pse pg)

theorem shl64_one_2order : shl64 1 (2 * PAGETABLE_ORDER) = 2 ^ 18 := by decide

/-- One turn of the loop keeps the invariant and moves `i` on, unless it ends
in `nomem`. -/
theorem paging_init_step_inv (env : BootEnv) (lay : Layout) (cfg : Config)
    (l3 mpt_size : Nat) (ha : boot_assumptions env lay l3)
    (hn : mpt_size >>> L2_PAGETABLE_SHIFT ≤ 2 ^ 18) (s : BootState)
    (hinv : boot_inv env lay cfg l3 (mpt_size >>> L2_PAGETABLE_SHIFT) s)
    (hi : s.i < mpt_size >>> L2_PAGETABLE_SHIFT)
    (hres : (paging_init_step env lay cfg l3 mpt_size s).1 = false) :
    boot_inv env lay cfg l3 (mpt_size >>> L2_PAGETABLE_SHIFT)
      (paging_init_step env lay cfg l3 mpt_size s).2 ∧
    s.i < (paging_init_step env lay cfg l3 mpt_size s).2.i := by
  by_cases hc : (env.cpu_has_page1gb && pl2e_page_aligned s.pl2e &&
      decide (mpt_size >>> L3_PAGETABLE_SHIFT > s.i >>> PAGETABLE_ORDER)) = true
  · have hc2 := hc
    simp only [Bool.and_eq_true, decide_eq_true_eq] at hc2
    obtain ⟨⟨hcpu, hal⟩, hgb⟩ := hc2
    have hr : s.i % 512 = 0 := (boot_cursor_aligned env lay cfg l3 _ s hinv).1 hal
    have hfit : s.i + 512 ≤ mpt_size >>> L2_PAGETABLE_SHIFT := by
      have e1 : L3_PAGETABLE_SHIFT = 30 := rfl
      have e2 : PAGETABLE_ORDER = 9 := rfl
      have e3 : L2_PAGETABLE_SHIFT = 21 := rfl
      rw [e1, e2, Nat.shiftRight_eq_div_pow, Nat.shiftRight_eq_div_pow] at hgb
      rw [e3, Nat.shiftRight_eq_div_pow]
      generalize s.i = i at hgb hr
      omega
    have hi18 : s.i < 2 ^ 18 := by omega
    have hadd : ∀ k, k < 512 → add64 s.i k = s.i + k := by
      intro k hk
      unfold add64
      omega
    have hadd2 : add64 (add64 s.i (shl64 1 PAGETABLE_ORDER - 1)) 1 = s.i + 512 := by
      rw [shl64_one_order]
      unfold add64
      omega
    obtain ⟨hv3, hv2⟩ := boot_va lay s.i hi18 ha.ro_aligned ha.ro_lt
    have hrw := boot_rwva lay s.i hi18 ha.rw_fits
    obtain ⟨_, hle, hall, hnone⟩ :=
      paging_init_holes_loop_spec env cfg s.i 512 0 0 s.memflags (by omega) (by omega)
    generalize hH : paging_init_holes_loop env cfg s.i 512 0 0 s.memflags = H at hle hall hnone
    by_cases h512 : 512 = H.1
    · have e : paging_init_step env lay cfg l3 mpt_size s
          = (false, { s with i := s.i + 512, memflags := H.2 }) := by
        unfold paging_init_step
        have h5 : H.1 = 512 := h512.symm
        simp only [hc, if_true, shl64_one_order, hH, h5]
        rw [shl64_one_order] at hadd2
        rw [hadd2]
      rw [e]
      refine ⟨?_, Nat.lt_add_of_pos_right (by decide)⟩
      refine paging_init_skip_inv env lay cfg l3 _ ha s hinv hfit hr H.2 ?_
      intro k hk
      rw [← hadd k hk]
      exact hall (by omega) k (Nat.zero_le _) hk
    · cases hl : (if H.1 = 0 then
          env.alloc_domheap_pages s.domheap_calls (2 * PAGETABLE_ORDER) H.2 else none) with
      | some pg =>
        have h0 : H.1 = 0 := by
          by_contra hne
          rw [if_neg hne] at hl
          exact absurd hl (Option.noConfusion)
        have e : paging_init_step env lay cfg l3 mpt_size s
            = (false, { s with
                i := s.i + 512, memflags := H.2,
                pt := pte_write s.pt l3 (s.i / 512)
                  { pfn := pg, flags := _PAGE_PSE ||| _PAGE_USER ||| _PAGE_PRESENT },
                domheap_calls := s.domheap_calls + 1,
                asserts := s.asserts && decide (s.i % 512 = 0),
                trace := (s.trace ++
                    [BootEvent.alloc_domheap_pages (2 * PAGETABLE_ORDER) H.2 (some pg)]) ++
                  [BootEvent.map_pages_to_xen (lay.RDWR_MPT_VIRT_START + s.i * 2 ^ 21) pg
                    (2 ^ 18) cfg.PAGE_HYPERVISOR,
                   BootEvent.memset (lay.RDWR_MPT_VIRT_START + s.i * 2 ^ 21) 0xFF (2 ^ 30),
                   BootEvent.l3e_write (s.i / 512)
                     { pfn := pg, flags := _PAGE_PSE ||| _PAGE_USER ||| _PAGE_PRESENT }] }) := by
          rw [if_pos h0] at hl
          unfold paging_init_step
          rw [shl64_one_order] at hadd2
          simp only [hc, if_true, shl64_one_order, hH, if_false, h0, hl, hadd2, hv3, hv2,
            hrw, shl64_one_2order, shl64_one_30, OfNat.ofNat_ne_zero, reduceCtorEq]
        rw [e]
        refine ⟨?_, Nat.lt_add_of_pos_right (by decide)⟩
        refine paging_init_superpage_inv env lay cfg l3 _ ha s hinv hfit hr hcpu _ _ pg _ _ _
          (fun _ _ _ _ => BootEvent.noConfusion) ?_
        intro k hk
        rw [← hadd k hk]
        exact hnone h0 k (Nat.zero_le _) hk
      | none =>
        have e : paging_init_step env lay cfg l3 mpt_size s
            = paging_init_chunk env lay cfg l3
              { s with memflags := H.2,
                       domheap_calls := if H.1 = 0 then s.domheap_calls + 1 else s.domheap_calls,
                       trace := if H.1 = 0 then s.trace ++
                          [BootEvent.alloc_domheap_pages (2 * PAGETABLE_ORDER) H.2
                            (if H.1 = 0 then
                              env.alloc_domheap_pages s.domheap_calls (2 * PAGETABLE_ORDER) H.2
                             else none)]
                        else s.trace } := by
          unfold paging_init_step
          simp only [hc, if_true, shl64_one_order, hH, h512, if_false, hl]
        rw [e] at hres
        rw [e]
        refine paging_init_chunk_inv env lay cfg l3 _ ha hn _ ?_ hi hres
        refine boot_inv_aux env lay cfg l3 _ s _ _ _ hinv ?_ ?_
        · intro a v l
          by_cases h0 : H.1 = 0
          · simp only [h0, if_true, List.mem_append, List.mem_singleton, reduceCtorEq, or_false]
          · simp only [h0, if_false]
        · intro v m k f
          by_cases h0 : H.1 = 0
          · simp only [h0, if_true, List.mem_append, List.mem_singleton, reduceCtorEq, or_false]
          · simp only [h0, if_false]
  · have e : paging_init_step env lay cfg l3 mpt_size s = paging_init_chunk env lay cfg l3 s := by
      unfold paging_init_step
      simp only [hc, Bool.false_eq_true, if_false]
    rw [e] at hres ⊢
    exact paging_init_chunk_inv env lay cfg l3 _ ha hn s hinv hi hres

theorem m2p_chunk_leaf_filled_iff (lay : Layout) (pt : PageTables) (l3_ro_mpt : Nat)
    (tr : List BootEvent) (j : Nat)
    (hj : j < 2 ^ 18) (ha : lay.RO_MPT_VIRT_START % 2 ^ 39 = 0)
    (hl : lay.RO_MPT_VIRT_START < 2 ^ 64) :
    m2p_chunk_leaf_filled lay pt l3_ro_mpt tr j ↔ boot_leaf_filled lay pt l3_ro_mpt tr j := by
  unfold m2p_chunk_leaf_filled boot_leaf_filled
  obtain ⟨h3, h2⟩ := boot_va lay j hj ha hl
  have h4 : j * 2 ^ 21 / 2 ^ 30 = j / 512 := by omega
  rw [h3, h2, h4]

/-- The loop keeps the invariant to its end and, with one unit of fuel more
than the chunks that remain, ends by its condition unless it ends in
`nomem`. -/
theorem paging_init_loop_inv (env : BootEnv) (lay : Layout) (cfg : Config)
    (l3 mpt_size : Nat) (ha : boot_assumptions env lay l3)
    (hn : mpt_size >>> L2_PAGETABLE_SHIFT ≤ 2 ^ 18) :
    ∀ (fuel : Nat) (s : BootState),
      boot_inv env lay cfg l3 (mpt_size >>> L2_PAGETABLE_SHIFT) s →
      mpt_size >>> L2_PAGETABLE_SHIFT - s.i < fuel →
      (paging_init_loop env lay cfg l3 mpt_size fuel s).1 = false →
      boot_inv env lay cfg l3 (mpt_size >>> L2_PAGETABLE_SHIFT)
        (paging_init_loop env lay cfg l3 mpt_size fuel s).2 ∧
      mpt_size >>> L2_PAGETABLE_SHIFT ≤ (paging_init_loop env lay cfg l3 mpt_size fuel s).2.i := by
  intro fuel
  induction fuel with
  | zero =>
    intro s _ hf _
    exact absurd hf (Nat.not_lt_zero _)
  | succ fuel ih =>
    intro s hinv hf hres
    unfold paging_init_loop at hres ⊢
    by_cases hi : s.i < mpt_size >>> L2_PAGETABLE_SHIFT
    · rw [if_pos hi] at hres ⊢
      by_cases hr : (paging_init_step env lay cfg l3 mpt_size s).1 = true
      · exfalso
        simp only [hr, if_true] at hres
        exact Bool.noConfusion hres
      · simp only [hr, Bool.false_eq_true, if_false] at hres ⊢
        have hr2 : (paging_init_step env lay cfg l3 mpt_size s).1 = false := by
          rw [← Bool.not_eq_true]
          exact hr
        obtain ⟨a, b⟩ := paging_init_step_inv env lay cfg l3 mpt_size ha hn s hinv hi hr2
        exact ih _ a (by omega) hres
    · rw [if_neg hi]
      exact ⟨hinv, Nat.le_of_not_lt hi⟩

/-- The state before the first turn satisfies the invariant when the L3
table is clear. -/
theorem boot_inv_init (env : BootEnv) (lay : Layout) (cfg : Config) (l3 n : Nat)
    (pt : PageTables) (hpt : ∀ g, pt l3 g = pte_empty) :
    boot_inv env lay cfg l3 n
      { i := 0, pl2e := none, memflags := 0, pt := pt, domheap_calls := 0,
        pagetable_calls := 0, asserts := true, trace := [] } := by
  refine ⟨Nat.zero_le _, fun g _ => hpt g, fun j hj => absurd hj (Nat.not_lt_zero _),
    fun j hj => absurd hj (Nat.not_lt_zero _), ?_, ?_, fun _ => rfl, fun h => absurd rfl h, ?_, ?_⟩
  · intro g h
    dsimp only [] at h
    rw [hpt g] at h
    exact absurd boot_empty_not_pse h
  · intro j _ hm
    obtain ⟨v, m, k, f, c, _⟩ := hm
    exact absurd c (List.not_mem_nil _)
  · intro g h
    dsimp only [] at h
    rw [hpt g] at h
    exact absurd boot_empty_not_present h.1
  · intro g _ _ h _
    dsimp only [] at h
    rw [hpt g] at h
    exact absurd boot_empty_not_present h.1

/-- C37: when the loop of `paging_init` that builds the M2P table does not end
in `nomem`, it ends with `i` at the number of 2 MiB chunks of the table, and
for every chunk `j` of the table: if none of the `CNT` probed frames
`MFN(j) + n * PDX_GROUP_COUNT` is valid, then no pages were mapped for the
chunk and no present leaf covers it; if the chunk lies under a 1 GiB leaf,
then `cpu_has_page1gb` holds and every one of the 512 chunks of its gigabyte
has a valid probed frame; and if the chunk has a valid probed frame, then it
is covered by a present leaf whose pages were mapped in the writable window
and filled with `0xFF`.  The L3 table is clear at the start, the table has at
most `2 ^ 18` chunks, and `alloc_mapped_pagetable` returns fresh frames. -/
theorem paging_init_skips_holes (env : BootEnv) (lay : Layout) (cfg : Config)
    (max_page l3_ro_mpt : Nat) (pt : PageTables)
    (ha : boot_assumptions env lay l3_ro_mpt)
    (hn : paging_init_mpt_size max_page >>> L2_PAGETABLE_SHIFT ≤ 2 ^ 18)
    (hpt : ∀ g, pt l3_ro_mpt g = pte_empty)
    (hres : (paging_init_m2p env lay cfg max_page l3_ro_mpt pt).1 = false) :
    (paging_init_m2p env lay cfg max_page l3_ro_mpt pt).2.i
      = paging_init_mpt_size max_page >>> L2_PAGETABLE_SHIFT ∧
    ∀ j, j < paging_init_mpt_size max_page >>> L2_PAGETABLE_SHIFT →
      (paging_init_probe env cfg j = none →
        ¬ m2p_chunk_mapped lay (paging_init_m2p env lay cfg max_page l3_ro_mpt pt).2.trace j ∧
        ¬ m2p_chunk_covered lay (paging_init_m2p env lay cfg max_page l3_ro_mpt pt).2.pt
          l3_ro_mpt j) ∧
      (m2p_chunk_in_superpage lay (paging_init_m2p env lay cfg max_page l3_ro_mpt pt).2.pt
          l3_ro_mpt j →
        env.cpu_has_page1gb = true ∧
        ∀ k, k < 512 → paging_init_probe env cfg (512 * (j / 512) + k) ≠ none) ∧
      (paging_init_probe env cfg j ≠ none →
        m2p_chunk_covered lay (paging_init_m2p env lay cfg max_page l3_ro_mpt pt).2.pt
          l3_ro_mpt j ∧
        m2p_chunk_leaf_filled lay (paging_init_m2p env lay cfg max_page l3_ro_mpt pt).2.pt
          l3_ro_mpt (paging_init_m2p env lay cfg max_page l3_ro_mpt pt).2.trace j) := by
  unfold paging_init_m2p at hres ⊢
  obtain ⟨hinv, hend⟩ := paging_init_loop_inv env lay cfg l3_ro_mpt (paging_init_mpt_size max_page)
    ha hn _ _ (boot_inv_init env lay cfg l3_ro_mpt _ pt hpt)
    (Nat.lt_succ_of_le (Nat.sub_le _ _)) hres
  generalize paging_init_loop env lay cfg l3_ro_mpt (paging_init_mpt_size max_page)
    (paging_init_mpt_size max_page >>> L2_PAGETABLE_SHIFT + 1)
    (BootState.mk 0 none 0 pt 0 0 true []) = r at hinv hend
  refine ⟨Nat.le_antisymm hinv.i_le hend, ?_⟩
  intro j hj
  have hj18 : j < 2 ^ 18 := by omega
  have hji : j < r.2.i := by omega
  rw [m2p_chunk_covered_iff lay _ _ j hj18 ha.ro_aligned ha.ro_lt,
    m2p_chunk_in_superpage_iff lay _ _ j hj18 ha.ro_aligned ha.ro_lt,
    m2p_chunk_leaf_filled_iff lay _ _ _ j hj18 ha.ro_aligned ha.ro_lt]
  refine ⟨?_, ?_, ?_⟩
  · intro hp
    refine ⟨?_, hinv.hole_uncovered j hji hp⟩
    intro hm
    exact (hinv.mapped_ok j hj hm).2 hp
  · intro hs
    exact hinv.superpage_ok _ hs.2
  · intro hp
    have := hinv.valid_covered j hji hp
    exact ⟨boot_leaf_filled_covered lay _ _ _ j this, this⟩

theorem boot_env_assumptions : boot_assumptions boot_env lay0 0x1000 := by
  refine ⟨by decide, by decide, by decide, by decide, by decide, ?_, ?_⟩
  · intro k h
    have h2 : some (0x2000 + k) = some 0x1000 := h
    injection h2 with h3
    omega
  · intro k k2 t h1 h2
    have h3 : some (0x2000 + k) = some t := h1
    have h4 : some (0x2000 + k2) = some t := h2
    injection h3 with h5
    injection h4 with h6
    omega

/-- C37, an instance: on the machine `boot_env` with `max_page = 0x140000`
the loop does not end in `nomem`; chunk 2 has no valid frame and is not
covered, chunk 4 has one and is covered by a leaf whose page was filled. -/
theorem paging_init_skips_holes_witness :
    (paging_init_m2p boot_env lay0 cfg0 0x140000 0x1000 (fun _ _ => pte_empty)).1 = false ∧
    paging_init_probe boot_env cfg0 2 = none ∧
    ¬ m2p_chunk_covered lay0
      (paging_init_m2p boot_env lay0 cfg0 0x140000 0x1000 (fun _ _ => pte_empty)).2.pt 0x1000 2 ∧
    paging_init_probe boot_env cfg0 4 ≠ none ∧
    m2p_chunk_leaf_filled lay0
      (paging_init_m2p boot_env lay0 cfg0 0x140000 0x1000 (fun _ _ => pte_empty)).2.pt 0x1000
      (paging_init_m2p boot_env lay0 cfg0 0x140000 0x1000 (fun _ _ => pte_empty)).2.trace 4 :=
  ⟨by decide, by decide,
   (((paging_init_skips_holes boot_env lay0 cfg0 0x140000 0x1000 (fun _ _ => pte_empty)
      boot_env_assumptions (by decide) (fun _ => rfl) (by decide)).2 2 (by decide)).1
        (by decide)).2,
   by decide,
   (((paging_init_skips_holes boot_env lay0 cfg0 0x140000 0x1000 (fun _ _ => pte_empty)
      boot_env_assumptions (by decide) (fun _ => rfl) (by decide)).2 4 (by decide)).2.2
        (by decide)).2⟩

/-! ## The fuel of the hot-add loops -/

/-- The loop of `setup_frametable_chunk` needs one unit of fuel per 2 MiB
from `s` to `e`: with that much, more fuel does not change what it returns. -/
theorem setup_frametable_chunk_loop_fuel (cfg : Config) (env : MmEnv) (e : Nat)
    (he : e + 2 ^ 21 ≤ 2 ^ 64) :
    ∀ (n s : Nat) (r : HotaddRun) (fuel : Nat), (e - s + (2 ^ 21 - 1)) / 2 ^ 21 ≤ n → n ≤ fuel →
      setup_frametable_chunk_loop cfg env e fuel s r
        = setup_frametable_chunk_loop cfg env e n s r := by
  intro n
  induction n with
  | zero =>
    intro s r fuel hm _
    have hs : ¬ s < e := by omega
    cases fuel with
    | zero => rfl
    | succ f =>
      unfold setup_frametable_chunk_loop
      rw [if_neg hs]
  | succ n ih =>
    intro s r fuel hm hf
    obtain ⟨f, rfl⟩ : ∃ f, fuel = f + 1 := ⟨fuel - 1, by omega⟩
    unfold setup_frametable_chunk_loop
    by_cases hs : s < e
    · rw [if_pos hs, if_pos hs]
      have hadd : add64 s (shl64 1 L2_PAGETABLE_SHIFT) = s + 2 ^ 21 := by
        rw [shl64_one_21]
        unfold add64
        exact Nat.mod_eq_of_lt (by omega)
      simp only [hadd]
      split_ifs
      · rfl
      · exact ih _ _ _ (by omega) (by omega)
    · rw [if_neg hs, if_neg hs]

/-- The loop of `setup_compat_m2p_table` needs one unit of fuel per chunk of
`2 ^ 19` frames from `i` to `emap`: with that much, more fuel does not change
what it returns. -/
theorem setup_compat_m2p_table_loop_fuel (lay : Layout) (cfg : Config) (env : MmEnv)
    (st : State Mach) (emap : Nat) (hno : emap + 2 ^ 19 < 2 ^ 64) :
    ∀ (n i : Nat) (r : HotaddRun) (fuel : Nat), (emap - i + (2 ^ 19 - 1)) / 2 ^ 19 ≤ n →
      n ≤ fuel →
      setup_compat_m2p_table_loop lay cfg env st emap fuel i r
        = setup_compat_m2p_table_loop lay cfg env st emap n i r := by
  intro n
  induction n with
  | zero =>
    intro i r fuel hm _
    have hs : ¬ i < emap := by omega
    cases fuel with
    | zero => rfl
    | succ f =>
      unfold setup_compat_m2p_table_loop
      rw [if_neg hs]
  | succ n ih =>
    intro i r fuel hm hf
    obtain ⟨f, rfl⟩ : ∃ f, fuel = f + 1 := ⟨fuel - 1, by omega⟩
    unfold setup_compat_m2p_table_loop
    by_cases hs : i < emap
    · rw [if_pos hs, if_pos hs]
      have hadd : add64 i (shl64 1 (L2_PAGETABLE_SHIFT - 2)) = i + 2 ^ 19 := by
        rw [shl64_one_19]
        unfold add64
        exact Nat.mod_eq_of_lt (by omega)
      simp only [hadd]
      have hm2 : (emap - (i + 2 ^ 19) + (2 ^ 19 - 1)) / 2 ^ 19 ≤ n := by omega
      have hf2 : n ≤ f := by omega
      split_ifs
      · exact ih _ _ _ hm2 hf2
      · exact ih _ _ _ hm2 hf2
      · rfl
      · exact ih _ _ _ hm2 hf2
    · rw [if_neg hs, if_neg hs]

/-- The loop of `setup_m2p_table` from a multiple of `2 ^ 18` needs one unit
of fuel per chunk of `2 ^ 18` frames from `i` to `emap`: with that much, more
fuel does not change what it returns. -/
theorem setup_m2p_table_loop_fuel (lay : Layout) (cfg : Config) (env : MmEnv)
    (st : State Mach) (l3_ro_mpt emap : Nat) (hno : emap + 2 ^ 27 < 2 ^ 64) :
    ∀ (n i : Nat) (l2_ro_mpt : Option Nat) (r : HotaddRun) (fuel : Nat),
      i % 2 ^ 18 = 0 → (emap - i + (2 ^ 18 - 1)) / 2 ^ 18 ≤ n → n ≤ fuel →
      setup_m2p_table_loop lay cfg env st l3_ro_mpt emap fuel i l2_ro_mpt r
        = setup_m2p_table_loop lay cfg env st l3_ro_mpt emap n i l2_ro_mpt r := by
  intro n
  induction n with
  | zero =>
    intro i l2 r fuel _ hm _
    have hs : ¬ i < emap := by omega
    cases fuel with
    | zero => rfl
    | succ f =>
      unfold setup_m2p_table_loop
      rw [if_neg hs]
  | succ n ih =>
    intro i l2 r fuel hal hm hf
    obtain ⟨f, rfl⟩ : ∃ f, fuel = f + 1 := ⟨fuel - 1, by omega⟩
    by_cases hs : i < emap
    · have hs27 := step_mask i 27 (by decide) (by omega)
      have hs18 := step_mask i 18 (by decide) (by omega)
      have hn18 : add64 i (2 ^ 18) = i + 2 ^ 18 := by
        unfold add64; exact Nat.mod_eq_of_lt (by omega)
      have hf2 : n ≤ f := by omega
      have a1 : (i / 2 ^ 27 * 2 ^ 27 + 2 ^ 27) % 2 ^ 18 = 0 := by omega
      have b1 : (emap - (i / 2 ^ 27 * 2 ^ 27 + 2 ^ 27) + (2 ^ 18 - 1)) / 2 ^ 18 ≤ n := by omega
      have a2 : (i / 2 ^ 18 * 2 ^ 18 + 2 ^ 18) % 2 ^ 18 = 0 := by omega
      have b2 : (emap - (i / 2 ^ 18 * 2 ^ 18 + 2 ^ 18) + (2 ^ 18 - 1)) / 2 ^ 18 ≤ n := by omega
      have a3 : (i + 2 ^ 18) % 2 ^ 18 = 0 := by omega
      have b3 : (emap - (i + 2 ^ 18) + (2 ^ 18 - 1)) / 2 ^ 18 ≤ n := by omega
      have k1 := fun l2 r => ih (i / 2 ^ 27 * 2 ^ 27 + 2 ^ 27) l2 r f a1 b1 hf2
      have k2 := fun l2 r => ih (i / 2 ^ 18 * 2 ^ 18 + 2 ^ 18) l2 r f a2 b2 hf2
      have k3 := fun l2 r => ih (i + 2 ^ 18) l2 r f a3 b3 hf2
      rw [setup_m2p_table_loop, setup_m2p_table_loop]
      simp only [hs, if_true, shl64_one_27, shl64_one_18, hs27, hs18, hn18, k1, k2, k3]
    · unfold setup_m2p_table_loop
      rw [if_neg hs, if_neg hs]

/-- The loop of `extend_frame_table` needs one unit of fuel per group from
`cidx` to `eidx`: with that much, more fuel does not change what it returns. -/
theorem extend_frame_table_loop_fuel (lay : Layout) (cfg : Config) (env : MmEnv)
    (st : State Mach) (eidx : Nat) :
    ∀ (n cidx : Nat) (r : HotaddRun) (fuel : Nat), cidx ≤ eidx → eidx - cidx ≤ n → n ≤ fuel →
      extend_frame_table_loop lay cfg env st eidx fuel cidx r
        = extend_frame_table_loop lay cfg env st eidx n cidx r := by
  intro n
  induction n with
  | zero =>
    intro cidx r fuel _ hm _
    have hs : ¬ cidx < eidx := by omega
    cases fuel with
    | zero => rfl
    | succ f =>
      unfold extend_frame_table_loop
      rw [if_neg hs]
  | succ n ih =>
    intro cidx r fuel hce hm hf
    obtain ⟨f, rfl⟩ : ∃ f, fuel = f + 1 := ⟨fuel - 1, by omega⟩
    by_cases hs : cidx < eidx
    · obtain ⟨a1, a2, _, a4⟩ := find_next_bit_spec st.pdx_group_valid eidx cidx hce
      have hn : (if find_next_bit st.pdx_group_valid eidx cidx ≥ eidx then eidx
          else find_next_bit st.pdx_group_valid eidx cidx)
          = find_next_bit st.pdx_group_valid eidx cidx := by
        by_cases hc : find_next_bit st.pdx_group_valid eidx cidx ≥ eidx
        · rw [if_pos hc]; omega
        · rw [if_neg hc]
      obtain ⟨b1, b2, _, b4⟩ := find_next_zero_bit_spec st.pdx_group_valid eidx
        (find_next_bit st.pdx_group_valid eidx cidx) a2
      have hgt : cidx < find_next_zero_bit st.pdx_group_valid eidx
          (find_next_bit st.pdx_group_valid eidx cidx) := by
        by_contra hle
        have e1 : find_next_bit st.pdx_group_valid eidx cidx = cidx := by omega
        rw [e1] at b1 b4 a4
        have e2 : find_next_zero_bit st.pdx_group_valid eidx cidx = cidx := by
          rw [e1] at hle
          omega
        rw [e2] at b4
        have c1 := a4 hs
        have c2 := b4 hs
        rw [c1] at c2
        exact Bool.noConfusion c2
      have k := fun r => ih (find_next_zero_bit st.pdx_group_valid eidx
        (find_next_bit st.pdx_group_valid eidx cidx)) r f b2 (by omega) (by omega)
      rw [extend_frame_table_loop, extend_frame_table_loop]
      simp only [hs, if_true, hn, k]
    · unfold extend_frame_table_loop
      rw [if_neg hs, if_neg hs]

end Xen
